import Mathlib

/-! Sub-symmetry activation handlers: a shallow embedding

The detectors of `activation_suborbitope.c`, `activation_colorcomp.c` and
`activation_makespan.c` as Lean functions, and theorems about them.

Conventions of the embedding:

* C arrays indexed by a loop counter are total functions on `Nat`; the buffer
  `reinsertmakespans` of the makespan detector, which is written at a running
  index, has its allocated length, and a write past its end has no result.
* C `int` values are `Int` (`Nat` for loop counters and indices). The sums of
  durations of the makespan detector are 32-bit sums (`wrapInt`); counters,
  tower heights and counts are bounded by the dimensions of the payload.
* The linked list of `SCIP_ACTIVATIONSUBMATRIX` records is a `List`, the head
  of the list being the record `*submatrix` points to.
* Local variable bounds are integral (the matrices hold binary variables), so
  the comparisons with `0.5` are carried out on the doubled bound.
-/

namespace Activation

/-! ## Data model -/

/-- Orbitope kinds of `SCIP_ORBITOPETYPE` (symmetry/type_symmetry.h). -/
inductive SCIP_ORBITOPETYPE where
  | FULL
  | PARTITIONING
  | PACKING
  deriving DecidableEq, Repr

/-- A variable reference (`SCIP_VAR*`). -/
abbrev SCIP_VAR := Nat

/-- The part of the solver state the detectors read: the local bounds of the
variables, whether the problem is transformed, and the transformed counterpart
of each variable. -/
structure SCIP where
  /-- Value of `SCIPvarGetLbLocal`. -/
  lbLocal : SCIP_VAR → Int
  /-- Value of `SCIPvarGetUbLocal`. -/
  ubLocal : SCIP_VAR → Int
  /-- Value of `SCIPisTransformed`. -/
  transformed : Bool
  /-- Result of `SCIPgetTransformedVar`. -/
  transvar : SCIP_VAR → SCIP_VAR

/-- The test `SCIPvarGetUbLocal(var) < 0.5`: the variable is fixed to zero. -/
def ubBelowHalf (scip : SCIP) (var : SCIP_VAR) : Bool :=
  decide (2 * scip.ubLocal var < 1)

/-- The test `SCIPvarGetUbLocal(var) > 0.5`. -/
def ubAboveHalf (scip : SCIP) (var : SCIP_VAR) : Bool :=
  decide (1 < 2 * scip.ubLocal var)

/-- The test `SCIPvarGetLbLocal(var) > 0.5`: the variable is fixed to one. -/
def lbAboveHalf (scip : SCIP) (var : SCIP_VAR) : Bool :=
  decide (1 < 2 * scip.lbLocal var)

/-- One record of the result list: `struct SCIP_ActivationSubmatrix` without
its `next` pointer; `nrows` and `ncols` are the lengths of the two lists. -/
structure SCIP_ACTIVATIONSUBMATRIX where
  rows : List Nat
  cols : List Nat
  orbitopetype : SCIP_ORBITOPETYPE
  deriving DecidableEq, Repr

/-- Array write `a[i] = x`. -/
def setAt {α : Type} (a : Nat → α) (i : Nat) (x : α) : Nat → α :=
  fun k => if k = i then x else a k

/-- The row indices `i, i+1, ..., i+nrows-1` written by the loops
`for( k = 0; k < subm->nrows; ++k ) subm->rows[k] = i + k;`. -/
def rowsFrom (i nrows : Nat) : List Nat :=
  (List.range nrows).map (fun k => i + k)

/-! ## Pattern detector (`activation_suborbitope.c`) -/

/-- The payload `struct Patterns`. -/
structure PATTERNS where
  matrix : Nat → Nat → SCIP_VAR
  m : Nat
  n : Nat
  zeroheight : Int
  oneheight : Int

/-- Which of the two emission blocks of `findPatternMatches` built a record:
the one on `nzerousedcols` or the one on `noneusedcols`. -/
inductive Trigger where
  | zero
  | one
  deriving DecidableEq, Repr

/-- The variable whose bounds `findPatternMatches` reads for entry `(i, j)`. -/
def patternVar (scip : SCIP) (patterns : PATTERNS) (i j : Nat) : SCIP_VAR :=
  if scip.transformed then scip.transvar (patterns.matrix i j) else patterns.matrix i j

/-- The local variables of `findPatternMatches` that live across the column
loop; `nzerousedcols` and `noneusedcols` are the lengths of the two lists. -/
structure PatternScan where
  zerotowerheight : Nat → Int
  onetowerheight : Nat → Int
  zerousedcols : List Nat
  oneusedcols : List Nat

/-- Body of the loop `for( j = 0; j < n; ++j )` of `findPatternMatches`, in row `i`. -/
def patternColumnStep (scip : SCIP) (patterns : PATTERNS) (i : Nat)
    (s : PatternScan) (j : Nat) : PatternScan :=
  let s1 : PatternScan :=
    if patterns.zeroheight ≤ s.zerotowerheight j then
      { s with zerousedcols := s.zerousedcols ++ [j] }
    else if patterns.oneheight ≤ s.onetowerheight j then
      { s with oneusedcols := s.oneusedcols ++ [j] }
    else s
  let var := patternVar scip patterns i j
  if ubBelowHalf scip var then
    { s1 with zerotowerheight := setAt s1.zerotowerheight j (s1.zerotowerheight j + 1),
              onetowerheight := setAt s1.onetowerheight j 0 }
  else if lbAboveHalf scip var then
    { s1 with onetowerheight := setAt s1.onetowerheight j (s1.onetowerheight j + 1),
              zerotowerheight := setAt s1.zerotowerheight j 0 }
  else
    { s1 with zerotowerheight := setAt s1.zerotowerheight j 0,
              onetowerheight := setAt s1.onetowerheight j 0 }

/-- The column loop of row `i`, started with empty `zerousedcols` and `oneusedcols`. -/
def patternColumns (scip : SCIP) (patterns : PATTERNS) (i : Nat)
    (zerotowerheight onetowerheight : Nat → Int) : PatternScan :=
  (List.range patterns.n).foldl (patternColumnStep scip patterns i)
    { zerotowerheight := zerotowerheight, onetowerheight := onetowerheight,
      zerousedcols := [], oneusedcols := [] }

/-- The record both emission blocks build in row `i` from their column list. -/
def patternRecord (patterns : PATTERNS) (i : Nat) (cols : List Nat) :
    SCIP_ACTIVATIONSUBMATRIX :=
  { rows := rowsFrom i (patterns.m - i), cols := cols, orbitopetype := SCIP_ORBITOPETYPE.FULL }

/-- State of the row loop of `findPatternMatches`: the two tower height arrays
and the result list, each record tagged with the block that built it. -/
structure PatternState where
  zerotowerheight : Nat → Int
  onetowerheight : Nat → Int
  submatrix : List (Trigger × SCIP_ACTIVATIONSUBMATRIX)

/-- Body of the loop `for( i = 0; i < m; ++i )` of `findPatternMatches`. -/
def patternRowStep (scip : SCIP) (patterns : PATTERNS) (st : PatternState) (i : Nat) :
    PatternState :=
  let s := patternColumns scip patterns i st.zerotowerheight st.onetowerheight
  let out1 :=
    if 2 ≤ s.zerousedcols.length then
      (Trigger.zero, patternRecord patterns i s.zerousedcols) :: st.submatrix
    else st.submatrix
  let out2 :=
    if 2 ≤ s.oneusedcols.length then
      (Trigger.one, patternRecord patterns i s.oneusedcols) :: out1
    else out1
  { zerotowerheight := s.zerotowerheight, onetowerheight := s.onetowerheight, submatrix := out2 }

/-- The row loop of `findPatternMatches` over the rows `0 .. k-1`. -/
def patternScan (scip : SCIP) (patterns : PATTERNS) (k : Nat) : PatternState :=
  (List.range k).foldl (patternRowStep scip patterns)
    { zerotowerheight := fun _ => 0, onetowerheight := fun _ => 0, submatrix := [] }

/-- The result list of `findPatternMatches` with the tag of the emitting block. -/
def findPatternMatchesTagged (scip : SCIP) (patterns : PATTERNS) :
    List (Trigger × SCIP_ACTIVATIONSUBMATRIX) :=
  (patternScan scip patterns patterns.m).submatrix

/-- The function `findPatternMatches`: the list `*submatrix` it returns. -/
def findPatternMatches (scip : SCIP) (patterns : PATTERNS) : List SCIP_ACTIVATIONSUBMATRIX :=
  (findPatternMatchesTagged scip patterns).map Prod.snd

/-- Solver state of the pattern example: variable `3 * i + j` is entry `(i, j)`;
columns 0 and 1 are fixed to zero in rows 0 and 1, every other entry is free. -/
def patternExampleScip : SCIP :=
  { lbLocal := fun _ => 0,
    ubLocal := fun v => if v = 0 ∨ v = 1 ∨ v = 3 ∨ v = 4 then 0 else 1,
    transformed := false,
    transvar := fun v => v }

/-- Payload of the pattern example: a 4 x 3 matrix with `zeroheight = 2`. -/
def patternExample (oneheight : Int) : PATTERNS :=
  { matrix := fun i j => 3 * i + j, m := 4, n := 3, zeroheight := 2, oneheight := oneheight }

/-! ## Component detector (`activation_colorcomp.c`) -/

/-- The payload `struct GraphData` without its scratch arrays; `adjacencies i`
is the array `adjacencies[i]` of length `nadjacencies[i]`. -/
structure GRAPHDATA where
  matrix : Nat → Nat → SCIP_VAR
  nvertices : Nat
  ncolors : Nat
  adjacencies : Nat → List Nat
  allcolorpairs : Bool
  strategy : Int

/-- Strategy constant `SCIP_ACT_COLORCOMP_INVERTED1`. -/
def SCIP_ACT_COLORCOMP_INVERTED1 : Int := 1

/-- Strategy constant `SCIP_ACT_COLORCOMP_INVERTED2`. -/
def SCIP_ACT_COLORCOMP_INVERTED2 : Int := 2

/-- Modelled from the spec: `SCIPsortInt`, which is not part of the sources at
hand, sorts an int array into ascending order. -/
def SCIPsortInt (a : List Nat) : List Nat :=
  a.insertionSort (fun x y => x ≤ y)

/-- The scratch state of one depth-first search: `removedvertices`, the filled
part of `dfsstack` (top of the stack first) and the filled part of `component`
(in the order the vertices were written). -/
structure DfsState where
  removedvertices : Nat → Bool
  dfsstack : List Nat
  component : List Nat

/-- One iteration of the loop `while( dfsstackhead >= 0 )`: pop `i`, look for the
first adjacent vertex that is not removed; if there is one, push `i` back, mark
the vertex, append it to the component and push it. -/
def dfsStep (graphdata : GRAPHDATA) (st : DfsState) : DfsState :=
  match st.dfsstack with
  | [] => st
  | i :: rest =>
    match (graphdata.adjacencies i).find? (fun v => st.removedvertices v == false) with
    | some v =>
      { removedvertices := setAt st.removedvertices v true,
        dfsstack := v :: i :: rest,
        component := st.component ++ [v] }
    | none => { st with dfsstack := rest }

/-- The loop `while( dfsstackhead >= 0 )`, run for at most `fuel` iterations;
`none` when the stack is still not empty after `fuel` iterations. -/
def dfsWhile (graphdata : GRAPHDATA) : Nat → DfsState → Option DfsState
  | fuel, st =>
    match st.dfsstack with
    | [] => some st
    | _ :: _ =>
      match fuel with
      | 0 => none
      | fuel + 1 => dfsWhile graphdata fuel (dfsStep graphdata st)

/-- The depth-first search from `startvertex`: the start vertex is marked, put
into the component and pushed, then the while loop runs. `2 * nvertices`
iterations are granted, which is enough whenever the adjacency entries are
vertices of the graph (`dfsFrom_isSome`). -/
def dfsFrom (graphdata : GRAPHDATA) (removedvertices : Nat → Bool) (startvertex : Nat) :
    Option DfsState :=
  dfsWhile graphdata (2 * graphdata.nvertices)
    { removedvertices := setAt removedvertices startvertex true,
      dfsstack := [startvertex],
      component := [startvertex] }

/-- The loop `for( startvertex = 0; startvertex < nvertices; ++startvertex )`,
which has the same text in the three detectors but for two places: the
columns of the records, given as `cols`, and the test
`componenthead >= nvertices - 1` that ends the loop, which only
`findColorPairsComponents` has (`wholegraphtest`). The loop runs over the list
of start vertices still to come. -/
def componentsLoop (graphdata : GRAPHDATA) (wholegraphtest : Bool) (cols : List Nat) :
    List Nat → (Nat → Bool) → List SCIP_ACTIVATIONSUBMATRIX →
    Option (List SCIP_ACTIVATIONSUBMATRIX)
  | [], _, submatrix => some submatrix
  | startvertex :: later, removedvertices, submatrix =>
    if removedvertices startvertex = true then
      componentsLoop graphdata wholegraphtest cols later removedvertices submatrix
    else
      match dfsFrom graphdata removedvertices startvertex with
      | none => none
      | some st =>
        if wholegraphtest = true ∧
            (graphdata.nvertices : Int) - 1 ≤ (st.component.length : Int) - 1 then
          some submatrix
        else
          componentsLoop graphdata wholegraphtest cols later st.removedvertices
            ({ rows := SCIPsortInt st.component, cols := cols,
               orbitopetype := SCIP_ORBITOPETYPE.PACKING } :: submatrix)

/-- The values `c2` takes in the loop
`for( c2 = c1 + 1; c2 < ncolors && (allcolorpairs == FALSE ? (c2 < c1 + 2) : TRUE); ++c2 )`. -/
def secondColors (graphdata : GRAPHDATA) (c1 : Nat) : List Nat :=
  (List.range' (c1 + 1) (graphdata.ncolors - (c1 + 1))).takeWhile
    (fun c2 => if graphdata.allcolorpairs = false then decide (c2 < c1 + 2) else true)

/-- What one detector does for one color (pair), given the removal test of the
first loop over the vertices: nothing if no vertex is removed, else the loop
over the start vertices. -/
def componentsOf (graphdata : GRAPHDATA) (wholegraphtest : Bool) (cols : List Nat)
    (remove : Nat → Bool) (submatrix : List SCIP_ACTIVATIONSUBMATRIX) :
    Option (List SCIP_ACTIVATIONSUBMATRIX) :=
  let atleastoneremoved := (List.range graphdata.nvertices).any remove
  if atleastoneremoved = false then some submatrix
  else componentsLoop graphdata wholegraphtest cols (List.range graphdata.nvertices)
    remove submatrix

/-- Removal test of `findColorPairsComponents`: both entries are fixed to zero. -/
def removedColorPair (scip : SCIP) (graphdata : GRAPHDATA) (c1 c2 : Nat) (i : Nat) : Bool :=
  ubBelowHalf scip (graphdata.matrix i c1) && ubBelowHalf scip (graphdata.matrix i c2)

/-- Removal test of `findInvertedColorPairsComponents`: one of the two entries
is fixed to one. -/
def removedInvertedPair (scip : SCIP) (graphdata : GRAPHDATA) (c1 c2 : Nat) (i : Nat) : Bool :=
  lbAboveHalf scip (graphdata.matrix i c1) || lbAboveHalf scip (graphdata.matrix i c2)

/-- Removal test of `findInvertedSingleColorComponents`: the entry is fixed to one. -/
def removedInvertedSingle (scip : SCIP) (graphdata : GRAPHDATA) (c1 : Nat) (i : Nat) : Bool :=
  lbAboveHalf scip (graphdata.matrix i c1)

/-- Loop over a list of steps that may fail, threading the result list. -/
def foldSteps {α β : Type} (f : β → α → Option β) : List α → β → Option β
  | [], b => some b
  | a :: as, b =>
    match f b a with
    | none => none
    | some b1 => foldSteps f as b1

/-- The list of all color pairs `(c1, c2)` in the order the two nested loops
visit them. -/
def colorPairs (graphdata : GRAPHDATA) : List (Nat × Nat) :=
  (List.range graphdata.ncolors).flatMap
    (fun c1 => (secondColors graphdata c1).map (fun c2 => (c1, c2)))

/-- The function `findColorPairsComponents`. -/
def findColorPairsComponents (scip : SCIP) (graphdata : GRAPHDATA) :
    Option (List SCIP_ACTIVATIONSUBMATRIX) :=
  foldSteps
    (fun submatrix (c : Nat × Nat) =>
      componentsOf graphdata true [c.1, c.2]
        (removedColorPair scip graphdata c.1 c.2) submatrix)
    (colorPairs graphdata) []

/-- The function `findInvertedColorPairsComponents`. -/
def findInvertedColorPairsComponents (scip : SCIP) (graphdata : GRAPHDATA) :
    Option (List SCIP_ACTIVATIONSUBMATRIX) :=
  foldSteps
    (fun submatrix (c : Nat × Nat) =>
      componentsOf graphdata false
        ((List.range graphdata.ncolors).filter (fun c3 => c3 ≠ c.1 ∧ c3 ≠ c.2))
        (removedInvertedPair scip graphdata c.1 c.2) submatrix)
    (colorPairs graphdata) []

/-- The function `findInvertedSingleColorComponents`. -/
def findInvertedSingleColorComponents (scip : SCIP) (graphdata : GRAPHDATA) :
    Option (List SCIP_ACTIVATIONSUBMATRIX) :=
  foldSteps
    (fun submatrix (c1 : Nat) =>
      componentsOf graphdata false
        ((List.range graphdata.ncolors).filter (fun c2 => c2 ≠ c1))
        (removedInvertedSingle scip graphdata c1) submatrix)
    (List.range graphdata.ncolors) []

/-- Solver state of the cycle example: variable `2 * v + c` is entry `(v, c)`;
vertex 2 is fixed to zero on both colors, the other vertices are free. -/
def cycleExampleScip : SCIP :=
  { lbLocal := fun _ => 0,
    ubLocal := fun v => if v = 4 ∨ v = 5 then 0 else 1,
    transformed := false,
    transvar := fun v => v }

/-- Payload of the cycle example: the cycle 0-1-2-3-0 with two colors. -/
def cycleExample (allcolorpairs : Bool) : GRAPHDATA :=
  { matrix := fun v c => 2 * v + c, nvertices := 4, ncolors := 2,
    adjacencies := fun v =>
      if v = 0 then [1, 3] else if v = 1 then [0, 2] else if v = 2 then [1, 3]
      else if v = 3 then [2, 0] else [],
    allcolorpairs := allcolorpairs, strategy := 0 }

/-! ## Makespan detector (`activation_makespan.c`) -/

/-- The payload `struct ActivationData` without its two scratch maps: rows of
the matrix are jobs, columns are machines. -/
structure ACTIVATIONDATA where
  matrix : Nat → Nat → SCIP_VAR
  jobtimes : Nat → Int
  nmachines : Nat
  njobs : Nat

/-- The constant `INT_MAX` of a 32-bit `int`. -/
def INT_MAX : Int := 2147483647

/-- Modelled from the spec: the `SCIP_HASHMAP` with int images, whose code is
not part of the sources at hand, is a finite map from keys to images. The map
`makespans` is only read and written by key, so it is the function that yields
the image of a key, `none` for a key without entry. -/
abbrev SCIP_HASHMAP := Int → Option Int

/-- Modelled from the spec: `SCIPhashmapGetImageInt` yields the image of the
key, and `INT_MAX` when the key has no entry. -/
def SCIPhashmapGetImageInt (hashmap : SCIP_HASHMAP) (origin : Int) : Int :=
  match hashmap origin with
  | some image => image
  | none => INT_MAX

/-- Modelled from the spec: `SCIPhashmapInsertInt` adds an entry for a key
without entry; for a key that has one it returns an error code, which
`findSubSymmetries` does not look at, and leaves the map as it is. -/
def SCIPhashmapInsertInt (hashmap : SCIP_HASHMAP) (origin image : Int) : SCIP_HASHMAP :=
  match hashmap origin with
  | some _ => hashmap
  | none => fun k => if k = origin then some image else hashmap k

/-- Modelled from the spec: `SCIPhashmapSetImageInt` sets the image of the key,
adding an entry if there is none. -/
def SCIPhashmapSetImageInt (hashmap : SCIP_HASHMAP) (origin image : Int) : SCIP_HASHMAP :=
  fun k => if k = origin then some image else hashmap k

/-- Modelled from the spec: `SCIPhashmapRemove` removes the entry of the key. -/
def SCIPhashmapRemove (hashmap : SCIP_HASHMAP) (origin : Int) : SCIP_HASHMAP :=
  fun k => if k = origin then none else hashmap k

/-- The state of the row loop of `findSubSymmetries`.

Modelled from the spec: the hash map `newsymmakespans` is used as a set and is
enumerated with `SCIPhashmapGetEntry`; it is the list of its keys in the order
the enumeration yields them, which the spec gives as the order in which the
values entered the set. -/
structure MakespanState where
  fixedmakespan : Nat → Int
  makespans : SCIP_HASHMAP
  newsymmakespans : List Int
  submatrix : List SCIP_ACTIVATIONSUBMATRIX

/-- The statements
`count = SCIPhashmapGetImageInt(makespans, fixedmakespan[m]) - 1;
 if( count <= 0 ) SCIPhashmapRemove(...); else SCIPhashmapSetImageInt(..., count);`. -/
def decreaseCount (makespans : SCIP_HASHMAP) (value : Int) : SCIP_HASHMAP :=
  let count := SCIPhashmapGetImageInt makespans value - 1
  if count ≤ 0 then SCIPhashmapRemove makespans value
  else SCIPhashmapSetImageInt makespans value count

/-- The sum of two C `int`s as a build that wraps on overflow computes it: the
value of the 32-bit two's complement pattern of the exact sum `x`. -/
def wrapInt (x : Int) : Int :=
  (x + 2147483648) % 4294967296 - 2147483648

/-- Body of the loop `for( m = 0; m < nmachines; ++m )` of `findSubSymmetries`
in row `j`; the flag is `allundetermined`. The new makespan
`fixedmakespan[m] + activationdata->jobtimes[j]` is an addition of two `int`s,
taken as `wrapInt` gives it. One is added to a count only when the count is
other than `INT_MAX`, an addition that does not leave the range of an `int`. -/
def machineStep (scip : SCIP) (activationdata : ACTIVATIONDATA) (j : Nat)
    (acc : MakespanState × Bool) (m : Nat) : MakespanState × Bool :=
  let st := acc.1
  if st.fixedmakespan m = -1 then acc
  else
    let var := activationdata.matrix j m
    if lbAboveHalf scip var then
      let makespans1 := decreaseCount st.makespans (st.fixedmakespan m)
      let value := wrapInt (st.fixedmakespan m + activationdata.jobtimes j)
      let count := SCIPhashmapGetImageInt makespans1 value
      if count = INT_MAX then
        ({ st with fixedmakespan := setAt st.fixedmakespan m value,
                   makespans := SCIPhashmapInsertInt makespans1 value 1 }, false)
      else
        ({ st with fixedmakespan := setAt st.fixedmakespan m value,
                   makespans := SCIPhashmapSetImageInt makespans1 value (count + 1),
                   newsymmakespans :=
                     if value ∈ st.newsymmakespans then st.newsymmakespans
                     else st.newsymmakespans ++ [value] }, false)
    else if !(ubBelowHalf scip var) then
      ({ st with fixedmakespan := setAt st.fixedmakespan m (-1),
                 makespans := decreaseCount st.makespans (st.fixedmakespan m) }, false)
    else (st, false)

/-- The columns the loop
`for( i = 0; i < nmachines && k < subm->ncols; ++i ) if( fixedmakespan[i] == m ) subm->cols[k++] = i;`
writes: the first `ncols` machines whose fixed makespan is `value`. -/
def candidateCols (activationdata : ACTIVATIONDATA) (fixedmakespan : Nat → Int)
    (value ncols : Int) : List Nat :=
  ((List.range activationdata.nmachines).filter (fun i => fixedmakespan i = value)).take
    ncols.toNat

/-- Body of the loop over the entries of `newsymmakespans` in row `j`, for the
entry `value`; the state is the filled part of `reinsertmakespans`, whose
length is `reinsertmakespanshead`, and the result list. The result is `none`
when the loop over the machines leaves part of the `ncols` entries of
`subm->cols` unwritten, in which case the code goes on with the content of
unwritten memory, and when the write
`reinsertmakespans[reinsertmakespanshead++] = m` is past the end of the buffer,
which is allocated with `nmachines / 2 + 1` entries. -/
def candidateStep (scip : SCIP) (activationdata : ACTIVATIONDATA) (j : Nat)
    (fixedmakespan : Nat → Int) (makespans : SCIP_HASHMAP)
    (acc : List Int × List SCIP_ACTIVATIONSUBMATRIX) (value : Int) :
    Option (List Int × List SCIP_ACTIVATIONSUBMATRIX) :=
  let ncols := SCIPhashmapGetImageInt makespans value
  let nrows := activationdata.njobs - j
  let orbitopetype :=
    if ncols = (activationdata.nmachines : Int) then SCIP_ORBITOPETYPE.PARTITIONING
    else SCIP_ORBITOPETYPE.PACKING
  let cols := candidateCols activationdata fixedmakespan value ncols
  if (cols.length : Int) < ncols then none
  else
    let allfixedzero := cols.all (fun c => !(ubAboveHalf scip (activationdata.matrix j c)))
    if allfixedzero then
      if acc.1.length < activationdata.nmachines / 2 + 1 then some (acc.1 ++ [value], acc.2)
      else none
    else some (acc.1, { rows := rowsFrom j nrows, cols := cols,
                        orbitopetype := orbitopetype } :: acc.2)

/-- The first part of the body of the row loop: the entries of
`newsymmakespans` are processed, the map is emptied and the deferred values are
put back. -/
def processCandidates (scip : SCIP) (activationdata : ACTIVATIONDATA) (j : Nat)
    (st : MakespanState) : Option MakespanState :=
  match st.newsymmakespans with
  | [] => some st
  | value :: values =>
    match foldSteps (candidateStep scip activationdata j st.fixedmakespan st.makespans)
        (value :: values) ([], st.submatrix) with
    | none => none
    | some (reinsertmakespans, submatrix) =>
      some { st with newsymmakespans := reinsertmakespans, submatrix := submatrix }

/-- The second part of the body of the row loop: the loop over the machines,
started with `allundetermined = TRUE`. -/
def updateMachines (scip : SCIP) (activationdata : ACTIVATIONDATA) (j : Nat)
    (st : MakespanState) : MakespanState × Bool :=
  (List.range activationdata.nmachines).foldl (machineStep scip activationdata j) (st, true)

/-- The loop `for( j = 0; j < njobs; ++j )` of `findSubSymmetries` over the rows
still to come, with its `break` when `allundetermined` holds after the loop
over the machines. -/
def scanRows (scip : SCIP) (activationdata : ACTIVATIONDATA) :
    List Nat → MakespanState → Option MakespanState
  | [], st => some st
  | j :: later, st =>
    match processCandidates scip activationdata j st with
    | none => none
    | some st1 =>
      let r := updateMachines scip activationdata j st1
      if r.2 = true then some r.1
      else scanRows scip activationdata later r.1

/-- The state in which the row loop of `findSubSymmetries` starts: all fixed
makespans are zero, `makespans` holds the one entry `0 -> nmachines`, and
`newsymmakespans` is empty. Both maps are empty when the function is entered:
they are created empty and the function empties them before it returns. -/
def makespanInit (activationdata : ACTIVATIONDATA) : MakespanState :=
  { fixedmakespan := fun _ => 0,
    makespans := SCIPhashmapInsertInt (fun _ => none) 0 activationdata.nmachines,
    newsymmakespans := [],
    submatrix := [] }

/-- The function `findSubSymmetries`: the list `*submatrix` it returns. -/
def findSubSymmetries (scip : SCIP) (activationdata : ACTIVATIONDATA) :
    Option (List SCIP_ACTIVATIONSUBMATRIX) :=
  (scanRows scip activationdata (List.range activationdata.njobs)
    (makespanInit activationdata)).map (fun st => st.submatrix)

/-- Solver state of the makespan example: variable `2 * j + m` is entry `(j, m)`;
both entries of row 0 are fixed to one, both entries of row 1 are free. -/
def makespanExampleScip : SCIP :=
  { lbLocal := fun v => if v = 0 ∨ v = 1 then 1 else 0,
    ubLocal := fun _ => 1,
    transformed := false,
    transvar := fun v => v }

/-- Payload of the makespan example: two machines, two jobs of duration 3. -/
def makespanExample : ACTIVATIONDATA :=
  { matrix := fun j m => 2 * j + m, jobtimes := fun _ => 3, nmachines := 2, njobs := 2 }

/-- Solver state in which a machine leaves a makespan value in the row in which
another machine reaches it: variable `2 * j + m` is entry `(j, m)`; in row 0
machine 0 is fixed to zero and machine 1 to one, in row 1 machine 0 is fixed to
one and machine 1 is free, row 2 is free. -/
def lonelyMachineScip : SCIP :=
  { lbLocal := fun v => if v = 1 ∨ v = 2 then 1 else 0,
    ubLocal := fun v => if v = 0 then 0 else 1,
    transformed := false,
    transvar := fun v => v }

/-- Payload for `lonelyMachineScip`: two machines, three jobs of duration 1. -/
def lonelyMachine : ACTIVATIONDATA :=
  { matrix := fun j m => 2 * j + m, jobtimes := fun _ => 1, nmachines := 2, njobs := 3 }

/-- Solver state of the triangle example: variable `3 * v + c` is entry `(v, c)`;
vertex 0 is fixed to zero on the colors 0 and 1, every other entry is free. -/
def triangleExampleScip : SCIP :=
  { lbLocal := fun _ => 0,
    ubLocal := fun v => if v = 0 ∨ v = 1 then 0 else 1,
    transformed := false,
    transvar := fun v => v }

/-- Payload of the triangle example: the complete graph on three vertices with
three colors, all color pairs considered. -/
def triangleExample : GRAPHDATA :=
  { matrix := fun v c => 3 * v + c, nvertices := 3, ncolors := 3,
    adjacencies := fun v =>
      if v = 0 then [1, 2] else if v = 1 then [0, 2] else if v = 2 then [0, 1] else [],
    allcolorpairs := true, strategy := 0 }

/-- Solver state of the short tower example: variable `2 * i + j` is entry
`(i, j)`; both entries of row 0 are fixed to zero, the other rows are free. -/
def shortTowerScip : SCIP :=
  { lbLocal := fun _ => 0,
    ubLocal := fun v => if v = 0 ∨ v = 1 then 0 else 1,
    transformed := false,
    transvar := fun v => v }

/-- Payload of the short tower example: a 3 x 2 matrix, both thresholds 1. -/
def shortTower : PATTERNS :=
  { matrix := fun i j => 2 * i + j, m := 3, n := 2, zeroheight := 1, oneheight := 1 }

/-! ## Activation handler records (`activation.c`, `scip_activation.c`) -/

/-- The values of `SCIP_RETCODE` that occur in the handler code; `SCIP_ERROR`
stands for any other error code a callback may return. -/
inductive SCIP_RETCODE where
  | SCIP_OKAY
  | SCIP_ERROR
  | SCIP_NOMEMORY
  | SCIP_INVALIDCALL
  | SCIP_INVALIDDATA
  | SCIP_PLUGINNOTFOUND
  deriving DecidableEq, Repr

/-- A constraint (`SCIP_CONS*`): its address, the value of `SCIPconsIsOriginal`
and its field `transorigcons`, the address of the original constraint of a
transformed one. -/
structure SCIP_CONS where
  addr : Nat
  original : Bool
  transorigcons : Nat
  deriving DecidableEq, Repr

/-- The record `struct SCIP_Activationhdlr`. The six callbacks are function
pointers, values of a type `κ`, and `none` is `NULL`; `activationhdlrdata` is
the address of the handler local data, 0 for `NULL`. -/
structure SCIP_ACTIVATIONHDLR (κ : Type) where
  name : String
  desc : String
  activationcopy : Option κ
  activationfree : Option κ
  activationinit : Option κ
  activationexit : Option κ
  activationisactive : Option κ
  activationfindactivationdata : Option κ
  activationhdlrdata : Nat
  initialized : Bool

/-- What calling a function pointer does. A callback gets the solver and a
pointer to the handler record, so besides returning a code it may change the
record and the rest of the program state, of type `σ`. The callbacks of the
kinds copy, free, init and exit have the same parameters (`call`); the is-active
callback also gets the constraint and the content of `*result`, the find-data
callback the constraint, `forparentnode` and the content of `*activationdata`,
and they return the new content. -/
structure Callbacks (κ σ : Type) where
  call : κ → SCIP_ACTIVATIONHDLR κ → σ → SCIP_RETCODE × SCIP_ACTIVATIONHDLR κ × σ
  callIsActive : κ → SCIP_ACTIVATIONHDLR κ → SCIP_CONS → Bool → σ →
    SCIP_RETCODE × SCIP_ACTIVATIONHDLR κ × σ × Bool
  callFindData : κ → SCIP_ACTIVATIONHDLR κ → SCIP_CONS → Bool →
    List SCIP_ACTIVATIONSUBMATRIX → σ →
    SCIP_RETCODE × SCIP_ACTIVATIONHDLR κ × σ × List SCIP_ACTIVATIONSUBMATRIX

/-- The function `SCIPactivationhdlrCopyInclude`; the state is that of the
solver copied to. -/
def SCIPactivationhdlrCopyInclude {κ σ : Type} (cb : Callbacks κ σ)
    (activationhdlr : SCIP_ACTIVATIONHDLR κ) (set : σ) :
    SCIP_RETCODE × SCIP_ACTIVATIONHDLR κ × σ :=
  match activationhdlr.activationcopy with
  | some activationcopy =>
    let r := cb.call activationcopy activationhdlr set
    if r.1 ≠ SCIP_RETCODE.SCIP_OKAY then r
    else (SCIP_RETCODE.SCIP_OKAY, r.2.1, r.2.2)
  | none => (SCIP_RETCODE.SCIP_OKAY, activationhdlr, set)

/-- The function `doActivationHdlrCreate`; `nomemory` tells whether one of its
three allocations fails, in which case no record is returned. -/
def doActivationHdlrCreate {κ : Type} (nomemory : Bool) (name desc : String)
    (activationcopy activationfree activationinit activationexit activationisactive
      activationfindactivationdata : Option κ) (activationhdlrdata : Nat) :
    SCIP_RETCODE × Option (SCIP_ACTIVATIONHDLR κ) :=
  if nomemory then (SCIP_RETCODE.SCIP_NOMEMORY, none)
  else
    (SCIP_RETCODE.SCIP_OKAY,
      some { name := name, desc := desc,
             activationcopy := activationcopy,
             activationfree := activationfree,
             activationinit := activationinit,
             activationexit := activationexit,
             activationisactive := activationisactive,
             activationfindactivationdata := activationfindactivationdata,
             activationhdlrdata := activationhdlrdata,
             initialized := false })

/-- The function `SCIPactivationhdlrCreate`. When `doActivationHdlrCreate`
fails, the record it is cleaning up has no callback yet, so that the call of
`SCIPactivationhdlrFree` in `SCIP_CALL_FINALLY` calls nothing. -/
def SCIPactivationhdlrCreate {κ : Type} (nomemory : Bool) (name desc : String)
    (activationcopy activationfree activationinit activationexit activationisactive
      activationfindactivationdata : Option κ) (activationhdlrdata : Nat) :
    SCIP_RETCODE × Option (SCIP_ACTIVATIONHDLR κ) :=
  let r := doActivationHdlrCreate nomemory name desc activationcopy activationfree
    activationinit activationexit activationisactive activationfindactivationdata
    activationhdlrdata
  if r.1 ≠ SCIP_RETCODE.SCIP_OKAY then (r.1, none) else (SCIP_RETCODE.SCIP_OKAY, r.2)

/-- The function `SCIPactivationhdlrFree`, on the content of `*activationhdlr`
(`none` is `NULL`). The result is `none` when the assertion
`!(*activationhdlr)->initialized` fails. -/
def SCIPactivationhdlrFree {κ σ : Type} (cb : Callbacks κ σ)
    (activationhdlr : Option (SCIP_ACTIVATIONHDLR κ)) (set : σ) :
    Option (SCIP_RETCODE × Option (SCIP_ACTIVATIONHDLR κ) × σ) :=
  match activationhdlr with
  | none => some (SCIP_RETCODE.SCIP_OKAY, none, set)
  | some hdlr =>
    if hdlr.initialized then none
    else
      match hdlr.activationfree with
      | some activationfree =>
        let r := cb.call activationfree hdlr set
        if r.1 ≠ SCIP_RETCODE.SCIP_OKAY then some (r.1, some r.2.1, r.2.2)
        else some (SCIP_RETCODE.SCIP_OKAY, none, r.2.2)
      | none => some (SCIP_RETCODE.SCIP_OKAY, none, set)

/-- The function `SCIPactivationhdlrInit`. -/
def SCIPactivationhdlrInit {κ σ : Type} (cb : Callbacks κ σ)
    (activationhdlr : SCIP_ACTIVATIONHDLR κ) (set : σ) :
    SCIP_RETCODE × SCIP_ACTIVATIONHDLR κ × σ :=
  if activationhdlr.initialized then (SCIP_RETCODE.SCIP_INVALIDCALL, activationhdlr, set)
  else
    match activationhdlr.activationinit with
    | some activationinit =>
      let r := cb.call activationinit activationhdlr set
      if r.1 ≠ SCIP_RETCODE.SCIP_OKAY then r
      else (SCIP_RETCODE.SCIP_OKAY, { r.2.1 with initialized := true }, r.2.2)
    | none => (SCIP_RETCODE.SCIP_OKAY, { activationhdlr with initialized := true }, set)

/-- The function `SCIPactivationhdlrExit`. -/
def SCIPactivationhdlrExit {κ σ : Type} (cb : Callbacks κ σ)
    (activationhdlr : SCIP_ACTIVATIONHDLR κ) (set : σ) :
    SCIP_RETCODE × SCIP_ACTIVATIONHDLR κ × σ :=
  if !activationhdlr.initialized then (SCIP_RETCODE.SCIP_INVALIDCALL, activationhdlr, set)
  else
    match activationhdlr.activationexit with
    | some activationexit =>
      let r := cb.call activationexit activationhdlr set
      if r.1 ≠ SCIP_RETCODE.SCIP_OKAY then r
      else (SCIP_RETCODE.SCIP_OKAY, { r.2.1 with initialized := false }, r.2.2)
    | none => (SCIP_RETCODE.SCIP_OKAY, { activationhdlr with initialized := false }, set)

/-- The function `SCIPactivationhdlrIsActive`; `result` is the content of
`*result`. The result is `none` when the assertion
`activationhdlr->activationisactive != NULL` fails. -/
def SCIPactivationhdlrIsActive {κ σ : Type} (cb : Callbacks κ σ)
    (activationhdlr : SCIP_ACTIVATIONHDLR κ) (cons : SCIP_CONS) (set : σ) (result : Bool) :
    Option (SCIP_RETCODE × SCIP_ACTIVATIONHDLR κ × σ × Bool) :=
  match activationhdlr.activationisactive with
  | none => none
  | some activationisactive =>
    some (cb.callIsActive activationisactive activationhdlr cons result set)

/-- The function `SCIPactivationhdlrFindActivationData`; `activationdata` is the
content of `*activationdata`. The result is `none` when the assertion
`activationhdlr->activationfindactivationdata != NULL` fails. -/
def SCIPactivationhdlrFindActivationData {κ σ : Type} (cb : Callbacks κ σ)
    (activationhdlr : SCIP_ACTIVATIONHDLR κ) (cons : SCIP_CONS) (set : σ)
    (forparentnode : Bool) (activationdata : List SCIP_ACTIVATIONSUBMATRIX) :
    Option (SCIP_RETCODE × SCIP_ACTIVATIONHDLR κ × σ × List SCIP_ACTIVATIONSUBMATRIX) :=
  match activationhdlr.activationfindactivationdata with
  | none => none
  | some activationfindactivationdata =>
    some (cb.callFindData activationfindactivationdata activationhdlr cons forparentnode
      activationdata set)

/-- Modelled from the spec: `SCIPsetFindActivationhdlr` of `set.c`, which is not
part of the sources at hand, looks a handler up by its name in the registry of
the solver, the list of its handler records in the order of their registration;
`none` is `NULL`. -/
def SCIPsetFindActivationhdlr {κ : Type} (set : List (SCIP_ACTIVATIONHDLR κ)) (name : String) :
    Option (SCIP_ACTIVATIONHDLR κ) :=
  set.find? (fun hdlr => hdlr.name == name)

/-- The function `SCIPfindActivationhdlr`. -/
def SCIPfindActivationhdlr {κ : Type} (scip : List (SCIP_ACTIVATIONHDLR κ)) (name : String) :
    Option (SCIP_ACTIVATIONHDLR κ) :=
  SCIPsetFindActivationhdlr scip name

/-- Modelled from the spec: `SCIPsetIncludeActivationhdlr` of `set.c`, which is
not part of the sources at hand, puts the record at the end of the registry. -/
def SCIPsetIncludeActivationhdlr {κ : Type} (set : List (SCIP_ACTIVATIONHDLR κ))
    (activationhdlr : SCIP_ACTIVATIONHDLR κ) :
    SCIP_RETCODE × List (SCIP_ACTIVATIONHDLR κ) :=
  (SCIP_RETCODE.SCIP_OKAY, set ++ [activationhdlr])

/-- The function `SCIPincludeActivationhdlr` on the registry of the solver.
`stagecheck` is the code that `SCIPcheckStage`, which is not part of the sources
at hand, returns for the stage the solver is in. The function gets no means to
call a callback. -/
def SCIPincludeActivationhdlr {κ : Type} (stagecheck : SCIP_RETCODE) (nomemory : Bool)
    (scip : List (SCIP_ACTIVATIONHDLR κ)) (name desc : String)
    (activationcopy activationfree activationinit activationexit activationisactive
      activationfindactivationdata : Option κ) (activationhdlrdata : Nat) :
    SCIP_RETCODE × List (SCIP_ACTIVATIONHDLR κ) :=
  if stagecheck ≠ SCIP_RETCODE.SCIP_OKAY then (stagecheck, scip)
  else if (SCIPfindActivationhdlr scip name).isSome then (SCIP_RETCODE.SCIP_INVALIDDATA, scip)
  else
    match SCIPactivationhdlrCreate nomemory name desc activationcopy activationfree
        activationinit activationexit activationisactive activationfindactivationdata
        activationhdlrdata with
    | (SCIP_RETCODE.SCIP_OKAY, some activationhdlr) =>
      SCIPsetIncludeActivationhdlr scip activationhdlr
    | (SCIP_RETCODE.SCIP_OKAY, none) => (SCIP_RETCODE.SCIP_ERROR, scip)
    | (retcode, _) => (retcode, scip)

/-- The two lifecycle calls on a handler record. -/
inductive LifecycleCall where
  | init
  | exit
  deriving DecidableEq, Repr

/-- A sequence of lifecycle calls on a handler record, each of which returns
`SCIP_OKAY`; `none` as soon as one of them returns another code. -/
def runLifecycle {κ σ : Type} (cb : Callbacks κ σ) :
    List LifecycleCall → SCIP_ACTIVATIONHDLR κ → σ → Option (SCIP_ACTIVATIONHDLR κ × σ)
  | [], activationhdlr, set => some (activationhdlr, set)
  | c :: later, activationhdlr, set =>
    let r := match c with
      | LifecycleCall.init => SCIPactivationhdlrInit cb activationhdlr set
      | LifecycleCall.exit => SCIPactivationhdlrExit cb activationhdlr set
    if r.1 = SCIP_RETCODE.SCIP_OKAY then runLifecycle cb later r.2.1 r.2.2 else none

/-! ## Handler local data and payload registration -/

/-- Modelled from the spec: `SCIPhashmapGetImage` on the map `consmap`, whose
code is not part of the sources at hand. The map is the list of its entries
(origin, image) in the order `SCIPhashmapGetEntry` enumerates them; the image is
`none` (`NULL`) for an origin without entry. -/
def SCIPhashmapGetImage (hashmap : List (Nat × Nat)) (origin : Nat) : Option Nat :=
  (hashmap.find? (fun entry => entry.1 == origin)).map Prod.snd

/-- Modelled from the spec: `SCIPhashmapInsert` adds an entry for an origin
without entry; for an origin that has one it returns `SCIP_INVALIDDATA` and
leaves the map as it is, like its sibling `SCIPhashmapInsertInt`. -/
def SCIPhashmapInsert (hashmap : List (Nat × Nat)) (origin image : Nat) :
    SCIP_RETCODE × List (Nat × Nat) :=
  if (SCIPhashmapGetImage hashmap origin).isSome then (SCIP_RETCODE.SCIP_INVALIDDATA, hashmap)
  else (SCIP_RETCODE.SCIP_OKAY, hashmap ++ [(origin, image)])

/-- The handler local data `struct SCIP_ActivationhdlrData` of a handler whose
payloads have the type `P`, with the block memory its payloads live in:
`consmap` maps the address of a constraint to the address of its payload, and
`blkmem a` is the payload allocated at the address `a`, `none` if there is
none. -/
structure SCIP_ACTIVATIONHDLRDATA (P : Type) where
  consmap : List (Nat × Nat)
  blkmem : Nat → Option P

/-- The functions `removePatterns`, `removeGraphData` and `removeActivationData`:
the payload at the address and the arrays it owns are given back. The result is
`none` when there is no payload at the address, the function reading memory
that is not allocated. -/
def removePayload {P : Type} (hdlrdata : SCIP_ACTIVATIONHDLRDATA P) (payload : Nat) :
    Option (SCIP_ACTIVATIONHDLRDATA P) :=
  match hdlrdata.blkmem payload with
  | none => none
  | some _ => some { hdlrdata with blkmem := setAt hdlrdata.blkmem payload none }

/-- What `storeConsPatterns`, `storeConsGraphData` and `storeConsActivationData`
do after their assertions, which is the same text in the three: the payload the
map holds for the constraint, if any, is given back; the new payload, a copy of
the arguments, is allocated, at the address `addr` that `SCIPallocBlockMemory`
returns (the allocations are taken to succeed); it is inserted into the map, and
the handler is recorded in the constraint by `SCIPsetConsActivationhdlr`, which
is not part of the sources at hand and is taken to return `SCIP_OKAY`. -/
def storePayload {P : Type} (hdlrdata : SCIP_ACTIVATIONHDLRDATA P) (cons : SCIP_CONS)
    (payload : P) (addr : Nat) : Option (SCIP_RETCODE × SCIP_ACTIVATIONHDLRDATA P) :=
  let removed :=
    match SCIPhashmapGetImage hdlrdata.consmap cons.addr with
    | some old => removePayload hdlrdata old
    | none => some hdlrdata
  match removed with
  | none => none
  | some hdlrdata1 =>
    let hdlrdata2 := { hdlrdata1 with blkmem := setAt hdlrdata1.blkmem addr (some payload) }
    let r := SCIPhashmapInsert hdlrdata2.consmap cons.addr addr
    if r.1 ≠ SCIP_RETCODE.SCIP_OKAY then some (r.1, hdlrdata2)
    else some (SCIP_RETCODE.SCIP_OKAY, { hdlrdata2 with consmap := r.2 })

/-- The function `storeConsPatterns`. The result is `none` when one of the
assertions `zeroheight > 0` and `oneheight > 0` fails; there is no test on `m`
and `n`, which count as 0 in the loops when they are negative. -/
def storeConsPatterns (hdlrdata : SCIP_ACTIVATIONHDLRDATA PATTERNS) (cons : SCIP_CONS)
    (matrix : Nat → Nat → SCIP_VAR) (m n zeroheight oneheight : Int) (addr : Nat) :
    Option (SCIP_RETCODE × SCIP_ACTIVATIONHDLRDATA PATTERNS) :=
  if ¬ (0 < zeroheight ∧ 0 < oneheight) then none
  else
    storePayload hdlrdata cons
      { matrix := matrix, m := m.toNat, n := n.toNat, zeroheight := zeroheight,
        oneheight := oneheight } addr

/-- The function `storeConsGraphData`; `adjacencies i` is the array
`adjacencies[i]` of length `nadjacencies[i]`. The result is `none` when one of
the assertions `nvertices > 0` and `ncolors > 0` fails. -/
def storeConsGraphData (hdlrdata : SCIP_ACTIVATIONHDLRDATA GRAPHDATA) (cons : SCIP_CONS)
    (matrix : Nat → Nat → SCIP_VAR) (nvertices ncolors : Int) (adjacencies : Nat → List Nat)
    (allcolorpairs : Bool) (strategy : Int) (addr : Nat) :
    Option (SCIP_RETCODE × SCIP_ACTIVATIONHDLRDATA GRAPHDATA) :=
  if ¬ (0 < nvertices ∧ 0 < ncolors) then none
  else
    storePayload hdlrdata cons
      { matrix := matrix, nvertices := nvertices.toNat, ncolors := ncolors.toNat,
        adjacencies := adjacencies, allcolorpairs := allcolorpairs, strategy := strategy } addr

/-- The function `storeConsActivationData`. The result is `none` when one of the
assertions `nmachines > 0` and `njobs > 0` fails. -/
def storeConsActivationData (hdlrdata : SCIP_ACTIVATIONHDLRDATA ACTIVATIONDATA)
    (cons : SCIP_CONS) (matrix : Nat → Nat → SCIP_VAR) (jobtimes : Nat → Int)
    (nmachines njobs : Int) (addr : Nat) :
    Option (SCIP_RETCODE × SCIP_ACTIVATIONHDLRDATA ACTIVATIONDATA) :=
  if ¬ (0 < nmachines ∧ 0 < njobs) then none
  else
    storePayload hdlrdata cons
      { matrix := matrix, jobtimes := jobtimes, nmachines := nmachines.toNat,
        njobs := njobs.toNat } addr

/-- The start of the three find-data callbacks: the address of the original
constraint, `origcons = cons; if( !SCIPconsIsOriginal(origcons) ) origcons =
origcons->transorigcons;`. -/
def origCons (cons : SCIP_CONS) : Nat :=
  if cons.original then cons.addr else cons.transorigcons

/-- The text the three find-data callbacks share: the payload of the original
constraint is looked up; without one the callback returns `SCIP_OKAY` and leaves
`*activationdata` as it is; else the detector `detect` runs on the payload and
its list is stored in `*activationdata`. The result is `none` when the map
leads to memory that is not allocated or the detector has no result. -/
def findActivationData {P : Type} (detect : P → Option (List SCIP_ACTIVATIONSUBMATRIX))
    (hdlrdata : SCIP_ACTIVATIONHDLRDATA P) (cons : SCIP_CONS)
    (activationdata : List SCIP_ACTIVATIONSUBMATRIX) :
    Option (SCIP_RETCODE × List SCIP_ACTIVATIONSUBMATRIX) :=
  match SCIPhashmapGetImage hdlrdata.consmap (origCons cons) with
  | none => some (SCIP_RETCODE.SCIP_OKAY, activationdata)
  | some addr =>
    match hdlrdata.blkmem addr with
    | none => none
    | some payload =>
      match detect payload with
      | none => none
      | some submatrix => some (SCIP_RETCODE.SCIP_OKAY, submatrix)

/-- The callback `activationFindActivationDataSuborbitope`; `activationdata` is
the content of `*activationdata` when the callback is called. -/
def activationFindActivationDataSuborbitope (scip : SCIP)
    (hdlrdata : SCIP_ACTIVATIONHDLRDATA PATTERNS) (cons : SCIP_CONS) (_forparentnode : Bool)
    (activationdata : List SCIP_ACTIVATIONSUBMATRIX) :
    Option (SCIP_RETCODE × List SCIP_ACTIVATIONSUBMATRIX) :=
  findActivationData (fun patterns => some (findPatternMatches scip patterns)) hdlrdata cons
    activationdata

/-- The detector that `activationFindActivationDataColorComp` runs for the
strategy of the payload. -/
def colorCompDetect (scip : SCIP) (graphdata : GRAPHDATA) :
    Option (List SCIP_ACTIVATIONSUBMATRIX) :=
  if graphdata.strategy = SCIP_ACT_COLORCOMP_INVERTED1 then
    findInvertedSingleColorComponents scip graphdata
  else if graphdata.strategy = SCIP_ACT_COLORCOMP_INVERTED2 then
    findInvertedColorPairsComponents scip graphdata
  else findColorPairsComponents scip graphdata

/-- The callback `activationFindActivationDataColorComp`. -/
def activationFindActivationDataColorComp (scip : SCIP)
    (hdlrdata : SCIP_ACTIVATIONHDLRDATA GRAPHDATA) (cons : SCIP_CONS) (_forparentnode : Bool)
    (activationdata : List SCIP_ACTIVATIONSUBMATRIX) :
    Option (SCIP_RETCODE × List SCIP_ACTIVATIONSUBMATRIX) :=
  findActivationData (colorCompDetect scip) hdlrdata cons activationdata

/-- The callback `activationFindActivationDataMakespan`. -/
def activationFindActivationDataMakespan (scip : SCIP)
    (hdlrdata : SCIP_ACTIVATIONHDLRDATA ACTIVATIONDATA) (cons : SCIP_CONS)
    (_forparentnode : Bool) (activationdata : List SCIP_ACTIVATIONSUBMATRIX) :
    Option (SCIP_RETCODE × List SCIP_ACTIVATIONSUBMATRIX) :=
  findActivationData (findSubSymmetries scip) hdlrdata cons activationdata

/-- The loops `for( j = 0; j < nrows; ++j ) for( m = 0; m < ncols; ++m )
SCIPgetTransformedVar(scip, matrix[j][m], &matrix[j][m])` of the two init
callbacks on one matrix. -/
def transformMatrix (scip : SCIP) (matrix : Nat → Nat → SCIP_VAR) (nrows ncols : Nat) :
    Nat → Nat → SCIP_VAR :=
  fun j m => if j < nrows ∧ m < ncols then scip.transvar (matrix j m) else matrix j m

/-- The loop over the entries of `consmap` that the two init callbacks share:
the payload of every entry is replaced by `rebind` of it. The result is `none`
when an entry leads to memory that is not allocated. -/
def rebindPayloads {P : Type} (rebind : P → P) (hdlrdata : SCIP_ACTIVATIONHDLRDATA P) :
    Option (SCIP_ACTIVATIONHDLRDATA P) :=
  foldSteps
    (fun (hd : SCIP_ACTIVATIONHDLRDATA P) (entry : Nat × Nat) =>
      match hd.blkmem entry.2 with
      | none => none
      | some payload => some { hd with blkmem := setAt hd.blkmem entry.2 (some (rebind payload)) })
    hdlrdata.consmap hdlrdata

/-- The callback `activationInitColorComp`. -/
def activationInitColorComp (scip : SCIP) (hdlrdata : SCIP_ACTIVATIONHDLRDATA GRAPHDATA) :
    Option (SCIP_RETCODE × SCIP_ACTIVATIONHDLRDATA GRAPHDATA) :=
  if !scip.transformed then some (SCIP_RETCODE.SCIP_OKAY, hdlrdata)
  else
    (rebindPayloads
      (fun graphdata => { graphdata with
        matrix := transformMatrix scip graphdata.matrix graphdata.nvertices graphdata.ncolors })
      hdlrdata).map (fun hd => (SCIP_RETCODE.SCIP_OKAY, hd))

/-- The callback `activationInitMakespan`. -/
def activationInitMakespan (scip : SCIP) (hdlrdata : SCIP_ACTIVATIONHDLRDATA ACTIVATIONDATA) :
    Option (SCIP_RETCODE × SCIP_ACTIVATIONHDLRDATA ACTIVATIONDATA) :=
  if !scip.transformed then some (SCIP_RETCODE.SCIP_OKAY, hdlrdata)
  else
    (rebindPayloads
      (fun activationdata => { activationdata with
        matrix := transformMatrix scip activationdata.matrix activationdata.njobs
          activationdata.nmachines })
      hdlrdata).map (fun hd => (SCIP_RETCODE.SCIP_OKAY, hd))

/-! ## Component detector on its scratch arrays -/

/-- The three scratch arrays of `struct GraphData`, which keep their content
from one call of a detector to the next. -/
structure GraphScratch where
  removedvertices : Nat → Bool
  dfsstack : Nat → Nat
  component : Nat → Nat

/-- The scratch arrays during one depth-first search, with the local variables
`dfsstackhead` and `componenthead`. -/
structure DfsArrays where
  removedvertices : Nat → Bool
  dfsstack : Nat → Nat
  component : Nat → Nat
  dfsstackhead : Int
  componenthead : Int

/-- One iteration of the loop `while( dfsstackhead >= 0 )` on the arrays:
`i = dfsstack[dfsstackhead--]`, then the loop over the adjacent vertices with
its writes `dfsstack[++dfsstackhead] = i`, `removedvertices[v] = TRUE`,
`component[++componenthead] = v`, `dfsstack[++dfsstackhead] = v`. -/
def dfsStepArrays (graphdata : GRAPHDATA) (a : DfsArrays) : DfsArrays :=
  if a.dfsstackhead < 0 then a
  else
    let i := a.dfsstack a.dfsstackhead.toNat
    let dfsstackhead := a.dfsstackhead - 1
    match (graphdata.adjacencies i).find? (fun v => a.removedvertices v == false) with
    | some v =>
      { removedvertices := setAt a.removedvertices v true,
        dfsstack := setAt (setAt a.dfsstack (dfsstackhead + 1).toNat i)
          (dfsstackhead + 2).toNat v,
        component := setAt a.component (a.componenthead + 1).toNat v,
        dfsstackhead := dfsstackhead + 2,
        componenthead := a.componenthead + 1 }
    | none => { a with dfsstackhead := dfsstackhead }

/-- The loop `while( dfsstackhead >= 0 )` on the arrays, run for at most `fuel`
iterations. -/
def dfsWhileArrays (graphdata : GRAPHDATA) : Nat → DfsArrays → Option DfsArrays
  | fuel, a =>
    if a.dfsstackhead < 0 then some a
    else
      match fuel with
      | 0 => none
      | fuel + 1 => dfsWhileArrays graphdata fuel (dfsStepArrays graphdata a)

/-- The depth-first search from `startvertex` on the arrays: the two heads are
set to -1, the start vertex is marked, written to `component[0]` and pushed,
then the while loop runs, with the same number of iterations granted as in
`dfsFrom`. -/
def dfsFromArrays (graphdata : GRAPHDATA) (scratch : GraphScratch) (startvertex : Nat) :
    Option DfsArrays :=
  dfsWhileArrays graphdata (2 * graphdata.nvertices)
    { removedvertices := setAt scratch.removedvertices startvertex true,
      dfsstack := setAt scratch.dfsstack 0 startvertex,
      component := setAt scratch.component 0 startvertex,
      dfsstackhead := 0,
      componenthead := 0 }

/-- The loop over the start vertices on the arrays; the rows of a record are
the sorted copy of `component[0 .. componenthead]`. -/
def componentsLoopArrays (graphdata : GRAPHDATA) (wholegraphtest : Bool) (cols : List Nat) :
    List Nat → GraphScratch → List SCIP_ACTIVATIONSUBMATRIX →
    Option (List SCIP_ACTIVATIONSUBMATRIX × GraphScratch)
  | [], scratch, submatrix => some (submatrix, scratch)
  | startvertex :: later, scratch, submatrix =>
    if scratch.removedvertices startvertex = true then
      componentsLoopArrays graphdata wholegraphtest cols later scratch submatrix
    else
      match dfsFromArrays graphdata scratch startvertex with
      | none => none
      | some a =>
        if wholegraphtest = true ∧ (graphdata.nvertices : Int) - 1 ≤ a.componenthead then
          some (submatrix, { removedvertices := a.removedvertices, dfsstack := a.dfsstack,
                             component := a.component })
        else
          componentsLoopArrays graphdata wholegraphtest cols later
            { removedvertices := a.removedvertices, dfsstack := a.dfsstack,
              component := a.component }
            ({ rows := SCIPsortInt ((List.range (a.componenthead + 1).toNat).map a.component),
               cols := cols, orbitopetype := SCIP_ORBITOPETYPE.PACKING } :: submatrix)

/-- What one detector does for one color (pair) on the arrays: the first loop
over the vertices writes `removedvertices[i]` for every vertex `i` of the
graph, then the loop over the start vertices runs if a vertex is removed. -/
def componentsOfArrays (graphdata : GRAPHDATA) (wholegraphtest : Bool) (cols : List Nat)
    (remove : Nat → Bool) (acc : List SCIP_ACTIVATIONSUBMATRIX × GraphScratch) :
    Option (List SCIP_ACTIVATIONSUBMATRIX × GraphScratch) :=
  let scratch : GraphScratch :=
    { acc.2 with removedvertices :=
        fun i => if i < graphdata.nvertices then remove i else acc.2.removedvertices i }
  let atleastoneremoved := (List.range graphdata.nvertices).any remove
  if atleastoneremoved = false then some (acc.1, scratch)
  else componentsLoopArrays graphdata wholegraphtest cols (List.range graphdata.nvertices)
    scratch acc.1

/-- The function `findColorPairsComponents` on the scratch arrays of the
payload, whose content when the function is called is `scratch`; the result is
the list and the content the arrays are left with. -/
def findColorPairsComponentsArrays (scip : SCIP) (graphdata : GRAPHDATA)
    (scratch : GraphScratch) : Option (List SCIP_ACTIVATIONSUBMATRIX × GraphScratch) :=
  foldSteps
    (fun acc (c : Nat × Nat) =>
      componentsOfArrays graphdata true [c.1, c.2]
        (removedColorPair scip graphdata c.1 c.2) acc)
    (colorPairs graphdata) ([], scratch)

/-- The function `findInvertedColorPairsComponents` on the scratch arrays. -/
def findInvertedColorPairsComponentsArrays (scip : SCIP) (graphdata : GRAPHDATA)
    (scratch : GraphScratch) : Option (List SCIP_ACTIVATIONSUBMATRIX × GraphScratch) :=
  foldSteps
    (fun acc (c : Nat × Nat) =>
      componentsOfArrays graphdata false
        ((List.range graphdata.ncolors).filter (fun c3 => c3 ≠ c.1 ∧ c3 ≠ c.2))
        (removedInvertedPair scip graphdata c.1 c.2) acc)
    (colorPairs graphdata) ([], scratch)

/-- The function `findInvertedSingleColorComponents` on the scratch arrays. -/
def findInvertedSingleColorComponentsArrays (scip : SCIP) (graphdata : GRAPHDATA)
    (scratch : GraphScratch) : Option (List SCIP_ACTIVATIONSUBMATRIX × GraphScratch) :=
  foldSteps
    (fun acc (c1 : Nat) =>
      componentsOfArrays graphdata false
        ((List.range graphdata.ncolors).filter (fun c2 => c2 ≠ c1))
        (removedInvertedSingle scip graphdata c1) acc)
    (List.range graphdata.ncolors) ([], scratch)

/-! ## Makespan detector with the maps of its payload -/

/-- Modelled from the spec: `SCIPhashmapRemoveAll`, whose code is not part of
the sources at hand, removes all entries of the map. -/
def SCIPhashmapRemoveAll (_hashmap : SCIP_HASHMAP) : SCIP_HASHMAP :=
  fun _ => none

/-- The function `findSubSymmetries` with the two maps of the payload as they
are when it is entered: the list `*submatrix` it returns together with the two
maps as it leaves them. The row loop starts with the entry `0 -> nmachines`
inserted into `makespans`, and after the loop, whether it ran to its end or was
left by the `break`, both maps are emptied with `SCIPhashmapRemoveAll`, which
for the set `newsymmakespans` gives the empty list of keys. -/
def findSubSymmetriesFrom (scip : SCIP) (activationdata : ACTIVATIONDATA)
    (makespans : SCIP_HASHMAP) (newsymmakespans : List Int) :
    Option (List SCIP_ACTIVATIONSUBMATRIX × SCIP_HASHMAP × List Int) :=
  (scanRows scip activationdata (List.range activationdata.njobs)
    { fixedmakespan := fun _ => 0,
      makespans := SCIPhashmapInsertInt makespans 0 activationdata.nmachines,
      newsymmakespans := newsymmakespans,
      submatrix := [] }).map
    (fun st => (st.submatrix, SCIPhashmapRemoveAll st.makespans, []))

/-! ## Vocabulary of the proofs -/

/-- The body of the machine loop with the sum `fixedmakespan[m] + jobtimes[j]`
taken in the integers: what `machineStep` computes as long as that sum is an
`int` (`machineStep_eq_ideal`). -/
def machineStepIdeal (scip : SCIP) (activationdata : ACTIVATIONDATA) (j : Nat)
    (acc : MakespanState × Bool) (m : Nat) : MakespanState × Bool :=
  let st := acc.1
  if st.fixedmakespan m = -1 then acc
  else
    let var := activationdata.matrix j m
    if lbAboveHalf scip var then
      let makespans1 := decreaseCount st.makespans (st.fixedmakespan m)
      let value := st.fixedmakespan m + activationdata.jobtimes j
      let count := SCIPhashmapGetImageInt makespans1 value
      if count = INT_MAX then
        ({ st with fixedmakespan := setAt st.fixedmakespan m value,
                   makespans := SCIPhashmapInsertInt makespans1 value 1 }, false)
      else
        ({ st with fixedmakespan := setAt st.fixedmakespan m value,
                   makespans := SCIPhashmapSetImageInt makespans1 value (count + 1),
                   newsymmakespans :=
                     if value ∈ st.newsymmakespans then st.newsymmakespans
                     else st.newsymmakespans ++ [value] }, false)
    else if !(ubBelowHalf scip var) then
      ({ st with fixedmakespan := setAt st.fixedmakespan m (-1),
                 makespans := decreaseCount st.makespans (st.fixedmakespan m) }, false)
    else (st, false)

/-- The body of the loop over the candidates with a buffer `reinsertmakespans`
of unbounded length: what `candidateStep` computes as long as the deferred
values fit into the buffer (`candidateStep_sound`). -/
def candidateStepIdeal (scip : SCIP) (activationdata : ACTIVATIONDATA) (j : Nat)
    (fixedmakespan : Nat → Int) (makespans : SCIP_HASHMAP)
    (acc : List Int × List SCIP_ACTIVATIONSUBMATRIX) (value : Int) :
    Option (List Int × List SCIP_ACTIVATIONSUBMATRIX) :=
  let ncols := SCIPhashmapGetImageInt makespans value
  let nrows := activationdata.njobs - j
  let orbitopetype :=
    if ncols = (activationdata.nmachines : Int) then SCIP_ORBITOPETYPE.PARTITIONING
    else SCIP_ORBITOPETYPE.PACKING
  let cols := candidateCols activationdata fixedmakespan value ncols
  if (cols.length : Int) < ncols then none
  else
    let allfixedzero := cols.all (fun c => !(ubAboveHalf scip (activationdata.matrix j c)))
    if allfixedzero then some (acc.1 ++ [value], acc.2)
    else some (acc.1, { rows := rowsFrom j nrows, cols := cols,
                        orbitopetype := orbitopetype } :: acc.2)

/-- The first part of the body of the row loop on `candidateStepIdeal`. -/
def processCandidatesIdeal (scip : SCIP) (activationdata : ACTIVATIONDATA) (j : Nat)
    (st : MakespanState) : Option MakespanState :=
  match st.newsymmakespans with
  | [] => some st
  | value :: values =>
    match foldSteps (candidateStepIdeal scip activationdata j st.fixedmakespan st.makespans)
        (value :: values) ([], st.submatrix) with
    | none => none
    | some (reinsertmakespans, submatrix) =>
      some { st with newsymmakespans := reinsertmakespans, submatrix := submatrix }

/-- The loop over the machines on `machineStepIdeal`. -/
def updateMachinesIdeal (scip : SCIP) (activationdata : ACTIVATIONDATA) (j : Nat)
    (st : MakespanState) : MakespanState × Bool :=
  (List.range activationdata.nmachines).foldl (machineStepIdeal scip activationdata j) (st, true)

/-- The row loop on `processCandidatesIdeal` and `updateMachinesIdeal`. -/
def scanRowsIdeal (scip : SCIP) (activationdata : ACTIVATIONDATA) :
    List Nat → MakespanState → Option MakespanState
  | [], st => some st
  | j :: later, st =>
    match processCandidatesIdeal scip activationdata j st with
    | none => none
    | some st1 =>
      let r := updateMachinesIdeal scip activationdata j st1
      if r.2 = true then some r.1
      else scanRowsIdeal scip activationdata later r.1

/-- The list that the row loop `scanRowsIdeal` gives: what `findSubSymmetries`
returns as long as no sum leaves the range of an `int` and no row defers more
values than `reinsertmakespans` holds. -/
def findSubSymmetriesIdeal (scip : SCIP) (activationdata : ACTIVATIONDATA) :
    Option (List SCIP_ACTIVATIONSUBMATRIX) :=
  (scanRowsIdeal scip activationdata (List.range activationdata.njobs)
    (makespanInit activationdata)).map (fun st => st.submatrix)

/-- The column loop over the first `k` columns. -/
def patternColumnsUpTo (scip : SCIP) (patterns : PATTERNS) (i : Nat)
    (zerotowerheight onetowerheight : Nat → Int) (k : Nat) : PatternScan :=
  (List.range k).foldl (patternColumnStep scip patterns i)
    { zerotowerheight := zerotowerheight, onetowerheight := onetowerheight,
      zerousedcols := [], oneusedcols := [] }

/-- The columns the zero block of row `i` collects. -/
def zeroCols (patterns : PATTERNS) (st : PatternState) : List Nat :=
  (List.range patterns.n).filter (fun j => decide (patterns.zeroheight ≤ st.zerotowerheight j))

/-- The columns the one block of row `i` collects. -/
def oneCols (patterns : PATTERNS) (st : PatternState) : List Nat :=
  (List.range patterns.n).filter
    (fun j => !decide (patterns.zeroheight ≤ st.zerotowerheight j) &&
      decide (patterns.oneheight ≤ st.onetowerheight j))

/-- What holds for a record built by the block on the zero towers: it starts at
a row `i` with `zeroheight ≤ i`, and each of its columns is fixed to zero in the
`zeroheight` rows right above row `i`. -/
def ZeroRecordOk (scip : SCIP) (patterns : PATTERNS) (r : SCIP_ACTIVATIONSUBMATRIX) : Prop :=
  ∃ i, r.rows.head? = some i ∧ i < patterns.m ∧ patterns.zeroheight ≤ (i : Int) ∧
    ∀ c ∈ r.cols, c < patterns.n ∧
      ∀ row : Nat, (i : Int) - patterns.zeroheight ≤ (row : Int) → row < i →
        ubBelowHalf scip (patternVar scip patterns row c) = true

/-- Number of vertices of the graph that are not marked in `removedvertices`. -/
def unvisited (graphdata : GRAPHDATA) (removedvertices : Nat → Bool) : Nat :=
  (List.range graphdata.nvertices).countP (fun v => removedvertices v == false)

/-- Adjacency entries are vertices of the graph. -/
def AdjacencyInRange (graphdata : GRAPHDATA) : Prop :=
  ∀ i < graphdata.nvertices, ∀ v ∈ graphdata.adjacencies i, v < graphdata.nvertices

/-- Invariant of the while loop of the search. -/
structure DfsInv (graphdata : GRAPHDATA) (st : DfsState) : Prop where
  stack_lt : ∀ i ∈ st.dfsstack, i < graphdata.nvertices
  component_nodup : st.component.Nodup
  component_lt : ∀ v ∈ st.component, v < graphdata.nvertices
  component_removed : ∀ v ∈ st.component, st.removedvertices v = true

/-- The rows of a record are strictly ascending vertices of the graph. -/
def RowsAscending (graphdata : GRAPHDATA) (r : SCIP_ACTIVATIONSUBMATRIX) : Prop :=
  r.rows.Pairwise (fun x y => x < y) ∧ ∀ v ∈ r.rows, v < graphdata.nvertices

/-- Entry `(i, m)` of the matrix is fixed, to one or to zero. -/
def entryFixed (scip : SCIP) (activationdata : ACTIVATIONDATA) (i m : Nat) : Prop :=
  lbAboveHalf scip (activationdata.matrix i m) = true ∨
    ubBelowHalf scip (activationdata.matrix i m) = true

/-- The sum of the durations of the jobs `0 .. j-1` that are fixed to one on machine `m`. -/
def fixedSum (scip : SCIP) (activationdata : ACTIVATIONDATA) (j m : Nat) : Int :=
  ((List.range j).map (fun i =>
    if lbAboveHalf scip (activationdata.matrix i m) = true then activationdata.jobtimes i
    else 0)).sum

/-- The new value of `fixedmakespan[m]` after the body of the machine loop in row `j`. -/
def nextMakespan (scip : SCIP) (activationdata : ACTIVATIONDATA) (j m : Nat) (x : Int) : Int :=
  if x = -1 then -1
  else if lbAboveHalf scip (activationdata.matrix j m) = true then x + activationdata.jobtimes j
  else if ubBelowHalf scip (activationdata.matrix j m) = true then x
  else -1

/-- The statements that count the machine in at its new makespan `value`. -/
def increaseCount (makespans : SCIP_HASHMAP) (value : Int) : SCIP_HASHMAP :=
  if SCIPhashmapGetImageInt makespans value = INT_MAX then
    SCIPhashmapInsertInt makespans value 1
  else SCIPhashmapSetImageInt makespans value (SCIPhashmapGetImageInt makespans value + 1)

/-- The loop over the first `k` machines in row `j`. -/
def machinesUpTo (scip : SCIP) (activationdata : ACTIVATIONDATA) (j : Nat)
    (st : MakespanState) (k : Nat) : MakespanState × Bool :=
  (List.range k).foldl (machineStep scip activationdata j) (st, true)

/-- The loop over the first `k` machines in row `j` on `machineStepIdeal`. -/
def machinesUpToIdeal (scip : SCIP) (activationdata : ACTIVATIONDATA) (j : Nat)
    (st : MakespanState) (k : Nat) : MakespanState × Bool :=
  (List.range k).foldl (machineStepIdeal scip activationdata j) (st, true)

/-- What holds for a record of `findSubSymmetries`: it starts at a row `row`,
all its columns are fixed above that row with the same sum of durations, and one
of its entries in row `row` has an upper bound above one half. -/
def EmittedOk (scip : SCIP) (activationdata : ACTIVATIONDATA)
    (r : SCIP_ACTIVATIONSUBMATRIX) : Prop :=
  ∃ (row : Nat) (v : Int), row < activationdata.njobs ∧ 0 ≤ v ∧
    r.rows = rowsFrom row (activationdata.njobs - row) ∧
    (∀ c ∈ r.cols, c < activationdata.nmachines ∧
      (∀ i < row, entryFixed scip activationdata i c) ∧
      fixedSum scip activationdata row c = v) ∧
    ∃ c ∈ r.cols, ubAboveHalf scip (activationdata.matrix row c) = true

/-- Invariant of the row loop of `findSubSymmetries` at the start of row `j`. -/
structure MakespanInv (scip : SCIP) (activationdata : ACTIVATIONDATA) (j : Nat)
    (st : MakespanState) : Prop where
  fixed : ∀ m < activationdata.nmachines, st.fixedmakespan m = -1 ∨
    (0 ≤ st.fixedmakespan m ∧ (∀ i < j, entryFixed scip activationdata i m) ∧
      st.fixedmakespan m = fixedSum scip activationdata j m)
  candidates_nonneg : ∀ v ∈ st.newsymmakespans, 0 ≤ v
  emitted : ∀ r ∈ st.submatrix, EmittedOk scip activationdata r

/-- The record `candidateStep` builds for `value` in row `j`. -/
def candidateRecord (activationdata : ACTIVATIONDATA) (j : Nat) (fixedmakespan : Nat → Int)
    (makespans : SCIP_HASHMAP) (value : Int) : SCIP_ACTIVATIONSUBMATRIX :=
  { rows := rowsFrom j (activationdata.njobs - j),
    cols := candidateCols activationdata fixedmakespan value
      (SCIPhashmapGetImageInt makespans value),
    orbitopetype :=
      if SCIPhashmapGetImageInt makespans value = (activationdata.nmachines : Int) then
        SCIP_ORBITOPETYPE.PARTITIONING
      else SCIP_ORBITOPETYPE.PACKING }

/-- Number of machines whose fixed makespan is `v`. -/
def machineCount (activationdata : ACTIVATIONDATA) (fixedmakespan : Nat → Int) (v : Int) : Nat :=
  (List.range activationdata.nmachines).countP (fun i => decide (fixedmakespan i = v))

/-- The entry of `makespans` for a value that `c` machines have. -/
def countEntry (c : Nat) : Option Int :=
  if c = 0 then none else some (c : Int)

/-- The map `makespans` holds, for every value that is not negative, the number
of machines with that fixed makespan, and no entry if there is no such machine. -/
def CountsOk (activationdata : ACTIVATIONDATA) (fixedmakespan : Nat → Int)
    (makespans : SCIP_HASHMAP) : Prop :=
  ∀ v : Int, 0 ≤ v → makespans v = countEntry (machineCount activationdata fixedmakespan v)

/-- Entry `(j, i)` is fixed to zero: the body of the machine loop leaves
`fixedmakespan[i]` as it is in row `j`. -/
def entryZero (scip : SCIP) (activationdata : ACTIVATIONDATA) (j i : Nat) : Prop :=
  lbAboveHalf scip (activationdata.matrix j i) = false ∧
    ubBelowHalf scip (activationdata.matrix j i) = true

/-- Invariant of the machine loop of row `j` after `k` machines, for the counts:
the map `makespans` counts the machines, and every value in `newsymmakespans`
is the fixed makespan of a machine that keeps it until the end of the row. -/
structure CountInv (scip : SCIP) (activationdata : ACTIVATIONDATA) (j k : Nat)
    (st : MakespanState) : Prop where
  nonneg : ∀ m < activationdata.nmachines, st.fixedmakespan m = -1 ∨ 0 ≤ st.fixedmakespan m
  counts : CountsOk activationdata st.fixedmakespan st.makespans
  holder : ∀ v ∈ st.newsymmakespans, 0 ≤ v ∧
    ∃ i < activationdata.nmachines, st.fixedmakespan i = v ∧
      (i < k ∨ entryZero scip activationdata j i)

/-- What the test on the first row gives for a record of `findSubSymmetries`:
one of its entries in its first row has an upper bound above one half. -/
def FirstRowOpen (scip : SCIP) (activationdata : ACTIVATIONDATA)
    (r : SCIP_ACTIVATIONSUBMATRIX) : Prop :=
  ∃ row, r.rows.head? = some row ∧ row < activationdata.njobs ∧
    ∃ c ∈ r.cols, ubAboveHalf scip (activationdata.matrix row c) = true

/-- Solver state in which no variable is fixed: every variable has the bounds 0 and 1. -/
def freeScip : SCIP :=
  { lbLocal := fun _ => 0,
    ubLocal := fun _ => 1,
    transformed := false,
    transvar := fun v => v }

/-- An edge of the graph between two vertices that `removed` does not mark. -/
def Edge (graphdata : GRAPHDATA) (removed : Nat → Bool) (u w : Nat) : Prop :=
  u < graphdata.nvertices ∧ w < graphdata.nvertices ∧ removed u = false ∧ removed w = false ∧
    w ∈ graphdata.adjacencies u

/-- There is a path from `u` to `w` along edges between vertices that `removed`
does not mark. -/
def Joined (graphdata : GRAPHDATA) (removed : Nat → Bool) (u w : Nat) : Prop :=
  Relation.ReflTransGen (Edge graphdata removed) u w

/-- What the search from `startvertex` has found, `removed` being the array
`removedvertices` at the start of the search. -/
structure DfsReach (graphdata : GRAPHDATA) (removed : Nat → Bool) (startvertex : Nat)
    (st : DfsState) : Prop where
  removed_iff : ∀ v, st.removedvertices v = true ↔ (removed v = true ∨ v ∈ st.component)
  component_joined : ∀ v ∈ st.component, removed v = false ∧
    Joined graphdata removed startvertex v
  start_mem : startvertex ∈ st.component
  stack_sub : ∀ i ∈ st.dfsstack, i ∈ st.component
  closed : ∀ v ∈ st.component, v ∉ st.dfsstack →
    ∀ w ∈ graphdata.adjacencies v, st.removedvertices w = true

/-- What the finished search from `startvertex` gives. -/
structure DfsResult (graphdata : GRAPHDATA) (removed : Nat → Bool) (startvertex : Nat)
    (st : DfsState) : Prop where
  removed_iff : ∀ v, st.removedvertices v = true ↔ (removed v = true ∨ v ∈ st.component)
  component_joined : ∀ v ∈ st.component, removed v = false ∧
    Joined graphdata removed startvertex v
  start_mem : startvertex ∈ st.component
  component_nodup : st.component.Nodup
  component_lt : ∀ v ∈ st.component, v < graphdata.nvertices
  closed : ∀ v ∈ st.component, ∀ w ∈ graphdata.adjacencies v, st.removedvertices w = true

/-- The adjacency lists are symmetric. -/
def AdjacencySymmetric (graphdata : GRAPHDATA) : Prop :=
  ∀ u < graphdata.nvertices, ∀ w ∈ graphdata.adjacencies u, u ∈ graphdata.adjacencies w

/-- Record `b` starts at a smaller vertex than record `a`. -/
def StartsBefore (b a : SCIP_ACTIVATIONSUBMATRIX) : Prop :=
  ∀ x y, b.rows.head? = some x → a.rows.head? = some y → x < y

/-- A record of a component detector for the removal test `remove`: it has the
columns `cols` and the kind packing, its rows are strictly ascending vertices
that are not removed, and each of them is joined to the first row by a path of
vertices that are not removed. -/
def ComponentRecord (graphdata : GRAPHDATA) (remove : Nat → Bool) (cols : List Nat)
    (r : SCIP_ACTIVATIONSUBMATRIX) : Prop :=
  r.cols = cols ∧ r.orbitopetype = SCIP_ORBITOPETYPE.PACKING ∧
    r.rows.Pairwise (fun x y => x < y) ∧
    (∀ v ∈ r.rows, v < graphdata.nvertices ∧ remove v = false) ∧
    ∃ s, r.rows.head? = some s ∧ ∀ v ∈ r.rows, Joined graphdata remove s v

/-- No vertex outside the rows of the record that is not removed is adjacent to
one of its rows. -/
def Isolated (graphdata : GRAPHDATA) (remove : Nat → Bool)
    (r : SCIP_ACTIVATIONSUBMATRIX) : Prop :=
  ∀ v ∈ r.rows, ∀ u, u < graphdata.nvertices → remove u = false →
    (u ∈ graphdata.adjacencies v ∨ v ∈ graphdata.adjacencies u) → u ∈ r.rows

/-- The marked vertices that are not removed have all their neighbours marked. -/
def MarkedClosed (graphdata : GRAPHDATA) (remove removedvertices : Nat → Bool) : Prop :=
  ∀ x < graphdata.nvertices, removedvertices x = true → remove x = false →
    ∀ y ∈ graphdata.adjacencies x, removedvertices y = true

/-- What the records `new` that a detector emits for one color (pair) satisfy,
the list being in the order of the result list, last emitted first. -/
structure PairRecords (graphdata : GRAPHDATA) (wholegraphtest : Bool) (cols : List Nat)
    (remove : Nat → Bool) (new : List SCIP_ACTIVATIONSUBMATRIX) : Prop where
  records : ∀ r ∈ new, ComponentRecord graphdata remove cols r
  ordered : new.Pairwise (fun a b => (∀ v ∈ a.rows, v ∉ b.rows) ∧ StartsBefore b a)
  covered : wholegraphtest = false → (∃ u < graphdata.nvertices, remove u = true) →
    ∀ v < graphdata.nvertices, remove v = false → ∃ r ∈ new, v ∈ r.rows
  nothing : (∀ v < graphdata.nvertices, remove v = false) → new = []
  isolated : AdjacencySymmetric graphdata → ∀ r ∈ new, Isolated graphdata remove r

/-- The rows of a record are a connected component of the graph without the
removed vertices: they are vertices that are not removed, every two of them are
joined by a path of such vertices, and no such vertex outside is adjacent to
one of them. -/
def ConnectedComponent (graphdata : GRAPHDATA) (remove : Nat → Bool) (rows : List Nat) : Prop :=
  rows ≠ [] ∧
  (∀ v ∈ rows, v < graphdata.nvertices ∧ remove v = false) ∧
  (∀ u ∈ rows, ∀ v ∈ rows, Joined graphdata remove u v) ∧
  ∀ v ∈ rows, ∀ u, u < graphdata.nvertices → remove u = false →
    (u ∈ graphdata.adjacencies v ∨ v ∈ graphdata.adjacencies u) → u ∈ rows

/-- The records `new` of one color (pair), last emitted first: the rows of each
are strictly ascending and a connected component of the graph without the
removed vertices, and a record emitted later starts at a larger vertex. -/
def ComponentsInOrder (graphdata : GRAPHDATA) (remove : Nat → Bool)
    (new : List SCIP_ACTIVATIONSUBMATRIX) : Prop :=
  (∀ r ∈ new, r.rows.Pairwise (fun x y => x < y) ∧
    ConnectedComponent graphdata remove r.rows) ∧
  new.Pairwise (fun a b => StartsBefore b a)

/-- Solver state of the inverted example: variable `2 * v + c` is entry `(v, c)`;
vertex 2 is fixed to one on color 0, every other entry is free. -/
def invertedExampleScip : SCIP :=
  { lbLocal := fun v => if v = 4 then 1 else 0,
    ubLocal := fun _ => 1,
    transformed := false,
    transvar := fun v => v }

/-- The records `new` of `findInvertedSingleColorComponents` for the color `c1`:
each has the kind packing and as columns the ascending list of the `ncolors - 1`
colors other than `c1`, its rows are strictly ascending vertices not fixed to one
on `c1`, all joined to its first row, and a connected component when the
adjacency lists are symmetric; if some vertex is fixed to one on `c1`, every
vertex that is not lies in the rows of exactly one record, and if none is there
is no record. -/
def InvertedSingleRecords (scip : SCIP) (graphdata : GRAPHDATA) (c1 : Nat)
    (new : List SCIP_ACTIVATIONSUBMATRIX) : Prop :=
  (∀ r ∈ new, r.orbitopetype = SCIP_ORBITOPETYPE.PACKING ∧
    r.cols = (List.range graphdata.ncolors).filter (fun c2 => c2 ≠ c1) ∧
    r.cols.length = graphdata.ncolors - 1 ∧
    r.rows.Pairwise (fun x y => x < y) ∧
    (∀ v ∈ r.rows, v < graphdata.nvertices ∧
      lbAboveHalf scip (graphdata.matrix v c1) = false) ∧
    (∃ s, r.rows.head? = some s ∧
      ∀ v ∈ r.rows, Joined graphdata (removedInvertedSingle scip graphdata c1) s v) ∧
    ((∀ u < graphdata.nvertices, ∀ w ∈ graphdata.adjacencies u,
        u ∈ graphdata.adjacencies w) →
      ConnectedComponent graphdata (removedInvertedSingle scip graphdata c1) r.rows)) ∧
  ((∃ u < graphdata.nvertices, lbAboveHalf scip (graphdata.matrix u c1) = true) →
    ∀ v < graphdata.nvertices, lbAboveHalf scip (graphdata.matrix v c1) = false →
      ∃ r ∈ new, v ∈ r.rows ∧ ∀ r1 ∈ new, v ∈ r1.rows → r1 = r) ∧
  ((∀ u < graphdata.nvertices, lbAboveHalf scip (graphdata.matrix u c1) = false) → new = [])

/-- The records `new` of `findInvertedColorPairsComponents` for the pair
`(c1, c2)`: each has the kind packing and as columns the ascending list of the
`ncolors - 2` colors other than `c1` and `c2`, and none of its rows is removed;
if some vertex is removed, every vertex that is not lies in the rows of a record,
so that a single surviving component is emitted as well. -/
def InvertedPairRecords (scip : SCIP) (graphdata : GRAPHDATA) (c : Nat × Nat)
    (new : List SCIP_ACTIVATIONSUBMATRIX) : Prop :=
  (∀ r ∈ new, r.orbitopetype = SCIP_ORBITOPETYPE.PACKING ∧
    r.cols = (List.range graphdata.ncolors).filter (fun c3 => c3 ≠ c.1 ∧ c3 ≠ c.2) ∧
    r.cols.length = graphdata.ncolors - 2 ∧
    ∀ v ∈ r.rows, v < graphdata.nvertices ∧
      removedInvertedPair scip graphdata c.1 c.2 v = false) ∧
  ((∃ u < graphdata.nvertices, removedInvertedPair scip graphdata c.1 c.2 u = true) →
    ∀ v < graphdata.nvertices, removedInvertedPair scip graphdata c.1 c.2 v = false →
      ∃ r ∈ new, v ∈ r.rows ∧ ∀ r1 ∈ new, v ∈ r1.rows → r1 = r)

/-- Solver state in which two machines stay at a makespan value: variable
`3 * j + m` is entry `(j, m)`; in row 0 the machines 0 and 1 are fixed to zero
and machine 2 is fixed to one, row 1 is free. -/
def stayedGroupScip : SCIP :=
  { lbLocal := fun v => if v = 2 then 1 else 0,
    ubLocal := fun v => if v = 0 ∨ v = 1 then 0 else 1,
    transformed := false,
    transvar := fun v => v }

/-- Payload for `stayedGroupScip`: three machines, two jobs of duration 1. -/
def stayedGroup : ACTIVATIONDATA :=
  { matrix := fun j m => 3 * j + m, jobtimes := fun _ => 1, nmachines := 3, njobs := 2 }

/-- All entries of machine `m` in the rows `0 .. j-1` are fixed, to one or to zero. -/
def allFixed (scip : SCIP) (activationdata : ACTIVATIONDATA) (j m : Nat) : Bool :=
  (List.range j).all (fun i => lbAboveHalf scip (activationdata.matrix i m) ||
    ubBelowHalf scip (activationdata.matrix i m))

/-- The ascending list of the machines whose entries in the rows `0 .. j-1` are
all fixed, the durations of the jobs fixed to one on them summing up to `v`. -/
def machinesAt (scip : SCIP) (activationdata : ACTIVATIONDATA) (j : Nat) (v : Int) : List Nat :=
  (List.range activationdata.nmachines).filter
    (fun m => allFixed scip activationdata j m && decide (fixedSum scip activationdata j m = v))

/-- The shape of a record of `findSubSymmetries`: for a row `row` with
`1 ≤ row < njobs` and a value `v`, its rows are `row, ..., njobs - 1`, its columns
are the machines of `machinesAt` for `row` and `v`, and its kind is partitioning
if these are all machines and packing otherwise. -/
def ExactRecord (scip : SCIP) (activationdata : ACTIVATIONDATA)
    (r : SCIP_ACTIVATIONSUBMATRIX) : Prop :=
  ∃ (row : Nat) (v : Int), 1 ≤ row ∧ row < activationdata.njobs ∧ 0 ≤ v ∧
    r.rows = List.range' row (activationdata.njobs - row) ∧
    r.cols = machinesAt scip activationdata row v ∧
    r.orbitopetype = (if r.cols.length = activationdata.nmachines then
      SCIP_ORBITOPETYPE.PARTITIONING else SCIP_ORBITOPETYPE.PACKING)

/-- Invariant of the row loop of `findSubSymmetries` at the start of row `j`
that gives the shape of the records. -/
structure ExactInv (scip : SCIP) (activationdata : ACTIVATIONDATA) (j : Nat)
    (st : MakespanState) : Prop where
  fixed : ∀ m < activationdata.nmachines,
    (st.fixedmakespan m = -1 ∧ allFixed scip activationdata j m = false) ∨
    (0 ≤ st.fixedmakespan m ∧ allFixed scip activationdata j m = true ∧
      st.fixedmakespan m = fixedSum scip activationdata j m)
  counts : CountsOk activationdata st.fixedmakespan st.makespans
  candidates : ∀ v ∈ st.newsymmakespans, 0 ≤ v ∧ 1 ≤ j
  emitted : ∀ r ∈ st.submatrix, ExactRecord scip activationdata r

/-- Function pointers and program states of the lifecycle examples are numbers;
every callback counts its call in the state, fails from the third call on, and
leaves the handler record as it is. -/
def countingCallbacks : Callbacks Nat Nat :=
  { call := fun _ activationhdlr set =>
      (if set < 2 then SCIP_RETCODE.SCIP_OKAY else SCIP_RETCODE.SCIP_ERROR, activationhdlr,
        set + 1),
    callIsActive := fun _ activationhdlr _ result set =>
      (SCIP_RETCODE.SCIP_OKAY, activationhdlr, set + 1, result),
    callFindData := fun _ activationhdlr _ _ activationdata set =>
      (SCIP_RETCODE.SCIP_OKAY, activationhdlr, set + 1, activationdata) }

/-- A handler record as `SCIPincludeActivationColorComp` registers it: free,
init and find-data callbacks, no copy, exit and is-active callback. -/
def colorcompHandler : SCIP_ACTIVATIONHDLR Nat :=
  { name := "colorcomp", desc := "color components activation handler",
    activationcopy := none, activationfree := some 1, activationinit := some 2,
    activationexit := none, activationisactive := none,
    activationfindactivationdata := some 3, activationhdlrdata := 1, initialized := false }

/-- Solver state after the transformation: the variables below 100 are the
original ones, variable `v + 100` is the transformed counterpart of `v`, and a
transformed variable is its own counterpart. -/
def transformedScip : SCIP :=
  { lbLocal := fun _ => 0,
    ubLocal := fun _ => 1,
    transformed := true,
    transvar := fun v => if v < 100 then v + 100 else v }

/-- Handler local data without any payload. -/
def noPayloads (P : Type) : SCIP_ACTIVATIONHDLRDATA P :=
  { consmap := [], blkmem := fun _ => none }

/-- Handler local data of the color component handler with the cycle example as
the payload of the constraint at address 7. -/
def cycleRegistered : SCIP_ACTIVATIONHDLRDATA GRAPHDATA :=
  { consmap := [(7, 10)], blkmem := fun a => if a = 10 then some (cycleExample true) else none }

/-- The original constraint at address 7. -/
def cons7 : SCIP_CONS :=
  { addr := 7, original := true, transorigcons := 0 }

/-- The number `h` is the length of the maximal run of consecutive rows ending
at row `i` in which `p` holds: `p` holds in the `h` rows `i + 1 - h, ..., i`, and
not in the row before them, if there is one. -/
def MaxRun (p : Nat → Bool) (i : Nat) (h : Int) : Prop :=
  0 ≤ h ∧ h ≤ (i : Int) + 1 ∧
    (∀ row : Nat, (i : Int) + 1 - h ≤ (row : Int) → row ≤ i → p row = true) ∧
    (∀ row : Nat, (row : Int) = (i : Int) - h → p row = false)

/-- Entry `(row, c)` counts for the one tower: the code tests the upper bound
first, so that the entry is fixed to one and its upper bound is not below one
half. -/
def oneEntry (scip : SCIP) (patterns : PATTERNS) (c row : Nat) : Bool :=
  !ubBelowHalf scip (patternVar scip patterns row c) &&
    lbAboveHalf scip (patternVar scip patterns row c)

/-- The test on column `c` in row `i` of the block on the zero towers in terms
of the entries: `zeroheight ≤ i`, and the entries of the column in the
`zeroheight` rows right above row `i` are fixed to zero. -/
def zeroTowerAbove (scip : SCIP) (patterns : PATTERNS) (i c : Nat) : Bool :=
  decide (patterns.zeroheight ≤ (i : Int)) &&
    (List.range i).all (fun row => decide ((row : Int) < (i : Int) - patterns.zeroheight) ||
      ubBelowHalf scip (patternVar scip patterns row c))

/-- The row loop of `findSubSymmetries` as it would run without the statement
`if( allundetermined ) break;`: every row is processed. -/
def scanRowsWithoutBreak (scip : SCIP) (activationdata : ACTIVATIONDATA) :
    List Nat → MakespanState → Option MakespanState
  | [], st => some st
  | j :: later, st =>
    match processCandidates scip activationdata j st with
    | none => none
    | some st1 =>
      scanRowsWithoutBreak scip activationdata later (updateMachines scip activationdata j st1).1

/-- The row loop `scanRowsIdeal` without its `break`. -/
def scanRowsWithoutBreakIdeal (scip : SCIP) (activationdata : ACTIVATIONDATA) :
    List Nat → MakespanState → Option MakespanState
  | [], st => some st
  | j :: later, st =>
    match processCandidatesIdeal scip activationdata j st with
    | none => none
    | some st1 =>
      scanRowsWithoutBreakIdeal scip activationdata later (updateMachinesIdeal scip activationdata j st1).1

/-- The list `findSubSymmetries` would return without its early exit. -/
def findSubSymmetriesWithoutBreak (scip : SCIP) (activationdata : ACTIVATIONDATA) :
    Option (List SCIP_ACTIVATIONSUBMATRIX) :=
  (scanRowsWithoutBreak scip activationdata (List.range activationdata.njobs)
    (makespanInit activationdata)).map (fun st => st.submatrix)

/-- The list that `scanRowsWithoutBreakIdeal` gives. -/
def findSubSymmetriesWithoutBreakIdeal (scip : SCIP) (activationdata : ACTIVATIONDATA) :
    Option (List SCIP_ACTIVATIONSUBMATRIX) :=
  (scanRowsWithoutBreakIdeal scip activationdata (List.range activationdata.njobs)
    (makespanInit activationdata)).map (fun st => st.submatrix)

/-- The state of the row loop of `findSubSymmetries` at the start of row `j`;
`none` when the loop does not get there, because it has been left by the `break`
or has no result in an earlier row. -/
def scanState (scip : SCIP) (activationdata : ACTIVATIONDATA) : Nat → Option MakespanState
  | 0 => some (makespanInit activationdata)
  | j + 1 =>
    match scanState scip activationdata j with
    | none => none
    | some st =>
      match processCandidates scip activationdata j st with
      | none => none
      | some st1 =>
        if (updateMachines scip activationdata j st1).2 = true then none
        else some (updateMachines scip activationdata j st1).1

/-- The state of the row loop `scanRowsIdeal` at the start of row `j`. -/
def scanStateIdeal (scip : SCIP) (activationdata : ACTIVATIONDATA) : Nat → Option MakespanState
  | 0 => some (makespanInit activationdata)
  | j + 1 =>
    match scanStateIdeal scip activationdata j with
    | none => none
    | some st =>
      match processCandidatesIdeal scip activationdata j st with
      | none => none
      | some st1 =>
        if (updateMachinesIdeal scip activationdata j st1).2 = true then none
        else some (updateMachinesIdeal scip activationdata j st1).1

/-- Payload in which the scan is left early: the makespan example with a third
job; under `makespanExampleScip` the rows 1 and 2 are free, so that every
machine is undetermined when row 2 is reached. -/
def earlyExitExample : ACTIVATIONDATA :=
  { matrix := fun j m => 2 * j + m, jobtimes := fun _ => 3, nmachines := 2, njobs := 3 }

/-- The filled part of `dfsstack`, top of the stack first. -/
def stackList (a : DfsArrays) : List Nat :=
  ((List.range (a.dfsstackhead + 1).toNat).map a.dfsstack).reverse

/-- The filled part of `component`. -/
def componentList (a : DfsArrays) : List Nat :=
  (List.range (a.componenthead + 1).toNat).map a.component

/-- The arrays `a` hold the search state `st`: the marks agree on the vertices
of the graph and the filled parts of the two arrays are the two lists. -/
structure SimDfs (graphdata : GRAPHDATA) (a : DfsArrays) (st : DfsState) : Prop where
  marks : ∀ v < graphdata.nvertices, a.removedvertices v = st.removedvertices v
  stack : st.dfsstack = stackList a
  comp : st.component = componentList a
  stack_head : -1 ≤ a.dfsstackhead
  comp_head : -1 ≤ a.componenthead

/-- A content of the scratch arrays: no vertex marked, every entry 0. -/
def scratchZeros : GraphScratch :=
  { removedvertices := fun _ => false, dfsstack := fun _ => 0, component := fun _ => 0 }

/-- A second content of the scratch arrays: every vertex marked, every entry 7. -/
def scratchSevens : GraphScratch :=
  { removedvertices := fun _ => true, dfsstack := fun _ => 7, component := fun _ => 7 }

/-- Solver state of the chain example with three machines: variable `3 * j + m`
is entry `(j, m)`; row 0 is fixed to `0 0 1`, row 1 to `0 1 1`, in row 2 the
machines 0 and 1 are fixed to one and machine 2 is free, row 3 is free. -/
def chain3Scip : SCIP :=
  { lbLocal := fun v => if v = 2 ∨ v = 4 ∨ v = 5 ∨ v = 6 ∨ v = 7 then 1 else 0,
    ubLocal := fun v => if v = 0 ∨ v = 1 ∨ v = 3 then 0 else 1,
    transformed := false,
    transvar := fun v => v }

/-- Payload of the chain example with three machines: four jobs of duration 1. -/
def chain3 : ACTIVATIONDATA :=
  { matrix := fun j m => 3 * j + m, jobtimes := fun _ => 1, nmachines := 3, njobs := 4 }

/-- Solver state of the chain example with five machines: variable `5 * j + m`
is entry `(j, m)`; the rows 0 to 2 are fixed to `0 1 0 1 0`, `0 0 1 1 0` and
`0 0 0 0 1`, row 3 is fixed to one and row 4 to zero on every machine, row 5 is
free. -/
def chain5Scip : SCIP :=
  { lbLocal := fun v =>
      if v = 1 ∨ v = 3 ∨ v = 7 ∨ v = 8 ∨ v = 14 ∨ (15 ≤ v ∧ v ≤ 19) then 1 else 0,
    ubLocal := fun v =>
      if v = 1 ∨ v = 3 ∨ v = 7 ∨ v = 8 ∨ v = 14 ∨ (15 ≤ v ∧ v ≤ 19) then 1
      else if v < 25 then 0 else 1,
    transformed := false,
    transvar := fun v => v }

/-- Payload of the chain example with five machines: six jobs, job 1 of
duration 2, job 2 of duration 4, the others of duration 1, so that the fixed
makespans of the machines are `0 1 2 3 4` after row 2. -/
def chain5 : ACTIVATIONDATA :=
  { matrix := fun j m => 5 * j + m,
    jobtimes := fun j => if j = 1 then 2 else if j = 2 then 4 else 1,
    nmachines := 5, njobs := 6 }

/-- The count stored in `makespans` for the value `v`, 0 if `v` has no entry. -/
def storedCount (makespans : SCIP_HASHMAP) (v : Int) : Int :=
  match makespans v with
  | some count => count
  | none => 0

/-- The records `new` of one color (pair) partition the vertices that are not
removed: the row sets of two records are disjoint, the rows of a record are
pairwise distinct vertices that are not removed, and every vertex that is not
removed is a row of exactly one record. -/
def PartitionsSurvivors (graphdata : GRAPHDATA) (remove : Nat → Bool)
    (new : List SCIP_ACTIVATIONSUBMATRIX) : Prop :=
  new.Pairwise (fun a b => ∀ v ∈ a.rows, v ∉ b.rows) ∧
  (∀ r ∈ new, r.rows.Nodup ∧ ∀ v ∈ r.rows, v < graphdata.nvertices ∧ remove v = false) ∧
  ∀ v < graphdata.nvertices, remove v = false →
    ∃ r ∈ new, v ∈ r.rows ∧ ∀ r1 ∈ new, v ∈ r1.rows → r1 = r

/-- The arrays and heads with which the while loop of the search from
`startvertex` is entered. -/
def dfsStartArrays (scratch : GraphScratch) (startvertex : Nat) : DfsArrays :=
  { removedvertices := setAt scratch.removedvertices startvertex true,
    dfsstack := setAt scratch.dfsstack 0 startvertex,
    component := setAt scratch.component 0 startvertex,
    dfsstackhead := 0,
    componenthead := 0 }

/-- The search state with which the while loop of the search from `startvertex`
is entered. -/
def dfsStartState (removedvertices : Nat → Bool) (startvertex : Nat) : DfsState :=
  { removedvertices := setAt removedvertices startvertex true,
    dfsstack := [startvertex],
    component := [startvertex] }

/-- Invariant of the while loop of the search for the stack: its entries are
pairwise distinct vertices of the component, and each entry is adjacent to the
entry below it, so that the stack is the current search path. -/
structure StackInv (graphdata : GRAPHDATA) (st : DfsState) : Prop where
  stack_nodup : st.dfsstack.Nodup
  stack_sub : ∀ i ∈ st.dfsstack, i ∈ st.component
  stack_path : st.dfsstack.Chain' (fun top below => top ∈ graphdata.adjacencies below)

/-- The records that row `i` of the row loop of `findPatternMatches` puts in
front of the result list: the body of the loop run on the tower heights at the
start of row `i` and an empty list. -/
def rowEmission (scip : SCIP) (patterns : PATTERNS) (i : Nat) :
    List (Trigger × SCIP_ACTIVATIONSUBMATRIX) :=
  (patternRowStep scip patterns
    { (patternScan scip patterns i) with submatrix := [] } i).submatrix

/-- The first row of record `b` is at most the first row of record `a`. -/
def StartsNotAfter (b a : SCIP_ACTIVATIONSUBMATRIX) : Prop :=
  ∀ x y, a.rows.head? = some x → b.rows.head? = some y → y ≤ x

/-- The sum of the durations of all jobs. -/
def totalTime (activationdata : ACTIVATIONDATA) : Int :=
  ((List.range activationdata.njobs).map activationdata.jobtimes).sum

/-- The machines whose entry in row `j` has an upper bound that is not above
one half: the entries that the test on the first row of a candidate takes as
fixed to zero. -/
def zeroMachines (scip : SCIP) (activationdata : ACTIVATIONDATA) (j : Nat) : List Nat :=
  (List.range activationdata.nmachines).filter
    (fun m => !(ubAboveHalf scip (activationdata.matrix j m)))

/-- The candidate `value` is deferred in row `j`: all columns of its record are
fixed to zero in that row. -/
def deferredIn (scip : SCIP) (activationdata : ACTIVATIONDATA) (j : Nat)
    (fixedmakespan : Nat → Int) (makespans : SCIP_HASHMAP) (value : Int) : Bool :=
  (candidateRecord activationdata j fixedmakespan makespans value).cols.all
    (fun c => !(ubAboveHalf scip (activationdata.matrix j c)))

/-- The payload and the solver state keep the row loop of `findSubSymmetries`
within what the C code can hold: the durations are not negative and sum up to
at most `INT_MAX`, the number of machines is an `int`, no lower bound of an
entry is above its upper bound, and no row has more entries taken as fixed to
zero than the buffer `reinsertmakespans` has entries. -/
structure ScanFits (scip : SCIP) (activationdata : ACTIVATIONDATA) : Prop where
  dur : ∀ j < activationdata.njobs, 0 ≤ activationdata.jobtimes j
  sum : totalTime activationdata ≤ INT_MAX
  machines : (activationdata.nmachines : Int) ≤ INT_MAX
  bounds : ∀ j < activationdata.njobs, ∀ m < activationdata.nmachines,
    scip.lbLocal (activationdata.matrix j m) ≤ scip.ubLocal (activationdata.matrix j m)
  deferrals : ∀ j < activationdata.njobs,
    (zeroMachines scip activationdata j).length ≤ activationdata.nmachines / 2 + 1

/-- Solver state of the overflow example: variable `2 * j + m` is entry `(j, m)`;
in the rows 0 to 2 machine 0 is fixed to one and machine 1 to zero, row 3 is
free. -/
def overflowScip : SCIP :=
  { lbLocal := fun v => if v = 0 ∨ v = 2 ∨ v = 4 then 1 else 0,
    ubLocal := fun v => if v = 1 ∨ v = 3 ∨ v = 5 then 0 else 1,
    transformed := false,
    transvar := fun v => v }

/-- Payload of the overflow example: two machines and four jobs with the
durations `INT_MAX, INT_MAX, 2, 1`, so that the durations of the first three
jobs sum up to `2^32`, which a 32-bit `int` holds as 0. -/
def overflowExample : ACTIVATIONDATA :=
  { matrix := fun j m => 2 * j + m,
    jobtimes := fun j => if j = 0 ∨ j = 1 then 2147483647 else if j = 2 then 2 else 1,
    nmachines := 2, njobs := 4 }

/-- Solver state of the sentinel collision example with two machines: variable
`2 * j + m` is entry `(j, m)`; both machines are fixed to one in the rows 0 to 2
and to zero in row 3, row 4 is free. -/
def wrapBreakScip : SCIP :=
  { lbLocal := fun v => if v < 6 then 1 else 0,
    ubLocal := fun v => if v = 6 ∨ v = 7 then 0 else 1,
    transformed := false,
    transvar := fun v => v }

/-- Payload of the sentinel collision example with two machines: five jobs
with the durations `INT_MAX, INT_MAX, 1, 1, 1`, so that the durations of the
first three jobs sum up to `2^32 - 1`, which a 32-bit `int` holds as -1, the
value that marks an undetermined machine. -/
def wrapBreak : ACTIVATIONDATA :=
  { matrix := fun j m => 2 * j + m,
    jobtimes := fun j => if j = 0 ∨ j = 1 then 2147483647 else 1,
    nmachines := 2, njobs := 5 }

/-- Solver state of the sentinel collision example with three machines:
variable `3 * j + m` is entry `(j, m)`; machine 0 is free in every row, the
machines 1 and 2 are fixed to one in the rows 0 to 2, row 3 is free. -/
def sentinelScip : SCIP :=
  { lbLocal := fun v => if v = 1 ∨ v = 2 ∨ v = 4 ∨ v = 5 ∨ v = 7 ∨ v = 8 then 1 else 0,
    ubLocal := fun _ => 1,
    transformed := false,
    transvar := fun v => v }

/-- Payload of the sentinel collision example with three machines: four jobs
with the durations `INT_MAX, INT_MAX, 1, 1`. -/
def sentinelExample : ACTIVATIONDATA :=
  { matrix := fun j m => 3 * j + m,
    jobtimes := fun j => if j = 0 ∨ j = 1 then 2147483647 else 1,
    nmachines := 3, njobs := 4 }

/-- A record that a caller may have left in `*activationdata`. -/
def staleRecord : SCIP_ACTIVATIONSUBMATRIX :=
  { rows := [0], cols := [0, 1], orbitopetype := SCIP_ORBITOPETYPE.FULL }

/-- The shape of a record of `findSubSymmetries` that does not depend on the
makespans: it starts in a row `row` with `1 ≤ row ≤ njobs - 1`, its rows are
`row, ..., njobs - 1`, and its kind is partitioning if it has as many columns as
there are machines and packing otherwise. -/
def RecordShape (activationdata : ACTIVATIONDATA) (r : SCIP_ACTIVATIONSUBMATRIX) : Prop :=
  ∃ row, 1 ≤ row ∧ row ≤ activationdata.njobs - 1 ∧
    r.rows = List.range' row (activationdata.njobs - row) ∧ r.rows ≠ [] ∧
    r.orbitopetype = (if r.cols.length = activationdata.nmachines then
      SCIP_ORBITOPETYPE.PARTITIONING else SCIP_ORBITOPETYPE.PACKING)

/-! ## Generic loop lemmas -/

theorem foldl_invariant {α β : Type} (P : β → Prop) (f : β → α → β) (l : List α) (b : β)
    (hb : P b) (hstep : ∀ b a, a ∈ l → P b → P (f b a)) : P (l.foldl f b) := by
  induction l generalizing b with
  | nil => simpa using hb
  | cons a l ih =>
    simp only [List.foldl_cons]
    exact ih (f b a) (hstep b a (by simp) hb)
      (fun b1 a1 ha1 hb1 => hstep b1 a1 (by simp [ha1]) hb1)

theorem foldSteps_invariant {α β : Type} (P : β → Prop) (f : β → α → Option β) (l : List α)
    (b : β) (hb : P b) (hstep : ∀ b a, a ∈ l → P b → ∃ b1, f b a = some b1 ∧ P b1) :
    ∃ b1, foldSteps f l b = some b1 ∧ P b1 := by
  induction l generalizing b with
  | nil => exact ⟨b, rfl, hb⟩
  | cons a l ih =>
    obtain ⟨b1, h1, hP1⟩ := hstep b a (by simp) hb
    simp only [foldSteps, h1]
    exact ih b1 hP1 (fun b2 a2 ha2 hb2 => hstep b2 a2 (by simp [ha2]) hb2)

theorem foldSteps_sound {α β : Type} (P : β → Prop) (f : β → α → Option β) (l : List α)
    (b b1 : β) (hb : P b) (hstep : ∀ b a b2, a ∈ l → P b → f b a = some b2 → P b2)
    (h : foldSteps f l b = some b1) : P b1 := by
  induction l generalizing b with
  | nil =>
    simp only [foldSteps, Option.some.injEq] at h
    exact h ▸ hb
  | cons a l ih =>
    simp only [foldSteps] at h
    cases hfa : f b a with
    | none => simp [hfa] at h
    | some b2 =>
      simp only [hfa] at h
      exact ih b2 (hstep b a b2 (by simp) hb hfa)
        (fun b3 a3 b4 ha3 hb3 => hstep b3 a3 b4 (by simp [ha3]) hb3) h

theorem rowsFrom_head (i nrows : Nat) (h : 0 < nrows) : (rowsFrom i nrows).head? = some i := by
  cases nrows with
  | zero => omega
  | succ k => simp [rowsFrom, List.range_succ_eq_map]

theorem mem_rowsFrom (i nrows r : Nat) : r ∈ rowsFrom i nrows ↔ i ≤ r ∧ r < i + nrows := by
  simp only [rowsFrom, List.mem_map, List.mem_range]
  constructor
  · rintro ⟨k, hk, rfl⟩; omega
  · rintro ⟨h1, h2⟩; exact ⟨r - i, by omega, by omega⟩

/-! ## Pattern detector: the column loop -/

theorem setAt_same {α : Type} (a : Nat → α) (i : Nat) (x : α) : setAt a i x i = x := by
  simp [setAt]

theorem setAt_ne {α : Type} (a : Nat → α) (i k : Nat) (x : α) (h : k ≠ i) :
    setAt a i x k = a k := by
  simp [setAt, h]

theorem patternColumnStep_zerotowerheight (scip : SCIP) (patterns : PATTERNS) (i : Nat)
    (s : PatternScan) (j : Nat) :
    (patternColumnStep scip patterns i s j).zerotowerheight =
      setAt s.zerotowerheight j
        (if ubBelowHalf scip (patternVar scip patterns i j) = true then s.zerotowerheight j + 1
         else 0) := by
  by_cases h1 : patterns.zeroheight ≤ s.zerotowerheight j <;>
    by_cases h2 : patterns.oneheight ≤ s.onetowerheight j <;>
    by_cases h3 : ubBelowHalf scip (patternVar scip patterns i j) = true <;>
    by_cases h4 : lbAboveHalf scip (patternVar scip patterns i j) = true <;>
    simp [patternColumnStep, h1, h2, h3, h4]

theorem patternColumnStep_onetowerheight (scip : SCIP) (patterns : PATTERNS) (i : Nat)
    (s : PatternScan) (j : Nat) :
    (patternColumnStep scip patterns i s j).onetowerheight =
      setAt s.onetowerheight j
        (if ubBelowHalf scip (patternVar scip patterns i j) = true then 0
         else if lbAboveHalf scip (patternVar scip patterns i j) = true then
           s.onetowerheight j + 1
         else 0) := by
  by_cases h1 : patterns.zeroheight ≤ s.zerotowerheight j <;>
    by_cases h2 : patterns.oneheight ≤ s.onetowerheight j <;>
    by_cases h3 : ubBelowHalf scip (patternVar scip patterns i j) = true <;>
    by_cases h4 : lbAboveHalf scip (patternVar scip patterns i j) = true <;>
    simp [patternColumnStep, h1, h2, h3, h4]

theorem patternColumnStep_zerousedcols (scip : SCIP) (patterns : PATTERNS) (i : Nat)
    (s : PatternScan) (j : Nat) :
    (patternColumnStep scip patterns i s j).zerousedcols =
      if patterns.zeroheight ≤ s.zerotowerheight j then s.zerousedcols ++ [j]
      else s.zerousedcols := by
  by_cases h1 : patterns.zeroheight ≤ s.zerotowerheight j <;>
    by_cases h2 : patterns.oneheight ≤ s.onetowerheight j <;>
    by_cases h3 : ubBelowHalf scip (patternVar scip patterns i j) = true <;>
    by_cases h4 : lbAboveHalf scip (patternVar scip patterns i j) = true <;>
    simp [patternColumnStep, h1, h2, h3, h4]

theorem patternColumnStep_oneusedcols (scip : SCIP) (patterns : PATTERNS) (i : Nat)
    (s : PatternScan) (j : Nat) :
    (patternColumnStep scip patterns i s j).oneusedcols =
      if patterns.zeroheight ≤ s.zerotowerheight j then s.oneusedcols
      else if patterns.oneheight ≤ s.onetowerheight j then s.oneusedcols ++ [j]
      else s.oneusedcols := by
  by_cases h1 : patterns.zeroheight ≤ s.zerotowerheight j <;>
    by_cases h2 : patterns.oneheight ≤ s.onetowerheight j <;>
    by_cases h3 : ubBelowHalf scip (patternVar scip patterns i j) = true <;>
    by_cases h4 : lbAboveHalf scip (patternVar scip patterns i j) = true <;>
    simp [patternColumnStep, h1, h2, h3, h4]

theorem patternColumnsUpTo_spec (scip : SCIP) (patterns : PATTERNS) (i : Nat)
    (zth oth : Nat → Int) (k : Nat) :
    (∀ j, (patternColumnsUpTo scip patterns i zth oth k).zerotowerheight j =
        if j < k then
          (if ubBelowHalf scip (patternVar scip patterns i j) = true then zth j + 1 else 0)
        else zth j) ∧
    (∀ j, (patternColumnsUpTo scip patterns i zth oth k).onetowerheight j =
        if j < k then
          (if ubBelowHalf scip (patternVar scip patterns i j) = true then 0
           else if lbAboveHalf scip (patternVar scip patterns i j) = true then oth j + 1 else 0)
        else oth j) ∧
    (patternColumnsUpTo scip patterns i zth oth k).zerousedcols =
      (List.range k).filter (fun j => decide (patterns.zeroheight ≤ zth j)) ∧
    (patternColumnsUpTo scip patterns i zth oth k).oneusedcols =
      (List.range k).filter
        (fun j => !decide (patterns.zeroheight ≤ zth j) && decide (patterns.oneheight ≤ oth j)) := by
  induction k with
  | zero => simp [patternColumnsUpTo]
  | succ k ih =>
    obtain ⟨hz, ho, hzc, hoc⟩ := ih
    have hstep : patternColumnsUpTo scip patterns i zth oth (k + 1) =
        patternColumnStep scip patterns i (patternColumnsUpTo scip patterns i zth oth k) k := by
      simp [patternColumnsUpTo, List.range_succ]
    have hzk := hz k
    have hok := ho k
    simp only [lt_irrefl, if_false] at hzk hok
    rw [hstep]
    refine ⟨?_, ?_, ?_, ?_⟩
    · intro j
      rw [patternColumnStep_zerotowerheight, hzk]
      by_cases hjk : j = k
      · subst hjk
        simp [setAt_same]
      · rw [setAt_ne _ _ _ _ hjk, hz j]
        by_cases hlt : j < k
        · have h1 : j < k + 1 := by omega
          simp [hlt, h1]
        · have h1 : ¬ j < k + 1 := by omega
          simp [hlt, h1]
    · intro j
      rw [patternColumnStep_onetowerheight, hok]
      by_cases hjk : j = k
      · subst hjk
        simp [setAt_same]
      · rw [setAt_ne _ _ _ _ hjk, ho j]
        by_cases hlt : j < k
        · have h1 : j < k + 1 := by omega
          simp [hlt, h1]
        · have h1 : ¬ j < k + 1 := by omega
          simp [hlt, h1]
    · rw [patternColumnStep_zerousedcols, hzk, hzc, List.range_succ, List.filter_append]
      by_cases h : patterns.zeroheight ≤ zth k <;> simp [h]
    · rw [patternColumnStep_oneusedcols, hzk, hok, hoc, List.range_succ, List.filter_append]
      by_cases h : patterns.zeroheight ≤ zth k <;>
        by_cases h2 : patterns.oneheight ≤ oth k <;> simp [h, h2]

/-! ## Pattern detector: the row loop -/

theorem patternScan_succ (scip : SCIP) (patterns : PATTERNS) (k : Nat) :
    patternScan scip patterns (k + 1) =
      patternRowStep scip patterns (patternScan scip patterns k) k := by
  simp [patternScan, List.range_succ]

theorem patternRowStep_zerotowerheight (scip : SCIP) (patterns : PATTERNS) (st : PatternState)
    (i j : Nat) :
    (patternRowStep scip patterns st i).zerotowerheight j =
      if j < patterns.n then
        (if ubBelowHalf scip (patternVar scip patterns i j) = true then st.zerotowerheight j + 1
         else 0)
      else st.zerotowerheight j :=
  (patternColumnsUpTo_spec scip patterns i st.zerotowerheight st.onetowerheight patterns.n).1 j

theorem patternRowStep_onetowerheight (scip : SCIP) (patterns : PATTERNS) (st : PatternState)
    (i j : Nat) :
    (patternRowStep scip patterns st i).onetowerheight j =
      if j < patterns.n then
        (if ubBelowHalf scip (patternVar scip patterns i j) = true then 0
         else if lbAboveHalf scip (patternVar scip patterns i j) = true then
           st.onetowerheight j + 1
         else 0)
      else st.onetowerheight j :=
  (patternColumnsUpTo_spec scip patterns i st.zerotowerheight st.onetowerheight patterns.n).2.1 j

theorem patternRowStep_submatrix (scip : SCIP) (patterns : PATTERNS) (st : PatternState)
    (i : Nat) :
    (patternRowStep scip patterns st i).submatrix =
      (if 2 ≤ (oneCols patterns st).length then
        [(Trigger.one, patternRecord patterns i (oneCols patterns st))] else []) ++
      ((if 2 ≤ (zeroCols patterns st).length then
        [(Trigger.zero, patternRecord patterns i (zeroCols patterns st))] else []) ++
      st.submatrix) := by
  have h := patternColumnsUpTo_spec scip patterns i st.zerotowerheight st.onetowerheight
    patterns.n
  have hz : (patternColumns scip patterns i st.zerotowerheight st.onetowerheight).zerousedcols =
      zeroCols patterns st := h.2.2.1
  have ho : (patternColumns scip patterns i st.zerotowerheight st.onetowerheight).oneusedcols =
      oneCols patterns st := h.2.2.2
  simp only [patternRowStep, hz, ho]
  by_cases h1 : 2 ≤ (zeroCols patterns st).length <;>
    by_cases h2 : 2 ≤ (oneCols patterns st).length <;> simp [h1, h2]

theorem patternScan_free (scip : SCIP) (patterns : PATTERNS)
    (hfree : ∀ i < patterns.m, ∀ j < patterns.n,
      ubBelowHalf scip (patternVar scip patterns i j) = false ∧
      lbAboveHalf scip (patternVar scip patterns i j) = false)
    (hz : 0 < patterns.zeroheight) (ho : 0 < patterns.oneheight) (k : Nat)
    (hk : k ≤ patterns.m) :
    (∀ j, (patternScan scip patterns k).zerotowerheight j = 0) ∧
    (∀ j, (patternScan scip patterns k).onetowerheight j = 0) ∧
    (patternScan scip patterns k).submatrix = [] := by
  induction k with
  | zero => simp [patternScan]
  | succ k ih =>
    obtain ⟨h0, h1, hs⟩ := ih (by omega)
    rw [patternScan_succ]
    refine ⟨?_, ?_, ?_⟩
    · intro j
      rw [patternRowStep_zerotowerheight]
      by_cases hj : j < patterns.n
      · simp [hj, (hfree k (by omega) j hj).1]
      · simp [hj, h0 j]
    · intro j
      rw [patternRowStep_onetowerheight]
      by_cases hj : j < patterns.n
      · simp [hj, (hfree k (by omega) j hj).1, (hfree k (by omega) j hj).2]
      · simp [hj, h1 j]
    · rw [patternRowStep_submatrix, hs]
      have hzc : zeroCols patterns (patternScan scip patterns k) = [] := by
        simp only [zeroCols, List.filter_eq_nil_iff]
        intro j _
        simp only [h0 j, decide_eq_true_eq]
        omega
      have hoc : oneCols patterns (patternScan scip patterns k) = [] := by
        simp only [oneCols, List.filter_eq_nil_iff]
        intro j _
        simp only [h0 j, h1 j, Bool.and_eq_true, decide_eq_true_eq, not_and]
        intro _
        omega
      simp [hzc, hoc]

theorem patternScan_towers (scip : SCIP) (patterns : PATTERNS) (k : Nat)
    (hk : k ≤ patterns.m) :
    (∀ c < patterns.n, ∀ t : Nat, (t : Int) < (patternScan scip patterns k).zerotowerheight c →
      t < k ∧ ubBelowHalf scip (patternVar scip patterns (k - 1 - t) c) = true) ∧
    (∀ r, (Trigger.zero, r) ∈ (patternScan scip patterns k).submatrix →
      ZeroRecordOk scip patterns r) := by
  induction k with
  | zero =>
    refine ⟨?_, ?_⟩
    · intro c _ t ht
      simp [patternScan] at ht
      omega
    · intro r hr
      simp [patternScan] at hr
  | succ k ih =>
    obtain ⟨htow, hrec⟩ := ih (by omega)
    rw [patternScan_succ]
    refine ⟨?_, ?_⟩
    · intro c hc t ht
      rw [patternRowStep_zerotowerheight] at ht
      simp only [hc, if_true] at ht
      by_cases hub : ubBelowHalf scip (patternVar scip patterns k c) = true
      · simp only [hub, if_true] at ht
        cases t with
        | zero => exact ⟨by omega, by simpa using hub⟩
        | succ t =>
          obtain ⟨h1, h2⟩ := htow c hc t (by push_cast at ht; omega)
          refine ⟨by omega, ?_⟩
          have : k + 1 - 1 - (t + 1) = k - 1 - t := by omega
          rw [this]
          exact h2
      · simp only [hub] at ht
        simp at ht
        omega
    · intro r hr
      rw [patternRowStep_submatrix] at hr
      simp only [List.mem_append] at hr
      rcases hr with hr | hr | hr
      · split_ifs at hr <;> simp at hr
      · split_ifs at hr with h2
        · simp only [List.mem_singleton, Prod.mk.injEq, true_and] at hr
          subst hr
          have hcols : ∀ c ∈ zeroCols patterns (patternScan scip patterns k),
              c < patterns.n ∧
              patterns.zeroheight ≤ (patternScan scip patterns k).zerotowerheight c := by
            intro c hc
            simpa [zeroCols] using hc
          have hne : ∃ c, c ∈ zeroCols patterns (patternScan scip patterns k) := by
            cases hl : zeroCols patterns (patternScan scip patterns k) with
            | nil => simp [hl] at h2
            | cons c l => exact ⟨c, by simp⟩
          refine ⟨k, ?_, by omega, ?_, ?_⟩
          · exact rowsFrom_head k (patterns.m - k) (by omega)
          · obtain ⟨c, hc⟩ := hne
            obtain ⟨hcn, hch⟩ := hcols c hc
            by_cases hpos : 0 < patterns.zeroheight
            · have := (htow c hcn (patterns.zeroheight - 1).toNat (by omega)).1
              omega
            · omega
          · intro c hc
            obtain ⟨hcn, hch⟩ := hcols c hc
            refine ⟨hcn, ?_⟩
            intro row h1 h2
            have := (htow c hcn (k - 1 - row) (by omega)).2
            have he : k - 1 - (k - 1 - row) = row := by omega
            rw [he] at this
            exact this
        · simp at hr
      · exact hrec r hr

/-! ## Counting over an index range -/

theorem countP_range_update (p q : Nat → Bool) (n m : Nat) (hm : m < n)
    (h : ∀ i, i ≠ m → q i = p i) :
    (List.range n).countP q + (if p m = true then 1 else 0) =
      (List.range n).countP p + (if q m = true then 1 else 0) := by
  induction n with
  | zero => omega
  | succ k ih =>
    simp only [List.range_succ, List.countP_append, List.countP_singleton]
    by_cases hmk : m = k
    · subst hmk
      have hc : (List.range m).countP q = (List.range m).countP p := by
        apply List.countP_congr
        intro i hi
        have : i ≠ m := by
          have := List.mem_range.mp hi
          omega
        rw [h i this]
      rw [hc]
      omega
    · have := ih (by omega)
      have hk : q k = p k := h k (fun e => hmk e.symm)
      rw [hk]
      omega

/-! ## Component detector: the depth-first search -/

theorem unvisited_le (graphdata : GRAPHDATA) (removedvertices : Nat → Bool) :
    unvisited graphdata removedvertices ≤ graphdata.nvertices := by
  have := List.countP_le_length (fun v => removedvertices v == false)
    (l := List.range graphdata.nvertices)
  simpa [unvisited] using this

theorem unvisited_setAt (graphdata : GRAPHDATA) (removedvertices : Nat → Bool) (v : Nat)
    (hv : v < graphdata.nvertices) (h : removedvertices v = false) :
    unvisited graphdata (setAt removedvertices v true) + 1 =
      unvisited graphdata removedvertices := by
  have := countP_range_update (fun v => removedvertices v == false)
    (fun k => setAt removedvertices v true k == false) graphdata.nvertices v hv
    (by intro i hi; simp [setAt_ne _ _ _ _ hi])
  simp only [setAt_same, h] at this
  simp only [unvisited]
  simpa using this

theorem dfsStep_inv (graphdata : GRAPHDATA) (hadj : AdjacencyInRange graphdata)
    (st : DfsState) (hinv : DfsInv graphdata st) (hne : st.dfsstack ≠ []) :
    DfsInv graphdata (dfsStep graphdata st) ∧
    2 * unvisited graphdata (dfsStep graphdata st).removedvertices +
        (dfsStep graphdata st).dfsstack.length + 1 ≤
      2 * unvisited graphdata st.removedvertices + st.dfsstack.length := by
  cases hs : st.dfsstack with
  | nil => exact absurd hs hne
  | cons i rest =>
    have hi : i < graphdata.nvertices := hinv.stack_lt i (by simp [hs])
    have hrest : ∀ k ∈ rest, k < graphdata.nvertices :=
      fun k hk => hinv.stack_lt k (by simp [hs, hk])
    cases hf : (graphdata.adjacencies i).find? (fun v => st.removedvertices v == false) with
    | none =>
      have he : dfsStep graphdata st = { st with dfsstack := rest } := by
        simp only [dfsStep, hs, hf]
      rw [he]
      refine ⟨⟨hrest, hinv.component_nodup, hinv.component_lt, hinv.component_removed⟩, ?_⟩
      simp only [hs, List.length_cons]
      omega
    | some v =>
      have he : dfsStep graphdata st =
          { removedvertices := setAt st.removedvertices v true,
            dfsstack := v :: i :: rest,
            component := st.component ++ [v] } := by
        simp only [dfsStep, hs, hf]
      have hvfalse : st.removedvertices v = false := by
        simpa using List.find?_some hf
      have hv : v < graphdata.nvertices := hadj i hi v (List.mem_of_find?_eq_some hf)
      have hvnot : v ∉ st.component := by
        intro hmem
        have := hinv.component_removed v hmem
        rw [hvfalse] at this
        exact Bool.noConfusion this
      rw [he]
      refine ⟨⟨?_, ?_, ?_, ?_⟩, ?_⟩
      · intro k hk
        simp only [List.mem_cons] at hk
        rcases hk with rfl | rfl | hk
        · exact hv
        · exact hi
        · exact hrest k hk
      · exact List.Nodup.append hinv.component_nodup (List.nodup_singleton v)
          (by simpa using hvnot)
      · intro k hk
        simp only [List.mem_append, List.mem_singleton] at hk
        rcases hk with hk | rfl
        · exact hinv.component_lt k hk
        · exact hv
      · intro k hk
        show setAt st.removedvertices v true k = true
        simp only [List.mem_append, List.mem_singleton] at hk
        rcases hk with hk | rfl
        · by_cases hkv : k = v
          · subst hkv; exact setAt_same _ _ _
          · rw [setAt_ne _ _ _ _ hkv]; exact hinv.component_removed k hk
        · exact setAt_same _ _ _
      · have := unvisited_setAt graphdata st.removedvertices v hv hvfalse
        simp only [hs, List.length_cons]
        omega

theorem dfsWhile_nil (graphdata : GRAPHDATA) (fuel : Nat) (st : DfsState)
    (h : st.dfsstack = []) : dfsWhile graphdata fuel st = some st := by
  cases fuel <;> simp [dfsWhile, h]

theorem dfsWhile_succ (graphdata : GRAPHDATA) (fuel : Nat) (st : DfsState)
    (h : st.dfsstack ≠ []) :
    dfsWhile graphdata (fuel + 1) st = dfsWhile graphdata fuel (dfsStep graphdata st) := by
  cases hs : st.dfsstack with
  | nil => exact absurd hs h
  | cons i rest => simp [dfsWhile, hs]

theorem dfsWhile_inv (graphdata : GRAPHDATA) (hadj : AdjacencyInRange graphdata) (fuel : Nat) :
    ∀ st : DfsState, DfsInv graphdata st →
      2 * unvisited graphdata st.removedvertices + st.dfsstack.length ≤ fuel →
      ∃ st1, dfsWhile graphdata fuel st = some st1 ∧ DfsInv graphdata st1 := by
  induction fuel with
  | zero =>
    intro st hinv hfuel
    have : st.dfsstack = [] := List.length_eq_zero.mp (by omega)
    exact ⟨st, dfsWhile_nil graphdata 0 st this, hinv⟩
  | succ fuel ih =>
    intro st hinv hfuel
    by_cases hs : st.dfsstack = []
    · exact ⟨st, dfsWhile_nil graphdata _ st hs, hinv⟩
    · obtain ⟨hinv1, hdec⟩ := dfsStep_inv graphdata hadj st hinv hs
      rw [dfsWhile_succ graphdata fuel st hs]
      exact ih _ hinv1 (by omega)

theorem dfsFrom_isSome (graphdata : GRAPHDATA) (hadj : AdjacencyInRange graphdata)
    (removedvertices : Nat → Bool) (startvertex : Nat)
    (hlt : startvertex < graphdata.nvertices) (hfalse : removedvertices startvertex = false) :
    ∃ st, dfsFrom graphdata removedvertices startvertex = some st ∧ DfsInv graphdata st := by
  apply dfsWhile_inv graphdata hadj
  · refine ⟨?_, ?_, ?_, ?_⟩
    · intro i hi
      simp only [List.mem_singleton] at hi
      exact hi ▸ hlt
    · exact List.nodup_singleton _
    · intro i hi
      simp only [List.mem_singleton] at hi
      exact hi ▸ hlt
    · intro i hi
      simp only [List.mem_singleton] at hi
      subst hi
      exact setAt_same _ _ _
  · have h1 := unvisited_setAt graphdata removedvertices startvertex hlt hfalse
    have h2 := unvisited_le graphdata removedvertices
    simp only [List.length_singleton]
    omega

/-! ## Component detector: the loop over the start vertices -/

theorem SCIPsortInt_ascending (graphdata : GRAPHDATA) (component : List Nat)
    (hnodup : component.Nodup) (hlt : ∀ v ∈ component, v < graphdata.nvertices) :
    (SCIPsortInt component).Pairwise (fun x y => x < y) ∧
      ∀ v ∈ SCIPsortInt component, v < graphdata.nvertices := by
  have hperm : (SCIPsortInt component).Perm component :=
    List.perm_insertionSort (fun x y => x ≤ y) component
  have hsorted : (SCIPsortInt component).Sorted (fun x y => x ≤ y) :=
    List.sorted_insertionSort (fun x y => x ≤ y) component
  refine ⟨?_, ?_⟩
  · exact List.Sorted.lt_of_le hsorted (hperm.nodup_iff.mpr hnodup)
  · intro v hv
    exact hlt v (hperm.mem_iff.mp hv)

theorem componentsLoop_removed (graphdata : GRAPHDATA) (wholegraphtest : Bool)
    (cols : List Nat) (startvertex : Nat) (later : List Nat) (removedvertices : Nat → Bool)
    (submatrix : List SCIP_ACTIVATIONSUBMATRIX) (h : removedvertices startvertex = true) :
    componentsLoop graphdata wholegraphtest cols (startvertex :: later) removedvertices
        submatrix =
      componentsLoop graphdata wholegraphtest cols later removedvertices submatrix := by
  rw [componentsLoop, if_pos h]

theorem componentsLoop_search (graphdata : GRAPHDATA) (wholegraphtest : Bool)
    (cols : List Nat) (startvertex : Nat) (later : List Nat) (removedvertices : Nat → Bool)
    (submatrix : List SCIP_ACTIVATIONSUBMATRIX) (st : DfsState)
    (h : removedvertices startvertex = false)
    (hst : dfsFrom graphdata removedvertices startvertex = some st) :
    componentsLoop graphdata wholegraphtest cols (startvertex :: later) removedvertices
        submatrix =
      if wholegraphtest = true ∧
          (graphdata.nvertices : Int) - 1 ≤ (st.component.length : Int) - 1 then
        some submatrix
      else
        componentsLoop graphdata wholegraphtest cols later st.removedvertices
          ({ rows := SCIPsortInt st.component, cols := cols,
             orbitopetype := SCIP_ORBITOPETYPE.PACKING } :: submatrix) := by
  have hne : ¬ removedvertices startvertex = true := by simp [h]
  rw [componentsLoop, if_neg hne, hst]

theorem componentsLoop_ascending (graphdata : GRAPHDATA) (hadj : AdjacencyInRange graphdata)
    (wholegraphtest : Bool) (cols : List Nat) (startvertices : List Nat) :
    ∀ (removedvertices : Nat → Bool) (submatrix : List SCIP_ACTIVATIONSUBMATRIX),
      (∀ v ∈ startvertices, v < graphdata.nvertices) →
      (∀ r ∈ submatrix, RowsAscending graphdata r) →
      ∃ res, componentsLoop graphdata wholegraphtest cols startvertices removedvertices
          submatrix = some res ∧ ∀ r ∈ res, RowsAscending graphdata r := by
  induction startvertices with
  | nil =>
    intro removedvertices submatrix _ hsub
    exact ⟨submatrix, rfl, hsub⟩
  | cons startvertex later ih =>
    intro removedvertices submatrix hlt hsub
    have hlater : ∀ v ∈ later, v < graphdata.nvertices :=
      fun v hv => hlt v (by simp [hv])
    by_cases hrem : removedvertices startvertex = true
    · rw [componentsLoop_removed _ _ _ _ _ _ _ hrem]
      exact ih removedvertices submatrix hlater hsub
    · have hfalse : removedvertices startvertex = false := by simpa using hrem
      obtain ⟨st, hst, hinv⟩ := dfsFrom_isSome graphdata hadj removedvertices startvertex
        (hlt startvertex (by simp)) hfalse
      rw [componentsLoop_search _ _ _ _ _ _ _ st hfalse hst]
      split_ifs with hwhole
      · exact ⟨submatrix, rfl, hsub⟩
      · apply ih st.removedvertices _ hlater
        intro r hr
        simp only [List.mem_cons] at hr
        rcases hr with rfl | hr
        · exact SCIPsortInt_ascending graphdata st.component hinv.component_nodup
            hinv.component_lt
        · exact hsub r hr

theorem componentsOf_ascending (graphdata : GRAPHDATA) (hadj : AdjacencyInRange graphdata)
    (wholegraphtest : Bool) (cols : List Nat) (remove : Nat → Bool)
    (submatrix : List SCIP_ACTIVATIONSUBMATRIX)
    (hsub : ∀ r ∈ submatrix, RowsAscending graphdata r) :
    ∃ res, componentsOf graphdata wholegraphtest cols remove submatrix = some res ∧
      ∀ r ∈ res, RowsAscending graphdata r := by
  simp only [componentsOf]
  split_ifs with h
  · exact ⟨submatrix, rfl, hsub⟩
  · exact componentsLoop_ascending graphdata hadj wholegraphtest cols _ remove submatrix
      (fun v hv => List.mem_range.mp hv) hsub

theorem componentsOf_nothing_removed (graphdata : GRAPHDATA) (wholegraphtest : Bool)
    (cols : List Nat) (remove : Nat → Bool) (submatrix : List SCIP_ACTIVATIONSUBMATRIX)
    (h : ∀ i < graphdata.nvertices, remove i = false) :
    componentsOf graphdata wholegraphtest cols remove submatrix = some submatrix := by
  have hany : (List.range graphdata.nvertices).any remove = false := by
    rw [List.any_eq_false]
    intro i hi
    simp [h i (List.mem_range.mp hi)]
  simp [componentsOf, hany]

theorem mem_colorPairs (graphdata : GRAPHDATA) (c : Nat × Nat) (h : c ∈ colorPairs graphdata) :
    c.1 < c.2 ∧ c.2 < graphdata.ncolors ∧ (graphdata.allcolorpairs = false → c.2 = c.1 + 1) := by
  simp only [colorPairs, List.mem_flatMap, List.mem_range, List.mem_map] at h
  obtain ⟨c1, hc1, c2, hc2, rfl⟩ := h
  have hmem : c2 ∈ List.range' (c1 + 1) (graphdata.ncolors - (c1 + 1)) :=
    (List.takeWhile_sublist _).subset hc2
  have hp := List.mem_takeWhile_imp hc2
  rw [List.mem_range'_1] at hmem
  refine ⟨by simp only; omega, by simp only; omega, ?_⟩
  intro hall
  simp only [hall, if_true, decide_eq_true_eq] at hp
  simp only
  omega

/-! ## Makespan detector: the loop over the machines -/

theorem fixedSum_succ (scip : SCIP) (activationdata : ACTIVATIONDATA) (j m : Nat) :
    fixedSum scip activationdata (j + 1) m =
      fixedSum scip activationdata j m +
        (if lbAboveHalf scip (activationdata.matrix j m) = true then activationdata.jobtimes j
         else 0) := by
  simp [fixedSum, List.range_succ]

theorem machineStepIdeal_undetermined (scip : SCIP) (activationdata : ACTIVATIONDATA) (j m : Nat)
    (acc : MakespanState × Bool) (h : acc.1.fixedmakespan m = -1) :
    machineStepIdeal scip activationdata j acc m = acc := by
  simp [machineStepIdeal, h]

theorem machineStepIdeal_zero (scip : SCIP) (activationdata : ACTIVATIONDATA) (j m : Nat)
    (acc : MakespanState × Bool) (h : acc.1.fixedmakespan m ≠ -1)
    (hlb : lbAboveHalf scip (activationdata.matrix j m) = false)
    (hub : ubBelowHalf scip (activationdata.matrix j m) = true) :
    machineStepIdeal scip activationdata j acc m = (acc.1, false) := by
  simp [machineStepIdeal, h, hlb, hub]

theorem machineStepIdeal_free (scip : SCIP) (activationdata : ACTIVATIONDATA) (j m : Nat)
    (acc : MakespanState × Bool) (h : acc.1.fixedmakespan m ≠ -1)
    (hlb : lbAboveHalf scip (activationdata.matrix j m) = false)
    (hub : ubBelowHalf scip (activationdata.matrix j m) = false) :
    machineStepIdeal scip activationdata j acc m =
      ({ acc.1 with fixedmakespan := setAt acc.1.fixedmakespan m (-1),
                    makespans := decreaseCount acc.1.makespans (acc.1.fixedmakespan m) },
        false) := by
  simp [machineStepIdeal, h, hlb, hub]

theorem machineStepIdeal_one (scip : SCIP) (activationdata : ACTIVATIONDATA) (j m : Nat)
    (acc : MakespanState × Bool) (h : acc.1.fixedmakespan m ≠ -1)
    (hlb : lbAboveHalf scip (activationdata.matrix j m) = true) :
    (machineStepIdeal scip activationdata j acc m).1.fixedmakespan =
        setAt acc.1.fixedmakespan m (acc.1.fixedmakespan m + activationdata.jobtimes j) ∧
    (machineStepIdeal scip activationdata j acc m).1.makespans =
        increaseCount (decreaseCount acc.1.makespans (acc.1.fixedmakespan m))
          (acc.1.fixedmakespan m + activationdata.jobtimes j) ∧
    (machineStepIdeal scip activationdata j acc m).1.submatrix = acc.1.submatrix ∧
    (machineStepIdeal scip activationdata j acc m).2 = false ∧
    ((machineStepIdeal scip activationdata j acc m).1.newsymmakespans = acc.1.newsymmakespans ∨
      (SCIPhashmapGetImageInt (decreaseCount acc.1.makespans (acc.1.fixedmakespan m))
          (acc.1.fixedmakespan m + activationdata.jobtimes j) ≠ INT_MAX ∧
       (machineStepIdeal scip activationdata j acc m).1.newsymmakespans =
        acc.1.newsymmakespans ++ [acc.1.fixedmakespan m + activationdata.jobtimes j])) ∧
    (SCIPhashmapGetImageInt (decreaseCount acc.1.makespans (acc.1.fixedmakespan m))
          (acc.1.fixedmakespan m + activationdata.jobtimes j) ≠ INT_MAX →
      acc.1.fixedmakespan m + activationdata.jobtimes j ∈
        (machineStepIdeal scip activationdata j acc m).1.newsymmakespans) := by
  by_cases hc : SCIPhashmapGetImageInt (decreaseCount acc.1.makespans (acc.1.fixedmakespan m))
      (acc.1.fixedmakespan m + activationdata.jobtimes j) = INT_MAX
  · simp [machineStepIdeal, h, hlb, hc, increaseCount]
  · by_cases hmem : acc.1.fixedmakespan m + activationdata.jobtimes j ∈ acc.1.newsymmakespans
    · simp [machineStepIdeal, h, hlb, hc, increaseCount, hmem]
    · simp [machineStepIdeal, h, hlb, hc, increaseCount, hmem]

theorem machineStepIdeal_fixedmakespan (scip : SCIP) (activationdata : ACTIVATIONDATA) (j m : Nat)
    (acc : MakespanState × Bool) :
    (machineStepIdeal scip activationdata j acc m).1.fixedmakespan =
      setAt acc.1.fixedmakespan m
        (nextMakespan scip activationdata j m (acc.1.fixedmakespan m)) := by
  by_cases h : acc.1.fixedmakespan m = -1
  · rw [machineStepIdeal_undetermined _ _ _ _ _ h]
    funext k
    by_cases hk : k = m
    · subst hk; simp [setAt_same, nextMakespan, h]
    · simp [setAt_ne _ _ _ _ hk]
  · cases hlb : lbAboveHalf scip (activationdata.matrix j m) with
    | true =>
      rw [(machineStepIdeal_one _ _ _ _ _ h hlb).1]
      simp [nextMakespan, h, hlb]
    | false =>
      cases hub : ubBelowHalf scip (activationdata.matrix j m) with
      | true =>
        rw [machineStepIdeal_zero _ _ _ _ _ h hlb hub]
        funext k
        by_cases hk : k = m
        · subst hk; simp [setAt_same, nextMakespan, h, hlb, hub]
        · simp [setAt_ne _ _ _ _ hk]
      | false =>
        rw [machineStepIdeal_free _ _ _ _ _ h hlb hub]
        simp [nextMakespan, h, hlb, hub]

theorem machineStepIdeal_submatrix (scip : SCIP) (activationdata : ACTIVATIONDATA) (j m : Nat)
    (acc : MakespanState × Bool) :
    (machineStepIdeal scip activationdata j acc m).1.submatrix = acc.1.submatrix := by
  by_cases h : acc.1.fixedmakespan m = -1
  · rw [machineStepIdeal_undetermined _ _ _ _ _ h]
  · cases hlb : lbAboveHalf scip (activationdata.matrix j m) with
    | true => exact (machineStepIdeal_one _ _ _ _ _ h hlb).2.2.1
    | false =>
      cases hub : ubBelowHalf scip (activationdata.matrix j m) with
      | true => rw [machineStepIdeal_zero _ _ _ _ _ h hlb hub]
      | false => rw [machineStepIdeal_free _ _ _ _ _ h hlb hub]

theorem machineStepIdeal_newsymmakespans (scip : SCIP) (activationdata : ACTIVATIONDATA) (j m : Nat)
    (acc : MakespanState × Bool) (v : Int)
    (hv : v ∈ (machineStepIdeal scip activationdata j acc m).1.newsymmakespans) :
    v ∈ acc.1.newsymmakespans ∨
      (acc.1.fixedmakespan m ≠ -1 ∧ lbAboveHalf scip (activationdata.matrix j m) = true ∧
        v = acc.1.fixedmakespan m + activationdata.jobtimes j) := by
  by_cases h : acc.1.fixedmakespan m = -1
  · rw [machineStepIdeal_undetermined _ _ _ _ _ h] at hv
    exact Or.inl hv
  · cases hlb : lbAboveHalf scip (activationdata.matrix j m) with
    | true =>
      rcases (machineStepIdeal_one _ _ _ _ _ h hlb).2.2.2.2.1 with he | ⟨_, he⟩
      · rw [he] at hv; exact Or.inl hv
      · rw [he] at hv
        simp only [List.mem_append, List.mem_singleton] at hv
        rcases hv with hv | hv
        · exact Or.inl hv
        · exact Or.inr ⟨h, rfl, hv⟩
    | false =>
      cases hub : ubBelowHalf scip (activationdata.matrix j m) with
      | true =>
        rw [machineStepIdeal_zero _ _ _ _ _ h hlb hub] at hv
        exact Or.inl hv
      | false =>
        rw [machineStepIdeal_free _ _ _ _ _ h hlb hub] at hv
        exact Or.inl hv

theorem machinesUpToIdeal_succ (scip : SCIP) (activationdata : ACTIVATIONDATA) (j : Nat)
    (st : MakespanState) (k : Nat) :
    machinesUpToIdeal scip activationdata j st (k + 1) =
      machineStepIdeal scip activationdata j (machinesUpToIdeal scip activationdata j st k) k := by
  simp [machinesUpToIdeal, List.range_succ]

theorem machinesUpToIdeal_fixedmakespan (scip : SCIP) (activationdata : ACTIVATIONDATA) (j : Nat)
    (st : MakespanState) (k : Nat) (m : Nat) :
    (machinesUpToIdeal scip activationdata j st k).1.fixedmakespan m =
      if m < k then nextMakespan scip activationdata j m (st.fixedmakespan m)
      else st.fixedmakespan m := by
  induction k generalizing m with
  | zero => simp [machinesUpToIdeal]
  | succ k ih =>
    rw [machinesUpToIdeal_succ, machineStepIdeal_fixedmakespan]
    by_cases hmk : m = k
    · subst hmk
      rw [setAt_same, ih]
      simp
    · rw [setAt_ne _ _ _ _ hmk, ih]
      by_cases hlt : m < k
      · have : m < k + 1 := by omega
        simp [hlt, this]
      · have : ¬ m < k + 1 := by omega
        simp [hlt, this]

theorem machinesUpToIdeal_submatrix (scip : SCIP) (activationdata : ACTIVATIONDATA) (j : Nat)
    (st : MakespanState) (k : Nat) :
    (machinesUpToIdeal scip activationdata j st k).1.submatrix = st.submatrix := by
  induction k with
  | zero => simp [machinesUpToIdeal]
  | succ k ih => rw [machinesUpToIdeal_succ, machineStepIdeal_submatrix, ih]

theorem machinesUpToIdeal_newsymmakespans (scip : SCIP) (activationdata : ACTIVATIONDATA) (j : Nat)
    (st : MakespanState) (k : Nat) (v : Int)
    (hv : v ∈ (machinesUpToIdeal scip activationdata j st k).1.newsymmakespans) :
    v ∈ st.newsymmakespans ∨
      ∃ m < k, st.fixedmakespan m ≠ -1 ∧
        lbAboveHalf scip (activationdata.matrix j m) = true ∧
        v = st.fixedmakespan m + activationdata.jobtimes j := by
  induction k with
  | zero => exact Or.inl (by simpa [machinesUpToIdeal] using hv)
  | succ k ih =>
    rw [machinesUpToIdeal_succ] at hv
    rcases machineStepIdeal_newsymmakespans _ _ _ _ _ _ hv with h | ⟨h1, h2, h3⟩
    · rcases ih h with h | ⟨m, hm, h⟩
      · exact Or.inl h
      · exact Or.inr ⟨m, by omega, h⟩
    · rw [machinesUpToIdeal_fixedmakespan] at h1 h3
      simp only [lt_irrefl, if_false] at h1 h3
      exact Or.inr ⟨k, by omega, h1, h2, h3⟩

/-! ## Makespan detector: what the emitted records satisfy -/

theorem updateMachinesIdeal_inv (scip : SCIP) (activationdata : ACTIVATIONDATA) (j : Nat)
    (st : MakespanState) (hj : 0 ≤ activationdata.jobtimes j)
    (hinv : MakespanInv scip activationdata j st) :
    MakespanInv scip activationdata (j + 1) (updateMachinesIdeal scip activationdata j st).1 := by
  have hfm := machinesUpToIdeal_fixedmakespan scip activationdata j st activationdata.nmachines
  have hsub := machinesUpToIdeal_submatrix scip activationdata j st activationdata.nmachines
  have hns := machinesUpToIdeal_newsymmakespans scip activationdata j st activationdata.nmachines
  refine ⟨?_, ?_, ?_⟩
  · intro m hm
    have h1 : (updateMachinesIdeal scip activationdata j st).1.fixedmakespan m =
        nextMakespan scip activationdata j m (st.fixedmakespan m) := by
      have := hfm m
      simpa [hm] using this
    rw [h1]
    rcases hinv.fixed m hm with h | ⟨h0, hfix, hsum⟩
    · left; simp [nextMakespan, h]
    · have hne : st.fixedmakespan m ≠ -1 := by omega
      cases hlb : lbAboveHalf scip (activationdata.matrix j m) with
      | true =>
        right
        simp only [nextMakespan, hne, if_false, hlb, if_true]
        refine ⟨by omega, ?_, ?_⟩
        · intro i hi
          by_cases hij : i = j
          · subst hij; exact Or.inl hlb
          · exact hfix i (by omega)
        · rw [fixedSum_succ, hlb, if_pos rfl, hsum]
      | false =>
        cases hub : ubBelowHalf scip (activationdata.matrix j m) with
        | true =>
          right
          simp only [nextMakespan, hne, if_false, hlb, hub, if_true]
          refine ⟨h0, ?_, ?_⟩
          · intro i hi
            by_cases hij : i = j
            · subst hij; exact Or.inr hub
            · exact hfix i (by omega)
          · rw [fixedSum_succ, hlb, hsum]
            simp
        | false =>
          left
          simp [nextMakespan, hne, hlb, hub]
  · intro v hv
    rcases hns v hv with h | ⟨m, hm, hne, _, rfl⟩
    · exact hinv.candidates_nonneg v h
    · rcases hinv.fixed m hm with h | ⟨h0, _, _⟩
      · exact absurd h hne
      · omega
  · intro r hr
    have : (updateMachinesIdeal scip activationdata j st).1.submatrix = st.submatrix := hsub
    rw [this] at hr
    exact hinv.emitted r hr

theorem candidateStepIdeal_eq (scip : SCIP) (activationdata : ACTIVATIONDATA) (j : Nat)
    (fixedmakespan : Nat → Int) (makespans : SCIP_HASHMAP)
    (acc : List Int × List SCIP_ACTIVATIONSUBMATRIX) (value : Int) :
    candidateStepIdeal scip activationdata j fixedmakespan makespans acc value =
      if ((candidateRecord activationdata j fixedmakespan makespans value).cols.length : Int) <
          SCIPhashmapGetImageInt makespans value then none
      else if (candidateRecord activationdata j fixedmakespan makespans value).cols.all
          (fun c => !(ubAboveHalf scip (activationdata.matrix j c))) = true then
        some (acc.1 ++ [value], acc.2)
      else
        some (acc.1, candidateRecord activationdata j fixedmakespan makespans value :: acc.2) := by
  rfl

theorem candidateStepIdeal_inv (scip : SCIP) (activationdata : ACTIVATIONDATA) (j : Nat)
    (st : MakespanState) (hj : j < activationdata.njobs)
    (hinv : MakespanInv scip activationdata j st)
    (acc acc1 : List Int × List SCIP_ACTIVATIONSUBMATRIX) (value : Int)
    (hvalue : value ∈ st.newsymmakespans)
    (hacc : (∀ v ∈ acc.1, v ∈ st.newsymmakespans) ∧
      ∀ r ∈ acc.2, EmittedOk scip activationdata r)
    (h : candidateStepIdeal scip activationdata j st.fixedmakespan st.makespans acc value =
      some acc1) :
    (∀ v ∈ acc1.1, v ∈ st.newsymmakespans) ∧
      ∀ r ∈ acc1.2, EmittedOk scip activationdata r := by
  rw [candidateStepIdeal_eq] at h
  split_ifs at h with h1 h2
  · simp only [Option.some.injEq] at h
    subst h
    refine ⟨?_, hacc.2⟩
    intro v hv
    simp only [List.mem_append, List.mem_singleton] at hv
    rcases hv with hv | rfl
    · exact hacc.1 v hv
    · exact hvalue
  · simp only [Option.some.injEq] at h
    subst h
    refine ⟨hacc.1, ?_⟩
    intro r hr
    simp only [List.mem_cons] at hr
    rcases hr with rfl | hr
    · refine ⟨j, value, hj, hinv.candidates_nonneg value hvalue, rfl, ?_, ?_⟩
      · intro c hc
        have hc1 : c ∈ (List.range activationdata.nmachines).filter
            (fun i => st.fixedmakespan i = value) := List.mem_of_mem_take hc
        simp only [List.mem_filter, List.mem_range, decide_eq_true_eq] at hc1
        obtain ⟨hcn, hcv⟩ := hc1
        have hnn := hinv.candidates_nonneg value hvalue
        rcases hinv.fixed c hcn with h | ⟨_, hfix, hsum⟩
        · omega
        · exact ⟨hcn, hfix, by rw [← hsum, hcv]⟩
      · simp only [List.all_eq_true, Bool.not_eq_true', not_forall, Bool.not_eq_false,
          exists_prop] at h2
        exact h2
    · exact hacc.2 r hr

theorem processCandidatesIdeal_inv (scip : SCIP) (activationdata : ACTIVATIONDATA) (j : Nat)
    (st st1 : MakespanState) (hj : j < activationdata.njobs)
    (hinv : MakespanInv scip activationdata j st)
    (h : processCandidatesIdeal scip activationdata j st = some st1) :
    MakespanInv scip activationdata j st1 ∧ st1.fixedmakespan = st.fixedmakespan ∧
      st1.makespans = st.makespans := by
  cases hns : st.newsymmakespans with
  | nil =>
    simp only [processCandidatesIdeal, hns, Option.some.injEq] at h
    subst h
    exact ⟨hinv, rfl, rfl⟩
  | cons value values =>
    simp only [processCandidatesIdeal, hns] at h
    cases hfold : foldSteps
        (candidateStepIdeal scip activationdata j st.fixedmakespan st.makespans)
        (value :: values) ([], st.submatrix) with
    | none => simp [hfold] at h
    | some acc =>
      simp only [hfold, Option.some.injEq] at h
      subst h
      have hP := foldSteps_sound
        (fun acc : List Int × List SCIP_ACTIVATIONSUBMATRIX =>
          (∀ v ∈ acc.1, v ∈ st.newsymmakespans) ∧
            ∀ r ∈ acc.2, EmittedOk scip activationdata r)
        _ _ _ _ ⟨by simp, hinv.emitted⟩
        (fun b a b2 ha hb hstep =>
          candidateStepIdeal_inv scip activationdata j st hj hinv b b2 a (by rw [hns]; exact ha)
            hb hstep)
        hfold
      exact ⟨⟨hinv.fixed, fun v hv => hinv.candidates_nonneg v (hP.1 v hv), hP.2⟩, rfl, rfl⟩

theorem scanRowsIdeal_inv (scip : SCIP) (activationdata : ACTIVATIONDATA)
    (hdur : ∀ j < activationdata.njobs, 0 ≤ activationdata.jobtimes j) (k : Nat) :
    ∀ (j : Nat) (st st1 : MakespanState), j + k = activationdata.njobs →
      MakespanInv scip activationdata j st →
      scanRowsIdeal scip activationdata (List.range' j k) st = some st1 →
      ∀ r ∈ st1.submatrix, EmittedOk scip activationdata r := by
  induction k with
  | zero =>
    intro j st st1 _ hinv h
    simp only [List.range'_zero, scanRowsIdeal, Option.some.injEq] at h
    subst h
    exact hinv.emitted
  | succ k ih =>
    intro j st st1 hjk hinv h
    rw [List.range'_succ, scanRowsIdeal] at h
    cases hpc : processCandidatesIdeal scip activationdata j st with
    | none => simp [hpc] at h
    | some st2 =>
      simp only [hpc] at h
      have hinv2 := (processCandidatesIdeal_inv scip activationdata j st st2 (by omega) hinv hpc).1
      have hinv3 := updateMachinesIdeal_inv scip activationdata j st2 (hdur j (by omega)) hinv2
      split_ifs at h with hall
      · simp only [Option.some.injEq] at h
        subst h
        exact hinv3.emitted
      · exact ih (j + 1) _ st1 (by omega) hinv3 h

theorem makespanInit_inv (scip : SCIP) (activationdata : ACTIVATIONDATA) :
    MakespanInv scip activationdata 0 (makespanInit activationdata) := by
  refine ⟨?_, ?_, ?_⟩
  · intro m _
    right
    simp [makespanInit, fixedSum]
  · intro v hv
    simp [makespanInit] at hv
  · intro r hr
    simp [makespanInit] at hr

theorem findSubSymmetriesIdeal_emitted (scip : SCIP) (activationdata : ACTIVATIONDATA)
    (hdur : ∀ j < activationdata.njobs, 0 ≤ activationdata.jobtimes j)
    (res : List SCIP_ACTIVATIONSUBMATRIX)
    (h : findSubSymmetriesIdeal scip activationdata = some res) :
    ∀ r ∈ res, EmittedOk scip activationdata r := by
  simp only [findSubSymmetriesIdeal, Option.map_eq_some'] at h
  obtain ⟨st1, hst1, rfl⟩ := h
  rw [List.range_eq_range'] at hst1
  exact scanRowsIdeal_inv scip activationdata hdur activationdata.njobs 0 _ st1 (by omega)
    (makespanInit_inv scip activationdata) hst1

theorem setAt_setAt {α : Type} (a : Nat → α) (i : Nat) (x y : α) :
    setAt (setAt a i x) i y = setAt a i y := by
  funext k
  by_cases hk : k = i
  · subst hk; simp [setAt_same]
  · simp [setAt_ne _ _ _ _ hk]

/-! ## Makespan detector: the counts in `makespans` -/

theorem machineCount_le (activationdata : ACTIVATIONDATA) (fixedmakespan : Nat → Int)
    (v : Int) : machineCount activationdata fixedmakespan v ≤ activationdata.nmachines := by
  have := List.countP_le_length (fun i => decide (fixedmakespan i = v))
    (l := List.range activationdata.nmachines)
  simpa [machineCount] using this

theorem machineCount_setAt (activationdata : ACTIVATIONDATA) (fixedmakespan : Nat → Int)
    (m : Nat) (y v : Int) (hm : m < activationdata.nmachines) :
    machineCount activationdata (setAt fixedmakespan m y) v +
        (if fixedmakespan m = v then 1 else 0) =
      machineCount activationdata fixedmakespan v + (if y = v then 1 else 0) := by
  have := countP_range_update (fun i => decide (fixedmakespan i = v))
    (fun i => decide (setAt fixedmakespan m y i = v)) activationdata.nmachines m hm
    (by intro i hi; simp [setAt_ne _ _ _ _ hi])
  simp only [setAt_same, decide_eq_true_eq] at this
  exact this

theorem machineCount_pos (activationdata : ACTIVATIONDATA) (fixedmakespan : Nat → Int)
    (m : Nat) (hm : m < activationdata.nmachines) :
    0 < machineCount activationdata fixedmakespan (fixedmakespan m) := by
  simp only [machineCount, List.countP_pos_iff, List.mem_range, decide_eq_true_eq]
  exact ⟨m, hm, rfl⟩

theorem decreaseCount_ok (activationdata : ACTIVATIONDATA) (fixedmakespan : Nat → Int)
    (makespans : SCIP_HASHMAP) (m : Nat) (hm : m < activationdata.nmachines)
    (h0 : 0 ≤ fixedmakespan m) (hc : CountsOk activationdata fixedmakespan makespans) :
    CountsOk activationdata (setAt fixedmakespan m (-1))
      (decreaseCount makespans (fixedmakespan m)) := by
  intro v hv
  have hupd := machineCount_setAt activationdata fixedmakespan m (-1) v hm
  have hne : ¬ (-1 : Int) = v := by omega
  simp only [hne, if_false, add_zero] at hupd
  have hpos := machineCount_pos activationdata fixedmakespan m hm
  have hx := hc (fixedmakespan m) h0
  have hget : SCIPhashmapGetImageInt makespans (fixedmakespan m) =
      (machineCount activationdata fixedmakespan (fixedmakespan m) : Int) := by
    simp only [SCIPhashmapGetImageInt, hx, countEntry]
    have : ¬ machineCount activationdata fixedmakespan (fixedmakespan m) = 0 := by omega
    simp [this]
  by_cases hvx : fixedmakespan m = v
  · subst hvx
    simp only [if_true] at hupd
    simp only [decreaseCount, hget]
    by_cases hone : (machineCount activationdata fixedmakespan (fixedmakespan m) : Int) - 1 ≤ 0
    · have h1 : machineCount activationdata (setAt fixedmakespan m (-1)) (fixedmakespan m) = 0 := by
        omega
      simp [hone, SCIPhashmapRemove, h1, countEntry]
    · have h1 : ¬ machineCount activationdata (setAt fixedmakespan m (-1)) (fixedmakespan m) = 0 := by
        omega
      simp only [hone, if_false, SCIPhashmapSetImageInt, if_true, countEntry, h1]
      congr 1
      omega
  · simp only [hvx, if_false, add_zero] at hupd
    have hkey : ¬ v = fixedmakespan m := fun e => hvx e.symm
    rw [hupd, ← hc v hv]
    simp only [decreaseCount]
    split_ifs <;> simp [SCIPhashmapRemove, SCIPhashmapSetImageInt, hkey]

theorem increaseCount_ok (activationdata : ACTIVATIONDATA) (fixedmakespan : Nat → Int)
    (makespans : SCIP_HASHMAP) (m : Nat) (y : Int) (hm : m < activationdata.nmachines)
    (hmax : (activationdata.nmachines : Int) ≤ INT_MAX)
    (hund : fixedmakespan m = -1) (hy : 0 ≤ y)
    (hc : CountsOk activationdata fixedmakespan makespans) :
    CountsOk activationdata (setAt fixedmakespan m y) (increaseCount makespans y) := by
  intro v hv
  have hupd := machineCount_setAt activationdata fixedmakespan m y v hm
  have hne : ¬ fixedmakespan m = v := by omega
  simp only [hne, if_false, add_zero] at hupd
  have hle := machineCount_le activationdata (setAt fixedmakespan m y) v
  by_cases hvy : y = v
  · subst hvy
    simp only [if_true] at hupd
    have hy1 := hc y hy
    by_cases hzero : machineCount activationdata fixedmakespan y = 0
    · have hnone : makespans y = none := by simp [hy1, countEntry, hzero]
      have hget : SCIPhashmapGetImageInt makespans y = INT_MAX := by
        simp [SCIPhashmapGetImageInt, hnone]
      simp [increaseCount, hget, SCIPhashmapInsertInt, hnone, hupd, hzero, countEntry]
    · have hsome : makespans y = some (machineCount activationdata fixedmakespan y : Int) := by
        simp [hy1, countEntry, hzero]
      have hget : SCIPhashmapGetImageInt makespans y =
          (machineCount activationdata fixedmakespan y : Int) := by
        simp [SCIPhashmapGetImageInt, hsome]
      have hnmax : ¬ (machineCount activationdata fixedmakespan y : Int) = INT_MAX := by
        omega
      simp only [increaseCount, hget, hnmax, if_false, SCIPhashmapSetImageInt, if_true, hupd,
        countEntry]
      simp
  · simp only [hvy, if_false, add_zero] at hupd
    have hkey : ¬ v = y := fun e => hvy e.symm
    rw [hupd, ← hc v hv]
    simp only [increaseCount]
    split_ifs
    · simp only [SCIPhashmapInsertInt]
      cases makespans y <;> simp [hkey]
    · simp [SCIPhashmapSetImageInt, hkey]

theorem machineStepIdeal_countInv (scip : SCIP) (activationdata : ACTIVATIONDATA) (j k : Nat)
    (acc : MakespanState × Bool) (hk : k < activationdata.nmachines)
    (hj : 0 ≤ activationdata.jobtimes j)
    (hmax : (activationdata.nmachines : Int) ≤ INT_MAX)
    (hinv : CountInv scip activationdata j k acc.1) :
    CountInv scip activationdata j (k + 1) (machineStepIdeal scip activationdata j acc k).1 := by
  have hkeep : ∀ v ∈ acc.1.newsymmakespans, 0 ≤ v ∧
      ∃ i < activationdata.nmachines, acc.1.fixedmakespan i = v ∧
        (i < k + 1 ∨ entryZero scip activationdata j i) := by
    intro v hv
    obtain ⟨h0, i, hi, hfi, hik⟩ := hinv.holder v hv
    exact ⟨h0, i, hi, hfi, hik.imp (fun h => by omega) id⟩
  have hmove : ∀ y : Int, (lbAboveHalf scip (activationdata.matrix j k) = true ∨
        ubBelowHalf scip (activationdata.matrix j k) = false) →
      ∀ v ∈ acc.1.newsymmakespans, 0 ≤ v ∧
      ∃ i < activationdata.nmachines, setAt acc.1.fixedmakespan k y i = v ∧
        (i < k + 1 ∨ entryZero scip activationdata j i) := by
    intro y hy v hv
    obtain ⟨h0, i, hi, hfi, hik⟩ := hinv.holder v hv
    have hne : i ≠ k := by
      intro e
      subst e
      rcases hik with h | h
      · omega
      · rcases hy with hy | hy
        · rw [h.1] at hy; exact Bool.noConfusion hy
        · rw [h.2] at hy; exact Bool.noConfusion hy
    exact ⟨h0, i, hi, by rw [setAt_ne _ _ _ _ hne]; exact hfi, hik.imp (fun h => by omega) id⟩
  by_cases h : acc.1.fixedmakespan k = -1
  · rw [machineStepIdeal_undetermined _ _ _ _ _ h]
    exact ⟨hinv.nonneg, hinv.counts, hkeep⟩
  · have h0 : 0 ≤ acc.1.fixedmakespan k := by
      rcases hinv.nonneg k hk with h1 | h1
      · exact absurd h1 h
      · exact h1
    have hdec := decreaseCount_ok activationdata acc.1.fixedmakespan acc.1.makespans k hk h0
      hinv.counts
    cases hlb : lbAboveHalf scip (activationdata.matrix j k) with
    | true =>
      obtain ⟨hfm, hmk, _, _, hns, _⟩ := machineStepIdeal_one scip activationdata j k acc h hlb
      have hy : 0 ≤ acc.1.fixedmakespan k + activationdata.jobtimes j := by omega
      have hinc := increaseCount_ok activationdata (setAt acc.1.fixedmakespan k (-1))
        (decreaseCount acc.1.makespans (acc.1.fixedmakespan k)) k
        (acc.1.fixedmakespan k + activationdata.jobtimes j) hk hmax (setAt_same _ _ _) hy hdec
      rw [setAt_setAt] at hinc
      refine ⟨?_, ?_, ?_⟩
      · intro m hm
        rw [hfm]
        by_cases hmk1 : m = k
        · subst hmk1; rw [setAt_same]; exact Or.inr hy
        · rw [setAt_ne _ _ _ _ hmk1]; exact hinv.nonneg m hm
      · rw [hfm, hmk]; exact hinc
      · intro v hv
        rw [hfm]
        have hold := hmove (acc.1.fixedmakespan k + activationdata.jobtimes j) (Or.inl hlb)
        rcases hns with he | ⟨_, he⟩
        · rw [he] at hv; exact hold v hv
        · rw [he] at hv
          simp only [List.mem_append, List.mem_singleton] at hv
          rcases hv with hv | rfl
          · exact hold v hv
          · exact ⟨hy, k, hk, setAt_same _ _ _, Or.inl (by omega)⟩
    | false =>
      cases hub : ubBelowHalf scip (activationdata.matrix j k) with
      | true =>
        rw [machineStepIdeal_zero _ _ _ _ _ h hlb hub]
        exact ⟨hinv.nonneg, hinv.counts, hkeep⟩
      | false =>
        rw [machineStepIdeal_free _ _ _ _ _ h hlb hub]
        refine ⟨?_, hdec, hmove (-1) (Or.inr hub)⟩
        intro m hm
        show setAt acc.1.fixedmakespan k (-1) m = -1 ∨ 0 ≤ setAt acc.1.fixedmakespan k (-1) m
        by_cases hmk1 : m = k
        · subst hmk1; rw [setAt_same]; exact Or.inl rfl
        · rw [setAt_ne _ _ _ _ hmk1]; exact hinv.nonneg m hm

theorem machinesUpToIdeal_countInv (scip : SCIP) (activationdata : ACTIVATIONDATA) (j : Nat)
    (st : MakespanState) (hj : 0 ≤ activationdata.jobtimes j)
    (hmax : (activationdata.nmachines : Int) ≤ INT_MAX)
    (hinv : CountInv scip activationdata j 0 st) (k : Nat)
    (hk : k ≤ activationdata.nmachines) :
    CountInv scip activationdata j k (machinesUpToIdeal scip activationdata j st k).1 := by
  induction k with
  | zero => simpa [machinesUpToIdeal] using hinv
  | succ k ih =>
    rw [machinesUpToIdeal_succ]
    exact machineStepIdeal_countInv scip activationdata j k _ (by omega) hj hmax (ih (by omega))

theorem candidateCols_full (activationdata : ACTIVATIONDATA) (fixedmakespan : Nat → Int)
    (makespans : SCIP_HASHMAP) (v : Int) (hv : 0 ≤ v)
    (hc : CountsOk activationdata fixedmakespan makespans)
    (hw : ∃ i < activationdata.nmachines, fixedmakespan i = v) :
    SCIPhashmapGetImageInt makespans v = (machineCount activationdata fixedmakespan v : Int) ∧
    candidateCols activationdata fixedmakespan v (SCIPhashmapGetImageInt makespans v) =
      (List.range activationdata.nmachines).filter (fun i => fixedmakespan i = v) ∧
    (candidateCols activationdata fixedmakespan v
      (SCIPhashmapGetImageInt makespans v)).length =
      machineCount activationdata fixedmakespan v := by
  obtain ⟨i, hi, hfi⟩ := hw
  have hpos := machineCount_pos activationdata fixedmakespan i hi
  rw [hfi] at hpos
  have hne : ¬ machineCount activationdata fixedmakespan v = 0 := by omega
  have hget : SCIPhashmapGetImageInt makespans v =
      (machineCount activationdata fixedmakespan v : Int) := by
    simp [SCIPhashmapGetImageInt, hc v hv, countEntry, hne]
  have hlen : ((List.range activationdata.nmachines).filter
      (fun i => decide (fixedmakespan i = v))).length =
      machineCount activationdata fixedmakespan v := by
    rw [machineCount, List.countP_eq_length_filter]
  have hcols : candidateCols activationdata fixedmakespan v
      (SCIPhashmapGetImageInt makespans v) =
      (List.range activationdata.nmachines).filter (fun i => fixedmakespan i = v) := by
    rw [hget, candidateCols]
    apply List.take_of_length_le
    rw [hlen]
    simp
  exact ⟨hget, hcols, by rw [hcols, hlen]⟩

theorem processCandidatesIdeal_countInv (scip : SCIP) (activationdata : ACTIVATIONDATA) (j i : Nat)
    (st : MakespanState)
    (hcons : ∀ m < activationdata.nmachines,
      scip.lbLocal (activationdata.matrix j m) ≤ scip.ubLocal (activationdata.matrix j m))
    (hinv : CountInv scip activationdata i activationdata.nmachines st) :
    ∃ st1, processCandidatesIdeal scip activationdata j st = some st1 ∧
      CountInv scip activationdata j 0 st1 := by
  cases hns : st.newsymmakespans with
  | nil =>
    refine ⟨st, by simp [processCandidatesIdeal, hns], hinv.nonneg, hinv.counts, ?_⟩
    intro v hv
    simp [hns] at hv
  | cons value values =>
    have hfold := foldSteps_invariant
      (fun acc : List Int × List SCIP_ACTIVATIONSUBMATRIX =>
        ∀ v ∈ acc.1, v ∈ st.newsymmakespans ∧
          ∀ m < activationdata.nmachines, st.fixedmakespan m = v →
            ubAboveHalf scip (activationdata.matrix j m) = false)
      (candidateStepIdeal scip activationdata j st.fixedmakespan st.makespans)
      (value :: values) ([], st.submatrix) (by simp)
      (by
        intro acc v hv hacc
        rw [← hns] at hv
        obtain ⟨hv0, w, hw, hfw, _⟩ := hinv.holder v hv
        obtain ⟨hget, hcols, hlen⟩ := candidateCols_full activationdata st.fixedmakespan
          st.makespans v hv0 hinv.counts ⟨w, hw, hfw⟩
        rw [candidateStepIdeal_eq]
        have hlt : ¬ ((candidateRecord activationdata j st.fixedmakespan st.makespans
            v).cols.length : Int) < SCIPhashmapGetImageInt st.makespans v := by
          have hlen1 : (candidateRecord activationdata j st.fixedmakespan st.makespans
              v).cols.length = machineCount activationdata st.fixedmakespan v := hlen
          rw [hlen1, hget]
          omega
        rw [if_neg hlt]
        split_ifs with hall
        · refine ⟨_, rfl, ?_⟩
          intro u hu
          simp only [List.mem_append, List.mem_singleton] at hu
          rcases hu with hu | rfl
          · exact hacc u hu
          · refine ⟨hv, ?_⟩
            intro m hm hfm
            simp only [candidateRecord, hcols, List.all_eq_true, List.mem_filter,
              List.mem_range, decide_eq_true_eq, Bool.not_eq_true', and_imp] at hall
            exact hall m hm hfm
        · exact ⟨_, rfl, hacc⟩)
    obtain ⟨acc, hacc, hP⟩ := hfold
    refine ⟨{ st with newsymmakespans := acc.1, submatrix := acc.2 }, ?_,
      hinv.nonneg, hinv.counts, ?_⟩
    · simp only [processCandidatesIdeal, hns, hacc]
    · intro v hv
      obtain ⟨hvin, hzero⟩ := hP v hv
      obtain ⟨hv0, w, hw, hfw, _⟩ := hinv.holder v hvin
      refine ⟨hv0, w, hw, hfw, Or.inr ?_⟩
      have hub := hzero w hw hfw
      have hc := hcons w hw
      simp only [ubAboveHalf, decide_eq_false_iff_not] at hub
      constructor
      · simp only [lbAboveHalf, decide_eq_false_iff_not]; omega
      · simp only [ubBelowHalf, decide_eq_true_eq]; omega

theorem scanRowsIdeal_isSome (scip : SCIP) (activationdata : ACTIVATIONDATA)
    (hdur : ∀ j < activationdata.njobs, 0 ≤ activationdata.jobtimes j)
    (hcons : ∀ j < activationdata.njobs, ∀ m < activationdata.nmachines,
      scip.lbLocal (activationdata.matrix j m) ≤ scip.ubLocal (activationdata.matrix j m))
    (hmax : (activationdata.nmachines : Int) ≤ INT_MAX) (k : Nat) :
    ∀ (j i : Nat) (st : MakespanState), j + k = activationdata.njobs →
      CountInv scip activationdata i activationdata.nmachines st →
      ∃ st1, scanRowsIdeal scip activationdata (List.range' j k) st = some st1 := by
  induction k with
  | zero =>
    intro j i st _ _
    exact ⟨st, by simp [scanRowsIdeal]⟩
  | succ k ih =>
    intro j i st hjk hinv
    obtain ⟨st1, hst1, hinv1⟩ := processCandidatesIdeal_countInv scip activationdata j i st
      (hcons j (by omega)) hinv
    have hinv2 := machinesUpToIdeal_countInv scip activationdata j st1 (hdur j (by omega)) hmax
      hinv1 activationdata.nmachines (le_refl _)
    rw [List.range'_succ, scanRowsIdeal, hst1]
    simp only
    split_ifs with hall
    · exact ⟨_, rfl⟩
    · exact ih (j + 1) j _ (by omega) hinv2

theorem makespanInit_countInv (scip : SCIP) (activationdata : ACTIVATIONDATA)
    (hpos : 0 < activationdata.nmachines) :
    CountInv scip activationdata 0 activationdata.nmachines (makespanInit activationdata) := by
  refine ⟨?_, ?_, ?_⟩
  · intro m _
    right
    simp [makespanInit]
  · intro v hv
    by_cases hv0 : v = 0
    · subst hv0
      have : machineCount activationdata (fun _ => (0 : Int)) 0 = activationdata.nmachines := by
        simp [machineCount]
      simp only [makespanInit, this, countEntry, SCIPhashmapInsertInt]
      have hne : ¬ activationdata.nmachines = 0 := by omega
      simp [hne]
    · have hne : ¬ (0 : Int) = v := fun e => hv0 e.symm
      have : machineCount activationdata (fun _ => (0 : Int)) v = 0 := by
        simp [machineCount, hne]
      simp [makespanInit, this, countEntry, SCIPhashmapInsertInt, hv0]
  · intro v hv
    simp [makespanInit] at hv

theorem findSubSymmetriesIdeal_isSome (scip : SCIP) (activationdata : ACTIVATIONDATA)
    (hdur : ∀ j < activationdata.njobs, 0 ≤ activationdata.jobtimes j)
    (hcons : ∀ j < activationdata.njobs, ∀ m < activationdata.nmachines,
      scip.lbLocal (activationdata.matrix j m) ≤ scip.ubLocal (activationdata.matrix j m))
    (hmax : (activationdata.nmachines : Int) ≤ INT_MAX) :
    ∃ res, findSubSymmetriesIdeal scip activationdata = some res := by
  have hscan : ∃ st1, scanRowsIdeal scip activationdata (List.range activationdata.njobs)
      (makespanInit activationdata) = some st1 := by
    by_cases hpos : 0 < activationdata.nmachines
    · rw [List.range_eq_range']
      exact scanRowsIdeal_isSome scip activationdata hdur hcons hmax activationdata.njobs 0 0 _
        (by omega) (makespanInit_countInv scip activationdata hpos)
    · have hzero : activationdata.nmachines = 0 := by omega
      cases hrows : List.range activationdata.njobs with
      | nil => exact ⟨makespanInit activationdata, by simp [scanRowsIdeal]⟩
      | cons j later =>
        refine ⟨makespanInit activationdata, ?_⟩
        simp [scanRowsIdeal, processCandidatesIdeal, makespanInit, updateMachinesIdeal, hzero]
  obtain ⟨st1, hst1⟩ := hscan
  exact ⟨st1.submatrix, by simp [findSubSymmetriesIdeal, hst1]⟩

/-! ## Makespan detector: records and the test on their first row -/

theorem updateMachinesIdeal_eq (scip : SCIP) (activationdata : ACTIVATIONDATA) (j : Nat)
    (st : MakespanState) :
    updateMachinesIdeal scip activationdata j st =
      machinesUpToIdeal scip activationdata j st activationdata.nmachines := rfl

theorem processCandidatesIdeal_emitted (scip : SCIP) (activationdata : ACTIVATIONDATA)
    (R : SCIP_ACTIVATIONSUBMATRIX → Prop) (j : Nat) (st st1 : MakespanState)
    (hR : ∀ value,
      ¬ ((candidateRecord activationdata j st.fixedmakespan st.makespans value).cols.all
        (fun c => !(ubAboveHalf scip (activationdata.matrix j c))) = true) →
      R (candidateRecord activationdata j st.fixedmakespan st.makespans value))
    (hout : ∀ r ∈ st.submatrix, R r)
    (h : processCandidatesIdeal scip activationdata j st = some st1) :
    ∀ r ∈ st1.submatrix, R r := by
  cases hns : st.newsymmakespans with
  | nil =>
    simp only [processCandidatesIdeal, hns, Option.some.injEq] at h
    subst h
    exact hout
  | cons value values =>
    simp only [processCandidatesIdeal, hns] at h
    cases hfold : foldSteps
        (candidateStepIdeal scip activationdata j st.fixedmakespan st.makespans)
        (value :: values) ([], st.submatrix) with
    | none => simp [hfold] at h
    | some acc =>
      simp only [hfold, Option.some.injEq] at h
      subst h
      exact foldSteps_sound
        (fun acc : List Int × List SCIP_ACTIVATIONSUBMATRIX => ∀ r ∈ acc.2, R r)
        _ _ _ _ hout
        (by
          intro b a b2 _ hb hstep
          rw [candidateStepIdeal_eq] at hstep
          split_ifs at hstep with h1 h2
          · simp only [Option.some.injEq] at hstep
            subst hstep
            exact hb
          · simp only [Option.some.injEq] at hstep
            subst hstep
            intro r hr
            simp only [List.mem_cons] at hr
            rcases hr with rfl | hr
            · exact hR a h2
            · exact hb r hr)
        hfold

theorem scanRowsIdeal_emitted (scip : SCIP) (activationdata : ACTIVATIONDATA)
    (R : SCIP_ACTIVATIONSUBMATRIX → Prop)
    (hR : ∀ j < activationdata.njobs, ∀ fixedmakespan makespans value,
      ¬ ((candidateRecord activationdata j fixedmakespan makespans value).cols.all
        (fun c => !(ubAboveHalf scip (activationdata.matrix j c))) = true) →
      R (candidateRecord activationdata j fixedmakespan makespans value))
    (rows : List Nat) :
    ∀ (st st1 : MakespanState), (∀ j ∈ rows, j < activationdata.njobs) →
      (∀ r ∈ st.submatrix, R r) →
      scanRowsIdeal scip activationdata rows st = some st1 → ∀ r ∈ st1.submatrix, R r := by
  induction rows with
  | nil =>
    intro st st1 _ hout h
    simp only [scanRowsIdeal, Option.some.injEq] at h
    subst h
    exact hout
  | cons j later ih =>
    intro st st1 hrows hout h
    rw [scanRowsIdeal] at h
    cases hpc : processCandidatesIdeal scip activationdata j st with
    | none => simp [hpc] at h
    | some st2 =>
      simp only [hpc] at h
      have hout2 := processCandidatesIdeal_emitted scip activationdata R j st st2
        (fun value => hR j (hrows j (by simp)) _ _ value) hout hpc
      have hout3 : ∀ r ∈ (updateMachinesIdeal scip activationdata j st2).1.submatrix, R r := by
        rw [updateMachinesIdeal_eq, machinesUpToIdeal_submatrix]
        exact hout2
      split_ifs at h with hall
      · simp only [Option.some.injEq] at h
        subst h
        exact hout3
      · exact ih _ st1 (fun i hi => hrows i (by simp [hi])) hout3 h

theorem findSubSymmetriesIdeal_firstRowOpen (scip : SCIP) (activationdata : ACTIVATIONDATA)
    (res : List SCIP_ACTIVATIONSUBMATRIX)
    (h : findSubSymmetriesIdeal scip activationdata = some res) :
    ∀ r ∈ res, FirstRowOpen scip activationdata r := by
  simp only [findSubSymmetriesIdeal, Option.map_eq_some'] at h
  obtain ⟨st1, hst1, rfl⟩ := h
  apply scanRowsIdeal_emitted scip activationdata (FirstRowOpen scip activationdata) ?_ _ _ st1
    (fun j hj => List.mem_range.mp hj) ?_ hst1
  · intro j hj fixedmakespan makespans value hall
    refine ⟨j, rowsFrom_head j _ (by omega), hj, ?_⟩
    simp only [List.all_eq_true, Bool.not_eq_true', not_forall, Bool.not_eq_false,
      exists_prop] at hall
    exact hall
  · intro r hr
    simp [makespanInit] at hr

/-! ## Makespan detector: nothing fixed -/

theorem scanRowsIdeal_free (scip : SCIP) (activationdata : ACTIVATIONDATA)
    (hfree : ∀ j < activationdata.njobs, ∀ m < activationdata.nmachines,
      ubBelowHalf scip (activationdata.matrix j m) = false ∧
      lbAboveHalf scip (activationdata.matrix j m) = false)
    (rows : List Nat) :
    ∀ (st : MakespanState), (∀ j ∈ rows, j < activationdata.njobs) →
      st.newsymmakespans = [] → st.submatrix = [] →
      ∃ st1, scanRowsIdeal scip activationdata rows st = some st1 ∧ st1.submatrix = [] := by
  induction rows with
  | nil =>
    intro st _ _ hout
    exact ⟨st, rfl, hout⟩
  | cons j later ih =>
    intro st hrows hns hout
    have hj : j < activationdata.njobs := hrows j (by simp)
    have hpc : processCandidatesIdeal scip activationdata j st = some st := by
      simp [processCandidatesIdeal, hns]
    have hout2 : (updateMachinesIdeal scip activationdata j st).1.submatrix = [] := by
      rw [updateMachinesIdeal_eq, machinesUpToIdeal_submatrix, hout]
    have hns2 : (updateMachinesIdeal scip activationdata j st).1.newsymmakespans = [] := by
      rw [List.eq_nil_iff_forall_not_mem]
      intro v hv
      rw [updateMachinesIdeal_eq] at hv
      rcases machinesUpToIdeal_newsymmakespans scip activationdata j st _ v hv with h | h
      · simp [hns] at h
      · obtain ⟨m, hm, _, hlb, _⟩ := h
        rw [(hfree j hj m hm).2] at hlb
        exact Bool.noConfusion hlb
    rw [scanRowsIdeal, hpc]
    simp only
    split_ifs with hall
    · exact ⟨_, rfl, hout2⟩
    · exact ih _ (fun i hi => hrows i (by simp [hi])) hns2 hout2

theorem findSubSymmetriesIdeal_free (scip : SCIP) (activationdata : ACTIVATIONDATA)
    (hfree : ∀ j < activationdata.njobs, ∀ m < activationdata.nmachines,
      ubBelowHalf scip (activationdata.matrix j m) = false ∧
      lbAboveHalf scip (activationdata.matrix j m) = false) :
    findSubSymmetriesIdeal scip activationdata = some [] := by
  obtain ⟨st1, hst1, hout⟩ := scanRowsIdeal_free scip activationdata hfree
    (List.range activationdata.njobs) (makespanInit activationdata)
    (fun j hj => List.mem_range.mp hj) rfl rfl
  simp [findSubSymmetriesIdeal, hst1, hout]

/-! ## Component detector: the three detectors -/

theorem findColorPairsComponents_ascending (scip : SCIP) (graphdata : GRAPHDATA)
    (hadj : AdjacencyInRange graphdata) :
    ∃ res, findColorPairsComponents scip graphdata = some res ∧
      ∀ r ∈ res, RowsAscending graphdata r :=
  foldSteps_invariant (fun out => ∀ r ∈ out, RowsAscending graphdata r) _ _ []
    (by simp) (fun out c _ hout => componentsOf_ascending graphdata hadj _ _ _ out hout)

theorem findInvertedColorPairsComponents_ascending (scip : SCIP) (graphdata : GRAPHDATA)
    (hadj : AdjacencyInRange graphdata) :
    ∃ res, findInvertedColorPairsComponents scip graphdata = some res ∧
      ∀ r ∈ res, RowsAscending graphdata r :=
  foldSteps_invariant (fun out => ∀ r ∈ out, RowsAscending graphdata r) _ _ []
    (by simp) (fun out c _ hout => componentsOf_ascending graphdata hadj _ _ _ out hout)

theorem findInvertedSingleColorComponents_ascending (scip : SCIP) (graphdata : GRAPHDATA)
    (hadj : AdjacencyInRange graphdata) :
    ∃ res, findInvertedSingleColorComponents scip graphdata = some res ∧
      ∀ r ∈ res, RowsAscending graphdata r :=
  foldSteps_invariant (fun out => ∀ r ∈ out, RowsAscending graphdata r) _ _ []
    (by simp) (fun out c _ hout => componentsOf_ascending graphdata hadj _ _ _ out hout)

theorem foldSteps_fixed {α β : Type} (f : β → α → Option β) (l : List α) (b : β)
    (h : ∀ a ∈ l, f b a = some b) : foldSteps f l b = some b := by
  obtain ⟨b1, h1, h2⟩ := foldSteps_invariant (fun x => x = b) f l b rfl
    (fun b2 a ha hb2 => ⟨b, by rw [hb2]; exact h a ha, rfl⟩)
  rw [h1, h2]

theorem components_free (scip : SCIP) (graphdata : GRAPHDATA)
    (hfree : ∀ i < graphdata.nvertices, ∀ c < graphdata.ncolors,
      ubBelowHalf scip (graphdata.matrix i c) = false ∧
      lbAboveHalf scip (graphdata.matrix i c) = false) :
    findColorPairsComponents scip graphdata = some [] ∧
    findInvertedSingleColorComponents scip graphdata = some [] ∧
    findInvertedColorPairsComponents scip graphdata = some [] := by
  refine ⟨?_, ?_, ?_⟩
  · apply foldSteps_fixed
    intro c hc
    obtain ⟨h1, h2, _⟩ := mem_colorPairs graphdata c hc
    apply componentsOf_nothing_removed
    intro i hi
    simp [removedColorPair, (hfree i hi c.1 (by omega)).1]
  · apply foldSteps_fixed
    intro c hc
    apply componentsOf_nothing_removed
    intro i hi
    simp [removedInvertedSingle, (hfree i hi c (List.mem_range.mp hc)).2]
  · apply foldSteps_fixed
    intro c hc
    obtain ⟨h1, h2, _⟩ := mem_colorPairs graphdata c hc
    apply componentsOf_nothing_removed
    intro i hi
    simp [removedInvertedPair, (hfree i hi c.1 (by omega)).2, (hfree i hi c.2 h2).2]

theorem dfsStep_reach (graphdata : GRAPHDATA) (hadj : AdjacencyInRange graphdata)
    (removed : Nat → Bool) (startvertex : Nat) (st : DfsState)
    (hinv : DfsInv graphdata st) (hreach : DfsReach graphdata removed startvertex st)
    (hne : st.dfsstack ≠ []) :
    DfsReach graphdata removed startvertex (dfsStep graphdata st) := by
  cases hs : st.dfsstack with
  | nil => exact absurd hs hne
  | cons i rest =>
    have hi : i < graphdata.nvertices := hinv.stack_lt i (by simp [hs])
    have hic : i ∈ st.component := hreach.stack_sub i (by simp [hs])
    cases hf : (graphdata.adjacencies i).find? (fun v => st.removedvertices v == false) with
    | none =>
      have he : dfsStep graphdata st = { st with dfsstack := rest } := by
        simp only [dfsStep, hs, hf]
      rw [he]
      refine ⟨hreach.removed_iff, hreach.component_joined, hreach.start_mem, ?_, ?_⟩
      · intro k hk
        exact hreach.stack_sub k (by simp [hs, hk])
      · intro v hv hvs w hw
        show st.removedvertices w = true
        by_cases hvi : v = i
        · subst hvi
          have := List.find?_eq_none.mp hf w hw
          simpa using this
        · exact hreach.closed v hv (by simp [hs, hvi]; exact hvs) w hw
    | some v =>
      have he : dfsStep graphdata st =
          { removedvertices := setAt st.removedvertices v true,
            dfsstack := v :: i :: rest,
            component := st.component ++ [v] } := by
        simp only [dfsStep, hs, hf]
      have hvfalse : st.removedvertices v = false := by
        simpa using List.find?_some hf
      have hvadj : v ∈ graphdata.adjacencies i := List.mem_of_find?_eq_some hf
      have hv : v < graphdata.nvertices := hadj i hi v hvadj
      have hvrem : removed v = false := by
        cases h : removed v with
        | false => rfl
        | true =>
          have := (hreach.removed_iff v).mpr (Or.inl h)
          rw [hvfalse] at this
          exact Bool.noConfusion this
      rw [he]
      refine ⟨?_, ?_, ?_, ?_, ?_⟩
      · intro k
        show setAt st.removedvertices v true k = true ↔ _
        by_cases hkv : k = v
        · subst hkv
          simp [setAt_same]
        · rw [setAt_ne _ _ _ _ hkv, hreach.removed_iff k]
          simp [hkv]
      · intro k hk
        simp only [List.mem_append, List.mem_singleton] at hk
        rcases hk with hk | rfl
        · exact hreach.component_joined k hk
        · refine ⟨hvrem, ?_⟩
          have hij := hreach.component_joined i hic
          exact Relation.ReflTransGen.tail hij.2 ⟨hi, hv, hij.1, hvrem, hvadj⟩
      · simp [hreach.start_mem]
      · intro k hk
        simp only [List.mem_cons] at hk
        simp only [List.mem_append, List.mem_singleton]
        rcases hk with rfl | rfl | hk
        · exact Or.inr rfl
        · exact Or.inl hic
        · exact Or.inl (hreach.stack_sub k (by simp [hs, hk]))
      · intro k hk hks w hw
        show setAt st.removedvertices v true w = true
        simp only [List.mem_cons, not_or] at hks
        simp only [List.mem_append, List.mem_singleton] at hk
        rcases hk with hk | rfl
        · have := hreach.closed k hk (by simp [hs]; exact ⟨hks.2.1, hks.2.2⟩) w hw
          by_cases hwv : w = v
          · subst hwv; exact setAt_same _ _ _
          · rw [setAt_ne _ _ _ _ hwv]; exact this
        · exact absurd rfl hks.1

theorem dfsWhile_some (graphdata : GRAPHDATA) (P : DfsState → Prop)
    (hstep : ∀ st, P st → st.dfsstack ≠ [] → P (dfsStep graphdata st)) (fuel : Nat) :
    ∀ st st1 : DfsState, P st → dfsWhile graphdata fuel st = some st1 →
      P st1 ∧ st1.dfsstack = [] := by
  induction fuel with
  | zero =>
    intro st st1 hP h
    by_cases hs : st.dfsstack = []
    · rw [dfsWhile_nil graphdata 0 st hs] at h
      simp only [Option.some.injEq] at h
      subst h
      exact ⟨hP, hs⟩
    · cases hst : st.dfsstack with
      | nil => exact absurd hst hs
      | cons i rest =>
        rw [dfsWhile] at h
        simp [hst] at h
  | succ fuel ih =>
    intro st st1 hP h
    by_cases hs : st.dfsstack = []
    · rw [dfsWhile_nil graphdata _ st hs] at h
      simp only [Option.some.injEq] at h
      subst h
      exact ⟨hP, hs⟩
    · rw [dfsWhile_succ graphdata fuel st hs] at h
      exact ih _ st1 (hstep st hP hs) h

theorem dfsFrom_result (graphdata : GRAPHDATA) (hadj : AdjacencyInRange graphdata)
    (removed : Nat → Bool) (startvertex : Nat)
    (hlt : startvertex < graphdata.nvertices) (hfalse : removed startvertex = false) :
    ∃ st, dfsFrom graphdata removed startvertex = some st ∧
      DfsResult graphdata removed startvertex st := by
  obtain ⟨st, hst, _⟩ := dfsFrom_isSome graphdata hadj removed startvertex hlt hfalse
  refine ⟨st, hst, ?_⟩
  have h0inv : DfsInv graphdata
      { removedvertices := setAt removed startvertex true, dfsstack := [startvertex],
        component := [startvertex] } := by
    refine ⟨?_, List.nodup_singleton _, ?_, ?_⟩
    · intro i hi
      simp only [List.mem_singleton] at hi
      exact hi ▸ hlt
    · intro i hi
      simp only [List.mem_singleton] at hi
      exact hi ▸ hlt
    · intro i hi
      simp only [List.mem_singleton] at hi
      subst hi
      exact setAt_same _ _ _
  have h0reach : DfsReach graphdata removed startvertex
      { removedvertices := setAt removed startvertex true, dfsstack := [startvertex],
        component := [startvertex] } := by
    refine ⟨?_, ?_, by simp, by simp, ?_⟩
    · intro k
      show setAt removed startvertex true k = true ↔ _
      by_cases hk : k = startvertex
      · subst hk; simp [setAt_same]
      · rw [setAt_ne _ _ _ _ hk]; simp [hk]
    · intro k hk
      simp only [List.mem_singleton] at hk
      subst hk
      exact ⟨hfalse, Relation.ReflTransGen.refl⟩
    · intro k hk hks
      simp only [List.mem_singleton] at hk hks
      exact absurd hk hks
  obtain ⟨⟨hinv, hreach⟩, hnil⟩ := dfsWhile_some graphdata
    (fun s => DfsInv graphdata s ∧ DfsReach graphdata removed startvertex s)
    (fun s hs hne => ⟨(dfsStep_inv graphdata hadj s hs.1 hne).1,
      dfsStep_reach graphdata hadj removed startvertex s hs.1 hs.2 hne⟩)
    _ _ st ⟨h0inv, h0reach⟩ hst
  exact ⟨hreach.removed_iff, hreach.component_joined, hreach.start_mem, hinv.component_nodup,
    hinv.component_lt, fun v hv w hw => hreach.closed v hv (by simp [hnil]) w hw⟩

theorem mem_SCIPsortInt (a : List Nat) (v : Nat) : v ∈ SCIPsortInt a ↔ v ∈ a :=
  (List.perm_insertionSort (fun x y => x ≤ y) a).mem_iff

theorem head?_of_least (l : List Nat) (k : Nat) (hsorted : l.Pairwise (fun x y => x < y))
    (hk : k ∈ l) (hleast : ∀ v ∈ l, k ≤ v) : l.head? = some k := by
  cases l with
  | nil => simp at hk
  | cons a t =>
    simp only [List.head?_cons, Option.some.injEq]
    simp only [List.mem_cons] at hk
    rcases hk with rfl | hk
    · rfl
    · have h1 := (List.pairwise_cons.mp hsorted).1 k hk
      have h2 := hleast a (by simp)
      omega

theorem componentsLoop_records (graphdata : GRAPHDATA) (hadj : AdjacencyInRange graphdata)
    (wholegraphtest : Bool) (cols : List Nat) (remove : Nat → Bool) (m : Nat) :
    ∀ (k : Nat) (removedvertices : Nat → Bool) (submatrix : List SCIP_ACTIVATIONSUBMATRIX),
      k + m = graphdata.nvertices →
      (∀ v, remove v = true → removedvertices v = true) →
      (∀ u < k, removedvertices u = true) →
      MarkedClosed graphdata remove removedvertices →
      ∃ new, componentsLoop graphdata wholegraphtest cols (List.range' k m) removedvertices
          submatrix = some (new ++ submatrix) ∧
        (∀ r ∈ new, ComponentRecord graphdata remove cols r ∧
          ∀ v ∈ r.rows, removedvertices v = false ∧ k ≤ v) ∧
        new.Pairwise (fun a b => (∀ v ∈ a.rows, v ∉ b.rows) ∧ StartsBefore b a) ∧
        (wholegraphtest = false → ∀ v < graphdata.nvertices, removedvertices v = false →
          ∃ r ∈ new, v ∈ r.rows) ∧
        (AdjacencySymmetric graphdata → ∀ r ∈ new, Isolated graphdata remove r) := by
  induction m with
  | zero =>
    intro k removedvertices submatrix hkm _ hbelow _
    refine ⟨[], by simp [componentsLoop], by simp, List.Pairwise.nil, ?_, by simp⟩
    intro _ v hv hfalse
    rw [hbelow v (by omega)] at hfalse
    exact Bool.noConfusion hfalse
  | succ m ih =>
    intro k removedvertices submatrix hkm hsub hbelow hclosed
    rw [List.range'_succ]
    by_cases hrem : removedvertices k = true
    · rw [componentsLoop_removed _ _ _ _ _ _ _ hrem]
      obtain ⟨new, hnew, hrec, hord, hcov, hiso⟩ := ih (k + 1) removedvertices submatrix
        (by omega) hsub
        (by
          intro u hu
          by_cases huk : u = k
          · subst huk; exact hrem
          · exact hbelow u (by omega))
        hclosed
      refine ⟨new, hnew, ?_, hord, hcov, hiso⟩
      intro r hr
      refine ⟨(hrec r hr).1, fun v hv => ⟨((hrec r hr).2 v hv).1, ?_⟩⟩
      have := ((hrec r hr).2 v hv).2
      omega
    · have hfalse : removedvertices k = false := by simpa using hrem
      have hk : k < graphdata.nvertices := by omega
      obtain ⟨st, hst, hres⟩ := dfsFrom_result graphdata hadj removedvertices k hk hfalse
      rw [componentsLoop_search _ _ _ _ _ _ _ st hfalse hst]
      split_ifs with hwhole
      · refine ⟨[], by simp, by simp, List.Pairwise.nil, ?_, by simp⟩
        intro hw
        rw [hw] at hwhole
        exact absurd hwhole.1 (by simp)
      · -- facts about the component found
        have hcfalse : ∀ v ∈ st.component, removedvertices v = false :=
          fun v hv => (hres.component_joined v hv).1
        have hcrem : ∀ v ∈ st.component, remove v = false := by
          intro v hv
          cases h : remove v with
          | false => rfl
          | true =>
            have := hsub v h
            rw [hcfalse v hv] at this
            exact Bool.noConfusion this
        have hcge : ∀ v ∈ st.component, k ≤ v := by
          intro v hv
          by_contra hlt
          have := hbelow v (by omega)
          rw [hcfalse v hv] at this
          exact Bool.noConfusion this
        have hmono : ∀ v, removedvertices v = true → st.removedvertices v = true :=
          fun v hv => (hres.removed_iff v).mpr (Or.inl hv)
        have hjoin : ∀ v ∈ st.component, Joined graphdata remove k v := by
          intro v hv
          refine Relation.ReflTransGen.mono ?_ (hres.component_joined v hv).2
          intro a b ⟨h1, h2, h3, h4, h5⟩
          refine ⟨h1, h2, ?_, ?_, h5⟩
          · cases h : remove a with
            | false => rfl
            | true =>
              have := hsub a h
              rw [h3] at this
              exact Bool.noConfusion this
          · cases h : remove b with
            | false => rfl
            | true =>
              have := hsub b h
              rw [h4] at this
              exact Bool.noConfusion this
        have hsorted := SCIPsortInt_ascending graphdata st.component hres.component_nodup
          hres.component_lt
        have hhead : (SCIPsortInt st.component).head? = some k :=
          head?_of_least _ k hsorted.1 ((mem_SCIPsortInt _ _).mpr hres.start_mem)
            (fun v hv => hcge v ((mem_SCIPsortInt _ _).mp hv))
        -- the rest of the loop
        obtain ⟨new, hnew, hrec, hord, hcov, hiso⟩ := ih (k + 1) st.removedvertices
          ({ rows := SCIPsortInt st.component, cols := cols,
             orbitopetype := SCIP_ORBITOPETYPE.PACKING } :: submatrix)
          (by omega) (fun v hv => hmono v (hsub v hv))
          (by
            intro u hu
            by_cases huk : u = k
            · subst huk
              exact (hres.removed_iff u).mpr (Or.inr hres.start_mem)
            · exact hmono u (hbelow u (by omega)))
          (by
            intro x hx hxm hxr y hy
            rcases (hres.removed_iff x).mp hxm with h | h
            · exact hmono y (hclosed x hx h hxr y hy)
            · exact hres.closed x h y hy)
        refine ⟨new ++ [(⟨SCIPsortInt st.component, cols, SCIP_ORBITOPETYPE.PACKING⟩ :
          SCIP_ACTIVATIONSUBMATRIX)], by simp [hnew], ?_, ?_, ?_, ?_⟩
        · intro r hr
          simp only [List.mem_append, List.mem_singleton] at hr
          rcases hr with hr | rfl
          · refine ⟨(hrec r hr).1, fun v hv => ?_⟩
            have h1 := (hrec r hr).2 v hv
            refine ⟨?_, by omega⟩
            cases h : removedvertices v with
            | false => rfl
            | true =>
              have := hmono v h
              rw [h1.1] at this
              exact Bool.noConfusion this
          · refine ⟨⟨rfl, rfl, hsorted.1, ?_, k, hhead, ?_⟩, ?_⟩
            · intro v hv
              have hv1 := (mem_SCIPsortInt _ _).mp hv
              exact ⟨hres.component_lt v hv1, hcrem v hv1⟩
            · intro v hv
              exact hjoin v ((mem_SCIPsortInt _ _).mp hv)
            · intro v hv
              have hv1 := (mem_SCIPsortInt _ _).mp hv
              exact ⟨hcfalse v hv1, hcge v hv1⟩
        · rw [List.pairwise_append]
          refine ⟨hord, List.pairwise_singleton _ _, ?_⟩
          intro a ha b hb
          simp only [List.mem_singleton] at hb
          subst hb
          refine ⟨?_, ?_⟩
          · intro v hv hvc
            have h1 := ((hrec a ha).2 v hv).1
            have h2 := (hres.removed_iff v).mpr (Or.inr ((mem_SCIPsortInt _ _).mp hvc))
            rw [h1] at h2
            exact Bool.noConfusion h2
          · intro x y hx hy
            rw [hhead] at hx
            simp only [Option.some.injEq] at hx
            have hy1 : y ∈ a.rows := by
              obtain ⟨t, ht⟩ := List.head?_eq_some_iff.mp hy
              rw [ht]; simp
            have := ((hrec a ha).2 y hy1).2
            omega
        · intro hw v hv hvfalse
          by_cases hvc : v ∈ st.component
          · exact ⟨⟨SCIPsortInt st.component, cols, SCIP_ORBITOPETYPE.PACKING⟩,
              List.mem_append_right _ (List.mem_singleton.mpr rfl),
              (mem_SCIPsortInt _ _).mpr hvc⟩
          · have hst_false : st.removedvertices v = false := by
              cases h : st.removedvertices v with
              | false => rfl
              | true =>
                rcases (hres.removed_iff v).mp h with h1 | h1
                · rw [hvfalse] at h1; exact Bool.noConfusion h1
                · exact absurd h1 hvc
            obtain ⟨r, hr, hvr⟩ := hcov hw v hv hst_false
            exact ⟨r, List.mem_append_left _ hr, hvr⟩
        · intro hsym r hr
          simp only [List.mem_append, List.mem_singleton] at hr
          rcases hr with hr | rfl
          · exact hiso hsym r hr
          · intro v hv u hu hur hadjuv
            have hv1 := (mem_SCIPsortInt _ _).mp hv
            have hvlt := hres.component_lt v hv1
            have huv : u ∈ graphdata.adjacencies v := by
              rcases hadjuv with h | h
              · exact h
              · exact hsym u hu v h
            have hvu : v ∈ graphdata.adjacencies u := hsym v hvlt u huv
            show u ∈ SCIPsortInt st.component
            rw [mem_SCIPsortInt]
            rcases (hres.removed_iff u).mp (hres.closed v hv1 u huv) with h | h
            · have := hclosed u hu h hur v hvu
              rw [hcfalse v hv1] at this
              exact Bool.noConfusion this
            · exact h

theorem componentsOf_records (graphdata : GRAPHDATA) (hadj : AdjacencyInRange graphdata)
    (wholegraphtest : Bool) (cols : List Nat) (remove : Nat → Bool)
    (submatrix : List SCIP_ACTIVATIONSUBMATRIX) :
    ∃ new, componentsOf graphdata wholegraphtest cols remove submatrix =
        some (new ++ submatrix) ∧
      PairRecords graphdata wholegraphtest cols remove new := by
  by_cases hany : (List.range graphdata.nvertices).any remove = false
  · have hnone : ∀ v < graphdata.nvertices, remove v = false := by
      intro v hv
      have := List.any_eq_false.mp hany v (List.mem_range.mpr hv)
      simpa using this
    refine ⟨[], by simp [componentsOf, hany], by simp, List.Pairwise.nil, ?_, fun _ => rfl,
      by simp⟩
    intro _ ⟨u, hu, hur⟩
    rw [hnone u hu] at hur
    exact Bool.noConfusion hur
  · obtain ⟨new, hnew, hrec, hord, hcov, hiso⟩ := componentsLoop_records graphdata hadj
      wholegraphtest cols remove graphdata.nvertices 0 remove submatrix (by omega)
      (fun _ h => h) (by intro u hu; omega)
      (by
        intro x _ hx hxr
        rw [hxr] at hx
        exact Bool.noConfusion hx)
    rw [← List.range_eq_range'] at hnew
    refine ⟨new, by simp only [componentsOf, hany, if_false]; exact hnew,
      fun r hr => (hrec r hr).1, hord, fun hw _ => hcov hw, ?_, hiso⟩
    intro hnone
    exfalso
    apply hany
    rw [List.any_eq_false]
    intro v hv
    simp [hnone v (List.mem_range.mp hv)]

theorem foldSteps_trace {α β : Type} (f : List β → α → Option (List β))
    (Q : α → List β → Prop) (l : List α)
    (h : ∀ a ∈ l, ∀ b, ∃ new, f b a = some (new ++ b) ∧ Q a new) :
    ∀ b, ∃ news : List (List β),
      foldSteps f l b = some (news.reverse.flatten ++ b) ∧ List.Forall₂ Q l news := by
  induction l with
  | nil =>
    intro b
    exact ⟨[], by simp [foldSteps], List.Forall₂.nil⟩
  | cons a l ih =>
    intro b
    obtain ⟨new, hnew, hQ⟩ := h a (by simp) b
    obtain ⟨news, hnews, hall⟩ := ih (fun a1 ha1 => h a1 (by simp [ha1])) (new ++ b)
    refine ⟨new :: news, ?_, List.Forall₂.cons hQ hall⟩
    simp only [foldSteps, hnew, hnews, List.reverse_cons, List.flatten_append,
      List.flatten_cons, List.flatten_nil, List.append_nil, List.append_assoc]

theorem forall₂_of_mem_right {α β : Type} (Q : α → β → Prop) (l : List α) (news : List β)
    (h : List.Forall₂ Q l news) (b : β) (hb : b ∈ news) : ∃ a ∈ l, Q a b := by
  induction h with
  | nil => simp at hb
  | cons hQ _ ih =>
    simp only [List.mem_cons] at hb
    rcases hb with rfl | hb
    · exact ⟨_, by simp, hQ⟩
    · obtain ⟨a, ha, hab⟩ := ih hb
      exact ⟨a, by simp [ha], hab⟩

theorem forall₂_imp {α β : Type} (Q R : α → β → Prop) (l : List α) (news : List β)
    (h : List.Forall₂ Q l news) (himp : ∀ a ∈ l, ∀ b, Q a b → R a b) :
    List.Forall₂ R l news := by
  induction h with
  | nil => exact List.Forall₂.nil
  | cons hQ _ ih =>
    exact List.Forall₂.cons (himp _ (by simp) _ hQ)
      (ih (fun a ha b hab => himp a (by simp [ha]) b hab))

theorem findColorPairsComponents_trace (scip : SCIP) (graphdata : GRAPHDATA)
    (hadj : AdjacencyInRange graphdata) :
    ∃ news, findColorPairsComponents scip graphdata = some news.reverse.flatten ∧
      List.Forall₂ (fun (c : Nat × Nat) new =>
        c ∈ colorPairs graphdata ∧
        PairRecords graphdata true [c.1, c.2] (removedColorPair scip graphdata c.1 c.2) new)
        (colorPairs graphdata) news := by
  obtain ⟨news, h1, h2⟩ := foldSteps_trace
    (fun submatrix (c : Nat × Nat) =>
      componentsOf graphdata true [c.1, c.2]
        (removedColorPair scip graphdata c.1 c.2) submatrix)
    (fun (c : Nat × Nat) new => c ∈ colorPairs graphdata ∧
      PairRecords graphdata true [c.1, c.2] (removedColorPair scip graphdata c.1 c.2) new)
    (colorPairs graphdata)
    (fun c hc b => by
      obtain ⟨new, hnew, hP⟩ := componentsOf_records graphdata hadj true [c.1, c.2]
        (removedColorPair scip graphdata c.1 c.2) b
      exact ⟨new, hnew, hc, hP⟩) []
  exact ⟨news, by simpa [findColorPairsComponents] using h1, h2⟩

theorem findInvertedColorPairsComponents_trace (scip : SCIP) (graphdata : GRAPHDATA)
    (hadj : AdjacencyInRange graphdata) :
    ∃ news, findInvertedColorPairsComponents scip graphdata = some news.reverse.flatten ∧
      List.Forall₂ (fun (c : Nat × Nat) new =>
        c ∈ colorPairs graphdata ∧
        PairRecords graphdata false
          ((List.range graphdata.ncolors).filter (fun c3 => c3 ≠ c.1 ∧ c3 ≠ c.2))
          (removedInvertedPair scip graphdata c.1 c.2) new)
        (colorPairs graphdata) news := by
  obtain ⟨news, h1, h2⟩ := foldSteps_trace
    (fun submatrix (c : Nat × Nat) =>
      componentsOf graphdata false
        ((List.range graphdata.ncolors).filter (fun c3 => c3 ≠ c.1 ∧ c3 ≠ c.2))
        (removedInvertedPair scip graphdata c.1 c.2) submatrix)
    (fun (c : Nat × Nat) new => c ∈ colorPairs graphdata ∧
      PairRecords graphdata false
        ((List.range graphdata.ncolors).filter (fun c3 => c3 ≠ c.1 ∧ c3 ≠ c.2))
        (removedInvertedPair scip graphdata c.1 c.2) new)
    (colorPairs graphdata)
    (fun c hc b => by
      obtain ⟨new, hnew, hP⟩ := componentsOf_records graphdata hadj false
        ((List.range graphdata.ncolors).filter (fun c3 => c3 ≠ c.1 ∧ c3 ≠ c.2))
        (removedInvertedPair scip graphdata c.1 c.2) b
      exact ⟨new, hnew, hc, hP⟩) []
  exact ⟨news, by simpa [findInvertedColorPairsComponents] using h1, h2⟩

theorem findInvertedSingleColorComponents_trace (scip : SCIP) (graphdata : GRAPHDATA)
    (hadj : AdjacencyInRange graphdata) :
    ∃ news, findInvertedSingleColorComponents scip graphdata = some news.reverse.flatten ∧
      List.Forall₂ (fun (c1 : Nat) new =>
        c1 < graphdata.ncolors ∧
        PairRecords graphdata false
          ((List.range graphdata.ncolors).filter (fun c2 => c2 ≠ c1))
          (removedInvertedSingle scip graphdata c1) new)
        (List.range graphdata.ncolors) news := by
  obtain ⟨news, h1, h2⟩ := foldSteps_trace
    (fun submatrix (c1 : Nat) =>
      componentsOf graphdata false
        ((List.range graphdata.ncolors).filter (fun c2 => c2 ≠ c1))
        (removedInvertedSingle scip graphdata c1) submatrix)
    (fun (c1 : Nat) new => c1 < graphdata.ncolors ∧
      PairRecords graphdata false
        ((List.range graphdata.ncolors).filter (fun c2 => c2 ≠ c1))
        (removedInvertedSingle scip graphdata c1) new)
    (List.range graphdata.ncolors)
    (fun c hc b => by
      obtain ⟨new, hnew, hP⟩ := componentsOf_records graphdata hadj false
        ((List.range graphdata.ncolors).filter (fun c2 => c2 ≠ c))
        (removedInvertedSingle scip graphdata c) b
      exact ⟨new, hnew, List.mem_range.mp hc, hP⟩) []
  exact ⟨news, by simpa [findInvertedSingleColorComponents] using h1, h2⟩

theorem joined_symm (graphdata : GRAPHDATA) (hsym : AdjacencySymmetric graphdata)
    (remove : Nat → Bool) (u v : Nat) (h : Joined graphdata remove u v) :
    Joined graphdata remove v u := by
  apply Relation.ReflTransGen.symmetric _ h
  intro a b ⟨h1, h2, h3, h4, h5⟩
  exact ⟨h2, h1, h4, h3, hsym a h1 b h5⟩

theorem pairRecords_component (graphdata : GRAPHDATA) (hsym : AdjacencySymmetric graphdata)
    (wholegraphtest : Bool) (cols : List Nat) (remove : Nat → Bool)
    (new : List SCIP_ACTIVATIONSUBMATRIX)
    (h : PairRecords graphdata wholegraphtest cols remove new) :
    ∀ r ∈ new, ConnectedComponent graphdata remove r.rows := by
  intro r hr
  obtain ⟨_, _, _, hsurv, s, hs, hjoin⟩ := h.records r hr
  refine ⟨?_, hsurv, ?_, h.isolated hsym r hr⟩
  · intro hnil
    rw [hnil] at hs
    simp at hs
  · intro u hu v hv
    exact Relation.ReflTransGen.trans (joined_symm graphdata hsym remove s u (hjoin u hu))
      (hjoin v hv)

theorem pairRecords_startsBefore (graphdata : GRAPHDATA)
    (wholegraphtest : Bool) (cols : List Nat) (remove : Nat → Bool)
    (new : List SCIP_ACTIVATIONSUBMATRIX)
    (h : PairRecords graphdata wholegraphtest cols remove new) :
    new.Pairwise (fun a b => StartsBefore b a) :=
  h.ordered.imp (fun hab => hab.2)

theorem pairRecords_unique (graphdata : GRAPHDATA)
    (wholegraphtest : Bool) (cols : List Nat) (remove : Nat → Bool)
    (new : List SCIP_ACTIVATIONSUBMATRIX)
    (h : PairRecords graphdata wholegraphtest cols remove new) (v : Nat) :
    ∀ r ∈ new, ∀ r1 ∈ new, v ∈ r.rows → v ∈ r1.rows → r1 = r := by
  have hpair : new.Pairwise (fun a b => a ≠ b → ∀ x ∈ a.rows, x ∉ b.rows) :=
    h.ordered.imp (fun hab _ => hab.1)
  have hall := List.Pairwise.forall_of_forall
    (R := fun a b : SCIP_ACTIVATIONSUBMATRIX => a ≠ b → ∀ x ∈ a.rows, x ∉ b.rows)
    (fun a b hab hne x hx hxa => hab (fun e => hne e.symm) x hxa hx)
    (fun a _ hne => absurd rfl hne) hpair
  intro r hr r1 hr1 hv hv1
  by_contra hne
  exact hall hr1 hr hne v hv1 hv

theorem length_filter_ne (n c1 : Nat) (h : c1 < n) :
    ((List.range n).filter (fun c2 => decide (c2 ≠ c1))).length = n - 1 := by
  have := countP_range_update (fun _ => true) (fun c2 => decide (c2 ≠ c1)) n c1 h
    (by intro i hi; simp [hi])
  rw [← List.countP_eq_length_filter]
  have e : (fun c2 => decide (c2 ≠ c1)) = (fun c2 => !decide (c2 = c1)) := by
    funext c2; simp
  rw [e]
  simp at this
  omega

theorem length_filter_ne_ne (n c1 c2 : Nat) (h1 : c1 < c2) (h2 : c2 < n) :
    ((List.range n).filter (fun c3 => decide (c3 ≠ c1 ∧ c3 ≠ c2))).length = n - 2 := by
  have ha := length_filter_ne n c1 (by omega)
  rw [← List.countP_eq_length_filter] at ha
  have := countP_range_update (fun c3 => decide (c3 ≠ c1))
    (fun c3 => decide (c3 ≠ c1 ∧ c3 ≠ c2)) n c2 h2
    (by intro i hi; simp [hi])
  rw [← List.countP_eq_length_filter]
  have hne : c2 ≠ c1 := by omega
  have e1 : (if decide (c2 ≠ c1) = true then 1 else 0) = 1 := by simp [hne]
  have e2 : (if decide (c2 ≠ c1 ∧ c2 ≠ c2) = true then 1 else 0) = 0 := by simp
  rw [e1, e2] at this
  omega

theorem rowsFrom_eq_range' (i nrows : Nat) : rowsFrom i nrows = List.range' i nrows := by
  rw [rowsFrom, List.range_eq_range', List.map_add_range']
  simp

theorem allFixed_succ (scip : SCIP) (activationdata : ACTIVATIONDATA) (j m : Nat) :
    allFixed scip activationdata (j + 1) m =
      (allFixed scip activationdata j m &&
        (lbAboveHalf scip (activationdata.matrix j m) ||
          ubBelowHalf scip (activationdata.matrix j m))) := by
  simp [allFixed, List.range_succ, List.all_append]

theorem machineStepIdeal_counts (scip : SCIP) (activationdata : ACTIVATIONDATA) (j k : Nat)
    (acc : MakespanState × Bool) (hk : k < activationdata.nmachines)
    (hj : 0 ≤ activationdata.jobtimes j)
    (hmax : (activationdata.nmachines : Int) ≤ INT_MAX)
    (hnonneg : ∀ m < activationdata.nmachines,
      acc.1.fixedmakespan m = -1 ∨ 0 ≤ acc.1.fixedmakespan m)
    (hcounts : CountsOk activationdata acc.1.fixedmakespan acc.1.makespans) :
    (∀ m < activationdata.nmachines,
      (machineStepIdeal scip activationdata j acc k).1.fixedmakespan m = -1 ∨
        0 ≤ (machineStepIdeal scip activationdata j acc k).1.fixedmakespan m) ∧
    CountsOk activationdata (machineStepIdeal scip activationdata j acc k).1.fixedmakespan
      (machineStepIdeal scip activationdata j acc k).1.makespans := by
  by_cases h : acc.1.fixedmakespan k = -1
  · rw [machineStepIdeal_undetermined _ _ _ _ _ h]
    exact ⟨hnonneg, hcounts⟩
  · have h0 : 0 ≤ acc.1.fixedmakespan k := by
      rcases hnonneg k hk with h1 | h1
      · exact absurd h1 h
      · exact h1
    have hdec := decreaseCount_ok activationdata acc.1.fixedmakespan acc.1.makespans k hk h0
      hcounts
    cases hlb : lbAboveHalf scip (activationdata.matrix j k) with
    | true =>
      obtain ⟨hfm, hmk, _, _, _, _⟩ := machineStepIdeal_one scip activationdata j k acc h hlb
      have hy : 0 ≤ acc.1.fixedmakespan k + activationdata.jobtimes j := by omega
      have hinc := increaseCount_ok activationdata (setAt acc.1.fixedmakespan k (-1))
        (decreaseCount acc.1.makespans (acc.1.fixedmakespan k)) k
        (acc.1.fixedmakespan k + activationdata.jobtimes j) hk hmax (setAt_same _ _ _) hy hdec
      rw [setAt_setAt] at hinc
      refine ⟨?_, ?_⟩
      · intro m hm
        rw [hfm]
        by_cases hmk1 : m = k
        · subst hmk1; rw [setAt_same]; exact Or.inr hy
        · rw [setAt_ne _ _ _ _ hmk1]; exact hnonneg m hm
      · rw [hfm, hmk]; exact hinc
    | false =>
      cases hub : ubBelowHalf scip (activationdata.matrix j k) with
      | true =>
        rw [machineStepIdeal_zero _ _ _ _ _ h hlb hub]
        exact ⟨hnonneg, hcounts⟩
      | false =>
        rw [machineStepIdeal_free _ _ _ _ _ h hlb hub]
        refine ⟨?_, hdec⟩
        intro m hm
        show setAt acc.1.fixedmakespan k (-1) m = -1 ∨ 0 ≤ setAt acc.1.fixedmakespan k (-1) m
        by_cases hmk1 : m = k
        · subst hmk1; rw [setAt_same]; exact Or.inl rfl
        · rw [setAt_ne _ _ _ _ hmk1]; exact hnonneg m hm

theorem machinesUpToIdeal_counts (scip : SCIP) (activationdata : ACTIVATIONDATA) (j : Nat)
    (st : MakespanState) (hj : 0 ≤ activationdata.jobtimes j)
    (hmax : (activationdata.nmachines : Int) ≤ INT_MAX)
    (hnonneg : ∀ m < activationdata.nmachines, st.fixedmakespan m = -1 ∨ 0 ≤ st.fixedmakespan m)
    (hcounts : CountsOk activationdata st.fixedmakespan st.makespans) (k : Nat)
    (hk : k ≤ activationdata.nmachines) :
    (∀ m < activationdata.nmachines,
      (machinesUpToIdeal scip activationdata j st k).1.fixedmakespan m = -1 ∨
        0 ≤ (machinesUpToIdeal scip activationdata j st k).1.fixedmakespan m) ∧
    CountsOk activationdata (machinesUpToIdeal scip activationdata j st k).1.fixedmakespan
      (machinesUpToIdeal scip activationdata j st k).1.makespans := by
  induction k with
  | zero => simpa [machinesUpToIdeal] using ⟨hnonneg, hcounts⟩
  | succ k ih =>
    rw [machinesUpToIdeal_succ]
    obtain ⟨h1, h2⟩ := ih (by omega)
    exact machineStepIdeal_counts scip activationdata j k _ (by omega) hj hmax h1 h2

theorem updateMachinesIdeal_exactInv (scip : SCIP) (activationdata : ACTIVATIONDATA) (j : Nat)
    (st : MakespanState) (hj : 0 ≤ activationdata.jobtimes j)
    (hmax : (activationdata.nmachines : Int) ≤ INT_MAX)
    (hinv : ExactInv scip activationdata j st) :
    ExactInv scip activationdata (j + 1) (updateMachinesIdeal scip activationdata j st).1 := by
  have hfm := machinesUpToIdeal_fixedmakespan scip activationdata j st activationdata.nmachines
  have hsub := machinesUpToIdeal_submatrix scip activationdata j st activationdata.nmachines
  have hns := machinesUpToIdeal_newsymmakespans scip activationdata j st activationdata.nmachines
  have hnonneg : ∀ m < activationdata.nmachines,
      st.fixedmakespan m = -1 ∨ 0 ≤ st.fixedmakespan m := by
    intro m hm
    rcases hinv.fixed m hm with h | h
    · exact Or.inl h.1
    · exact Or.inr h.1
  refine ⟨?_, ?_, ?_, ?_⟩
  · intro m hm
    have h1 : (updateMachinesIdeal scip activationdata j st).1.fixedmakespan m =
        nextMakespan scip activationdata j m (st.fixedmakespan m) := by
      have := hfm m
      simpa [hm] using this
    rw [h1, allFixed_succ, fixedSum_succ]
    rcases hinv.fixed m hm with ⟨h, hnot⟩ | ⟨h0, hfix, hsum⟩
    · left; simp [nextMakespan, h, hnot]
    · have hne : st.fixedmakespan m ≠ -1 := by omega
      cases hlb : lbAboveHalf scip (activationdata.matrix j m) with
      | true =>
        right
        simp only [nextMakespan, hne, if_false, if_true, hfix, Bool.true_or,
          Bool.and_self, true_and, hlb]
        exact ⟨by omega, by rw [hsum]⟩
      | false =>
        cases hub : ubBelowHalf scip (activationdata.matrix j m) with
        | true =>
          right
          simp only [nextMakespan, hne, if_false, if_true, hfix, Bool.or_true,
            Bool.and_self, true_and, Bool.false_eq_true, hlb, hub]
          exact ⟨h0, by rw [hsum]; simp⟩
        | false =>
          left
          simp [nextMakespan, hne, hlb, hub]
  · exact (machinesUpToIdeal_counts scip activationdata j st hj hmax hnonneg hinv.counts
      activationdata.nmachines (le_refl _)).2
  · intro v hv
    rcases hns v hv with h | ⟨m, hm, hne, _, rfl⟩
    · exact ⟨(hinv.candidates v h).1, by omega⟩
    · rcases hnonneg m hm with h | h
      · exact absurd h hne
      · exact ⟨by omega, by omega⟩
  · intro r hr
    have : (updateMachinesIdeal scip activationdata j st).1.submatrix = st.submatrix := hsub
    rw [this] at hr
    exact hinv.emitted r hr

theorem candidateRecord_exact (scip : SCIP) (activationdata : ACTIVATIONDATA) (j : Nat)
    (st : MakespanState) (hj : j < activationdata.njobs)
    (hinv : ExactInv scip activationdata j st) (value : Int)
    (hvalue : value ∈ st.newsymmakespans)
    (hfull : ¬ (((candidateRecord activationdata j st.fixedmakespan st.makespans
      value).cols.length : Int) < SCIPhashmapGetImageInt st.makespans value)) :
    ExactRecord scip activationdata
      (candidateRecord activationdata j st.fixedmakespan st.makespans value) := by
  obtain ⟨hv0, hj1⟩ := hinv.candidates value hvalue
  have hw : ∃ i < activationdata.nmachines, st.fixedmakespan i = value := by
    by_contra hno
    have hzero : machineCount activationdata st.fixedmakespan value = 0 := by
      rw [machineCount, List.countP_eq_zero]
      intro i hi
      simp only [List.mem_range] at hi
      simp only [decide_eq_true_eq]
      intro e
      exact hno ⟨i, hi, e⟩
    have hget : SCIPhashmapGetImageInt st.makespans value = INT_MAX := by
      simp [SCIPhashmapGetImageInt, hinv.counts value hv0, countEntry, hzero]
    apply hfull
    rw [hget]
    have hlen0 : (candidateRecord activationdata j st.fixedmakespan st.makespans
        value).cols.length = 0 := by
      show (candidateCols activationdata st.fixedmakespan value _).length = 0
      rw [candidateCols, List.length_take]
      have : ((List.range activationdata.nmachines).filter
          (fun i => decide (st.fixedmakespan i = value))).length = 0 := by
        rw [← List.countP_eq_length_filter]; exact hzero
      omega
    rw [hlen0]
    decide
  obtain ⟨hget, hcols, hlen⟩ := candidateCols_full activationdata st.fixedmakespan st.makespans
    value hv0 hinv.counts hw
  have hcols2 : (candidateRecord activationdata j st.fixedmakespan st.makespans value).cols =
      machinesAt scip activationdata j value := by
    show candidateCols activationdata st.fixedmakespan value _ = _
    rw [hcols, machinesAt]
    apply List.filter_congr
    intro m hm
    simp only [List.mem_range] at hm
    rcases hinv.fixed m hm with ⟨h, hnot⟩ | ⟨h0, hfix, hsum⟩
    · have : st.fixedmakespan m ≠ value := by omega
      simp [this, hnot]
    · simp [hfix, hsum]
  refine ⟨j, value, hj1, hj, hv0, ?_, hcols2, ?_⟩
  · show rowsFrom j _ = _
    exact rowsFrom_eq_range' _ _
  · have hlen1 : (candidateRecord activationdata j st.fixedmakespan st.makespans
        value).cols.length = machineCount activationdata st.fixedmakespan value := hlen
    show (if SCIPhashmapGetImageInt st.makespans value = (activationdata.nmachines : Int) then
        SCIP_ORBITOPETYPE.PARTITIONING else SCIP_ORBITOPETYPE.PACKING) = _
    rw [hlen1, hget]
    by_cases e : machineCount activationdata st.fixedmakespan value = activationdata.nmachines
    · simp [e]
    · have : ¬ ((machineCount activationdata st.fixedmakespan value : Int) =
          (activationdata.nmachines : Int)) := by omega
      simp [e, this]

theorem processCandidatesIdeal_exactInv (scip : SCIP) (activationdata : ACTIVATIONDATA) (j : Nat)
    (st st1 : MakespanState) (hj : j < activationdata.njobs)
    (hinv : ExactInv scip activationdata j st)
    (h : processCandidatesIdeal scip activationdata j st = some st1) :
    ExactInv scip activationdata j st1 := by
  cases hns : st.newsymmakespans with
  | nil =>
    simp only [processCandidatesIdeal, hns, Option.some.injEq] at h
    subst h
    exact hinv
  | cons value values =>
    simp only [processCandidatesIdeal, hns] at h
    cases hfold : foldSteps
        (candidateStepIdeal scip activationdata j st.fixedmakespan st.makespans)
        (value :: values) ([], st.submatrix) with
    | none => simp [hfold] at h
    | some acc =>
      simp only [hfold, Option.some.injEq] at h
      subst h
      have hP := foldSteps_sound
        (fun acc : List Int × List SCIP_ACTIVATIONSUBMATRIX =>
          (∀ v ∈ acc.1, v ∈ st.newsymmakespans) ∧
            ∀ r ∈ acc.2, ExactRecord scip activationdata r)
        _ _ _ _ ⟨by simp, hinv.emitted⟩
        (by
          intro b a b2 ha hb hstep
          rw [candidateStepIdeal_eq] at hstep
          split_ifs at hstep with h1 h2
          · simp only [Option.some.injEq] at hstep
            subst hstep
            refine ⟨?_, hb.2⟩
            intro v hv
            simp only [List.mem_append, List.mem_singleton] at hv
            rcases hv with hv | rfl
            · exact hb.1 v hv
            · rw [hns]; exact ha
          · simp only [Option.some.injEq] at hstep
            subst hstep
            refine ⟨hb.1, ?_⟩
            intro r hr
            simp only [List.mem_cons] at hr
            rcases hr with rfl | hr
            · exact candidateRecord_exact scip activationdata j st hj hinv a
                (by rw [hns]; exact ha) h1
            · exact hb.2 r hr)
        hfold
      exact ⟨hinv.fixed, hinv.counts, fun v hv => hinv.candidates v (hP.1 v hv), hP.2⟩

theorem scanRowsIdeal_exactInv (scip : SCIP) (activationdata : ACTIVATIONDATA)
    (hdur : ∀ j < activationdata.njobs, 0 ≤ activationdata.jobtimes j)
    (hmax : (activationdata.nmachines : Int) ≤ INT_MAX) (k : Nat) :
    ∀ (j : Nat) (st st1 : MakespanState), j + k = activationdata.njobs →
      ExactInv scip activationdata j st →
      scanRowsIdeal scip activationdata (List.range' j k) st = some st1 →
      ∀ r ∈ st1.submatrix, ExactRecord scip activationdata r := by
  induction k with
  | zero =>
    intro j st st1 _ hinv h
    simp only [List.range'_zero, scanRowsIdeal, Option.some.injEq] at h
    subst h
    exact hinv.emitted
  | succ k ih =>
    intro j st st1 hjk hinv h
    rw [List.range'_succ, scanRowsIdeal] at h
    cases hpc : processCandidatesIdeal scip activationdata j st with
    | none => simp [hpc] at h
    | some st2 =>
      simp only [hpc] at h
      have hinv2 := processCandidatesIdeal_exactInv scip activationdata j st st2 (by omega) hinv hpc
      have hinv3 := updateMachinesIdeal_exactInv scip activationdata j st2 (hdur j (by omega)) hmax
        hinv2
      split_ifs at h with hall
      · simp only [Option.some.injEq] at h
        subst h
        exact hinv3.emitted
      · exact ih (j + 1) _ st1 (by omega) hinv3 h

theorem findSubSymmetriesIdeal_noMachines (scip : SCIP) (activationdata : ACTIVATIONDATA)
    (hzero : activationdata.nmachines = 0) :
    findSubSymmetriesIdeal scip activationdata = some [] := by
  cases hrows : List.range activationdata.njobs with
  | nil => simp [findSubSymmetriesIdeal, hrows, scanRowsIdeal, makespanInit]
  | cons j later =>
    simp [findSubSymmetriesIdeal, hrows, scanRowsIdeal, processCandidatesIdeal, makespanInit, updateMachinesIdeal,
      hzero]

theorem findSubSymmetriesIdeal_exact (scip : SCIP) (activationdata : ACTIVATIONDATA)
    (hdur : ∀ j < activationdata.njobs, 0 ≤ activationdata.jobtimes j)
    (hmax : (activationdata.nmachines : Int) ≤ INT_MAX)
    (res : List SCIP_ACTIVATIONSUBMATRIX)
    (h : findSubSymmetriesIdeal scip activationdata = some res) :
    ∀ r ∈ res, ExactRecord scip activationdata r := by
  by_cases hpos : 0 < activationdata.nmachines
  · simp only [findSubSymmetriesIdeal, Option.map_eq_some'] at h
    obtain ⟨st1, hst, rfl⟩ := h
    rw [List.range_eq_range'] at hst
    refine scanRowsIdeal_exactInv scip activationdata hdur hmax activationdata.njobs 0 _ st1
      (by omega) ?_ hst
    refine ⟨?_, (makespanInit_countInv scip activationdata hpos).counts, ?_, ?_⟩
    · intro m _
      right
      simp [makespanInit, allFixed, fixedSum]
    · intro v hv
      simp [makespanInit] at hv
    · intro r hr
      simp [makespanInit] at hr
  · rw [findSubSymmetriesIdeal_noMachines scip activationdata (by omega)] at h
    simp only [Option.some.injEq] at h
    subst h
    intro r hr
    simp at hr

theorem SCIPactivationhdlrInit_okay {κ σ : Type} (cb : Callbacks κ σ)
    (hrec : ∀ f h w, (cb.call f h w).2.1 = h)
    (activationhdlr : SCIP_ACTIVATIONHDLR κ) (set : σ)
    (hok : (SCIPactivationhdlrInit cb activationhdlr set).1 = SCIP_RETCODE.SCIP_OKAY) :
    activationhdlr.initialized = false ∧
      (SCIPactivationhdlrInit cb activationhdlr set).2.1 =
        { activationhdlr with initialized := true } := by
  cases hi : activationhdlr.initialized with
  | true => simp [SCIPactivationhdlrInit, hi] at hok
  | false =>
    refine ⟨rfl, ?_⟩
    cases hcb : activationhdlr.activationinit with
    | none => simp only [SCIPactivationhdlrInit, hi, hcb]; rfl
    | some f =>
      by_cases hf : (cb.call f activationhdlr set).1 = SCIP_RETCODE.SCIP_OKAY
      · simp only [SCIPactivationhdlrInit, hi, hcb, hf, ne_eq, not_true_eq_false, if_false,
          Bool.false_eq_true]
        rw [hrec, hcb]
      · simp [SCIPactivationhdlrInit, hi, hcb, hf] at hok

theorem SCIPactivationhdlrInit_failed {κ σ : Type} (cb : Callbacks κ σ)
    (hrec : ∀ f h w, (cb.call f h w).2.1 = h)
    (activationhdlr : SCIP_ACTIVATIONHDLR κ) (set : σ)
    (hfail : (SCIPactivationhdlrInit cb activationhdlr set).1 ≠ SCIP_RETCODE.SCIP_OKAY) :
    (SCIPactivationhdlrInit cb activationhdlr set).2.1 = activationhdlr := by
  cases hi : activationhdlr.initialized with
  | true => simp [SCIPactivationhdlrInit, hi]
  | false =>
    cases hcb : activationhdlr.activationinit with
    | none => simp [SCIPactivationhdlrInit, hi, hcb] at hfail
    | some f =>
      by_cases hf : (cb.call f activationhdlr set).1 = SCIP_RETCODE.SCIP_OKAY
      · simp [SCIPactivationhdlrInit, hi, hcb, hf] at hfail
      · simp only [SCIPactivationhdlrInit, hi, hcb, hf, ne_eq, not_false_eq_true, if_true,
          Bool.false_eq_true, if_false]
        exact hrec _ _ _

theorem SCIPactivationhdlrExit_okay {κ σ : Type} (cb : Callbacks κ σ)
    (hrec : ∀ f h w, (cb.call f h w).2.1 = h)
    (activationhdlr : SCIP_ACTIVATIONHDLR κ) (set : σ)
    (hok : (SCIPactivationhdlrExit cb activationhdlr set).1 = SCIP_RETCODE.SCIP_OKAY) :
    activationhdlr.initialized = true ∧
      (SCIPactivationhdlrExit cb activationhdlr set).2.1 =
        { activationhdlr with initialized := false } := by
  cases hi : activationhdlr.initialized with
  | false => simp [SCIPactivationhdlrExit, hi] at hok
  | true =>
    refine ⟨rfl, ?_⟩
    cases hcb : activationhdlr.activationexit with
    | none => simp only [SCIPactivationhdlrExit, hi, hcb]; rfl
    | some f =>
      by_cases hf : (cb.call f activationhdlr set).1 = SCIP_RETCODE.SCIP_OKAY
      · simp only [SCIPactivationhdlrExit, hi, hcb, hf, ne_eq, not_true_eq_false, if_false,
          Bool.not_true, Bool.false_eq_true]
        rw [hrec, hcb]
      · simp [SCIPactivationhdlrExit, hi, hcb, hf] at hok

theorem SCIPactivationhdlrExit_failed {κ σ : Type} (cb : Callbacks κ σ)
    (hrec : ∀ f h w, (cb.call f h w).2.1 = h)
    (activationhdlr : SCIP_ACTIVATIONHDLR κ) (set : σ)
    (hfail : (SCIPactivationhdlrExit cb activationhdlr set).1 ≠ SCIP_RETCODE.SCIP_OKAY) :
    (SCIPactivationhdlrExit cb activationhdlr set).2.1 = activationhdlr := by
  cases hi : activationhdlr.initialized with
  | false => simp [SCIPactivationhdlrExit, hi]
  | true =>
    cases hcb : activationhdlr.activationexit with
    | none => simp [SCIPactivationhdlrExit, hi, hcb] at hfail
    | some f =>
      by_cases hf : (cb.call f activationhdlr set).1 = SCIP_RETCODE.SCIP_OKAY
      · simp [SCIPactivationhdlrExit, hi, hcb, hf] at hfail
      · simp only [SCIPactivationhdlrExit, hi, hcb, hf, ne_eq, not_false_eq_true, if_true,
          Bool.not_true, Bool.false_eq_true, if_false]
        exact hrec _ _ _

theorem runLifecycle_record {κ σ : Type} (cb : Callbacks κ σ)
    (hrec : ∀ f h w, (cb.call f h w).2.1 = h) (calls : List LifecycleCall) :
    ∀ (activationhdlr hdlr1 : SCIP_ACTIVATIONHDLR κ) (set set1 : σ),
      runLifecycle cb calls activationhdlr set = some (hdlr1, set1) →
      hdlr1 = { activationhdlr with
        initialized := if calls.length % 2 = 0 then activationhdlr.initialized
          else !activationhdlr.initialized } := by
  induction calls with
  | nil =>
    intro activationhdlr hdlr1 set set1 h
    simp only [runLifecycle, Option.some.injEq, Prod.mk.injEq] at h
    simp [← h.1]
  | cons c later ih =>
    intro activationhdlr hdlr1 set set1 h
    have hpar : (later.length + 1) % 2 = 0 ↔ ¬ later.length % 2 = 0 := by omega
    cases c with
    | init =>
      simp only [runLifecycle] at h
      split_ifs at h with hok
      have hrun := ih _ _ _ _ h
      obtain ⟨hi, hrec1⟩ := SCIPactivationhdlrInit_okay cb hrec activationhdlr set hok
      rw [hrun, hrec1]
      by_cases hl : later.length % 2 = 0 <;> simp [hl, hpar, hi]
    | exit =>
      simp only [runLifecycle] at h
      split_ifs at h with hok
      have hrun := ih _ _ _ _ h
      obtain ⟨hi, hrec1⟩ := SCIPactivationhdlrExit_okay cb hrec activationhdlr set hok
      rw [hrun, hrec1]
      by_cases hl : later.length % 2 = 0 <;> simp [hl, hpar, hi]

theorem transformMatrix_idem (scip : SCIP)
    (htrans : ∀ v, scip.transvar (scip.transvar v) = scip.transvar v)
    (matrix : Nat → Nat → SCIP_VAR) (nrows ncols : Nat) :
    transformMatrix scip (transformMatrix scip matrix nrows ncols) nrows ncols =
      transformMatrix scip matrix nrows ncols := by
  funext j m
  by_cases h : j < nrows ∧ m < ncols
  · simp [transformMatrix, h, htrans]
  · simp [transformMatrix, h]

theorem rebindPayloads_fold {P : Type} (rebind : P → P)
    (hidem : ∀ p, rebind (rebind p) = rebind p) (l : List (Nat × Nat)) :
    ∀ (hd hd1 : SCIP_ACTIVATIONHDLRDATA P),
      foldSteps
        (fun (hd : SCIP_ACTIVATIONHDLRDATA P) (entry : Nat × Nat) =>
          match hd.blkmem entry.2 with
          | none => none
          | some payload =>
            some { hd with blkmem := setAt hd.blkmem entry.2 (some (rebind payload)) })
        l hd = some hd1 →
      hd1.consmap = hd.consmap ∧
      (∀ a, (∃ p, hd.blkmem a = some p ∧ rebind p = p) →
        ∃ p, hd1.blkmem a = some p ∧ rebind p = p) ∧
      ∀ e ∈ l, ∃ p, hd1.blkmem e.2 = some p ∧ rebind p = p := by
  induction l with
  | nil =>
    intro hd hd1 h
    simp only [foldSteps, Option.some.injEq] at h
    subst h
    exact ⟨rfl, fun a ha => ha, by simp⟩
  | cons e l ih =>
    intro hd hd1 h
    simp only [foldSteps] at h
    cases hp : hd.blkmem e.2 with
    | none => simp [hp] at h
    | some payload =>
      simp only [hp] at h
      obtain ⟨h1, h2, h3⟩ := ih _ hd1 h
      have hkeep : ∀ a, (∃ p, hd.blkmem a = some p ∧ rebind p = p) →
          ∃ p, setAt hd.blkmem e.2 (some (rebind payload)) a = some p ∧ rebind p = p := by
        intro a ⟨p, hpa, hfix⟩
        by_cases hae : a = e.2
        · subst hae
          exact ⟨rebind payload, setAt_same _ _ _, hidem payload⟩
        · exact ⟨p, by rw [setAt_ne _ _ _ _ hae]; exact hpa, hfix⟩
      refine ⟨h1, fun a ha => h2 a (hkeep a ha), ?_⟩
      intro e1 he1
      simp only [List.mem_cons] at he1
      rcases he1 with rfl | he1
      · exact h2 _ ⟨rebind payload, setAt_same _ _ _, hidem payload⟩
      · exact h3 e1 he1

theorem rebindPayloads_idem {P : Type} (rebind : P → P)
    (hidem : ∀ p, rebind (rebind p) = rebind p) (hd hd1 : SCIP_ACTIVATIONHDLRDATA P)
    (h : rebindPayloads rebind hd = some hd1) : rebindPayloads rebind hd1 = some hd1 := by
  obtain ⟨h1, _, h3⟩ := rebindPayloads_fold rebind hidem hd.consmap hd hd1 h
  rw [rebindPayloads, h1]
  apply foldSteps_fixed
  intro e he
  obtain ⟨p, hp, hfix⟩ := h3 e he
  simp only [hp, hfix, Option.some.injEq]
  cases hd1 with
  | mk consmap blkmem =>
    simp only [SCIP_ACTIVATIONHDLRDATA.mk.injEq, true_and]
    funext a
    by_cases hae : a = e.2
    · subst hae; rw [setAt_same]; exact hp.symm
    · rw [setAt_ne _ _ _ _ hae]

theorem rebindPayloads_isSome {P : Type} (rebind : P → P) (hd : SCIP_ACTIVATIONHDLRDATA P)
    (hlive : ∀ e ∈ hd.consmap, (hd.blkmem e.2).isSome = true) :
    ∃ hd1, rebindPayloads rebind hd = some hd1 := by
  obtain ⟨hd1, h1, _⟩ := foldSteps_invariant
    (fun (x : SCIP_ACTIVATIONHDLRDATA P) => ∀ e ∈ hd.consmap, (x.blkmem e.2).isSome = true)
    (fun (hd : SCIP_ACTIVATIONHDLRDATA P) (entry : Nat × Nat) =>
      match hd.blkmem entry.2 with
      | none => none
      | some payload =>
        some { hd with blkmem := setAt hd.blkmem entry.2 (some (rebind payload)) })
    hd.consmap hd hlive
    (by
      intro b a ha hb
      have hba := hb a ha
      cases hp : b.blkmem a.2 with
      | none => simp [hp] at hba
      | some payload =>
        refine ⟨{ b with blkmem := setAt b.blkmem a.2 (some (rebind payload)) },
          by simp only [hp], ?_⟩
        intro e he
        by_cases hae : e.2 = a.2
        · show (setAt b.blkmem a.2 (some (rebind payload)) e.2).isSome = true
          rw [hae, setAt_same]; rfl
        · show (setAt b.blkmem a.2 (some (rebind payload)) e.2).isSome = true
          rw [setAt_ne _ _ _ _ hae]; exact hb e he)
  exact ⟨hd1, h1⟩

theorem maxRun_succ (p : Nat → Bool) (i : Nat) (h : Int) (hrun : MaxRun p i h) :
    MaxRun p (i + 1) (if p (i + 1) = true then h + 1 else 0) := by
  obtain ⟨h0, h1, h2, h3⟩ := hrun
  by_cases hp : p (i + 1) = true
  · simp only [hp, if_true]
    refine ⟨by omega, by push_cast; omega, ?_, ?_⟩
    · intro row hr1 hr2
      by_cases he : row = i + 1
      · rw [he]; exact hp
      · exact h2 row (by push_cast at hr1; omega) (by omega)
    · intro row hr
      exact h3 row (by push_cast at hr; omega)
  · simp only [hp, if_false, Bool.false_eq_true]
    refine ⟨le_refl _, by push_cast; omega, ?_, ?_⟩
    · intro row hr1 hr2
      push_cast at hr1
      omega
    · intro row hr
      have : row = i + 1 := by push_cast at hr; omega
      rw [this]
      simpa using hp

theorem patternScan_maxRun (scip : SCIP) (patterns : PATTERNS) (c : Nat) (hc : c < patterns.n)
    (i : Nat) :
    MaxRun (fun row => ubBelowHalf scip (patternVar scip patterns row c)) i
      ((patternScan scip patterns (i + 1)).zerotowerheight c) ∧
    MaxRun (oneEntry scip patterns c) i
      ((patternScan scip patterns (i + 1)).onetowerheight c) := by
  induction i with
  | zero =>
    rw [patternScan_succ, patternRowStep_zerotowerheight, patternRowStep_onetowerheight]
    simp only [hc, if_true]
    have hz0 : (patternScan scip patterns 0).zerotowerheight c = 0 := by simp [patternScan]
    have ho0 : (patternScan scip patterns 0).onetowerheight c = 0 := by simp [patternScan]
    rw [hz0, ho0]
    constructor
    · by_cases hub : ubBelowHalf scip (patternVar scip patterns 0 c) = true
      · simp only [hub, if_true]
        refine ⟨by omega, by simp, ?_, ?_⟩
        · intro row _ hr
          have : row = 0 := by omega
          rw [this]; exact hub
        · intro row hr
          omega
      · simp only [hub, if_false, Bool.false_eq_true]
        refine ⟨le_refl _, by simp, ?_, ?_⟩
        · intro row hr1 hr2
          push_cast at hr1
          omega
        · intro row hr
          have : row = 0 := by push_cast at hr; omega
          rw [this]
          simpa using hub
    · by_cases hub : ubBelowHalf scip (patternVar scip patterns 0 c) = true
      · simp only [hub, if_true]
        refine ⟨le_refl _, by simp, ?_, ?_⟩
        · intro row hr1 hr2
          push_cast at hr1
          omega
        · intro row hr
          have : row = 0 := by push_cast at hr; omega
          rw [this]
          simp [oneEntry, hub]
      · have hub2 : ubBelowHalf scip (patternVar scip patterns 0 c) = false := by simpa using hub
        by_cases hlb : lbAboveHalf scip (patternVar scip patterns 0 c) = true
        · simp only [hub2, hlb, if_true, Bool.false_eq_true, if_false]
          refine ⟨by omega, by simp, ?_, ?_⟩
          · intro row _ hr
            have : row = 0 := by omega
            rw [this]
            simp [oneEntry, hub2, hlb]
          · intro row hr
            omega
        · have hlb2 : lbAboveHalf scip (patternVar scip patterns 0 c) = false := by
            simpa using hlb
          simp only [hub2, hlb2, Bool.false_eq_true, if_false]
          refine ⟨le_refl _, by simp, ?_, ?_⟩
          · intro row hr1 hr2
            push_cast at hr1
            omega
          · intro row hr
            have : row = 0 := by push_cast at hr; omega
            rw [this]
            simp [oneEntry, hub2, hlb2]
  | succ i ih =>
    obtain ⟨ihz, iho⟩ := ih
    rw [patternScan_succ, patternRowStep_zerotowerheight, patternRowStep_onetowerheight]
    simp only [hc, if_true]
    constructor
    · exact maxRun_succ _ i _ ihz
    · have := maxRun_succ _ i _ iho
      by_cases hub : ubBelowHalf scip (patternVar scip patterns (i + 1) c) = true
      · simpa [oneEntry, hub] using this
      · have hub2 : ubBelowHalf scip (patternVar scip patterns (i + 1) c) = false := by
          simpa using hub
        by_cases hlb : lbAboveHalf scip (patternVar scip patterns (i + 1) c) = true
        · simpa [oneEntry, hub2, hlb] using this
        · have hlb2 : lbAboveHalf scip (patternVar scip patterns (i + 1) c) = false := by
            simpa using hlb
          simpa [oneEntry, hub2, hlb2] using this

theorem patternScan_exclusive (scip : SCIP) (patterns : PATTERNS) (k c : Nat) :
    0 ≤ (patternScan scip patterns k).zerotowerheight c ∧
    0 ≤ (patternScan scip patterns k).onetowerheight c ∧
    ((patternScan scip patterns k).zerotowerheight c = 0 ∨
      (patternScan scip patterns k).onetowerheight c = 0) := by
  induction k with
  | zero => simp [patternScan]
  | succ k ih =>
    obtain ⟨h1, h2, h3⟩ := ih
    rw [patternScan_succ, patternRowStep_zerotowerheight, patternRowStep_onetowerheight]
    by_cases hc : c < patterns.n
    · simp only [hc, if_true]
      by_cases hub : ubBelowHalf scip (patternVar scip patterns k c) = true
      · simp only [hub, if_true]
        exact ⟨by omega, le_refl _, by simp⟩
      · simp only [hub, if_false, Bool.false_eq_true]
        refine ⟨le_refl _, ?_, by simp⟩
        split_ifs
        · omega
        · exact le_refl _
    · simp only [hc, if_false]
      exact ⟨h1, h2, h3⟩

theorem zeroTowerAbove_iff (scip : SCIP) (patterns : PATTERNS) (hz : 0 < patterns.zeroheight)
    (k c : Nat) (hc : c < patterns.n) :
    patterns.zeroheight ≤ (patternScan scip patterns k).zerotowerheight c ↔
      zeroTowerAbove scip patterns k c = true := by
  simp only [zeroTowerAbove, Bool.and_eq_true, decide_eq_true_eq, List.all_eq_true,
    List.mem_range, Bool.or_eq_true]
  cases k with
  | zero =>
    have : (patternScan scip patterns 0).zerotowerheight c = 0 := by simp [patternScan]
    rw [this]
    constructor
    · intro h; omega
    · intro h
      have := h.1
      push_cast at this
      omega
  | succ i =>
    obtain ⟨h0, h1, h2, h3⟩ := (patternScan_maxRun scip patterns c hc i).1
    constructor
    · intro h
      refine ⟨by push_cast; omega, ?_⟩
      intro row hrow
      by_cases hlt : (row : Int) < ((i + 1 : Nat) : Int) - patterns.zeroheight
      · exact Or.inl hlt
      · right
        exact h2 row (by push_cast at hlt; omega) (by omega)
    · rintro ⟨hle, hall⟩
      by_contra hcon
      have hrow : ∃ row : Nat, (row : Int) = (i : Int) -
          (patternScan scip patterns (i + 1)).zerotowerheight c :=
        ⟨((i : Int) - (patternScan scip patterns (i + 1)).zerotowerheight c).toNat, by
          push_cast at hle
          omega⟩
      obtain ⟨row, hrow⟩ := hrow
      have hfalse := h3 row hrow
      rcases hall row (by omega) with hlt | hub
      · push_cast at hlt
        omega
      · simp only at hfalse
        rw [hub] at hfalse
        exact Bool.noConfusion hfalse

theorem machinesUpToIdeal_flag (scip : SCIP) (activationdata : ACTIVATIONDATA) (j : Nat)
    (st : MakespanState) (k : Nat) :
    (machinesUpToIdeal scip activationdata j st k).2 = true ↔ ∀ m < k, st.fixedmakespan m = -1 := by
  induction k with
  | zero => simp [machinesUpToIdeal]
  | succ k ih =>
    rw [machinesUpToIdeal_succ]
    have hfm : (machinesUpToIdeal scip activationdata j st k).1.fixedmakespan k = st.fixedmakespan k := by
      have := machinesUpToIdeal_fixedmakespan scip activationdata j st k k
      simpa using this
    by_cases h : st.fixedmakespan k = -1
    · rw [machineStepIdeal_undetermined _ _ _ _ _ (by rw [hfm]; exact h), ih]
      constructor
      · intro hall m hm
        by_cases hmk : m = k
        · rw [hmk]; exact h
        · exact hall m (by omega)
      · intro hall m hm
        exact hall m (by omega)
    · have hne : (machinesUpToIdeal scip activationdata j st k).1.fixedmakespan k ≠ -1 := by
        rw [hfm]; exact h
      have hflag : (machineStepIdeal scip activationdata j (machinesUpToIdeal scip activationdata j st k)
          k).2 = false := by
        cases hlb : lbAboveHalf scip (activationdata.matrix j k) with
        | true => exact (machineStepIdeal_one scip activationdata j k _ hne hlb).2.2.2.1
        | false =>
          cases hub : ubBelowHalf scip (activationdata.matrix j k) with
          | true => rw [machineStepIdeal_zero _ _ _ _ _ hne hlb hub]
          | false => rw [machineStepIdeal_free _ _ _ _ _ hne hlb hub]
      rw [hflag]
      constructor
      · intro hf; exact Bool.noConfusion hf
      · intro hall; exact absurd (hall k (by omega)) h

theorem machinesUpToIdeal_undetermined (scip : SCIP) (activationdata : ACTIVATIONDATA) (j : Nat)
    (st : MakespanState) (k : Nat) (hall : ∀ m < k, st.fixedmakespan m = -1) :
    machinesUpToIdeal scip activationdata j st k = (st, true) := by
  induction k with
  | zero => simp [machinesUpToIdeal]
  | succ k ih =>
    rw [machinesUpToIdeal_succ, ih (fun m hm => hall m (by omega))]
    exact machineStepIdeal_undetermined _ _ _ _ _ (hall k (by omega))

theorem processCandidatesIdeal_keeps (scip : SCIP) (activationdata : ACTIVATIONDATA) (j : Nat)
    (st st1 : MakespanState) (h : processCandidatesIdeal scip activationdata j st = some st1) :
    st1.fixedmakespan = st.fixedmakespan ∧ st1.makespans = st.makespans := by
  cases hns : st.newsymmakespans with
  | nil =>
    simp only [processCandidatesIdeal, hns, Option.some.injEq] at h
    subst h
    exact ⟨rfl, rfl⟩
  | cons value values =>
    simp only [processCandidatesIdeal, hns] at h
    cases hfold : foldSteps
        (candidateStepIdeal scip activationdata j st.fixedmakespan st.makespans)
        (value :: values) ([], st.submatrix) with
    | none => simp [hfold] at h
    | some acc =>
      simp only [hfold, Option.some.injEq] at h
      subst h
      exact ⟨rfl, rfl⟩

theorem processCandidatesIdeal_undetermined (scip : SCIP) (activationdata : ACTIVATIONDATA) (j : Nat)
    (st st1 : MakespanState)
    (hcounts : CountsOk activationdata st.fixedmakespan st.makespans)
    (hnonneg : ∀ v ∈ st.newsymmakespans, 0 ≤ v)
    (hall : ∀ m < activationdata.nmachines, st.fixedmakespan m = -1)
    (h : processCandidatesIdeal scip activationdata j st = some st1) :
    st.newsymmakespans = [] ∧ st1 = st := by
  cases hns : st.newsymmakespans with
  | nil =>
    simp only [processCandidatesIdeal, hns, Option.some.injEq] at h
    exact ⟨rfl, h.symm⟩
  | cons value values =>
    exfalso
    simp only [processCandidatesIdeal, hns, foldSteps] at h
    have hv0 : 0 ≤ value := hnonneg value (by rw [hns]; simp)
    have hzero : machineCount activationdata st.fixedmakespan value = 0 := by
      rw [machineCount, List.countP_eq_zero]
      intro i hi
      simp only [List.mem_range] at hi
      simp only [decide_eq_true_eq]
      rw [hall i hi]
      omega
    have hget : SCIPhashmapGetImageInt st.makespans value = INT_MAX := by
      simp [SCIPhashmapGetImageInt, hcounts value hv0, countEntry, hzero]
    have hlen0 : (candidateRecord activationdata j st.fixedmakespan st.makespans
        value).cols.length = 0 := by
      show (candidateCols activationdata st.fixedmakespan value _).length = 0
      rw [candidateCols, List.length_take]
      have : ((List.range activationdata.nmachines).filter
          (fun i => decide (st.fixedmakespan i = value))).length = 0 := by
        rw [← List.countP_eq_length_filter]; exact hzero
      omega
    rw [candidateStepIdeal_eq, hget, hlen0] at h
    have hpos : (0 : Int) < INT_MAX := by decide
    simp [hpos] at h

theorem scanRowsWithoutBreakIdeal_undetermined (scip : SCIP) (activationdata : ACTIVATIONDATA)
    (rows : List Nat) (st : MakespanState)
    (hall : ∀ m < activationdata.nmachines, st.fixedmakespan m = -1)
    (hns : st.newsymmakespans = []) :
    scanRowsWithoutBreakIdeal scip activationdata rows st = some st := by
  induction rows with
  | nil => rfl
  | cons j later ih =>
    have hpc : processCandidatesIdeal scip activationdata j st = some st := by
      simp [processCandidatesIdeal, hns]
    rw [scanRowsWithoutBreakIdeal, hpc]
    simp only
    rw [updateMachinesIdeal_eq, machinesUpToIdeal_undetermined scip activationdata j st _ hall]
    exact ih

theorem scanRowsIdeal_eq_withoutBreak (scip : SCIP) (activationdata : ACTIVATIONDATA)
    (hdur : ∀ j < activationdata.njobs, 0 ≤ activationdata.jobtimes j)
    (hmax : (activationdata.nmachines : Int) ≤ INT_MAX) (k : Nat) :
    ∀ (j : Nat) (st : MakespanState), j + k = activationdata.njobs →
      ExactInv scip activationdata j st →
      scanRowsIdeal scip activationdata (List.range' j k) st =
        scanRowsWithoutBreakIdeal scip activationdata (List.range' j k) st := by
  induction k with
  | zero =>
    intro j st _ _
    simp [scanRowsIdeal, scanRowsWithoutBreakIdeal]
  | succ k ih =>
    intro j st hjk hinv
    rw [List.range'_succ, scanRowsIdeal, scanRowsWithoutBreakIdeal]
    cases hpc : processCandidatesIdeal scip activationdata j st with
    | none => rfl
    | some st1 =>
      simp only
      have hinv1 := processCandidatesIdeal_exactInv scip activationdata j st st1 (by omega) hinv hpc
      by_cases hflag : (updateMachinesIdeal scip activationdata j st1).2 = true
      · rw [if_pos hflag]
        have hall : ∀ m < activationdata.nmachines, st1.fixedmakespan m = -1 := by
          rw [updateMachinesIdeal_eq] at hflag
          exact (machinesUpToIdeal_flag scip activationdata j st1 _).mp hflag
        have hsame : updateMachinesIdeal scip activationdata j st1 = (st1, true) := by
          rw [updateMachinesIdeal_eq]
          exact machinesUpToIdeal_undetermined scip activationdata j st1 _ hall
        have hfm : ∀ m < activationdata.nmachines, st.fixedmakespan m = -1 := by
          intro m hm
          rw [← (processCandidatesIdeal_keeps scip activationdata j st st1 hpc).1]
          exact hall m hm
        obtain ⟨hempty, hst⟩ := processCandidatesIdeal_undetermined scip activationdata j st st1
          hinv.counts (fun v hv => (hinv.candidates v hv).1) hfm hpc
        rw [hsame]
        simp only
        rw [hst]
        exact (scanRowsWithoutBreakIdeal_undetermined scip activationdata _ st hfm hempty).symm
      · rw [if_neg hflag]
        exact ih (j + 1) _ (by omega)
          (updateMachinesIdeal_exactInv scip activationdata j st1 (hdur j (by omega)) hmax hinv1)

theorem scanStateIdeal_exactInv (scip : SCIP) (activationdata : ACTIVATIONDATA)
    (hdur : ∀ j < activationdata.njobs, 0 ≤ activationdata.jobtimes j)
    (hmax : (activationdata.nmachines : Int) ≤ INT_MAX)
    (hpos : 0 < activationdata.nmachines) (j : Nat) :
    ∀ st, j ≤ activationdata.njobs → scanStateIdeal scip activationdata j = some st →
      ExactInv scip activationdata j st := by
  induction j with
  | zero =>
    intro st _ h
    simp only [scanStateIdeal, Option.some.injEq] at h
    subst h
    refine ⟨?_, (makespanInit_countInv scip activationdata hpos).counts, ?_, ?_⟩
    · intro m _
      right
      simp [makespanInit, allFixed, fixedSum]
    · intro v hv
      simp [makespanInit] at hv
    · intro r hr
      simp [makespanInit] at hr
  | succ j ih =>
    intro st hj h
    simp only [scanStateIdeal] at h
    cases hprev : scanStateIdeal scip activationdata j with
    | none => simp [hprev] at h
    | some st0 =>
      simp only [hprev] at h
      cases hpc : processCandidatesIdeal scip activationdata j st0 with
      | none => simp [hpc] at h
      | some st1 =>
        simp only [hpc] at h
        split_ifs at h with hflag
        simp only [Option.some.injEq] at h
        subst h
        exact updateMachinesIdeal_exactInv scip activationdata j st1 (hdur j (by omega)) hmax
          (processCandidatesIdeal_exactInv scip activationdata j st0 st1 (by omega)
            (ih st0 (by omega) hprev) hpc)

theorem scanStateIdeal_noMachines (scip : SCIP) (activationdata : ACTIVATIONDATA)
    (hzero : activationdata.nmachines = 0) (j : Nat) (st : MakespanState)
    (h : scanStateIdeal scip activationdata j = some st) :
    j = 0 ∧ st = makespanInit activationdata := by
  cases j with
  | zero =>
    simp only [scanStateIdeal, Option.some.injEq] at h
    exact ⟨rfl, h.symm⟩
  | succ j =>
    exfalso
    simp only [scanStateIdeal] at h
    cases hprev : scanStateIdeal scip activationdata j with
    | none => simp [hprev] at h
    | some st0 =>
      simp only [hprev] at h
      cases hpc : processCandidatesIdeal scip activationdata j st0 with
      | none => simp [hpc] at h
      | some st1 =>
        simp only [hpc] at h
        have hflag : (updateMachinesIdeal scip activationdata j st1).2 = true := by
          rw [updateMachinesIdeal_eq]
          apply (machinesUpToIdeal_flag scip activationdata j st1 _).mpr
          intro m hm
          omega
        simp [hflag] at h

theorem scanStateIdeal_countInv (scip : SCIP) (activationdata : ACTIVATIONDATA)
    (hdur : ∀ j < activationdata.njobs, 0 ≤ activationdata.jobtimes j)
    (hcons : ∀ j < activationdata.njobs, ∀ m < activationdata.nmachines,
      scip.lbLocal (activationdata.matrix j m) ≤ scip.ubLocal (activationdata.matrix j m))
    (hmax : (activationdata.nmachines : Int) ≤ INT_MAX)
    (hpos : 0 < activationdata.nmachines) (j : Nat) :
    ∀ st, j ≤ activationdata.njobs → scanStateIdeal scip activationdata j = some st →
      ∃ i, CountInv scip activationdata i activationdata.nmachines st := by
  induction j with
  | zero =>
    intro st _ h
    simp only [scanStateIdeal, Option.some.injEq] at h
    subst h
    exact ⟨0, makespanInit_countInv scip activationdata hpos⟩
  | succ j ih =>
    intro st hj h
    simp only [scanStateIdeal] at h
    cases hprev : scanStateIdeal scip activationdata j with
    | none => simp [hprev] at h
    | some st0 =>
      simp only [hprev] at h
      obtain ⟨i, hci⟩ := ih st0 (by omega) hprev
      obtain ⟨st1, hpc, hc1⟩ := processCandidatesIdeal_countInv scip activationdata j i st0
        (hcons j (by omega)) hci
      simp only [hpc] at h
      split_ifs at h with hflag
      simp only [Option.some.injEq] at h
      subst h
      exact ⟨j, machinesUpToIdeal_countInv scip activationdata j st1 (hdur j (by omega)) hmax hc1
        activationdata.nmachines (le_refl _)⟩

theorem map_range_setAt {α : Type} (f : Nat → α) (idx k : Nat) (x : α) (h : k ≤ idx) :
    (List.range k).map (setAt f idx x) = (List.range k).map f := by
  apply List.map_congr_left
  intro i hi
  simp only [List.mem_range] at hi
  exact setAt_ne _ _ _ _ (by omega)

theorem find?_agree {α : Type} (p q : α → Bool) (l : List α) (h : ∀ x ∈ l, p x = q x) :
    l.find? p = l.find? q := by
  induction l with
  | nil => rfl
  | cons x l ih =>
    simp only [List.find?_cons, h x (by simp)]
    rw [ih (fun y hy => h y (by simp [hy]))]

theorem dfsStepArrays_sim (graphdata : GRAPHDATA) (hadj : AdjacencyInRange graphdata)
    (a : DfsArrays) (st : DfsState) (hsim : SimDfs graphdata a st)
    (hinv : DfsInv graphdata st) :
    SimDfs graphdata (dfsStepArrays graphdata a) (dfsStep graphdata st) := by
  obtain ⟨hm, hs, hc, hsh, hch⟩ := hsim
  by_cases hneg : a.dfsstackhead < 0
  · have hhead : a.dfsstackhead = -1 := by omega
    have hnil : st.dfsstack = [] := by
      rw [hs, stackList, hhead]; rfl
    simp only [dfsStepArrays, hneg, if_true, dfsStep, hnil]
    exact ⟨hm, by rw [hnil, stackList, hhead]; rfl, hc, hsh, hch⟩
  · obtain ⟨h, hh⟩ : ∃ h : Nat, a.dfsstackhead = (h : Int) :=
      ⟨a.dfsstackhead.toNat, by omega⟩
    obtain ⟨c, hcc⟩ : ∃ c : Nat, a.componenthead + 1 = (c : Int) :=
      ⟨(a.componenthead + 1).toNat, by omega⟩
    have hstack : st.dfsstack = a.dfsstack h :: ((List.range h).map a.dfsstack).reverse := by
      rw [hs, stackList, hh]
      have : ((h : Int) + 1).toNat = h + 1 := by omega
      rw [this, List.range_succ, List.map_append, List.reverse_append]
      rfl
    have hcomp : st.component = (List.range c).map a.component := by
      rw [hc, componentList, hcc]
      rfl
    have hi : a.dfsstack h < graphdata.nvertices :=
      hinv.stack_lt _ (by rw [hstack]; simp)
    have hfind : (graphdata.adjacencies (a.dfsstack h)).find?
        (fun v => a.removedvertices v == false) =
        (graphdata.adjacencies (a.dfsstack h)).find?
        (fun v => st.removedvertices v == false) := by
      apply find?_agree
      intro x hx
      rw [hm x (hadj _ hi x hx)]
    have htop : a.dfsstackhead.toNat = h := by omega
    simp only [dfsStepArrays, hneg, if_false, dfsStep, hstack, htop]
    rw [hfind]
    cases hf : (graphdata.adjacencies (a.dfsstack h)).find?
        (fun v => st.removedvertices v == false) with
    | none =>
      simp only
      refine ⟨hm, ?_, hc, (by show -1 ≤ a.dfsstackhead - 1; omega), hch⟩
      show _ = stackList _
      simp only [stackList]
      have : (a.dfsstackhead - 1 + 1).toNat = h := by omega
      rw [this]
    | some v =>
      simp only
      have e1 : (a.dfsstackhead - 1 + 1).toNat = h := by omega
      have e2 : (a.dfsstackhead - 1 + 2).toNat = h + 1 := by omega
      have e3 : (a.componenthead + 1).toNat = c := by omega
      refine ⟨?_, ?_, ?_, (by show -1 ≤ a.dfsstackhead - 1 + 2; omega),
        (by show -1 ≤ a.componenthead + 1; omega)⟩
      · intro x hx
        show setAt a.removedvertices v true x = setAt st.removedvertices v true x
        by_cases hxv : x = v
        · rw [hxv, setAt_same, setAt_same]
        · rw [setAt_ne _ _ _ _ hxv, setAt_ne _ _ _ _ hxv]
          exact hm x hx
      · show _ = stackList _
        simp only [stackList, e1, e2]
        have e4 : (a.dfsstackhead - 1 + 2 + 1).toNat = h + 2 := by omega
        rw [e4, List.range_succ, List.range_succ, List.map_append, List.map_append,
          List.reverse_append, List.reverse_append,
          map_range_setAt _ _ _ _ (by omega), map_range_setAt _ _ _ _ (le_refl _)]
        simp only [List.map_cons, List.map_nil, List.reverse_cons, List.reverse_nil,
          List.nil_append, List.cons_append, setAt_same]
        rw [setAt_ne _ _ _ _ (by omega : h ≠ h + 1), setAt_same]
      · show st.component ++ [v] = componentList _
        simp only [componentList, e3]
        have e5 : (a.componenthead + 1 + 1).toNat = c + 1 := by omega
        rw [e5, List.range_succ, List.map_append, map_range_setAt _ _ _ _ (le_refl _), hcomp]
        simp [setAt_same]

theorem stackList_eq_nil (a : DfsArrays) (h : -1 ≤ a.dfsstackhead) :
    stackList a = [] ↔ a.dfsstackhead < 0 := by
  rw [stackList, List.reverse_eq_nil_iff, List.map_eq_nil_iff, List.range_eq_nil]
  omega

theorem dfsWhileArrays_sim (graphdata : GRAPHDATA) (hadj : AdjacencyInRange graphdata)
    (fuel : Nat) :
    ∀ (a : DfsArrays) (st : DfsState), SimDfs graphdata a st → DfsInv graphdata st →
      (dfsWhileArrays graphdata fuel a = none ∧ dfsWhile graphdata fuel st = none) ∨
      ∃ a1 st1, dfsWhileArrays graphdata fuel a = some a1 ∧
        dfsWhile graphdata fuel st = some st1 ∧ SimDfs graphdata a1 st1 := by
  induction fuel with
  | zero =>
    intro a st hsim hinv
    by_cases hneg : a.dfsstackhead < 0
    · right
      have hnil : st.dfsstack = [] := by
        rw [hsim.stack]; exact (stackList_eq_nil a hsim.stack_head).mpr hneg
      exact ⟨a, st, by rw [dfsWhileArrays]; simp [hneg], dfsWhile_nil graphdata 0 st hnil, hsim⟩
    · left
      have hne : st.dfsstack ≠ [] := by
        rw [hsim.stack]; exact fun e => hneg ((stackList_eq_nil a hsim.stack_head).mp e)
      refine ⟨by rw [dfsWhileArrays]; simp [hneg], ?_⟩
      rw [dfsWhile]
      cases hst : st.dfsstack with
      | nil => exact absurd hst hne
      | cons x l => rfl
  | succ fuel ih =>
    intro a st hsim hinv
    by_cases hneg : a.dfsstackhead < 0
    · right
      have hnil : st.dfsstack = [] := by
        rw [hsim.stack]; exact (stackList_eq_nil a hsim.stack_head).mpr hneg
      exact ⟨a, st, by rw [dfsWhileArrays]; simp [hneg], dfsWhile_nil graphdata _ st hnil, hsim⟩
    · have hne : st.dfsstack ≠ [] := by
        rw [hsim.stack]; exact fun e => hneg ((stackList_eq_nil a hsim.stack_head).mp e)
      have h1 : dfsWhileArrays graphdata (fuel + 1) a =
          dfsWhileArrays graphdata fuel (dfsStepArrays graphdata a) := by
        rw [dfsWhileArrays]; simp [hneg]
      rw [h1, dfsWhile_succ graphdata fuel st hne]
      exact ih _ _ (dfsStepArrays_sim graphdata hadj a st hsim hinv)
        (dfsStep_inv graphdata hadj st hinv hne).1

theorem dfsFromArrays_sim (graphdata : GRAPHDATA) (hadj : AdjacencyInRange graphdata)
    (scratch : GraphScratch) (removedvertices : Nat → Bool) (startvertex : Nat)
    (hagree : ∀ v < graphdata.nvertices, scratch.removedvertices v = removedvertices v)
    (hlt : startvertex < graphdata.nvertices) :
    (dfsFromArrays graphdata scratch startvertex = none ∧
      dfsFrom graphdata removedvertices startvertex = none) ∨
    ∃ a1 st1, dfsFromArrays graphdata scratch startvertex = some a1 ∧
      dfsFrom graphdata removedvertices startvertex = some st1 ∧ SimDfs graphdata a1 st1 := by
  apply dfsWhileArrays_sim graphdata hadj
  · refine ⟨?_, ?_, ?_, by show (-1 : Int) ≤ 0; omega, by show (-1 : Int) ≤ 0; omega⟩
    · intro x hx
      show setAt scratch.removedvertices startvertex true x =
        setAt removedvertices startvertex true x
      by_cases hxv : x = startvertex
      · rw [hxv, setAt_same, setAt_same]
      · rw [setAt_ne _ _ _ _ hxv, setAt_ne _ _ _ _ hxv]
        exact hagree x hx
    · show [startvertex] = stackList _
      simp [stackList, setAt_same, List.range_succ]
    · show [startvertex] = componentList _
      simp [componentList, setAt_same, List.range_succ]
  · refine ⟨?_, ?_, ?_, ?_⟩
    · intro i hi
      simp only [List.mem_singleton] at hi
      rw [hi]; exact hlt
    · simp
    · intro v hv
      simp only [List.mem_singleton] at hv
      rw [hv]; exact hlt
    · intro v hv
      simp only [List.mem_singleton] at hv
      rw [hv]
      exact setAt_same _ _ _

theorem componentsLoopArrays_sim (graphdata : GRAPHDATA) (hadj : AdjacencyInRange graphdata)
    (wholegraphtest : Bool) (cols : List Nat) (startvertices : List Nat) :
    ∀ (scratch : GraphScratch) (removedvertices : Nat → Bool)
      (submatrix : List SCIP_ACTIVATIONSUBMATRIX),
      (∀ v ∈ startvertices, v < graphdata.nvertices) →
      (∀ v < graphdata.nvertices, scratch.removedvertices v = removedvertices v) →
      (componentsLoopArrays graphdata wholegraphtest cols startvertices scratch submatrix).map
          Prod.fst =
        componentsLoop graphdata wholegraphtest cols startvertices removedvertices
          submatrix := by
  induction startvertices with
  | nil =>
    intro scratch removedvertices submatrix _ _
    simp [componentsLoopArrays, componentsLoop]
  | cons startvertex later ih =>
    intro scratch removedvertices submatrix hstart hagree
    have hlt := hstart startvertex (by simp)
    have hlater : ∀ v ∈ later, v < graphdata.nvertices := fun v hv => hstart v (by simp [hv])
    cases hrem : removedvertices startvertex with
    | true =>
      rw [componentsLoop_removed _ _ _ _ _ _ _ hrem, componentsLoopArrays,
        if_pos (by rw [hagree _ hlt]; exact hrem)]
      exact ih scratch removedvertices submatrix hlater hagree
    | false =>
      have hs : ¬ scratch.removedvertices startvertex = true := by
        rw [hagree _ hlt, hrem]; simp
      rw [componentsLoopArrays, if_neg hs]
      rcases dfsFromArrays_sim graphdata hadj scratch removedvertices startvertex hagree hlt
        with ⟨ha, hst⟩ | ⟨a1, st1, ha, hst, hsim⟩
      · rw [ha]
        simp only [Option.map_none']
        rw [componentsLoop]
        simp [hrem, hst]
      · rw [ha, componentsLoop_search _ _ _ _ _ _ _ st1 hrem hst]
        simp only
        have hlen : (st1.component.length : Int) - 1 = a1.componenthead := by
          rw [hsim.comp, componentList, List.length_map, List.length_range]
          have := hsim.comp_head
          omega
        have hrows : (List.range (a1.componenthead + 1).toNat).map a1.component =
            st1.component := hsim.comp.symm
        rw [hlen, hrows]
        split_ifs with htest
        · rfl
        · exact ih _ st1.removedvertices _ hlater hsim.marks

theorem componentsOfArrays_sim (graphdata : GRAPHDATA) (hadj : AdjacencyInRange graphdata)
    (wholegraphtest : Bool) (cols : List Nat) (remove : Nat → Bool)
    (acc : List SCIP_ACTIVATIONSUBMATRIX × GraphScratch) :
    (componentsOfArrays graphdata wholegraphtest cols remove acc).map Prod.fst =
      componentsOf graphdata wholegraphtest cols remove acc.1 := by
  simp only [componentsOfArrays, componentsOf]
  split_ifs with h
  · rfl
  · apply componentsLoopArrays_sim graphdata hadj
    · intro v hv
      exact List.mem_range.mp hv
    · intro v hv
      simp [hv]

theorem foldSteps_sim {α β γ : Type} (F : β × γ → α → Option (β × γ))
    (G : β → α → Option β) (h : ∀ acc a, (F acc a).map Prod.fst = G acc.1 a) (l : List α) :
    ∀ acc, (foldSteps F l acc).map Prod.fst = foldSteps G l acc.1 := by
  induction l with
  | nil => intro acc; rfl
  | cons a l ih =>
    intro acc
    simp only [foldSteps]
    have := h acc a
    cases hF : F acc a with
    | none =>
      rw [hF] at this
      simp only [Option.map_none'] at this
      rw [← this]
      rfl
    | some acc1 =>
      rw [hF] at this
      simp only [Option.map_some'] at this
      rw [← this]
      exact ih acc1

theorem countsOk_stored (activationdata : ACTIVATIONDATA) (fixedmakespan : Nat → Int)
    (makespans : SCIP_HASHMAP) (h : CountsOk activationdata fixedmakespan makespans)
    (v : Int) (hv : 0 ≤ v) :
    storedCount makespans v = (machineCount activationdata fixedmakespan v : Int) := by
  rw [storedCount, h v hv, countEntry]
  split_ifs with hc
  · simp [hc]
  · rfl

theorem storedCount_noMachines (activationdata : ACTIVATIONDATA)
    (hzero : activationdata.nmachines = 0) (fixedmakespan : Nat → Int) (v : Int) :
    storedCount (makespanInit activationdata).makespans v =
      (machineCount activationdata fixedmakespan v : Int) := by
  have h1 : machineCount activationdata fixedmakespan v = 0 := by
    simp [machineCount, hzero]
  rw [h1]
  simp only [storedCount, makespanInit, SCIPhashmapInsertInt, hzero]
  by_cases hv : v = 0
  · simp [hv]
  · simp [hv]

theorem nodup_length_le (l : List Nat) (n : Nat) (hnd : l.Nodup) (hlt : ∀ v ∈ l, v < n) :
    l.length ≤ n := by
  have hsub : l.toFinset ⊆ Finset.range n := by
    intro x hx
    exact Finset.mem_range.mpr (hlt x (List.mem_toFinset.mp hx))
  have hcard := Finset.card_le_card hsub
  rw [List.toFinset_card_of_nodup hnd, Finset.card_range] at hcard
  exact hcard

theorem nodup_length_lt (l : List Nat) (n u : Nat) (hnd : l.Nodup) (hlt : ∀ v ∈ l, v < n)
    (hu : u < n) (hul : u ∉ l) : l.length < n := by
  have h := nodup_length_le (u :: l) n (List.nodup_cons.mpr ⟨hul, hnd⟩)
    (by
      intro v hv
      simp only [List.mem_cons] at hv
      rcases hv with rfl | hv
      · exact hu
      · exact hlt v hv)
  simp only [List.length_cons] at h
  omega

theorem dfsFrom_length_lt (graphdata : GRAPHDATA) (hadj : AdjacencyInRange graphdata)
    (removedvertices : Nat → Bool) (startvertex : Nat) (st : DfsState)
    (hrem : ∃ u < graphdata.nvertices, removedvertices u = true)
    (hlt : startvertex < graphdata.nvertices) (hfalse : removedvertices startvertex = false)
    (hst : dfsFrom graphdata removedvertices startvertex = some st) :
    st.component.length < graphdata.nvertices ∧
      ∃ u < graphdata.nvertices, st.removedvertices u = true := by
  obtain ⟨st1, hst1, hres⟩ := dfsFrom_result graphdata hadj removedvertices startvertex hlt hfalse
  rw [hst] at hst1
  simp only [Option.some.injEq] at hst1
  subst hst1
  obtain ⟨u, hu, hur⟩ := hrem
  refine ⟨nodup_length_lt st.component graphdata.nvertices u hres.component_nodup
    hres.component_lt hu ?_, u, hu, (hres.removed_iff u).mpr (Or.inl hur)⟩
  intro hmem
  have := (hres.component_joined u hmem).1
  rw [hur] at this
  exact Bool.noConfusion this

theorem componentsLoop_wholegraph (graphdata : GRAPHDATA) (hadj : AdjacencyInRange graphdata)
    (cols : List Nat) (startvertices : List Nat) :
    ∀ (removedvertices : Nat → Bool) (submatrix : List SCIP_ACTIVATIONSUBMATRIX),
      (∀ v ∈ startvertices, v < graphdata.nvertices) →
      (∃ u < graphdata.nvertices, removedvertices u = true) →
      componentsLoop graphdata true cols startvertices removedvertices submatrix =
        componentsLoop graphdata false cols startvertices removedvertices submatrix := by
  induction startvertices with
  | nil =>
    intro removedvertices submatrix _ _
    simp [componentsLoop]
  | cons startvertex later ih =>
    intro removedvertices submatrix hstart hrem
    have hlt := hstart startvertex (by simp)
    have hlater : ∀ v ∈ later, v < graphdata.nvertices := fun v hv => hstart v (by simp [hv])
    cases hmark : removedvertices startvertex with
    | true =>
      rw [componentsLoop_removed _ _ _ _ _ _ _ hmark, componentsLoop_removed _ _ _ _ _ _ _ hmark]
      exact ih removedvertices submatrix hlater hrem
    | false =>
      obtain ⟨st, hst, _⟩ := dfsFrom_result graphdata hadj removedvertices startvertex hlt hmark
      obtain ⟨hlen, hrem1⟩ := dfsFrom_length_lt graphdata hadj removedvertices startvertex st
        hrem hlt hmark hst
      rw [componentsLoop_search _ _ _ _ _ _ _ st hmark hst,
        componentsLoop_search _ _ _ _ _ _ _ st hmark hst]
      have h1 : ¬ ((true = true) ∧
          (graphdata.nvertices : Int) - 1 ≤ (st.component.length : Int) - 1) := by
        intro h
        have := h.2
        omega
      have h2 : ¬ ((false = true) ∧
          (graphdata.nvertices : Int) - 1 ≤ (st.component.length : Int) - 1) := by
        intro h
        exact Bool.noConfusion h.1
      rw [if_neg h1, if_neg h2]
      exact ih st.removedvertices _ hlater hrem1

theorem componentsOf_wholegraph (graphdata : GRAPHDATA) (hadj : AdjacencyInRange graphdata)
    (cols : List Nat) (remove : Nat → Bool) (submatrix : List SCIP_ACTIVATIONSUBMATRIX) :
    componentsOf graphdata true cols remove submatrix =
      componentsOf graphdata false cols remove submatrix := by
  simp only [componentsOf]
  split_ifs with h
  · rfl
  · apply componentsLoop_wholegraph graphdata hadj
    · intro v hv
      exact List.mem_range.mp hv
    · have hany : (List.range graphdata.nvertices).any remove = true := by
        cases hb : (List.range graphdata.nvertices).any remove with
        | true => rfl
        | false => exact absurd hb h
      obtain ⟨u, hu, hur⟩ := List.any_eq_true.mp hany
      exact ⟨u, List.mem_range.mp hu, hur⟩

theorem findColorPairsComponents_trace_full (scip : SCIP) (graphdata : GRAPHDATA)
    (hadj : AdjacencyInRange graphdata) :
    ∃ news, findColorPairsComponents scip graphdata = some news.reverse.flatten ∧
      List.Forall₂ (fun (c : Nat × Nat) new =>
        c ∈ colorPairs graphdata ∧
        PairRecords graphdata false [c.1, c.2] (removedColorPair scip graphdata c.1 c.2) new)
        (colorPairs graphdata) news := by
  obtain ⟨news, h1, h2⟩ := foldSteps_trace
    (fun submatrix (c : Nat × Nat) =>
      componentsOf graphdata true [c.1, c.2]
        (removedColorPair scip graphdata c.1 c.2) submatrix)
    (fun (c : Nat × Nat) new => c ∈ colorPairs graphdata ∧
      PairRecords graphdata false [c.1, c.2] (removedColorPair scip graphdata c.1 c.2) new)
    (colorPairs graphdata)
    (fun c hc b => by
      obtain ⟨new, hnew, hP⟩ := componentsOf_records graphdata hadj false [c.1, c.2]
        (removedColorPair scip graphdata c.1 c.2) b
      rw [← componentsOf_wholegraph graphdata hadj] at hnew
      exact ⟨new, hnew, hc, hP⟩) []
  exact ⟨news, by simpa [findColorPairsComponents] using h1, h2⟩

theorem pairRecords_partition (graphdata : GRAPHDATA) (cols : List Nat) (remove : Nat → Bool)
    (new : List SCIP_ACTIVATIONSUBMATRIX)
    (h : PairRecords graphdata false cols remove new)
    (hrem : ∃ u < graphdata.nvertices, remove u = true) :
    PartitionsSurvivors graphdata remove new := by
  refine ⟨h.ordered.imp (fun hab => hab.1), ?_, ?_⟩
  · intro r hr
    obtain ⟨_, _, hasc, hsurv, _⟩ := h.records r hr
    exact ⟨hasc.imp (fun hxy => Nat.ne_of_lt hxy), hsurv⟩
  · intro v hv hvr
    obtain ⟨r, hr, hvrows⟩ := h.covered rfl hrem v hv hvr
    exact ⟨r, hr, hvrows, fun r1 hr1 hv1 =>
      pairRecords_unique graphdata false cols remove new h v r hr r1 hr1 hvrows hv1⟩

theorem dfsStep_nil (graphdata : GRAPHDATA) (st : DfsState) (h : st.dfsstack = []) :
    dfsStep graphdata st = st := by
  simp [dfsStep, h]

theorem dfsStep_stackInv (graphdata : GRAPHDATA) (st : DfsState)
    (hinv : DfsInv graphdata st) (hstack : StackInv graphdata st) :
    StackInv graphdata (dfsStep graphdata st) := by
  obtain ⟨hnd, hsub, hpath⟩ := hstack
  cases hs : st.dfsstack with
  | nil => rw [dfsStep_nil graphdata st hs]; exact ⟨hnd, hsub, hpath⟩
  | cons i rest =>
    rw [hs] at hnd hsub hpath
    cases hfind : (graphdata.adjacencies i).find? (fun v => st.removedvertices v == false) with
    | none =>
      have hstep : dfsStep graphdata st = { st with dfsstack := rest } := by
        simp only [dfsStep, hs, hfind]
      rw [hstep]
      exact ⟨(List.nodup_cons.mp hnd).2, fun x hx => hsub x (by simp [hx]),
        List.Chain'.tail hpath⟩
    | some v =>
      have hstep : dfsStep graphdata st =
          { removedvertices := setAt st.removedvertices v true,
            dfsstack := v :: i :: rest,
            component := st.component ++ [v] } := by
        simp only [dfsStep, hs, hfind]
      rw [hstep]
      have hvfalse : st.removedvertices v = false := by
        have := List.find?_some hfind
        simpa using this
      have hvadj : v ∈ graphdata.adjacencies i := List.mem_of_find?_eq_some hfind
      have hvcomp : v ∉ st.component := by
        intro hmem
        have := hinv.component_removed v hmem
        rw [hvfalse] at this
        exact Bool.noConfusion this
      refine ⟨?_, ?_, ?_⟩
      · exact List.nodup_cons.mpr ⟨fun hmem => hvcomp (hsub v hmem), hnd⟩
      · intro x hx
        show x ∈ st.component ++ [v]
        simp only [List.mem_cons] at hx
        rcases hx with rfl | hx
        · simp
        · exact List.mem_append_left _ (hsub x (by simpa using hx))
      · exact List.Chain'.cons hvadj hpath

theorem dfsStart_inv (graphdata : GRAPHDATA) (scratch : GraphScratch) (startvertex : Nat)
    (hlt : startvertex < graphdata.nvertices) :
    SimDfs graphdata (dfsStartArrays scratch startvertex)
        (dfsStartState scratch.removedvertices startvertex) ∧
      DfsInv graphdata (dfsStartState scratch.removedvertices startvertex) ∧
      StackInv graphdata (dfsStartState scratch.removedvertices startvertex) := by
  refine ⟨⟨fun _ _ => rfl, ?_, ?_, by show (-1 : Int) ≤ 0; omega,
    by show (-1 : Int) ≤ 0; omega⟩, ⟨?_, ?_, ?_, ?_⟩, ⟨?_, ?_, ?_⟩⟩
  · show [startvertex] = stackList _
    simp [stackList, dfsStartArrays, setAt_same, List.range_succ]
  · show [startvertex] = componentList _
    simp [componentList, dfsStartArrays, setAt_same, List.range_succ]
  · intro i hi
    simp only [dfsStartState, List.mem_singleton] at hi
    rw [hi]; exact hlt
  · simp [dfsStartState]
  · intro i hi
    simp only [dfsStartState, List.mem_singleton] at hi
    rw [hi]; exact hlt
  · intro i hi
    simp only [dfsStartState, List.mem_singleton] at hi
    rw [hi]
    exact setAt_same _ _ _
  · simp [dfsStartState]
  · intro i hi
    exact hi
  · simp [dfsStartState]

theorem dfsIterate_inv (graphdata : GRAPHDATA) (hadj : AdjacencyInRange graphdata)
    (scratch : GraphScratch) (startvertex : Nat) (hlt : startvertex < graphdata.nvertices)
    (k : Nat) :
    ∃ st, SimDfs graphdata ((dfsStepArrays graphdata)^[k] (dfsStartArrays scratch startvertex))
        st ∧ DfsInv graphdata st ∧ StackInv graphdata st := by
  induction k with
  | zero =>
    exact ⟨_, dfsStart_inv graphdata scratch startvertex hlt⟩
  | succ k ih =>
    obtain ⟨st, hsim, hinv, hstack⟩ := ih
    rw [Function.iterate_succ_apply']
    refine ⟨dfsStep graphdata st, dfsStepArrays_sim graphdata hadj _ st hsim hinv, ?_,
      dfsStep_stackInv graphdata st hinv hstack⟩
    by_cases hne : st.dfsstack = []
    · rw [dfsStep_nil graphdata st hne]; exact hinv
    · exact (dfsStep_inv graphdata hadj st hinv hne).1

theorem simDfs_bounds (graphdata : GRAPHDATA) (a : DfsArrays) (st : DfsState)
    (hsim : SimDfs graphdata a st) (hinv : DfsInv graphdata st)
    (hstack : StackInv graphdata st) :
    -1 ≤ a.dfsstackhead ∧ a.dfsstackhead ≤ (graphdata.nvertices : Int) - 1 ∧
    -1 ≤ a.componenthead ∧ a.componenthead ≤ (graphdata.nvertices : Int) - 1 := by
  have h1 := nodup_length_le st.dfsstack graphdata.nvertices hstack.stack_nodup hinv.stack_lt
  have h2 := nodup_length_le st.component graphdata.nvertices hinv.component_nodup
    hinv.component_lt
  rw [hsim.stack, stackList, List.length_reverse, List.length_map, List.length_range] at h1
  rw [hsim.comp, componentList, List.length_map, List.length_range] at h2
  have h3 := hsim.stack_head
  have h4 := hsim.comp_head
  refine ⟨h3, ?_, h4, ?_⟩ <;> omega

theorem dfsStep_progress (graphdata : GRAPHDATA) (hadj : AdjacencyInRange graphdata)
    (st : DfsState) (hinv : DfsInv graphdata st) (hne : st.dfsstack ≠ []) :
    (∃ v < graphdata.nvertices, st.removedvertices v = false ∧
      (dfsStep graphdata st).removedvertices = setAt st.removedvertices v true ∧
      unvisited graphdata (dfsStep graphdata st).removedvertices + 1 =
        unvisited graphdata st.removedvertices ∧
      (dfsStep graphdata st).dfsstack.length = st.dfsstack.length + 1) ∨
    ((dfsStep graphdata st).removedvertices = st.removedvertices ∧
      (dfsStep graphdata st).dfsstack.length + 1 = st.dfsstack.length) := by
  cases hs : st.dfsstack with
  | nil => exact absurd hs hne
  | cons i rest =>
    cases hfind : (graphdata.adjacencies i).find? (fun v => st.removedvertices v == false) with
    | none =>
      right
      have hstep : dfsStep graphdata st = { st with dfsstack := rest } := by
        simp only [dfsStep, hs, hfind]
      rw [hstep]
      exact ⟨rfl, by simp⟩
    | some v =>
      left
      have hstep : dfsStep graphdata st =
          { removedvertices := setAt st.removedvertices v true,
            dfsstack := v :: i :: rest,
            component := st.component ++ [v] } := by
        simp only [dfsStep, hs, hfind]
      have hvfalse : st.removedvertices v = false := by
        have := List.find?_some hfind
        simpa using this
      have hvlt : v < graphdata.nvertices :=
        hadj i (hinv.stack_lt i (by simp [hs])) v (List.mem_of_find?_eq_some hfind)
      rw [hstep]
      refine ⟨v, hvlt, hvfalse, rfl, ?_, by simp⟩
      exact unvisited_setAt graphdata st.removedvertices v hvlt hvfalse

theorem stackList_top_mem (a : DfsArrays) (h : 0 ≤ a.dfsstackhead) :
    a.dfsstack a.dfsstackhead.toNat ∈ stackList a := by
  rw [stackList, List.mem_reverse, List.mem_map]
  exact ⟨a.dfsstackhead.toNat, List.mem_range.mpr (by omega), rfl⟩

theorem findColorPairsComponentsArrays_fst (scip : SCIP) (graphdata : GRAPHDATA)
    (hadj : AdjacencyInRange graphdata) (scratch : GraphScratch) :
    (findColorPairsComponentsArrays scip graphdata scratch).map Prod.fst =
      findColorPairsComponents scip graphdata :=
  foldSteps_sim _ _ (fun acc _ => componentsOfArrays_sim graphdata hadj _ _ _ acc) _ _

theorem findInvertedColorPairsComponentsArrays_fst (scip : SCIP) (graphdata : GRAPHDATA)
    (hadj : AdjacencyInRange graphdata) (scratch : GraphScratch) :
    (findInvertedColorPairsComponentsArrays scip graphdata scratch).map Prod.fst =
      findInvertedColorPairsComponents scip graphdata :=
  foldSteps_sim _ _ (fun acc _ => componentsOfArrays_sim graphdata hadj _ _ _ acc) _ _

theorem findInvertedSingleColorComponentsArrays_fst (scip : SCIP) (graphdata : GRAPHDATA)
    (hadj : AdjacencyInRange graphdata) (scratch : GraphScratch) :
    (findInvertedSingleColorComponentsArrays scip graphdata scratch).map Prod.fst =
      findInvertedSingleColorComponents scip graphdata :=
  foldSteps_sim _ _ (fun acc _ => componentsOfArrays_sim graphdata hadj _ _ _ acc) _ _

theorem isSome_of_map_fst {α β : Type} (x : Option (α × β)) (y : α)
    (h : x.map Prod.fst = some y) : x.isSome = true := by
  cases x with
  | none => simp at h
  | some _ => rfl

theorem pairwise_of_mem {α : Type} (R : α → α → Prop) (l : List α)
    (h : ∀ a ∈ l, ∀ b ∈ l, R a b) : l.Pairwise R := by
  induction l with
  | nil => exact List.Pairwise.nil
  | cons a l ih =>
    exact List.pairwise_cons.mpr ⟨fun b hb => h a (by simp) b (by simp [hb]),
      ih (fun x hx y hy => h x (by simp [hx]) y (by simp [hy]))⟩

theorem rowEmission_eq (scip : SCIP) (patterns : PATTERNS) (i : Nat) :
    rowEmission scip patterns i =
      (if 2 ≤ (oneCols patterns (patternScan scip patterns i)).length then
        [(Trigger.one, patternRecord patterns i
          (oneCols patterns (patternScan scip patterns i)))] else []) ++
      (if 2 ≤ (zeroCols patterns (patternScan scip patterns i)).length then
        [(Trigger.zero, patternRecord patterns i
          (zeroCols patterns (patternScan scip patterns i)))] else []) := by
  rw [rowEmission, patternRowStep_submatrix]
  simp only [List.append_nil]
  rfl

theorem patternScan_emissions (scip : SCIP) (patterns : PATTERNS) (k : Nat) :
    (patternScan scip patterns k).submatrix =
      (List.range k).reverse.flatMap (rowEmission scip patterns) := by
  induction k with
  | zero => simp [patternScan]
  | succ k ih =>
    rw [patternScan_succ, patternRowStep_submatrix, ih, List.range_succ, List.reverse_append,
      List.reverse_singleton, List.singleton_append, List.flatMap_cons, rowEmission_eq,
      List.append_assoc]

theorem rowsFrom_head_eq (i nrows x : Nat) (h : (rowsFrom i nrows).head? = some x) : x = i := by
  cases nrows with
  | zero => simp [rowsFrom] at h
  | succ n =>
    rw [rowsFrom_head i (n + 1) (by omega)] at h
    simp only [Option.some.injEq] at h
    exact h.symm

theorem rowEmission_rows (scip : SCIP) (patterns : PATTERNS) (i : Nat) :
    ∀ x ∈ rowEmission scip patterns i, x.2.rows = rowsFrom i (patterns.m - i) := by
  intro x hx
  rw [rowEmission_eq] at hx
  simp only [List.mem_append] at hx
  rcases hx with hx | hx
  · split_ifs at hx
    · simp only [List.mem_singleton] at hx
      rw [hx]; rfl
    · simp at hx
  · split_ifs at hx
    · simp only [List.mem_singleton] at hx
      rw [hx]; rfl
    · simp at hx

theorem patternScan_order (scip : SCIP) (patterns : PATTERNS) (k : Nat) :
    (∀ x ∈ (patternScan scip patterns k).submatrix,
      ∃ i < k, x.2.rows = rowsFrom i (patterns.m - i)) ∧
    (patternScan scip patterns k).submatrix.Pairwise (fun a b => StartsNotAfter b.2 a.2) := by
  induction k with
  | zero => simp [patternScan]
  | succ k ih =>
    have hsub : (patternScan scip patterns (k + 1)).submatrix =
        rowEmission scip patterns k ++ (patternScan scip patterns k).submatrix := by
      rw [patternScan_emissions, patternScan_emissions, List.range_succ, List.reverse_append,
        List.reverse_singleton, List.singleton_append, List.flatMap_cons]
    rw [hsub]
    refine ⟨?_, ?_⟩
    · intro x hx
      simp only [List.mem_append] at hx
      rcases hx with hx | hx
      · exact ⟨k, by omega, rowEmission_rows scip patterns k x hx⟩
      · obtain ⟨i, hi, hrows⟩ := ih.1 x hx
        exact ⟨i, by omega, hrows⟩
    · rw [List.pairwise_append]
      refine ⟨?_, ih.2, ?_⟩
      · apply pairwise_of_mem
        intro a ha b hb x y hax hby
        rw [rowEmission_rows scip patterns k a ha] at hax
        rw [rowEmission_rows scip patterns k b hb] at hby
        have := rowsFrom_head_eq _ _ _ hax
        have := rowsFrom_head_eq _ _ _ hby
        omega
      · intro a ha b hb x y hax hby
        rw [rowEmission_rows scip patterns k a ha] at hax
        obtain ⟨i, hi, hrows⟩ := ih.1 b hb
        rw [hrows] at hby
        have := rowsFrom_head_eq _ _ _ hax
        have := rowsFrom_head_eq _ _ _ hby
        omega

theorem candidateFoldIdeal_prepends (scip : SCIP) (activationdata : ACTIVATIONDATA) (j : Nat)
    (fixedmakespan : Nat → Int) (makespans : SCIP_HASHMAP) (l : List Int)
    (acc acc1 : List Int × List SCIP_ACTIVATIONSUBMATRIX)
    (h : foldSteps (candidateStepIdeal scip activationdata j fixedmakespan makespans) l acc =
      some acc1) :
    ∃ new, acc1.2 = new ++ acc.2 ∧
      ∀ r ∈ new, r.rows = rowsFrom j (activationdata.njobs - j) := by
  refine foldSteps_sound
    (fun b => ∃ new, b.2 = new ++ acc.2 ∧
      ∀ r ∈ new, r.rows = rowsFrom j (activationdata.njobs - j))
    _ l acc acc1 ⟨[], rfl, by simp⟩ ?_ h
  intro b a b2 _ hb hstep
  obtain ⟨new, hnew, hrows⟩ := hb
  rw [candidateStepIdeal_eq] at hstep
  split_ifs at hstep
  · simp only [Option.some.injEq] at hstep
    subst hstep
    exact ⟨new, hnew, hrows⟩
  · simp only [Option.some.injEq] at hstep
    subst hstep
    refine ⟨candidateRecord activationdata j fixedmakespan makespans a :: new, ?_, ?_⟩
    · show _ :: b.2 = _
      rw [hnew]; rfl
    · intro r hr
      simp only [List.mem_cons] at hr
      rcases hr with rfl | hr
      · rfl
      · exact hrows r hr

theorem processCandidatesIdeal_prepends (scip : SCIP) (activationdata : ACTIVATIONDATA) (j : Nat)
    (st st1 : MakespanState) (h : processCandidatesIdeal scip activationdata j st = some st1) :
    ∃ new, st1.submatrix = new ++ st.submatrix ∧
      ∀ r ∈ new, r.rows = rowsFrom j (activationdata.njobs - j) := by
  cases hns : st.newsymmakespans with
  | nil =>
    simp only [processCandidatesIdeal, hns, Option.some.injEq] at h
    subst h
    exact ⟨[], rfl, by simp⟩
  | cons value values =>
    simp only [processCandidatesIdeal, hns] at h
    cases hfold : foldSteps
        (candidateStepIdeal scip activationdata j st.fixedmakespan st.makespans)
        (value :: values) ([], st.submatrix) with
    | none => simp [hfold] at h
    | some acc =>
      simp only [hfold, Option.some.injEq] at h
      subst h
      exact candidateFoldIdeal_prepends scip activationdata j _ _ _ _ acc hfold

theorem scanRowsIdeal_order (scip : SCIP) (activationdata : ACTIVATIONDATA) (k : Nat) :
    ∀ (j : Nat) (st st1 : MakespanState),
      scanRowsIdeal scip activationdata (List.range' j k) st = some st1 →
      ∃ new, st1.submatrix = new ++ st.submatrix ∧
        (∀ r ∈ new, ∃ i, j ≤ i ∧ r.rows = rowsFrom i (activationdata.njobs - i)) ∧
        new.Pairwise (fun a b => StartsNotAfter b a) := by
  induction k with
  | zero =>
    intro j st st1 h
    simp only [List.range'_zero, scanRowsIdeal, Option.some.injEq] at h
    subst h
    exact ⟨[], rfl, by simp, List.Pairwise.nil⟩
  | succ k ih =>
    intro j st st1 h
    rw [List.range'_succ, scanRowsIdeal] at h
    cases hpc : processCandidatesIdeal scip activationdata j st with
    | none => simp [hpc] at h
    | some st2 =>
      simp only [hpc] at h
      obtain ⟨new1, hnew1, hrows1⟩ := processCandidatesIdeal_prepends scip activationdata j st st2 hpc
      have hsub : (updateMachinesIdeal scip activationdata j st2).1.submatrix =
          new1 ++ st.submatrix := by
        rw [updateMachinesIdeal_eq, machinesUpToIdeal_submatrix, hnew1]
      have hpair1 : new1.Pairwise (fun a b => StartsNotAfter b a) := by
        apply pairwise_of_mem
        intro a ha b hb x y hax hby
        rw [hrows1 a ha] at hax
        rw [hrows1 b hb] at hby
        have := rowsFrom_head_eq _ _ _ hax
        have := rowsFrom_head_eq _ _ _ hby
        omega
      split_ifs at h with hall
      · simp only [Option.some.injEq] at h
        subst h
        exact ⟨new1, hsub, fun r hr => ⟨j, le_refl j, hrows1 r hr⟩, hpair1⟩
      · obtain ⟨new2, hnew2, hrows2, hpair2⟩ := ih (j + 1) _ st1 h
        refine ⟨new2 ++ new1, by rw [hnew2, hsub, List.append_assoc], ?_, ?_⟩
        · intro r hr
          simp only [List.mem_append] at hr
          rcases hr with hr | hr
          · obtain ⟨i, hi, hrows⟩ := hrows2 r hr
            exact ⟨i, by omega, hrows⟩
          · exact ⟨j, le_refl j, hrows1 r hr⟩
        · rw [List.pairwise_append]
          refine ⟨hpair2, hpair1, ?_⟩
          intro a ha b hb x y hax hby
          obtain ⟨i, hi, hrows⟩ := hrows2 a ha
          rw [hrows] at hax
          rw [hrows1 b hb] at hby
          have := rowsFrom_head_eq _ _ _ hax
          have := rowsFrom_head_eq _ _ _ hby
          omega

theorem findSubSymmetriesIdeal_order (scip : SCIP) (activationdata : ACTIVATIONDATA)
    (res : List SCIP_ACTIVATIONSUBMATRIX)
    (h : findSubSymmetriesIdeal scip activationdata = some res) :
    res.Pairwise (fun a b => StartsNotAfter b a) := by
  simp only [findSubSymmetriesIdeal, Option.map_eq_some'] at h
  obtain ⟨st1, hst1, hres⟩ := h
  rw [List.range_eq_range'] at hst1
  obtain ⟨new, hnew, _, hpair⟩ := scanRowsIdeal_order scip activationdata _ 0 _ st1 hst1
  rw [← hres, hnew]
  simpa [makespanInit] using hpair

theorem wrapInt_eq (x : Int) (h1 : -2147483648 ≤ x) (h2 : x ≤ INT_MAX) : wrapInt x = x := by
  unfold wrapInt
  unfold INT_MAX at h2
  omega

theorem machineStep_eq_ideal (scip : SCIP) (activationdata : ACTIVATIONDATA) (j m : Nat)
    (acc : MakespanState × Bool)
    (h : acc.1.fixedmakespan m ≠ -1 → lbAboveHalf scip (activationdata.matrix j m) = true →
      wrapInt (acc.1.fixedmakespan m + activationdata.jobtimes j) =
        acc.1.fixedmakespan m + activationdata.jobtimes j) :
    machineStep scip activationdata j acc m = machineStepIdeal scip activationdata j acc m := by
  by_cases hu : acc.1.fixedmakespan m = -1
  · simp only [machineStep, machineStepIdeal, hu, if_true]
  · cases hlb : lbAboveHalf scip (activationdata.matrix j m) with
    | true =>
      simp only [machineStep, machineStepIdeal, hu, if_false, hlb, if_true, h hu hlb]
    | false =>
      simp [machineStep, machineStepIdeal, hu, hlb]

theorem machinesUpTo_succ (scip : SCIP) (activationdata : ACTIVATIONDATA) (j : Nat)
    (st : MakespanState) (k : Nat) :
    machinesUpTo scip activationdata j st (k + 1) =
      machineStep scip activationdata j (machinesUpTo scip activationdata j st k) k := by
  simp [machinesUpTo, List.range_succ]

theorem updateMachines_eq (scip : SCIP) (activationdata : ACTIVATIONDATA) (j : Nat)
    (st : MakespanState) :
    updateMachines scip activationdata j st =
      machinesUpTo scip activationdata j st activationdata.nmachines := rfl

theorem machinesUpTo_eq_ideal (scip : SCIP) (activationdata : ACTIVATIONDATA) (j : Nat)
    (st : MakespanState)
    (h : ∀ m < activationdata.nmachines, st.fixedmakespan m ≠ -1 →
      lbAboveHalf scip (activationdata.matrix j m) = true →
      wrapInt (st.fixedmakespan m + activationdata.jobtimes j) =
        st.fixedmakespan m + activationdata.jobtimes j)
    (k : Nat) (hk : k ≤ activationdata.nmachines) :
    machinesUpTo scip activationdata j st k = machinesUpToIdeal scip activationdata j st k := by
  induction k with
  | zero => rfl
  | succ k ih =>
    rw [machinesUpTo_succ, machinesUpToIdeal_succ, ih (by omega)]
    apply machineStep_eq_ideal
    rw [machinesUpToIdeal_fixedmakespan, if_neg (by omega)]
    exact h k (by omega)

theorem updateMachines_eq_ideal (scip : SCIP) (activationdata : ACTIVATIONDATA) (j : Nat)
    (st : MakespanState)
    (h : ∀ m < activationdata.nmachines, st.fixedmakespan m ≠ -1 →
      lbAboveHalf scip (activationdata.matrix j m) = true →
      wrapInt (st.fixedmakespan m + activationdata.jobtimes j) =
        st.fixedmakespan m + activationdata.jobtimes j) :
    updateMachines scip activationdata j st = updateMachinesIdeal scip activationdata j st :=
  machinesUpTo_eq_ideal scip activationdata j st h _ (le_refl _)

theorem candidateStep_eq (scip : SCIP) (activationdata : ACTIVATIONDATA) (j : Nat)
    (fixedmakespan : Nat → Int) (makespans : SCIP_HASHMAP)
    (acc : List Int × List SCIP_ACTIVATIONSUBMATRIX) (value : Int) :
    candidateStep scip activationdata j fixedmakespan makespans acc value =
      if ((candidateRecord activationdata j fixedmakespan makespans value).cols.length : Int) <
          SCIPhashmapGetImageInt makespans value then none
      else if (candidateRecord activationdata j fixedmakespan makespans value).cols.all
          (fun c => !(ubAboveHalf scip (activationdata.matrix j c))) = true then
        (if acc.1.length < activationdata.nmachines / 2 + 1 then some (acc.1 ++ [value], acc.2)
         else none)
      else
        some (acc.1, candidateRecord activationdata j fixedmakespan makespans value :: acc.2) := by
  rfl

theorem candidateStep_sound (scip : SCIP) (activationdata : ACTIVATIONDATA) (j : Nat)
    (fixedmakespan : Nat → Int) (makespans : SCIP_HASHMAP)
    (acc acc1 : List Int × List SCIP_ACTIVATIONSUBMATRIX) (value : Int)
    (h : candidateStep scip activationdata j fixedmakespan makespans acc value = some acc1) :
    candidateStepIdeal scip activationdata j fixedmakespan makespans acc value = some acc1 := by
  rw [candidateStep_eq] at h
  rw [candidateStepIdeal_eq]
  split_ifs at h ⊢ with h1 h2 h3
  · exact h
  · exact h

theorem candidateFold_sound (scip : SCIP) (activationdata : ACTIVATIONDATA) (j : Nat)
    (fixedmakespan : Nat → Int) (makespans : SCIP_HASHMAP) (l : List Int) :
    ∀ (acc acc1 : List Int × List SCIP_ACTIVATIONSUBMATRIX),
      foldSteps (candidateStep scip activationdata j fixedmakespan makespans) l acc =
        some acc1 →
      foldSteps (candidateStepIdeal scip activationdata j fixedmakespan makespans) l acc =
        some acc1 := by
  induction l with
  | nil => intro acc acc1 h; exact h
  | cons v l ih =>
    intro acc acc1 h
    simp only [foldSteps] at h ⊢
    cases hs : candidateStep scip activationdata j fixedmakespan makespans acc v with
    | none => simp [hs] at h
    | some acc2 =>
      rw [hs] at h
      rw [candidateStep_sound scip activationdata j fixedmakespan makespans acc acc2 v hs]
      exact ih acc2 acc1 h

theorem processCandidates_sound (scip : SCIP) (activationdata : ACTIVATIONDATA) (j : Nat)
    (st st1 : MakespanState) (h : processCandidates scip activationdata j st = some st1) :
    processCandidatesIdeal scip activationdata j st = some st1 := by
  cases hns : st.newsymmakespans with
  | nil =>
    simp only [processCandidates, hns] at h
    simp only [processCandidatesIdeal, hns]
    exact h
  | cons value values =>
    simp only [processCandidates, hns] at h
    simp only [processCandidatesIdeal, hns]
    cases hfold : foldSteps
        (candidateStep scip activationdata j st.fixedmakespan st.makespans)
        (value :: values) ([], st.submatrix) with
    | none => simp [hfold] at h
    | some acc =>
      rw [hfold] at h
      rw [candidateFold_sound scip activationdata j _ _ _ _ acc hfold]
      exact h

theorem machineStep_submatrix (scip : SCIP) (activationdata : ACTIVATIONDATA) (j m : Nat)
    (acc : MakespanState × Bool) :
    (machineStep scip activationdata j acc m).1.submatrix = acc.1.submatrix := by
  simp only [machineStep]
  split_ifs <;> rfl

theorem machinesUpTo_submatrix (scip : SCIP) (activationdata : ACTIVATIONDATA) (j : Nat)
    (st : MakespanState) (k : Nat) :
    (machinesUpTo scip activationdata j st k).1.submatrix = st.submatrix := by
  induction k with
  | zero => simp [machinesUpTo]
  | succ k ih => rw [machinesUpTo_succ, machineStep_submatrix, ih]

theorem scanRows_emitted (scip : SCIP) (activationdata : ACTIVATIONDATA)
    (R : SCIP_ACTIVATIONSUBMATRIX → Prop)
    (hR : ∀ j < activationdata.njobs, ∀ fixedmakespan makespans value,
      ¬ ((candidateRecord activationdata j fixedmakespan makespans value).cols.all
        (fun c => !(ubAboveHalf scip (activationdata.matrix j c))) = true) →
      R (candidateRecord activationdata j fixedmakespan makespans value))
    (rows : List Nat) :
    ∀ (st st1 : MakespanState), (∀ j ∈ rows, j < activationdata.njobs) →
      (∀ r ∈ st.submatrix, R r) →
      scanRows scip activationdata rows st = some st1 → ∀ r ∈ st1.submatrix, R r := by
  induction rows with
  | nil =>
    intro st st1 _ hout h
    simp only [scanRows, Option.some.injEq] at h
    subst h
    exact hout
  | cons j later ih =>
    intro st st1 hrows hout h
    rw [scanRows] at h
    cases hpc : processCandidates scip activationdata j st with
    | none => simp [hpc] at h
    | some st2 =>
      simp only [hpc] at h
      have hout2 := processCandidatesIdeal_emitted scip activationdata R j st st2
        (fun value => hR j (hrows j (by simp)) _ _ value) hout
        (processCandidates_sound scip activationdata j st st2 hpc)
      have hout3 : ∀ r ∈ (updateMachines scip activationdata j st2).1.submatrix, R r := by
        rw [updateMachines_eq, machinesUpTo_submatrix]
        exact hout2
      split_ifs at h with hall
      · simp only [Option.some.injEq] at h
        subst h
        exact hout3
      · exact ih _ st1 (fun i hi => hrows i (by simp [hi])) hout3 h

theorem findSubSymmetries_firstRowOpen (scip : SCIP) (activationdata : ACTIVATIONDATA)
    (res : List SCIP_ACTIVATIONSUBMATRIX)
    (h : findSubSymmetries scip activationdata = some res) :
    ∀ r ∈ res, FirstRowOpen scip activationdata r := by
  simp only [findSubSymmetries, Option.map_eq_some'] at h
  obtain ⟨st1, hst1, rfl⟩ := h
  apply scanRows_emitted scip activationdata (FirstRowOpen scip activationdata) ?_ _ _ st1
    (fun j hj => List.mem_range.mp hj) ?_ hst1
  · intro j hj fixedmakespan makespans value hall
    refine ⟨j, rowsFrom_head j _ (by omega), hj, ?_⟩
    simp only [List.all_eq_true, Bool.not_eq_true', not_forall, Bool.not_eq_false,
      exists_prop] at hall
    exact hall
  · intro r hr
    simp [makespanInit] at hr

theorem scanRows_free (scip : SCIP) (activationdata : ACTIVATIONDATA)
    (hfree : ∀ j < activationdata.njobs, ∀ m < activationdata.nmachines,
      ubBelowHalf scip (activationdata.matrix j m) = false ∧
      lbAboveHalf scip (activationdata.matrix j m) = false)
    (rows : List Nat) :
    ∀ (st : MakespanState), (∀ j ∈ rows, j < activationdata.njobs) →
      st.newsymmakespans = [] → st.submatrix = [] →
      ∃ st1, scanRows scip activationdata rows st = some st1 ∧ st1.submatrix = [] := by
  induction rows with
  | nil =>
    intro st _ _ hout
    exact ⟨st, rfl, hout⟩
  | cons j later ih =>
    intro st hrows hns hout
    have hj : j < activationdata.njobs := hrows j (by simp)
    have hpc : processCandidates scip activationdata j st = some st := by
      simp [processCandidates, hns]
    have hup : updateMachines scip activationdata j st =
        updateMachinesIdeal scip activationdata j st := by
      apply updateMachines_eq_ideal
      intro m hm _ hlb
      rw [(hfree j hj m hm).2] at hlb
      exact Bool.noConfusion hlb
    have hout2 : (updateMachines scip activationdata j st).1.submatrix = [] := by
      rw [updateMachines_eq, machinesUpTo_submatrix, hout]
    have hns2 : (updateMachines scip activationdata j st).1.newsymmakespans = [] := by
      rw [hup, List.eq_nil_iff_forall_not_mem]
      intro v hv
      rw [updateMachinesIdeal_eq] at hv
      rcases machinesUpToIdeal_newsymmakespans scip activationdata j st _ v hv with h | h
      · simp [hns] at h
      · obtain ⟨m, hm, _, hlb, _⟩ := h
        rw [(hfree j hj m hm).2] at hlb
        exact Bool.noConfusion hlb
    rw [scanRows, hpc]
    simp only
    split_ifs with hall
    · exact ⟨_, rfl, hout2⟩
    · exact ih _ (fun i hi => hrows i (by simp [hi])) hns2 hout2

theorem findSubSymmetries_free (scip : SCIP) (activationdata : ACTIVATIONDATA)
    (hfree : ∀ j < activationdata.njobs, ∀ m < activationdata.nmachines,
      ubBelowHalf scip (activationdata.matrix j m) = false ∧
      lbAboveHalf scip (activationdata.matrix j m) = false) :
    findSubSymmetries scip activationdata = some [] := by
  obtain ⟨st1, hst1, hout⟩ := scanRows_free scip activationdata hfree
    (List.range activationdata.njobs) (makespanInit activationdata)
    (fun j hj => List.mem_range.mp hj) rfl rfl
  simp [findSubSymmetries, hst1, hout]

theorem scanRows_order (scip : SCIP) (activationdata : ACTIVATIONDATA) (k : Nat) :
    ∀ (j : Nat) (st st1 : MakespanState),
      scanRows scip activationdata (List.range' j k) st = some st1 →
      ∃ new, st1.submatrix = new ++ st.submatrix ∧
        (∀ r ∈ new, ∃ i, j ≤ i ∧ r.rows = rowsFrom i (activationdata.njobs - i)) ∧
        new.Pairwise (fun a b => StartsNotAfter b a) := by
  induction k with
  | zero =>
    intro j st st1 h
    simp only [List.range'_zero, scanRows, Option.some.injEq] at h
    subst h
    exact ⟨[], rfl, by simp, List.Pairwise.nil⟩
  | succ k ih =>
    intro j st st1 h
    rw [List.range'_succ, scanRows] at h
    cases hpc : processCandidates scip activationdata j st with
    | none => simp [hpc] at h
    | some st2 =>
      simp only [hpc] at h
      obtain ⟨new1, hnew1, hrows1⟩ := processCandidatesIdeal_prepends scip activationdata j st st2
        (processCandidates_sound scip activationdata j st st2 hpc)
      have hsub : (updateMachines scip activationdata j st2).1.submatrix =
          new1 ++ st.submatrix := by
        rw [updateMachines_eq, machinesUpTo_submatrix, hnew1]
      have hpair1 : new1.Pairwise (fun a b => StartsNotAfter b a) := by
        apply pairwise_of_mem
        intro a ha b hb x y hax hby
        rw [hrows1 a ha] at hax
        rw [hrows1 b hb] at hby
        have := rowsFrom_head_eq _ _ _ hax
        have := rowsFrom_head_eq _ _ _ hby
        omega
      split_ifs at h with hall
      · simp only [Option.some.injEq] at h
        subst h
        exact ⟨new1, hsub, fun r hr => ⟨j, le_refl j, hrows1 r hr⟩, hpair1⟩
      · obtain ⟨new2, hnew2, hrows2, hpair2⟩ := ih (j + 1) _ st1 h
        refine ⟨new2 ++ new1, by rw [hnew2, hsub, List.append_assoc], ?_, ?_⟩
        · intro r hr
          simp only [List.mem_append] at hr
          rcases hr with hr | hr
          · obtain ⟨i, hi, hrows⟩ := hrows2 r hr
            exact ⟨i, by omega, hrows⟩
          · exact ⟨j, le_refl j, hrows1 r hr⟩
        · rw [List.pairwise_append]
          refine ⟨hpair2, hpair1, ?_⟩
          intro a ha b hb x y hax hby
          obtain ⟨i, hi, hrows⟩ := hrows2 a ha
          rw [hrows] at hax
          rw [hrows1 b hb] at hby
          have := rowsFrom_head_eq _ _ _ hax
          have := rowsFrom_head_eq _ _ _ hby
          omega

theorem findSubSymmetries_order (scip : SCIP) (activationdata : ACTIVATIONDATA)
    (res : List SCIP_ACTIVATIONSUBMATRIX)
    (h : findSubSymmetries scip activationdata = some res) :
    res.Pairwise (fun a b => StartsNotAfter b a) := by
  simp only [findSubSymmetries, Option.map_eq_some'] at h
  obtain ⟨st1, hst1, hres⟩ := h
  rw [List.range_eq_range'] at hst1
  obtain ⟨new, hnew, _, hpair⟩ := scanRows_order scip activationdata _ 0 _ st1 hst1
  rw [← hres, hnew]
  simpa [makespanInit] using hpair

theorem partialTime_le (activationdata : ACTIVATIONDATA)
    (hdur : ∀ j < activationdata.njobs, 0 ≤ activationdata.jobtimes j) (d : Nat) :
    ∀ j, j + d ≤ activationdata.njobs →
      ((List.range j).map activationdata.jobtimes).sum ≤
        ((List.range (j + d)).map activationdata.jobtimes).sum := by
  induction d with
  | zero => intro j _; exact le_refl _
  | succ d ih =>
    intro j hj
    have h1 := ih j (by omega)
    have h2 := hdur (j + d) (by omega)
    rw [← Nat.add_assoc, List.range_succ, List.map_append, List.sum_append]
    simp only [List.map_cons, List.map_nil, List.sum_cons, List.sum_nil, add_zero]
    omega

theorem fixedSum_le (scip : SCIP) (activationdata : ACTIVATIONDATA)
    (hdur : ∀ j < activationdata.njobs, 0 ≤ activationdata.jobtimes j) (m : Nat) (j : Nat) :
    j ≤ activationdata.njobs →
      0 ≤ fixedSum scip activationdata j m ∧
      fixedSum scip activationdata j m ≤ ((List.range j).map activationdata.jobtimes).sum := by
  induction j with
  | zero => intro _; simp [fixedSum]
  | succ j ih =>
    intro hj
    obtain ⟨h1, h2⟩ := ih (by omega)
    have h3 := hdur j (by omega)
    rw [fixedSum_succ, List.range_succ, List.map_append, List.sum_append]
    simp only [List.map_cons, List.map_nil, List.sum_cons, List.sum_nil, add_zero]
    split_ifs <;> constructor <;> omega

theorem fixedSum_le_total (scip : SCIP) (activationdata : ACTIVATIONDATA)
    (hdur : ∀ j < activationdata.njobs, 0 ≤ activationdata.jobtimes j) (m j : Nat)
    (hj : j ≤ activationdata.njobs) :
    0 ≤ fixedSum scip activationdata j m ∧
      fixedSum scip activationdata j m ≤ totalTime activationdata := by
  obtain ⟨h1, h2⟩ := fixedSum_le scip activationdata hdur m j hj
  have h3 := partialTime_le activationdata hdur (activationdata.njobs - j) j (by omega)
  rw [show j + (activationdata.njobs - j) = activationdata.njobs by omega] at h3
  exact ⟨h1, le_trans h2 h3⟩

theorem sum_in_range (scip : SCIP) (activationdata : ACTIVATIONDATA)
    (hdur : ∀ j < activationdata.njobs, 0 ≤ activationdata.jobtimes j)
    (hsum : totalTime activationdata ≤ INT_MAX)
    (j : Nat) (hj : j < activationdata.njobs) (st : MakespanState)
    (hfix : ∀ m < activationdata.nmachines, st.fixedmakespan m = -1 ∨
      st.fixedmakespan m = fixedSum scip activationdata j m) :
    ∀ m < activationdata.nmachines, st.fixedmakespan m ≠ -1 →
      lbAboveHalf scip (activationdata.matrix j m) = true →
      wrapInt (st.fixedmakespan m + activationdata.jobtimes j) =
        st.fixedmakespan m + activationdata.jobtimes j := by
  intro m hm hne hlb
  rcases hfix m hm with h | h
  · exact absurd h hne
  · have h1 := fixedSum_le_total scip activationdata hdur m (j + 1) (by omega)
    rw [fixedSum_succ, if_pos hlb, ← h] at h1
    apply wrapInt_eq
    · omega
    · omega

theorem makespanInv_fix (scip : SCIP) (activationdata : ACTIVATIONDATA) (j : Nat)
    (st : MakespanState) (hinv : MakespanInv scip activationdata j st) :
    ∀ m < activationdata.nmachines, st.fixedmakespan m = -1 ∨
      st.fixedmakespan m = fixedSum scip activationdata j m := by
  intro m hm
  rcases hinv.fixed m hm with h | h
  · exact Or.inl h
  · exact Or.inr h.2.2

theorem scanRows_sound (scip : SCIP) (activationdata : ACTIVATIONDATA)
    (hdur : ∀ j < activationdata.njobs, 0 ≤ activationdata.jobtimes j)
    (hsum : totalTime activationdata ≤ INT_MAX) (k : Nat) :
    ∀ (j : Nat) (st x : MakespanState), j + k = activationdata.njobs →
      MakespanInv scip activationdata j st →
      scanRows scip activationdata (List.range' j k) st = some x →
      scanRowsIdeal scip activationdata (List.range' j k) st = some x := by
  induction k with
  | zero =>
    intro j st x _ _ h
    exact h
  | succ k ih =>
    intro j st x hjk hinv h
    rw [List.range'_succ, scanRows] at h
    rw [List.range'_succ, scanRowsIdeal]
    cases hpc : processCandidates scip activationdata j st with
    | none => simp [hpc] at h
    | some st2 =>
      have hpci := processCandidates_sound scip activationdata j st st2 hpc
      simp only [hpc] at h
      simp only [hpci]
      obtain ⟨hinv2, _, _⟩ := processCandidatesIdeal_inv scip activationdata j st st2 (by omega)
        hinv hpci
      have hup := updateMachines_eq_ideal scip activationdata j st2
        (sum_in_range scip activationdata hdur hsum j (by omega) st2
          (makespanInv_fix scip activationdata j st2 hinv2))
      rw [hup] at h
      split_ifs at h ⊢ with hall
      · exact h
      · exact ih (j + 1) _ x (by omega)
          (updateMachinesIdeal_inv scip activationdata j st2 (hdur j (by omega)) hinv2) h

theorem findSubSymmetries_sound (scip : SCIP) (activationdata : ACTIVATIONDATA)
    (hdur : ∀ j < activationdata.njobs, 0 ≤ activationdata.jobtimes j)
    (hsum : totalTime activationdata ≤ INT_MAX)
    (res : List SCIP_ACTIVATIONSUBMATRIX)
    (h : findSubSymmetries scip activationdata = some res) :
    findSubSymmetriesIdeal scip activationdata = some res := by
  simp only [findSubSymmetries, Option.map_eq_some'] at h
  obtain ⟨st1, hst1, hres⟩ := h
  rw [List.range_eq_range'] at hst1
  have := scanRows_sound scip activationdata hdur hsum _ 0 _ st1 (by omega)
    (makespanInit_inv scip activationdata) hst1
  rw [← List.range_eq_range'] at this
  simp only [findSubSymmetriesIdeal, this, Option.map_some', hres]

theorem scanStateIdeal_inv (scip : SCIP) (activationdata : ACTIVATIONDATA)
    (hdur : ∀ j < activationdata.njobs, 0 ≤ activationdata.jobtimes j) (j : Nat) :
    ∀ st, j ≤ activationdata.njobs → scanStateIdeal scip activationdata j = some st →
      MakespanInv scip activationdata j st := by
  induction j with
  | zero =>
    intro st _ h
    simp only [scanStateIdeal, Option.some.injEq] at h
    subst h
    exact makespanInit_inv scip activationdata
  | succ j ih =>
    intro st hj h
    simp only [scanStateIdeal] at h
    cases hprev : scanStateIdeal scip activationdata j with
    | none => simp [hprev] at h
    | some st0 =>
      simp only [hprev] at h
      cases hpc : processCandidatesIdeal scip activationdata j st0 with
      | none => simp [hpc] at h
      | some st1 =>
        simp only [hpc] at h
        split_ifs at h with hflag
        simp only [Option.some.injEq] at h
        subst h
        exact updateMachinesIdeal_inv scip activationdata j st1 (hdur j (by omega))
          (processCandidatesIdeal_inv scip activationdata j st0 st1 (by omega)
            (ih st0 (by omega) hprev) hpc).1

theorem scanState_sound (scip : SCIP) (activationdata : ACTIVATIONDATA)
    (hdur : ∀ j < activationdata.njobs, 0 ≤ activationdata.jobtimes j)
    (hsum : totalTime activationdata ≤ INT_MAX) (j : Nat) :
    ∀ st, j ≤ activationdata.njobs → scanState scip activationdata j = some st →
      scanStateIdeal scip activationdata j = some st := by
  induction j with
  | zero =>
    intro st _ h
    exact h
  | succ j ih =>
    intro st hj h
    simp only [scanState] at h
    simp only [scanStateIdeal]
    cases hprev : scanState scip activationdata j with
    | none => simp [hprev] at h
    | some st0 =>
      have hprevi := ih st0 (by omega) hprev
      simp only [hprev] at h
      simp only [hprevi]
      cases hpc : processCandidates scip activationdata j st0 with
      | none => simp [hpc] at h
      | some st1 =>
        have hpci := processCandidates_sound scip activationdata j st0 st1 hpc
        simp only [hpc] at h
        simp only [hpci]
        have hinv1 := (processCandidatesIdeal_inv scip activationdata j st0 st1 (by omega)
          (scanStateIdeal_inv scip activationdata hdur j st0 (by omega) hprevi) hpci).1
        have hup := updateMachines_eq_ideal scip activationdata j st1
          (sum_in_range scip activationdata hdur hsum j (by omega) st1
            (makespanInv_fix scip activationdata j st1 hinv1))
        rw [hup] at h
        exact h

theorem machineStepIdeal_nodup (scip : SCIP) (activationdata : ACTIVATIONDATA) (j m : Nat)
    (acc : MakespanState × Bool) (h : acc.1.newsymmakespans.Nodup) :
    (machineStepIdeal scip activationdata j acc m).1.newsymmakespans.Nodup := by
  simp only [machineStepIdeal]
  split_ifs with h1 h2 h3 h4 h5
  · exact h
  · exact h
  · exact h
  · exact List.Nodup.append h (List.nodup_singleton _)
      (by simpa [List.disjoint_singleton] using h4)
  · exact h
  · exact h

theorem machinesUpToIdeal_nodup (scip : SCIP) (activationdata : ACTIVATIONDATA) (j : Nat)
    (st : MakespanState) (h : st.newsymmakespans.Nodup) (k : Nat) :
    (machinesUpToIdeal scip activationdata j st k).1.newsymmakespans.Nodup := by
  induction k with
  | zero => exact h
  | succ k ih =>
    rw [machinesUpToIdeal_succ]
    exact machineStepIdeal_nodup scip activationdata j k _ ih

theorem candidateFoldIdeal_deferred (scip : SCIP) (activationdata : ACTIVATIONDATA) (j : Nat)
    (fixedmakespan : Nat → Int) (makespans : SCIP_HASHMAP) (l : List Int) :
    ∀ (acc acc1 : List Int × List SCIP_ACTIVATIONSUBMATRIX),
      foldSteps (candidateStepIdeal scip activationdata j fixedmakespan makespans) l acc =
        some acc1 →
      acc1.1 = acc.1 ++ l.filter (deferredIn scip activationdata j fixedmakespan makespans) := by
  induction l with
  | nil =>
    intro acc acc1 h
    simp only [foldSteps, Option.some.injEq] at h
    subst h
    simp
  | cons v l ih =>
    intro acc acc1 h
    simp only [foldSteps] at h
    cases hs : candidateStepIdeal scip activationdata j fixedmakespan makespans acc v with
    | none => simp [hs] at h
    | some acc2 =>
      rw [hs] at h
      have h2 := ih acc2 acc1 h
      rw [candidateStepIdeal_eq] at hs
      split_ifs at hs with h3 h4
      · simp only [Option.some.injEq] at hs
        subst hs
        rw [h2, List.filter_cons, deferredIn, h4]
        simp
      · simp only [Option.some.injEq] at hs
        subst hs
        have h5 : deferredIn scip activationdata j fixedmakespan makespans v = false := by
          simpa [deferredIn] using h4
        rw [h2, List.filter_cons, h5]
        simp

theorem processCandidatesIdeal_deferred (scip : SCIP) (activationdata : ACTIVATIONDATA)
    (j : Nat) (st st1 : MakespanState)
    (h : processCandidatesIdeal scip activationdata j st = some st1) :
    st1.newsymmakespans =
      st.newsymmakespans.filter
        (deferredIn scip activationdata j st.fixedmakespan st.makespans) := by
  cases hns : st.newsymmakespans with
  | nil =>
    simp only [processCandidatesIdeal, hns, Option.some.injEq] at h
    subst h
    simp [hns]
  | cons value values =>
    simp only [processCandidatesIdeal, hns] at h
    cases hfold : foldSteps
        (candidateStepIdeal scip activationdata j st.fixedmakespan st.makespans)
        (value :: values) ([], st.submatrix) with
    | none => simp [hfold] at h
    | some acc =>
      simp only [hfold, Option.some.injEq] at h
      subst h
      have := candidateFoldIdeal_deferred scip activationdata j _ _ _ _ acc hfold
      simpa using this

theorem candidateFold_eq_ideal (scip : SCIP) (activationdata : ACTIVATIONDATA) (j : Nat)
    (fixedmakespan : Nat → Int) (makespans : SCIP_HASHMAP) (l : List Int) :
    ∀ (acc : List Int × List SCIP_ACTIVATIONSUBMATRIX),
      acc.1.length + (l.filter
        (deferredIn scip activationdata j fixedmakespan makespans)).length ≤
          activationdata.nmachines / 2 + 1 →
      foldSteps (candidateStep scip activationdata j fixedmakespan makespans) l acc =
        foldSteps (candidateStepIdeal scip activationdata j fixedmakespan makespans) l acc := by
  induction l with
  | nil => intro acc _; rfl
  | cons v l ih =>
    intro acc hlen
    simp only [foldSteps]
    rw [candidateStep_eq, candidateStepIdeal_eq]
    rw [List.filter_cons] at hlen
    split_ifs with h1 h2 h3
    · rfl
    · apply ih
      have hd : deferredIn scip activationdata j fixedmakespan makespans v = true := h2
      simp only [hd, if_true, List.length_cons] at hlen
      simp only [List.length_append, List.length_singleton]
      omega
    · exfalso
      have hd : deferredIn scip activationdata j fixedmakespan makespans v = true := h2
      simp only [hd, if_true, List.length_cons] at hlen
      omega
    · apply ih
      have hd : deferredIn scip activationdata j fixedmakespan makespans v = false := by
        simpa [deferredIn] using h2
      simpa [hd] using hlen

theorem deferred_length_le (scip : SCIP) (activationdata : ACTIVATIONDATA) (j i : Nat)
    (st : MakespanState)
    (hinv : CountInv scip activationdata i activationdata.nmachines st)
    (hnd : st.newsymmakespans.Nodup) :
    (st.newsymmakespans.filter
      (deferredIn scip activationdata j st.fixedmakespan st.makespans)).length ≤
      (zeroMachines scip activationdata j).length := by
  have hsub : st.newsymmakespans.filter
      (deferredIn scip activationdata j st.fixedmakespan st.makespans) ⊆
      (zeroMachines scip activationdata j).map st.fixedmakespan := by
    intro v hv
    rw [List.mem_filter] at hv
    obtain ⟨hv1, hv2⟩ := hv
    obtain ⟨hv0, w, hw, hwv, _⟩ := hinv.holder v hv1
    obtain ⟨_, hcols, _⟩ := candidateCols_full activationdata st.fixedmakespan st.makespans
      v hv0 hinv.counts ⟨w, hw, hwv⟩
    have hwc : w ∈ (candidateRecord activationdata j st.fixedmakespan st.makespans v).cols := by
      show w ∈ candidateCols activationdata st.fixedmakespan v _
      rw [hcols, List.mem_filter]
      exact ⟨List.mem_range.mpr hw, by simpa using hwv⟩
    have hz := List.all_eq_true.mp hv2 w hwc
    rw [List.mem_map]
    exact ⟨w, by rw [zeroMachines, List.mem_filter]; exact ⟨List.mem_range.mpr hw, hz⟩, hwv⟩
  have h1 := (List.subperm_of_subset (hnd.filter _) hsub).length_le
  rw [List.length_map] at h1
  exact h1

theorem processCandidates_eq_ideal (scip : SCIP) (activationdata : ACTIVATIONDATA) (j i : Nat)
    (st : MakespanState)
    (hzero : (zeroMachines scip activationdata j).length ≤ activationdata.nmachines / 2 + 1)
    (hinv : CountInv scip activationdata i activationdata.nmachines st)
    (hnd : st.newsymmakespans.Nodup) :
    processCandidates scip activationdata j st =
      processCandidatesIdeal scip activationdata j st := by
  have hlen := deferred_length_le scip activationdata j i st hinv hnd
  cases hns : st.newsymmakespans with
  | nil => simp only [processCandidates, processCandidatesIdeal, hns]
  | cons value values =>
    rw [hns] at hlen
    simp only [processCandidates, processCandidatesIdeal, hns]
    rw [candidateFold_eq_ideal scip activationdata j _ _ _ _
      (by simp only [List.length_nil, zero_add]; omega)]

theorem row_eq_ideal (scip : SCIP) (activationdata : ACTIVATIONDATA)
    (hfit : ScanFits scip activationdata) (j i : Nat) (hj : j < activationdata.njobs)
    (st : MakespanState) (hinv : MakespanInv scip activationdata j st)
    (hci : CountInv scip activationdata i activationdata.nmachines st)
    (hnd : st.newsymmakespans.Nodup) :
    ∃ st1, processCandidates scip activationdata j st = some st1 ∧
      processCandidatesIdeal scip activationdata j st = some st1 ∧
      updateMachines scip activationdata j st1 = updateMachinesIdeal scip activationdata j st1 ∧
      MakespanInv scip activationdata (j + 1) (updateMachinesIdeal scip activationdata j st1).1 ∧
      CountInv scip activationdata j activationdata.nmachines
        (updateMachinesIdeal scip activationdata j st1).1 ∧
      (updateMachinesIdeal scip activationdata j st1).1.newsymmakespans.Nodup := by
  obtain ⟨st1, hpci, hc1⟩ := processCandidatesIdeal_countInv scip activationdata j i st
    (hfit.bounds j hj) hci
  have hpc : processCandidates scip activationdata j st = some st1 := by
    rw [processCandidates_eq_ideal scip activationdata j i st (hfit.deferrals j hj) hci hnd]
    exact hpci
  have hinv1 := (processCandidatesIdeal_inv scip activationdata j st st1 hj hinv hpci).1
  have hnd1 : st1.newsymmakespans.Nodup := by
    rw [processCandidatesIdeal_deferred scip activationdata j st st1 hpci]
    exact hnd.filter _
  refine ⟨st1, hpc, hpci, ?_, ?_, ?_, ?_⟩
  · exact updateMachines_eq_ideal scip activationdata j st1
      (sum_in_range scip activationdata hfit.dur hfit.sum j hj st1
        (makespanInv_fix scip activationdata j st1 hinv1))
  · exact updateMachinesIdeal_inv scip activationdata j st1 (hfit.dur j hj) hinv1
  · exact machinesUpToIdeal_countInv scip activationdata j st1 (hfit.dur j hj) hfit.machines hc1
      activationdata.nmachines (le_refl _)
  · exact machinesUpToIdeal_nodup scip activationdata j st1 hnd1 _

theorem scanRows_eq_ideal (scip : SCIP) (activationdata : ACTIVATIONDATA)
    (hfit : ScanFits scip activationdata) (k : Nat) :
    ∀ (j i : Nat) (st : MakespanState), j + k = activationdata.njobs →
      MakespanInv scip activationdata j st →
      CountInv scip activationdata i activationdata.nmachines st →
      st.newsymmakespans.Nodup →
      scanRows scip activationdata (List.range' j k) st =
        scanRowsIdeal scip activationdata (List.range' j k) st := by
  induction k with
  | zero => intro j i st _ _ _ _; rfl
  | succ k ih =>
    intro j i st hjk hinv hci hnd
    obtain ⟨st1, hpc, hpci, hup, hinv2, hci2, hnd2⟩ :=
      row_eq_ideal scip activationdata hfit j i (by omega) st hinv hci hnd
    rw [List.range'_succ, scanRows, scanRowsIdeal, hpc, hpci]
    simp only [hup]
    split_ifs with hall
    · rfl
    · exact ih (j + 1) j _ (by omega) hinv2 hci2 hnd2

theorem scanRowsWithoutBreak_eq_ideal (scip : SCIP) (activationdata : ACTIVATIONDATA)
    (hfit : ScanFits scip activationdata) (k : Nat) :
    ∀ (j i : Nat) (st : MakespanState), j + k = activationdata.njobs →
      MakespanInv scip activationdata j st →
      CountInv scip activationdata i activationdata.nmachines st →
      st.newsymmakespans.Nodup →
      scanRowsWithoutBreak scip activationdata (List.range' j k) st =
        scanRowsWithoutBreakIdeal scip activationdata (List.range' j k) st := by
  induction k with
  | zero => intro j i st _ _ _ _; rfl
  | succ k ih =>
    intro j i st hjk hinv hci hnd
    obtain ⟨st1, hpc, hpci, hup, hinv2, hci2, hnd2⟩ :=
      row_eq_ideal scip activationdata hfit j i (by omega) st hinv hci hnd
    rw [List.range'_succ, scanRowsWithoutBreak, scanRowsWithoutBreakIdeal, hpc, hpci]
    simp only [hup]
    exact ih (j + 1) j _ (by omega) hinv2 hci2 hnd2

theorem updateMachines_noMachines (scip : SCIP) (activationdata : ACTIVATIONDATA)
    (hzero : activationdata.nmachines = 0) (j : Nat) (st : MakespanState) :
    updateMachines scip activationdata j st = (st, true) ∧
      updateMachinesIdeal scip activationdata j st = (st, true) := by
  simp [updateMachines, updateMachinesIdeal, hzero]

theorem processCandidates_nil (scip : SCIP) (activationdata : ACTIVATIONDATA) (j : Nat)
    (st : MakespanState) (hns : st.newsymmakespans = []) :
    processCandidates scip activationdata j st = some st ∧
      processCandidatesIdeal scip activationdata j st = some st := by
  simp [processCandidates, processCandidatesIdeal, hns]

theorem scanRows_noMachines (scip : SCIP) (activationdata : ACTIVATIONDATA)
    (hzero : activationdata.nmachines = 0) (rows : List Nat) (st : MakespanState)
    (hns : st.newsymmakespans = []) :
    scanRows scip activationdata rows st = some st ∧
      scanRowsIdeal scip activationdata rows st = some st := by
  cases rows with
  | nil => exact ⟨rfl, rfl⟩
  | cons j later =>
    obtain ⟨h1, h2⟩ := processCandidates_nil scip activationdata j st hns
    obtain ⟨h3, h4⟩ := updateMachines_noMachines scip activationdata hzero j st
    simp [scanRows, scanRowsIdeal, h1, h2, h3, h4]

theorem scanRowsWithoutBreak_noMachines (scip : SCIP) (activationdata : ACTIVATIONDATA)
    (hzero : activationdata.nmachines = 0) (rows : List Nat) (st : MakespanState)
    (hns : st.newsymmakespans = []) :
    scanRowsWithoutBreak scip activationdata rows st = some st ∧
      scanRowsWithoutBreakIdeal scip activationdata rows st = some st := by
  induction rows with
  | nil => exact ⟨rfl, rfl⟩
  | cons j later ih =>
    obtain ⟨h1, h2⟩ := processCandidates_nil scip activationdata j st hns
    obtain ⟨h3, h4⟩ := updateMachines_noMachines scip activationdata hzero j st
    simp [scanRowsWithoutBreak, scanRowsWithoutBreakIdeal, h1, h2, h3, h4, ih]

theorem findSubSymmetries_eq_ideal (scip : SCIP) (activationdata : ACTIVATIONDATA)
    (hfit : ScanFits scip activationdata) :
    findSubSymmetries scip activationdata = findSubSymmetriesIdeal scip activationdata := by
  by_cases hpos : 0 < activationdata.nmachines
  · simp only [findSubSymmetries, findSubSymmetriesIdeal]
    rw [List.range_eq_range', scanRows_eq_ideal scip activationdata hfit _ 0 0 _ (by omega)
      (makespanInit_inv scip activationdata) (makespanInit_countInv scip activationdata hpos)
      (by simp [makespanInit])]
  · obtain ⟨h1, h2⟩ := scanRows_noMachines scip activationdata (by omega)
      (List.range activationdata.njobs) (makespanInit activationdata) rfl
    simp only [findSubSymmetries, findSubSymmetriesIdeal, h1, h2]

theorem findSubSymmetriesWithoutBreak_eq_ideal (scip : SCIP) (activationdata : ACTIVATIONDATA)
    (hfit : ScanFits scip activationdata) :
    findSubSymmetriesWithoutBreak scip activationdata =
      findSubSymmetriesWithoutBreakIdeal scip activationdata := by
  by_cases hpos : 0 < activationdata.nmachines
  · simp only [findSubSymmetriesWithoutBreak, findSubSymmetriesWithoutBreakIdeal]
    rw [List.range_eq_range', scanRowsWithoutBreak_eq_ideal scip activationdata hfit _ 0 0 _
      (by omega) (makespanInit_inv scip activationdata)
      (makespanInit_countInv scip activationdata hpos) (by simp [makespanInit])]
  · obtain ⟨h1, h2⟩ := scanRowsWithoutBreak_noMachines scip activationdata (by omega)
      (List.range activationdata.njobs) (makespanInit activationdata) rfl
    simp only [findSubSymmetriesWithoutBreak, findSubSymmetriesWithoutBreakIdeal, h1, h2]

theorem scanStateIdeal_nodup (scip : SCIP) (activationdata : ACTIVATIONDATA) (j : Nat) :
    ∀ st, scanStateIdeal scip activationdata j = some st → st.newsymmakespans.Nodup := by
  induction j with
  | zero =>
    intro st h
    simp only [scanStateIdeal, Option.some.injEq] at h
    subst h
    simp [makespanInit]
  | succ j ih =>
    intro st h
    simp only [scanStateIdeal] at h
    cases hprev : scanStateIdeal scip activationdata j with
    | none => simp [hprev] at h
    | some st0 =>
      simp only [hprev] at h
      cases hpc : processCandidatesIdeal scip activationdata j st0 with
      | none => simp [hpc] at h
      | some st1 =>
        simp only [hpc] at h
        split_ifs at h with hflag
        simp only [Option.some.injEq] at h
        subst h
        apply machinesUpToIdeal_nodup
        rw [processCandidatesIdeal_deferred scip activationdata j st0 st1 hpc]
        exact (ih st0 hprev).filter _

theorem exactInv_fix (scip : SCIP) (activationdata : ACTIVATIONDATA) (j : Nat)
    (st : MakespanState) (hinv : ExactInv scip activationdata j st) :
    ∀ m < activationdata.nmachines, st.fixedmakespan m = -1 ∨
      st.fixedmakespan m = fixedSum scip activationdata j m := by
  intro m hm
  rcases hinv.fixed m hm with h | h
  · exact Or.inl h.1
  · exact Or.inr h.2.2

theorem updateMachines_undetermined (scip : SCIP) (activationdata : ACTIVATIONDATA) (j : Nat)
    (st : MakespanState) (hall : ∀ m < activationdata.nmachines, st.fixedmakespan m = -1) :
    updateMachines scip activationdata j st = (st, true) := by
  rw [updateMachines_eq_ideal scip activationdata j st
    (fun m hm hne _ => absurd (hall m hm) hne), updateMachinesIdeal_eq]
  exact machinesUpToIdeal_undetermined scip activationdata j st _ hall

theorem scanRowsWithoutBreak_undetermined (scip : SCIP) (activationdata : ACTIVATIONDATA)
    (rows : List Nat) (st : MakespanState)
    (hall : ∀ m < activationdata.nmachines, st.fixedmakespan m = -1)
    (hns : st.newsymmakespans = []) :
    scanRowsWithoutBreak scip activationdata rows st = some st := by
  induction rows with
  | nil => rfl
  | cons j later ih =>
    rw [scanRowsWithoutBreak, (processCandidates_nil scip activationdata j st hns).1]
    simp only
    rw [updateMachines_undetermined scip activationdata j st hall]
    exact ih

theorem scanRows_eq_withoutBreak (scip : SCIP) (activationdata : ACTIVATIONDATA)
    (hdur : ∀ j < activationdata.njobs, 0 ≤ activationdata.jobtimes j)
    (hsum : totalTime activationdata ≤ INT_MAX)
    (hmax : (activationdata.nmachines : Int) ≤ INT_MAX) (k : Nat) :
    ∀ (j : Nat) (st : MakespanState), j + k = activationdata.njobs →
      ExactInv scip activationdata j st →
      scanRows scip activationdata (List.range' j k) st =
        scanRowsWithoutBreak scip activationdata (List.range' j k) st := by
  induction k with
  | zero =>
    intro j st _ _
    simp [scanRows, scanRowsWithoutBreak]
  | succ k ih =>
    intro j st hjk hinv
    rw [List.range'_succ, scanRows, scanRowsWithoutBreak]
    cases hpc : processCandidates scip activationdata j st with
    | none => rfl
    | some st1 =>
      simp only
      have hpci := processCandidates_sound scip activationdata j st st1 hpc
      have hinv1 := processCandidatesIdeal_exactInv scip activationdata j st st1 (by omega)
        hinv hpci
      have hup := updateMachines_eq_ideal scip activationdata j st1
        (sum_in_range scip activationdata hdur hsum j (by omega) st1
          (exactInv_fix scip activationdata j st1 hinv1))
      by_cases hflag : (updateMachines scip activationdata j st1).2 = true
      · rw [if_pos hflag]
        have hall : ∀ m < activationdata.nmachines, st1.fixedmakespan m = -1 := by
          rw [hup, updateMachinesIdeal_eq] at hflag
          exact (machinesUpToIdeal_flag scip activationdata j st1 _).mp hflag
        have hsame := updateMachines_undetermined scip activationdata j st1 hall
        have hfm : ∀ m < activationdata.nmachines, st.fixedmakespan m = -1 := by
          intro m hm
          rw [← (processCandidatesIdeal_keeps scip activationdata j st st1 hpci).1]
          exact hall m hm
        obtain ⟨hempty, hst⟩ := processCandidatesIdeal_undetermined scip activationdata j st st1
          hinv.counts (fun v hv => (hinv.candidates v hv).1) hfm hpci
        rw [hsame]
        simp only
        rw [hst]
        exact (scanRowsWithoutBreak_undetermined scip activationdata _ st hfm hempty).symm
      · rw [if_neg hflag, hup]
        exact ih (j + 1) _ (by omega)
          (updateMachinesIdeal_exactInv scip activationdata j st1 (hdur j (by omega)) hmax hinv1)

theorem findSubSymmetries_eq_withoutBreak (scip : SCIP) (activationdata : ACTIVATIONDATA)
    (hdur : ∀ j < activationdata.njobs, 0 ≤ activationdata.jobtimes j)
    (hsum : totalTime activationdata ≤ INT_MAX)
    (hmax : (activationdata.nmachines : Int) ≤ INT_MAX) :
    findSubSymmetries scip activationdata =
      findSubSymmetriesWithoutBreak scip activationdata := by
  by_cases hpos : 0 < activationdata.nmachines
  · rw [findSubSymmetries, findSubSymmetriesWithoutBreak, List.range_eq_range']
    rw [scanRows_eq_withoutBreak scip activationdata hdur hsum hmax activationdata.njobs 0 _
      (by omega)
      (scanStateIdeal_exactInv scip activationdata hdur hmax hpos 0 _ (by omega) rfl)]
  · rw [findSubSymmetries, findSubSymmetriesWithoutBreak,
      (scanRows_noMachines scip activationdata (by omega) _ _ rfl).1,
      (scanRowsWithoutBreak_noMachines scip activationdata (by omega) _ _ rfl).1]

theorem findSubSymmetries_isSome (scip : SCIP) (activationdata : ACTIVATIONDATA)
    (hfit : ScanFits scip activationdata) :
    ∃ res, findSubSymmetries scip activationdata = some res := by
  rw [findSubSymmetries_eq_ideal scip activationdata hfit]
  exact findSubSymmetriesIdeal_isSome scip activationdata hfit.dur hfit.bounds hfit.machines

theorem decreaseCount_counts (activationdata : ACTIVATIONDATA) (fixedmakespan : Nat → Int)
    (makespans : SCIP_HASHMAP) (m : Nat) (hm : m < activationdata.nmachines)
    (hc : CountsOk activationdata fixedmakespan makespans) :
    CountsOk activationdata (setAt fixedmakespan m (-1))
      (decreaseCount makespans (fixedmakespan m)) := by
  by_cases h0 : 0 ≤ fixedmakespan m
  · exact decreaseCount_ok activationdata fixedmakespan makespans m hm h0 hc
  · intro v hv
    have hupd := machineCount_setAt activationdata fixedmakespan m (-1) v hm
    have hne : ¬ (-1 : Int) = v := by omega
    have hvx : ¬ fixedmakespan m = v := by omega
    simp only [hne, hvx, if_false, add_zero] at hupd
    have hkey : ¬ v = fixedmakespan m := fun e => hvx e.symm
    rw [hupd, ← hc v hv]
    simp only [decreaseCount]
    split_ifs <;> simp [SCIPhashmapRemove, SCIPhashmapSetImageInt, hkey]

theorem increaseCount_counts (activationdata : ACTIVATIONDATA) (fixedmakespan : Nat → Int)
    (makespans : SCIP_HASHMAP) (m : Nat) (y : Int) (hm : m < activationdata.nmachines)
    (hmax : (activationdata.nmachines : Int) ≤ INT_MAX)
    (hund : fixedmakespan m = -1)
    (hc : CountsOk activationdata fixedmakespan makespans) :
    CountsOk activationdata (setAt fixedmakespan m y) (increaseCount makespans y) := by
  by_cases hy : 0 ≤ y
  · exact increaseCount_ok activationdata fixedmakespan makespans m y hm hmax hund hy hc
  · intro v hv
    have hupd := machineCount_setAt activationdata fixedmakespan m y v hm
    have hne : ¬ fixedmakespan m = v := by omega
    have hvy : ¬ y = v := by omega
    simp only [hne, hvy, if_false, add_zero] at hupd
    have hkey : ¬ v = y := fun e => hvy e.symm
    rw [hupd, ← hc v hv]
    simp only [increaseCount]
    split_ifs
    · simp only [SCIPhashmapInsertInt]
      cases makespans y <;> simp [hkey]
    · simp [SCIPhashmapSetImageInt, hkey]

theorem machineStep_one (scip : SCIP) (activationdata : ACTIVATIONDATA) (j m : Nat)
    (acc : MakespanState × Bool) (h : acc.1.fixedmakespan m ≠ -1)
    (hlb : lbAboveHalf scip (activationdata.matrix j m) = true) :
    (machineStep scip activationdata j acc m).1.fixedmakespan =
        setAt acc.1.fixedmakespan m
          (wrapInt (acc.1.fixedmakespan m + activationdata.jobtimes j)) ∧
    (machineStep scip activationdata j acc m).1.makespans =
        increaseCount (decreaseCount acc.1.makespans (acc.1.fixedmakespan m))
          (wrapInt (acc.1.fixedmakespan m + activationdata.jobtimes j)) := by
  by_cases hc : SCIPhashmapGetImageInt (decreaseCount acc.1.makespans (acc.1.fixedmakespan m))
      (wrapInt (acc.1.fixedmakespan m + activationdata.jobtimes j)) = INT_MAX
  · simp [machineStep, h, hlb, hc, increaseCount]
  · simp [machineStep, h, hlb, hc, increaseCount]

theorem machineStep_counts (scip : SCIP) (activationdata : ACTIVATIONDATA) (j k : Nat)
    (acc : MakespanState × Bool) (hk : k < activationdata.nmachines)
    (hmax : (activationdata.nmachines : Int) ≤ INT_MAX)
    (hcounts : CountsOk activationdata acc.1.fixedmakespan acc.1.makespans) :
    CountsOk activationdata (machineStep scip activationdata j acc k).1.fixedmakespan
      (machineStep scip activationdata j acc k).1.makespans := by
  by_cases h : acc.1.fixedmakespan k = -1
  · have e : machineStep scip activationdata j acc k = acc := by simp [machineStep, h]
    rw [e]
    exact hcounts
  · have hdec := decreaseCount_counts activationdata acc.1.fixedmakespan acc.1.makespans k hk
      hcounts
    cases hlb : lbAboveHalf scip (activationdata.matrix j k) with
    | true =>
      obtain ⟨hfm, hmk⟩ := machineStep_one scip activationdata j k acc h hlb
      have hinc := increaseCount_counts activationdata (setAt acc.1.fixedmakespan k (-1))
        (decreaseCount acc.1.makespans (acc.1.fixedmakespan k)) k
        (wrapInt (acc.1.fixedmakespan k + activationdata.jobtimes j)) hk hmax
        (setAt_same _ _ _) hdec
      rw [setAt_setAt] at hinc
      rw [hfm, hmk]
      exact hinc
    | false =>
      cases hub : ubBelowHalf scip (activationdata.matrix j k) with
      | true =>
        have e : machineStep scip activationdata j acc k = (acc.1, false) := by
          simp [machineStep, h, hlb, hub]
        rw [e]
        exact hcounts
      | false =>
        have e : machineStep scip activationdata j acc k =
            ({ acc.1 with fixedmakespan := setAt acc.1.fixedmakespan k (-1),
                          makespans := decreaseCount acc.1.makespans (acc.1.fixedmakespan k) },
              false) := by
          simp [machineStep, h, hlb, hub]
        rw [e]
        exact hdec

theorem machinesUpTo_counts (scip : SCIP) (activationdata : ACTIVATIONDATA) (j : Nat)
    (st : MakespanState) (hmax : (activationdata.nmachines : Int) ≤ INT_MAX)
    (hcounts : CountsOk activationdata st.fixedmakespan st.makespans) (k : Nat)
    (hk : k ≤ activationdata.nmachines) :
    CountsOk activationdata (machinesUpTo scip activationdata j st k).1.fixedmakespan
      (machinesUpTo scip activationdata j st k).1.makespans := by
  induction k with
  | zero => simpa [machinesUpTo] using hcounts
  | succ k ih =>
    rw [machinesUpTo_succ]
    exact machineStep_counts scip activationdata j k _ (by omega) hmax (ih (by omega))

theorem processCandidates_keeps (scip : SCIP) (activationdata : ACTIVATIONDATA) (j : Nat)
    (st st1 : MakespanState) (h : processCandidates scip activationdata j st = some st1) :
    st1.fixedmakespan = st.fixedmakespan ∧ st1.makespans = st.makespans :=
  processCandidatesIdeal_keeps scip activationdata j st st1
    (processCandidates_sound scip activationdata j st st1 h)

theorem scanState_succ (scip : SCIP) (activationdata : ACTIVATIONDATA) (j : Nat)
    (st : MakespanState) (h : scanState scip activationdata (j + 1) = some st) :
    ∃ st0 st1, scanState scip activationdata j = some st0 ∧
      processCandidates scip activationdata j st0 = some st1 ∧
      (updateMachines scip activationdata j st1).2 = false ∧
      st = (updateMachines scip activationdata j st1).1 := by
  simp only [scanState] at h
  cases hprev : scanState scip activationdata j with
  | none => simp [hprev] at h
  | some st0 =>
    simp only [hprev] at h
    cases hpc : processCandidates scip activationdata j st0 with
    | none => simp [hpc] at h
    | some st1 =>
      simp only [hpc] at h
      split_ifs at h with hflag
      simp only [Option.some.injEq] at h
      refine ⟨st0, st1, rfl, hpc, ?_, h.symm⟩
      cases hb : (updateMachines scip activationdata j st1).2 with
      | true => exact absurd hb hflag
      | false => rfl

theorem scanState_noMachines (scip : SCIP) (activationdata : ACTIVATIONDATA)
    (hzero : activationdata.nmachines = 0) (j : Nat) (st : MakespanState)
    (h : scanState scip activationdata j = some st) :
    j = 0 ∧ st = makespanInit activationdata := by
  cases j with
  | zero =>
    simp only [scanState, Option.some.injEq] at h
    exact ⟨rfl, h.symm⟩
  | succ j =>
    exfalso
    obtain ⟨st0, st1, _, _, hflag, _⟩ := scanState_succ scip activationdata j st h
    rw [(updateMachines_noMachines scip activationdata hzero j st1).1] at hflag
    exact Bool.noConfusion hflag

theorem scanState_counts (scip : SCIP) (activationdata : ACTIVATIONDATA)
    (hmax : (activationdata.nmachines : Int) ≤ INT_MAX)
    (hpos : 0 < activationdata.nmachines) (j : Nat) :
    ∀ st, scanState scip activationdata j = some st →
      CountsOk activationdata st.fixedmakespan st.makespans := by
  induction j with
  | zero =>
    intro st h
    simp only [scanState, Option.some.injEq] at h
    subst h
    exact (makespanInit_countInv scip activationdata hpos).counts
  | succ j ih =>
    intro st h
    obtain ⟨st0, st1, h0, h1, _, rfl⟩ := scanState_succ scip activationdata j st h
    obtain ⟨hf, hm⟩ := processCandidates_keeps scip activationdata j st0 st1 h1
    rw [updateMachines_eq]
    exact machinesUpTo_counts scip activationdata j st1 hmax
      (by rw [hf, hm]; exact ih st0 h0) _ (le_refl _)

theorem candidateRecord_shape (scip : SCIP) (activationdata : ACTIVATIONDATA) (j : Nat)
    (h1 : 1 ≤ j) (hj : j < activationdata.njobs)
    (fixedmakespan : Nat → Int) (makespans : SCIP_HASHMAP) (value : Int)
    (hlen : ¬ ((candidateRecord activationdata j fixedmakespan makespans value).cols.length : Int) <
      SCIPhashmapGetImageInt makespans value)
    (hnz : ¬ ((candidateRecord activationdata j fixedmakespan makespans value).cols.all
      (fun c => !(ubAboveHalf scip (activationdata.matrix j c))) = true)) :
    RecordShape activationdata (candidateRecord activationdata j fixedmakespan makespans value) := by
  have hne : (candidateRecord activationdata j fixedmakespan makespans value).cols ≠ [] := by
    intro e
    rw [e] at hnz
    exact hnz rfl
  have hpos : 0 < (candidateRecord activationdata j fixedmakespan makespans value).cols.length :=
    List.length_pos.mpr hne
  have hle : (candidateRecord activationdata j fixedmakespan makespans value).cols.length ≤
      (SCIPhashmapGetImageInt makespans value).toNat := by
    simp only [candidateRecord, candidateCols]
    exact List.length_take_le _ _
  have heq : ((candidateRecord activationdata j fixedmakespan makespans value).cols.length : Int) =
      SCIPhashmapGetImageInt makespans value := by
    omega
  refine ⟨j, h1, by omega, ?_, ?_, ?_⟩
  · show rowsFrom j (activationdata.njobs - j) = _
    exact rowsFrom_eq_range' j _
  · show rowsFrom j (activationdata.njobs - j) ≠ []
    intro e
    have := congrArg List.length e
    simp [rowsFrom] at this
    omega
  · show (if SCIPhashmapGetImageInt makespans value = (activationdata.nmachines : Int) then
        SCIP_ORBITOPETYPE.PARTITIONING else SCIP_ORBITOPETYPE.PACKING) = _
    rw [← heq]
    by_cases hc : (candidateRecord activationdata j fixedmakespan makespans value).cols.length =
        activationdata.nmachines
    · rw [if_pos hc, if_pos (by rw [hc])]
    · rw [if_neg hc, if_neg (by intro e; exact hc (by exact_mod_cast e))]

theorem processCandidates_shape (scip : SCIP) (activationdata : ACTIVATIONDATA) (j : Nat)
    (h1 : 1 ≤ j) (hj : j < activationdata.njobs) (st st1 : MakespanState)
    (hout : ∀ r ∈ st.submatrix, RecordShape activationdata r)
    (h : processCandidates scip activationdata j st = some st1) :
    ∀ r ∈ st1.submatrix, RecordShape activationdata r := by
  cases hns : st.newsymmakespans with
  | nil =>
    simp only [processCandidates, hns, Option.some.injEq] at h
    subst h
    exact hout
  | cons value values =>
    simp only [processCandidates, hns] at h
    cases hfold : foldSteps
        (candidateStep scip activationdata j st.fixedmakespan st.makespans)
        (value :: values) ([], st.submatrix) with
    | none => simp [hfold] at h
    | some acc =>
      simp only [hfold, Option.some.injEq] at h
      subst h
      exact foldSteps_sound
        (fun acc : List Int × List SCIP_ACTIVATIONSUBMATRIX =>
          ∀ r ∈ acc.2, RecordShape activationdata r)
        _ _ _ _ hout
        (by
          intro b a b2 _ hb hstep
          rw [candidateStep_eq] at hstep
          split_ifs at hstep with h2 h3 h4
          · simp only [Option.some.injEq] at hstep
            subst hstep
            exact hb
          · simp only [Option.some.injEq] at hstep
            subst hstep
            intro r hr
            simp only [List.mem_cons] at hr
            rcases hr with rfl | hr
            · exact candidateRecord_shape scip activationdata j h1 hj _ _ a h2 h3
            · exact hb r hr)
        hfold

theorem scanRows_shape (scip : SCIP) (activationdata : ACTIVATIONDATA) (rows : List Nat) :
    ∀ (st st1 : MakespanState), (∀ j ∈ rows, 1 ≤ j ∧ j < activationdata.njobs) →
      (∀ r ∈ st.submatrix, RecordShape activationdata r) →
      scanRows scip activationdata rows st = some st1 →
      ∀ r ∈ st1.submatrix, RecordShape activationdata r := by
  induction rows with
  | nil =>
    intro st st1 _ hout h
    simp only [scanRows, Option.some.injEq] at h
    subst h
    exact hout
  | cons j later ih =>
    intro st st1 hrows hout h
    rw [scanRows] at h
    cases hpc : processCandidates scip activationdata j st with
    | none => simp [hpc] at h
    | some st2 =>
      simp only [hpc] at h
      have hout2 := processCandidates_shape scip activationdata j (hrows j (by simp)).1
        (hrows j (by simp)).2 st st2 hout hpc
      have hout3 : ∀ r ∈ (updateMachines scip activationdata j st2).1.submatrix,
          RecordShape activationdata r := by
        rw [updateMachines_eq, machinesUpTo_submatrix]
        exact hout2
      split_ifs at h with hall
      · simp only [Option.some.injEq] at h
        subst h
        exact hout3
      · exact ih _ st1 (fun i hi => hrows i (by simp [hi])) hout3 h

theorem findSubSymmetries_shape (scip : SCIP) (activationdata : ACTIVATIONDATA)
    (res : List SCIP_ACTIVATIONSUBMATRIX)
    (h : findSubSymmetries scip activationdata = some res) :
    ∀ r ∈ res, RecordShape activationdata r := by
  simp only [findSubSymmetries, Option.map_eq_some'] at h
  obtain ⟨st1, hst1, rfl⟩ := h
  cases hn : activationdata.njobs with
  | zero =>
    rw [hn] at hst1
    simp only [List.range_zero, scanRows, Option.some.injEq] at hst1
    subst hst1
    intro r hr
    simp [makespanInit] at hr
  | succ n =>
    rw [hn, List.range_succ_eq_map, scanRows,
      (processCandidates_nil scip activationdata 0 (makespanInit activationdata) rfl).1] at hst1
    simp only at hst1
    have hinit : ∀ r ∈ (updateMachines scip activationdata 0
        (makespanInit activationdata)).1.submatrix, RecordShape activationdata r := by
      rw [updateMachines_eq, machinesUpTo_submatrix]
      intro r hr
      simp [makespanInit] at hr
    split_ifs at hst1 with hall
    · simp only [Option.some.injEq] at hst1
      subst hst1
      exact hinit
    · refine scanRows_shape scip activationdata _ _ st1 ?_ hinit hst1
      intro j hj
      simp only [List.mem_map, List.mem_range] at hj
      obtain ⟨a, ha, rfl⟩ := hj
      omega

/-! ## The claims -/

theorem ubAboveHalf_of_not_below (scip : SCIP) (var : SCIP_VAR)
    (h : ubBelowHalf scip var = false) : ubAboveHalf scip var = true := by
  simp only [ubBelowHalf, decide_eq_false_iff_not] at h
  simp only [ubAboveHalf, decide_eq_true_eq]
  omega

/-- C1, as stated, fails: on the 4 x 3 example with `zeroheight = 2` and the
columns 0 and 1 fixed to zero in the rows 0 and 1, `findPatternMatches` does not
return the single record with rows `[1, 2, 3]`. -/
theorem C1_counterexample :
    findPatternMatches patternExampleScip (patternExample 1) ≠
      [{ rows := [1, 2, 3], cols := [0, 1], orbitopetype := SCIP_ORBITOPETYPE.FULL }] := by
  decide

/-- C1, amended: for a 4 x 3 matrix with `zeroheight = 2` and any positive
`oneheight`, where exactly the entries of the columns 0 and 1 in the rows 0 and 1
are fixed to zero and no entry is fixed to one, `findPatternMatches` returns
exactly one record, `{rows: [2, 3], cols: [0, 1], kind: Full}`: the record starts
in the row below the tower. -/
theorem C1_pattern_example (scip : SCIP) (matrix : Nat → Nat → SCIP_VAR) (oneheight : Int)
    (hone : 0 < oneheight)
    (hzero : ∀ i < 4, ∀ j < 3,
      ubBelowHalf scip (patternVar scip
        { matrix := matrix, m := 4, n := 3, zeroheight := 2, oneheight := oneheight } i j) =
        decide (i < 2 ∧ j < 2))
    (hnotone : ∀ i < 4, ∀ j < 3,
      lbAboveHalf scip (patternVar scip
        { matrix := matrix, m := 4, n := 3, zeroheight := 2, oneheight := oneheight } i j) =
        false) :
    findPatternMatches scip
        { matrix := matrix, m := 4, n := 3, zeroheight := 2, oneheight := oneheight } =
      [{ rows := [2, 3], cols := [0, 1], orbitopetype := SCIP_ORBITOPETYPE.FULL }] := by
  have h1 : ¬ oneheight ≤ 0 := by omega
  simp [findPatternMatches, findPatternMatchesTagged, patternScan, patternRowStep, patternColumns,
    patternColumnStep, patternRecord, rowsFrom, setAt, List.range_succ, h1, hzero, hnotone]

/-- Witness of `C1_pattern_example`: the example with variable `3 * i + j` at
entry `(i, j)` and `oneheight = 1`. -/
theorem C1_pattern_example_witness :
    findPatternMatches patternExampleScip
        { matrix := fun i j => 3 * i + j, m := 4, n := 3, zeroheight := 2, oneheight := 1 } =
      [{ rows := [2, 3], cols := [0, 1], orbitopetype := SCIP_ORBITOPETYPE.FULL }] :=
  C1_pattern_example patternExampleScip (fun i j => 3 * i + j) 1 (by decide) (by decide)
    (by decide)

/-- C2, the code at the input of the claim: for the cycle 0-1-2-3-0 with two
colors and vertex 2 fixed to zero on both, `findColorPairsComponents` returns
one record, with the rows `[0, 1, 3]`, and not the empty list; the test
`componenthead >= nvertices - 1` compares the component `{0, 1, 3}` with all
four vertices. -/
theorem C2_cycle_example_emits :
    findColorPairsComponents cycleExampleScip (cycleExample false) =
      some [{ rows := [0, 1, 3], cols := [0, 1], orbitopetype := SCIP_ORBITOPETYPE.PACKING }] ∧
    findColorPairsComponents cycleExampleScip (cycleExample true) =
      some [{ rows := [0, 1, 3], cols := [0, 1], orbitopetype := SCIP_ORBITOPETYPE.PACKING }] := by
  decide

/-- C5, the code at a failing input: in the triangle with three colors, vertex 0
is removed for the pair `(0, 1)` and the two other vertices are adjacent, so
they are one component that is the whole surviving graph; all the same
`findColorPairsComponents` returns a record for the pair `(0, 1)`, with the
rows `[1, 2]`. -/
theorem C5_single_component_emitted :
    (List.range triangleExample.nvertices).filter
        (fun v => !(removedColorPair triangleExampleScip triangleExample 0 1 v)) = [1, 2] ∧
    2 ∈ triangleExample.adjacencies 1 ∧
    findColorPairsComponents triangleExampleScip triangleExample =
      some [{ rows := [1, 2], cols := [0, 1], orbitopetype := SCIP_ORBITOPETYPE.PACKING }] := by
  decide

/-- C6, the code at a failing input: with two machines and three jobs of
duration 1, machine 0 reaches the fixed makespan 1 in row 1, where machine 1,
which had it, becomes undetermined; `findSubSymmetries` then returns a record
with the single column 0. -/
theorem C6_single_column_emitted :
    (∀ j < lonelyMachine.njobs, 0 ≤ lonelyMachine.jobtimes j) ∧
    findSubSymmetries lonelyMachineScip lonelyMachine =
      some [{ rows := [2], cols := [0], orbitopetype := SCIP_ORBITOPETYPE.PACKING }] := by
  decide

/-- C9, as stated, fails: in the short tower example (3 x 2, `zeroheight = 1`,
row 0 fixed to zero) the zero-triggered record has the first row 1, and entry
`(1, 0)` is not fixed to zero. -/
theorem C9_counterexample :
    ¬ ∀ r, (Trigger.zero, r) ∈ findPatternMatchesTagged shortTowerScip shortTower →
      ∀ i, r.rows.head? = some i → ∀ c ∈ r.cols, ∀ row : Nat,
        (i : Int) - shortTower.zeroheight + 1 ≤ (row : Int) → row ≤ i →
        ubBelowHalf shortTowerScip (patternVar shortTowerScip shortTower row c) = true := by
  intro h
  have h1 := h { rows := [1, 2], cols := [0, 1], orbitopetype := SCIP_ORBITOPETYPE.FULL }
    (by decide) 1 rfl 0 (by decide) 1 (by decide) (by decide)
  revert h1
  decide

/-- C9, amended: every record of `findPatternMatches` built by the block on the
zero towers has a first row `i` with `zeroheight ≤ i`, and every column of the
record has its entries in the `zeroheight` rows `i - zeroheight .. i - 1`, the
rows that end right above row `i`, fixed to zero. -/
theorem C9_zero_tower_above_first_row (scip : SCIP) (patterns : PATTERNS)
    (r : SCIP_ACTIVATIONSUBMATRIX)
    (hr : (Trigger.zero, r) ∈ findPatternMatchesTagged scip patterns) :
    ∃ i, r.rows.head? = some i ∧ i < patterns.m ∧ patterns.zeroheight ≤ (i : Int) ∧
      ∀ c ∈ r.cols, c < patterns.n ∧
        ∀ row : Nat, (i : Int) - patterns.zeroheight ≤ (row : Int) → row < i →
          ubBelowHalf scip (patternVar scip patterns row c) = true :=
  (patternScan_towers scip patterns patterns.m (le_refl _)).2 r hr

/-- Witness of `C9_zero_tower_above_first_row`: the zero-triggered record of the
short tower example. -/
theorem C9_zero_tower_above_first_row_witness :
    ∃ i, [1, 2].head? = some i ∧ i < shortTower.m ∧ shortTower.zeroheight ≤ (i : Int) ∧
      ∀ c ∈ [0, 1], c < shortTower.n ∧
        ∀ row : Nat, (i : Int) - shortTower.zeroheight ≤ (row : Int) → row < i →
          ubBelowHalf shortTowerScip (patternVar shortTowerScip shortTower row c) = true :=
  C9_zero_tower_above_first_row shortTowerScip shortTower
    { rows := [1, 2], cols := [0, 1], orbitopetype := SCIP_ORBITOPETYPE.FULL } (by decide)

/-- C10: when every adjacency entry is a vertex of the graph, each of the three
component detectors returns a list, and the rows of every record in it are
strictly ascending and are vertices of the graph. -/
theorem C10_rows_strictly_ascending (scip : SCIP) (graphdata : GRAPHDATA)
    (hadj : ∀ i < graphdata.nvertices, ∀ v ∈ graphdata.adjacencies i,
      v < graphdata.nvertices) :
    (∃ res, findColorPairsComponents scip graphdata = some res ∧
      ∀ r ∈ res, r.rows.Pairwise (fun x y => x < y) ∧
        ∀ v ∈ r.rows, v < graphdata.nvertices) ∧
    (∃ res, findInvertedSingleColorComponents scip graphdata = some res ∧
      ∀ r ∈ res, r.rows.Pairwise (fun x y => x < y) ∧
        ∀ v ∈ r.rows, v < graphdata.nvertices) ∧
    (∃ res, findInvertedColorPairsComponents scip graphdata = some res ∧
      ∀ r ∈ res, r.rows.Pairwise (fun x y => x < y) ∧
        ∀ v ∈ r.rows, v < graphdata.nvertices) :=
  ⟨findColorPairsComponents_ascending scip graphdata hadj,
   findInvertedSingleColorComponents_ascending scip graphdata hadj,
   findInvertedColorPairsComponents_ascending scip graphdata hadj⟩

/-- Witness of `C10_rows_strictly_ascending`: the cycle example. -/
theorem C10_rows_strictly_ascending_witness :
    (∃ res, findColorPairsComponents cycleExampleScip (cycleExample true) = some res ∧
      ∀ r ∈ res, r.rows.Pairwise (fun x y => x < y) ∧
        ∀ v ∈ r.rows, v < (cycleExample true).nvertices) ∧
    (∃ res, findInvertedSingleColorComponents cycleExampleScip (cycleExample true) = some res ∧
      ∀ r ∈ res, r.rows.Pairwise (fun x y => x < y) ∧
        ∀ v ∈ r.rows, v < (cycleExample true).nvertices) ∧
    (∃ res, findInvertedColorPairsComponents cycleExampleScip (cycleExample true) = some res ∧
      ∀ r ∈ res, r.rows.Pairwise (fun x y => x < y) ∧
        ∀ v ∈ r.rows, v < (cycleExample true).nvertices) :=
  C10_rows_strictly_ascending cycleExampleScip (cycleExample true) (by decide)

/-- C11: with in-range and symmetric adjacency lists, each of the three
component detectors returns the records of its color pairs (colors), pair after
pair, and for every pair the rows of each record are strictly ascending and
exactly one connected component of the graph without the removed vertices: the
rows are not removed, every two of them are joined by a path of vertices that
are not removed, and no vertex outside that is not removed is adjacent to one of
them. Within a pair a record emitted later starts at a larger smallest vertex. -/
theorem C11_records_are_components (scip : SCIP) (graphdata : GRAPHDATA)
    (hadj : ∀ i < graphdata.nvertices, ∀ v ∈ graphdata.adjacencies i,
      v < graphdata.nvertices)
    (hsym : ∀ u < graphdata.nvertices, ∀ w ∈ graphdata.adjacencies u,
      u ∈ graphdata.adjacencies w) :
    (∃ news, findColorPairsComponents scip graphdata = some news.reverse.flatten ∧
      List.Forall₂ (fun (c : Nat × Nat) new =>
        ComponentsInOrder graphdata (removedColorPair scip graphdata c.1 c.2) new)
        (colorPairs graphdata) news) ∧
    (∃ news, findInvertedSingleColorComponents scip graphdata = some news.reverse.flatten ∧
      List.Forall₂ (fun (c1 : Nat) new =>
        ComponentsInOrder graphdata (removedInvertedSingle scip graphdata c1) new)
        (List.range graphdata.ncolors) news) ∧
    (∃ news, findInvertedColorPairsComponents scip graphdata = some news.reverse.flatten ∧
      List.Forall₂ (fun (c : Nat × Nat) new =>
        ComponentsInOrder graphdata (removedInvertedPair scip graphdata c.1 c.2) new)
        (colorPairs graphdata) news) := by
  have key : ∀ (w : Bool) (cols : List Nat) (remove : Nat → Bool)
      (new : List SCIP_ACTIVATIONSUBMATRIX),
      PairRecords graphdata w cols remove new → ComponentsInOrder graphdata remove new := by
    intro w cols remove new h
    refine ⟨fun r hr => ⟨(h.records r hr).2.2.1,
      pairRecords_component graphdata hsym w cols remove new h r hr⟩,
      pairRecords_startsBefore graphdata w cols remove new h⟩
  refine ⟨?_, ?_, ?_⟩
  · obtain ⟨news, h1, h2⟩ := findColorPairsComponents_trace scip graphdata hadj
    exact ⟨news, h1, forall₂_imp _ _ _ _ h2 (fun c _ new h => key _ _ _ _ h.2)⟩
  · obtain ⟨news, h1, h2⟩ := findInvertedSingleColorComponents_trace scip graphdata hadj
    exact ⟨news, h1, forall₂_imp _ _ _ _ h2 (fun c _ new h => key _ _ _ _ h.2)⟩
  · obtain ⟨news, h1, h2⟩ := findInvertedColorPairsComponents_trace scip graphdata hadj
    exact ⟨news, h1, forall₂_imp _ _ _ _ h2 (fun c _ new h => key _ _ _ _ h.2)⟩

/-- Witness of `C11_records_are_components`: the cycle example with vertex 2
fixed to one on color 0. -/
theorem C11_records_are_components_witness :
    (∃ news, findColorPairsComponents invertedExampleScip (cycleExample true) =
        some news.reverse.flatten ∧
      List.Forall₂ (fun (c : Nat × Nat) new =>
        ComponentsInOrder (cycleExample true)
          (removedColorPair invertedExampleScip (cycleExample true) c.1 c.2) new)
        (colorPairs (cycleExample true)) news) ∧
    (∃ news, findInvertedSingleColorComponents invertedExampleScip (cycleExample true) =
        some news.reverse.flatten ∧
      List.Forall₂ (fun (c1 : Nat) new =>
        ComponentsInOrder (cycleExample true)
          (removedInvertedSingle invertedExampleScip (cycleExample true) c1) new)
        (List.range (cycleExample true).ncolors) news) ∧
    (∃ news, findInvertedColorPairsComponents invertedExampleScip (cycleExample true) =
        some news.reverse.flatten ∧
      List.Forall₂ (fun (c : Nat × Nat) new =>
        ComponentsInOrder (cycleExample true)
          (removedInvertedPair invertedExampleScip (cycleExample true) c.1 c.2) new)
        (colorPairs (cycleExample true)) news) :=
  C11_records_are_components invertedExampleScip (cycleExample true) (by decide) (by decide)

/-- C14: with in-range adjacency lists `findColorPairsComponents` returns a
list, and every record in it has the kind packing and the columns `[c1, c2]`
with `c1 < c2 < ncolors`, and `c2 = c1 + 1` when `allcolorpairs` is false; no
vertex in its rows has both entries `(v, c1)` and `(v, c2)` fixed to zero, and
some vertex of the graph has both fixed to zero. -/
theorem C14_default_records (scip : SCIP) (graphdata : GRAPHDATA)
    (hadj : ∀ i < graphdata.nvertices, ∀ v ∈ graphdata.adjacencies i,
      v < graphdata.nvertices) :
    ∃ res, findColorPairsComponents scip graphdata = some res ∧
      ∀ r ∈ res, r.orbitopetype = SCIP_ORBITOPETYPE.PACKING ∧
        ∃ c1 c2, r.cols = [c1, c2] ∧ c1 < c2 ∧ c2 < graphdata.ncolors ∧
          (graphdata.allcolorpairs = false → c2 = c1 + 1) ∧
          (∀ v ∈ r.rows, ¬ (ubBelowHalf scip (graphdata.matrix v c1) = true ∧
            ubBelowHalf scip (graphdata.matrix v c2) = true)) ∧
          ∃ v < graphdata.nvertices, ubBelowHalf scip (graphdata.matrix v c1) = true ∧
            ubBelowHalf scip (graphdata.matrix v c2) = true := by
  obtain ⟨news, h1, h2⟩ := findColorPairsComponents_trace scip graphdata hadj
  refine ⟨_, h1, ?_⟩
  intro r hr
  simp only [List.mem_flatten, List.mem_reverse] at hr
  obtain ⟨new, hnew, hrnew⟩ := hr
  obtain ⟨c, _, hc, hP⟩ := forall₂_of_mem_right _ _ _ h2 new hnew
  obtain ⟨hlt, hlt2, hcons⟩ := mem_colorPairs graphdata c hc
  obtain ⟨hcols, hkind, _, hsurv, _⟩ := hP.records r hrnew
  refine ⟨hkind, c.1, c.2, hcols, hlt, hlt2, hcons, ?_, ?_⟩
  · intro v hv hboth
    have := (hsurv v hv).2
    simp [removedColorPair, hboth.1, hboth.2] at this
  · by_contra hnone
    have hall : ∀ v < graphdata.nvertices,
        removedColorPair scip graphdata c.1 c.2 v = false := by
      intro v hv
      cases h : removedColorPair scip graphdata c.1 c.2 v with
      | false => rfl
      | true =>
        exfalso
        apply hnone
        simp only [removedColorPair, Bool.and_eq_true] at h
        exact ⟨v, hv, h⟩
    have := hP.nothing hall
    rw [this] at hrnew
    simp at hrnew

/-- Witness of `C14_default_records`: the cycle example with vertex 2 fixed to
zero on both colors. -/
theorem C14_default_records_witness :
    ∃ res, findColorPairsComponents cycleExampleScip (cycleExample false) = some res ∧
      ∀ r ∈ res, r.orbitopetype = SCIP_ORBITOPETYPE.PACKING ∧
        ∃ c1 c2, r.cols = [c1, c2] ∧ c1 < c2 ∧ c2 < (cycleExample false).ncolors ∧
          ((cycleExample false).allcolorpairs = false → c2 = c1 + 1) ∧
          (∀ v ∈ r.rows,
            ¬ (ubBelowHalf cycleExampleScip ((cycleExample false).matrix v c1) = true ∧
              ubBelowHalf cycleExampleScip ((cycleExample false).matrix v c2) = true)) ∧
          ∃ v < (cycleExample false).nvertices,
            ubBelowHalf cycleExampleScip ((cycleExample false).matrix v c1) = true ∧
            ubBelowHalf cycleExampleScip ((cycleExample false).matrix v c2) = true :=
  C14_default_records cycleExampleScip (cycleExample false) (by decide)

/-- C15: with in-range adjacency lists `findInvertedSingleColorComponents`
returns the records of the colors, color after color, and the records of every
color `c1` are as `InvertedSingleRecords` says: one record per component of the
graph without the vertices fixed to one on `c1`, also when there is a single
component, with the kind packing and all colors but `c1` as columns, and no
record when no vertex is fixed to one on `c1`. -/
theorem C15_inverted_single_records (scip : SCIP) (graphdata : GRAPHDATA)
    (hadj : ∀ i < graphdata.nvertices, ∀ v ∈ graphdata.adjacencies i,
      v < graphdata.nvertices) :
    ∃ news, findInvertedSingleColorComponents scip graphdata = some news.reverse.flatten ∧
      List.Forall₂ (fun (c1 : Nat) new => InvertedSingleRecords scip graphdata c1 new)
        (List.range graphdata.ncolors) news := by
  obtain ⟨news, h1, h2⟩ := findInvertedSingleColorComponents_trace scip graphdata hadj
  refine ⟨news, h1, forall₂_imp _ _ _ _ h2 ?_⟩
  intro c1 _ new ⟨hc1, hP⟩
  refine ⟨?_, ?_, ?_⟩
  · intro r hr
    obtain ⟨hcols, hkind, hsorted, hsurv, hjoin⟩ := hP.records r hr
    refine ⟨hkind, hcols, ?_, hsorted, hsurv, hjoin, ?_⟩
    · rw [hcols]
      exact length_filter_ne graphdata.ncolors c1 hc1
    · intro hsym
      exact pairRecords_component graphdata hsym _ _ _ new hP r hr
  · intro hex v hv hvfree
    obtain ⟨r, hr, hvr⟩ := hP.covered rfl hex v hv hvfree
    exact ⟨r, hr, hvr, fun r1 hr1 hv1 =>
      pairRecords_unique graphdata _ _ _ new hP v r hr r1 hr1 hvr hv1⟩
  · exact hP.nothing

/-- Witness of `C15_inverted_single_records`: the cycle example with vertex 2
fixed to one on color 0. -/
theorem C15_inverted_single_records_witness :
    ∃ news, findInvertedSingleColorComponents invertedExampleScip (cycleExample true) =
        some news.reverse.flatten ∧
      List.Forall₂
        (fun (c1 : Nat) new => InvertedSingleRecords invertedExampleScip (cycleExample true)
          c1 new)
        (List.range (cycleExample true).ncolors) news :=
  C15_inverted_single_records invertedExampleScip (cycleExample true) (by decide)

/-- C16: the removal test of `findInvertedColorPairsComponents` marks a vertex
exactly when its entry in `c1` or its entry in `c2` is fixed to one, and with
in-range adjacency lists the function returns the records of the color pairs,
pair after pair, the records of every pair being as `InvertedPairRecords` says. -/
theorem C16_inverted_pair_records (scip : SCIP) (graphdata : GRAPHDATA)
    (hadj : ∀ i < graphdata.nvertices, ∀ v ∈ graphdata.adjacencies i,
      v < graphdata.nvertices) :
    (∀ c1 c2 v, removedInvertedPair scip graphdata c1 c2 v = true ↔
      (lbAboveHalf scip (graphdata.matrix v c1) = true ∨
        lbAboveHalf scip (graphdata.matrix v c2) = true)) ∧
    ∃ news, findInvertedColorPairsComponents scip graphdata = some news.reverse.flatten ∧
      List.Forall₂ (fun (c : Nat × Nat) new => InvertedPairRecords scip graphdata c new)
        (colorPairs graphdata) news := by
  refine ⟨fun c1 c2 v => by simp [removedInvertedPair], ?_⟩
  obtain ⟨news, h1, h2⟩ := findInvertedColorPairsComponents_trace scip graphdata hadj
  refine ⟨news, h1, forall₂_imp _ _ _ _ h2 ?_⟩
  intro c _ new ⟨hc, hP⟩
  obtain ⟨hlt, hlt2, _⟩ := mem_colorPairs graphdata c hc
  refine ⟨?_, ?_⟩
  · intro r hr
    obtain ⟨hcols, hkind, _, hsurv, _⟩ := hP.records r hr
    refine ⟨hkind, hcols, ?_, hsurv⟩
    rw [hcols]
    exact length_filter_ne_ne graphdata.ncolors c.1 c.2 hlt hlt2
  · intro hex v hv hvfree
    obtain ⟨r, hr, hvr⟩ := hP.covered rfl hex v hv hvfree
    exact ⟨r, hr, hvr, fun r1 hr1 hv1 =>
      pairRecords_unique graphdata _ _ _ new hP v r hr r1 hr1 hvr hv1⟩

/-- Witness of `C16_inverted_pair_records`: the cycle example with vertex 2
fixed to one on color 0. -/
theorem C16_inverted_pair_records_witness :
    (∀ c1 c2 v, removedInvertedPair invertedExampleScip (cycleExample true) c1 c2 v = true ↔
      (lbAboveHalf invertedExampleScip ((cycleExample true).matrix v c1) = true ∨
        lbAboveHalf invertedExampleScip ((cycleExample true).matrix v c2) = true)) ∧
    ∃ news, findInvertedColorPairsComponents invertedExampleScip (cycleExample true) =
        some news.reverse.flatten ∧
      List.Forall₂
        (fun (c : Nat × Nat) new => InvertedPairRecords invertedExampleScip
          (cycleExample true) c new)
        (colorPairs (cycleExample true)) news :=
  C16_inverted_pair_records invertedExampleScip (cycleExample true) (by decide)

/-- C12: the code does not record every value that at least two machines share
after a row. In the example with three machines and two jobs of duration 1, the
machines 0 and 1 are fixed to zero and machine 2 to one in row 0, and row 1 is
free: after the update for row 0 the machines 0 and 1 both have the fixed
makespan 0 and `makespans` counts two machines for it, but `newsymmakespans` is
empty, and `findSubSymmetries` returns the empty list instead of the record of
the machines 0 and 1 with first row 1. -/
theorem C12_stayed_group_not_recorded :
    (updateMachines stayedGroupScip stayedGroup 0 (makespanInit stayedGroup)).1.fixedmakespan 0
      = 0 ∧
    (updateMachines stayedGroupScip stayedGroup 0 (makespanInit stayedGroup)).1.fixedmakespan 1
      = 0 ∧
    (updateMachines stayedGroupScip stayedGroup 0 (makespanInit stayedGroup)).1.makespans 0
      = some 2 ∧
    (updateMachines stayedGroupScip stayedGroup 0 (makespanInit stayedGroup)).1.newsymmakespans
      = [] ∧
    findSubSymmetries stayedGroupScip stayedGroup = some [] := by
  decide

/-- C18: `SCIPactivationhdlrInit` on a record whose `initialized` is true
returns `SCIP_INVALIDCALL` and leaves the record and the program state as they
are, whatever the callbacks do when called, so that the init callback is not
called; and so does `SCIPactivationhdlrExit` on a record whose `initialized` is
false, for the exit callback. -/
theorem C18_lifecycle_misuse {κ σ : Type} (cb : Callbacks κ σ)
    (activationhdlr : SCIP_ACTIVATIONHDLR κ) (set : σ) :
    SCIPactivationhdlrInit cb { activationhdlr with initialized := true } set =
      (SCIP_RETCODE.SCIP_INVALIDCALL, { activationhdlr with initialized := true }, set) ∧
    SCIPactivationhdlrExit cb { activationhdlr with initialized := false } set =
      (SCIP_RETCODE.SCIP_INVALIDCALL, { activationhdlr with initialized := false }, set) := by
  constructor
  · simp [SCIPactivationhdlrInit]
  · simp [SCIPactivationhdlrExit]

/-- C19: a record that `SCIPactivationhdlrCreate` returns has `initialized`
false. For callbacks that leave the record as it is: an init that returns
`SCIP_OKAY` sets `initialized` to true and an exit that returns `SCIP_OKAY` sets
it to false, no other field being changed, and a call that returns another code
leaves the record as it is. So after a sequence of lifecycle calls that all
return `SCIP_OKAY` on a record with `initialized` false the record is the
initial one but for `initialized`, which is true exactly when the number of
calls is odd; after init and exit the record is the initial one, on which init
does what it does on the initial one and exit returns `SCIP_INVALIDCALL`. -/
theorem C19_handler_state_machine {κ σ : Type} (cb : Callbacks κ σ)
    (hrec : ∀ f h w, (cb.call f h w).2.1 = h)
    (activationhdlr : SCIP_ACTIVATIONHDLR κ) (set : σ) :
    (∀ nomemory name desc c1 c2 c3 c4 c5 c6 data (hdlr : SCIP_ACTIVATIONHDLR κ),
      (SCIPactivationhdlrCreate nomemory name desc c1 c2 c3 c4 c5 c6 data).2 = some hdlr →
      hdlr.initialized = false) ∧
    ((SCIPactivationhdlrInit cb activationhdlr set).1 = SCIP_RETCODE.SCIP_OKAY →
      (SCIPactivationhdlrInit cb activationhdlr set).2.1 =
        { activationhdlr with initialized := true }) ∧
    ((SCIPactivationhdlrExit cb activationhdlr set).1 = SCIP_RETCODE.SCIP_OKAY →
      (SCIPactivationhdlrExit cb activationhdlr set).2.1 =
        { activationhdlr with initialized := false }) ∧
    ((SCIPactivationhdlrInit cb activationhdlr set).1 ≠ SCIP_RETCODE.SCIP_OKAY →
      (SCIPactivationhdlrInit cb activationhdlr set).2.1 = activationhdlr) ∧
    ((SCIPactivationhdlrExit cb activationhdlr set).1 ≠ SCIP_RETCODE.SCIP_OKAY →
      (SCIPactivationhdlrExit cb activationhdlr set).2.1 = activationhdlr) ∧
    (∀ calls hdlr1 set1, activationhdlr.initialized = false →
      runLifecycle cb calls activationhdlr set = some (hdlr1, set1) →
      hdlr1 = { activationhdlr with initialized := decide (calls.length % 2 = 1) }) ∧
    (∀ hdlr1 set1, activationhdlr.initialized = false →
      runLifecycle cb [LifecycleCall.init, LifecycleCall.exit] activationhdlr set =
        some (hdlr1, set1) →
      hdlr1 = activationhdlr ∧
      ∀ set2, SCIPactivationhdlrInit cb hdlr1 set2 = SCIPactivationhdlrInit cb activationhdlr set2 ∧
        SCIPactivationhdlrExit cb hdlr1 set2 = (SCIP_RETCODE.SCIP_INVALIDCALL, hdlr1, set2) ∧
        SCIPactivationhdlrExit cb activationhdlr set2 =
          (SCIP_RETCODE.SCIP_INVALIDCALL, activationhdlr, set2)) := by
  have hseq : ∀ calls hdlr1 set1, activationhdlr.initialized = false →
      runLifecycle cb calls activationhdlr set = some (hdlr1, set1) →
      hdlr1 = { activationhdlr with initialized := decide (calls.length % 2 = 1) } := by
    intro calls hdlr1 set1 hi hrun
    rw [runLifecycle_record cb hrec calls activationhdlr hdlr1 set set1 hrun]
    by_cases hl : calls.length % 2 = 0
    · have : ¬ calls.length % 2 = 1 := by omega
      simp [hl, this, hi]
    · have : calls.length % 2 = 1 := by omega
      simp [this, hi]
  refine ⟨?_, fun h => (SCIPactivationhdlrInit_okay cb hrec activationhdlr set h).2,
    fun h => (SCIPactivationhdlrExit_okay cb hrec activationhdlr set h).2,
    SCIPactivationhdlrInit_failed cb hrec activationhdlr set,
    SCIPactivationhdlrExit_failed cb hrec activationhdlr set, hseq, ?_⟩
  · intro nomemory name desc c1 c2 c3 c4 c5 c6 data hdlr h
    cases nomemory with
    | true => simp [SCIPactivationhdlrCreate, doActivationHdlrCreate] at h
    | false =>
      simp only [SCIPactivationhdlrCreate, doActivationHdlrCreate, Bool.false_eq_true,
        if_false, ne_eq, not_true_eq_false, Option.some.injEq] at h
      rw [← h]
  · intro hdlr1 set1 hi hrun
    have h1 := hseq _ hdlr1 set1 hi hrun
    have h2 : hdlr1 = activationhdlr := by
      rw [h1]
      cases activationhdlr
      simp at hi
      simp [hi]
    refine ⟨h2, fun set2 => ?_⟩
    rw [h2]
    refine ⟨rfl, ?_, ?_⟩ <;> simp [SCIPactivationhdlrExit, hi]

/-- Witness of `C19_handler_state_machine`: the init of the color component
handler record, its callbacks counting their calls. -/
theorem C19_handler_state_machine_witness :
    (SCIPactivationhdlrInit countingCallbacks colorcompHandler 0).2.1 =
      { colorcompHandler with initialized := true } :=
  (C19_handler_state_machine countingCallbacks (fun _ _ _ => rfl) colorcompHandler 0).2.1
    (by decide)

/-- C20: when the registry already holds a handler of the name,
`SCIPincludeActivationhdlr` returns an error code, `SCIP_INVALIDDATA` if the
stage check lets the call pass, and returns the registry as it was; the result
does not depend on whether memory is left or on the callbacks and data given,
no record being created. -/
theorem C20_duplicate_name {κ : Type} (stagecheck : SCIP_RETCODE) (nomemory : Bool)
    (scip : List (SCIP_ACTIVATIONHDLR κ)) (name desc : String)
    (c1 c2 c3 c4 c5 c6 : Option κ) (data : Nat)
    (hdup : (SCIPfindActivationhdlr scip name).isSome = true) :
    SCIPincludeActivationhdlr stagecheck nomemory scip name desc c1 c2 c3 c4 c5 c6 data =
      (if stagecheck = SCIP_RETCODE.SCIP_OKAY then SCIP_RETCODE.SCIP_INVALIDDATA
        else stagecheck, scip) ∧
    (SCIPincludeActivationhdlr stagecheck nomemory scip name desc c1 c2 c3 c4 c5 c6 data).1 ≠
      SCIP_RETCODE.SCIP_OKAY := by
  by_cases hs : stagecheck = SCIP_RETCODE.SCIP_OKAY
  · simp [SCIPincludeActivationhdlr, hs, hdup]
  · simp [SCIPincludeActivationhdlr, hs]

/-- Witness of `C20_duplicate_name`: the color component handler is registered
a second time. -/
theorem C20_duplicate_name_witness :
    SCIPincludeActivationhdlr SCIP_RETCODE.SCIP_OKAY false [colorcompHandler] "colorcomp"
        "again" none (some 4) (some 5) none none (some 6) 2 =
      (if SCIP_RETCODE.SCIP_OKAY = SCIP_RETCODE.SCIP_OKAY then SCIP_RETCODE.SCIP_INVALIDDATA
        else SCIP_RETCODE.SCIP_OKAY, [colorcompHandler]) ∧
    (SCIPincludeActivationhdlr SCIP_RETCODE.SCIP_OKAY false [colorcompHandler] "colorcomp"
        "again" none (some 4) (some 5) none none (some 6) 2).1 ≠ SCIP_RETCODE.SCIP_OKAY :=
  C20_duplicate_name SCIP_RETCODE.SCIP_OKAY false [colorcompHandler] "colorcomp" "again" none
    (some 4) (some 5) none none (some 6) 2 (by decide)

/-- C24, as stated, fails: the is-active operation on the color component
handler record, which has no is-active callback, does not succeed; the assertion
`activationhdlr->activationisactive != NULL` fails. -/
theorem C24_counterexample :
    SCIPactivationhdlrIsActive countingCallbacks colorcompHandler
      { addr := 1, original := true, transorigcons := 0 } 0 false = none := by
  rfl

/-- C24, amended: with the callback absent, the copy, free, init and exit
operations return `SCIP_OKAY` and leave the program state as it is, whatever the
callbacks do when called; init and exit set `initialized`, free gives up the
record, copy leaves the record as it is. The is-active and the find-data
operation need their callback: without it their assertion fails. -/
theorem C24_absent_callbacks {κ σ : Type} (cb : Callbacks κ σ)
    (activationhdlr : SCIP_ACTIVATIONHDLR κ) (cons : SCIP_CONS) (set : σ) (result : Bool)
    (forparentnode : Bool) (activationdata : List SCIP_ACTIVATIONSUBMATRIX) :
    SCIPactivationhdlrCopyInclude cb { activationhdlr with activationcopy := none } set =
      (SCIP_RETCODE.SCIP_OKAY, { activationhdlr with activationcopy := none }, set) ∧
    SCIPactivationhdlrFree cb
        (some { activationhdlr with activationfree := none, initialized := false }) set =
      some (SCIP_RETCODE.SCIP_OKAY, none, set) ∧
    SCIPactivationhdlrInit cb
        { activationhdlr with activationinit := none, initialized := false } set =
      (SCIP_RETCODE.SCIP_OKAY,
        { activationhdlr with activationinit := none, initialized := true }, set) ∧
    SCIPactivationhdlrExit cb
        { activationhdlr with activationexit := none, initialized := true } set =
      (SCIP_RETCODE.SCIP_OKAY,
        { activationhdlr with activationexit := none, initialized := false }, set) ∧
    SCIPactivationhdlrIsActive cb { activationhdlr with activationisactive := none } cons set
      result = none ∧
    SCIPactivationhdlrFindActivationData cb
      { activationhdlr with activationfindactivationdata := none } cons set forparentnode
      activationdata = none := by
  refine ⟨?_, ?_, ?_, ?_, ?_, ?_⟩
  · simp [SCIPactivationhdlrCopyInclude]
  · simp [SCIPactivationhdlrFree]
  · simp [SCIPactivationhdlrInit]
  · simp [SCIPactivationhdlrExit]
  · simp [SCIPactivationhdlrIsActive]
  · simp [SCIPactivationhdlrFindActivationData]

/-- C17: when the transformed counterpart of a transformed variable is the
variable itself, running the init callback of the color component handler or of
the makespan handler on the data it has returned gives these data again, for
every map of constraints to payloads; and the callback does return
`SCIP_OKAY` with new data when every entry of the map leads to a payload. -/
theorem C17_rebinding_idempotent (scip : SCIP)
    (htrans : ∀ v, scip.transvar (scip.transvar v) = scip.transvar v)
    (graphs : SCIP_ACTIVATIONHDLRDATA GRAPHDATA)
    (schedules : SCIP_ACTIVATIONHDLRDATA ACTIVATIONDATA) :
    (∀ retcode graphs1, activationInitColorComp scip graphs = some (retcode, graphs1) →
      retcode = SCIP_RETCODE.SCIP_OKAY ∧
      activationInitColorComp scip graphs1 = some (SCIP_RETCODE.SCIP_OKAY, graphs1)) ∧
    (∀ retcode schedules1, activationInitMakespan scip schedules = some (retcode, schedules1) →
      retcode = SCIP_RETCODE.SCIP_OKAY ∧
      activationInitMakespan scip schedules1 = some (SCIP_RETCODE.SCIP_OKAY, schedules1)) ∧
    ((∀ e ∈ graphs.consmap, (graphs.blkmem e.2).isSome = true) →
      ∃ graphs1, activationInitColorComp scip graphs =
        some (SCIP_RETCODE.SCIP_OKAY, graphs1)) ∧
    ((∀ e ∈ schedules.consmap, (schedules.blkmem e.2).isSome = true) →
      ∃ schedules1, activationInitMakespan scip schedules =
        some (SCIP_RETCODE.SCIP_OKAY, schedules1)) := by
  refine ⟨?_, ?_, ?_, ?_⟩
  · intro retcode graphs1 h
    cases ht : scip.transformed with
    | false =>
      simp only [activationInitColorComp, ht, Bool.not_false, if_true, Option.some.injEq,
        Prod.mk.injEq] at h
      obtain ⟨h1, h2⟩ := h
      subst h1 h2
      simp [activationInitColorComp, ht]
    | true =>
      simp only [activationInitColorComp, ht, Bool.not_true, Bool.false_eq_true, if_false,
        Option.map_eq_some', Prod.mk.injEq] at h
      obtain ⟨hd1, h1, h2, h3⟩ := h
      subst h3
      refine ⟨h2.symm, ?_⟩
      simp only [activationInitColorComp, ht, Bool.not_true, Bool.false_eq_true, if_false]
      rw [rebindPayloads_idem _ ?_ graphs hd1 h1]
      · rfl
      · intro p
        simp [transformMatrix_idem scip htrans]
  · intro retcode schedules1 h
    cases ht : scip.transformed with
    | false =>
      simp only [activationInitMakespan, ht, Bool.not_false, if_true, Option.some.injEq,
        Prod.mk.injEq] at h
      obtain ⟨h1, h2⟩ := h
      subst h1 h2
      simp [activationInitMakespan, ht]
    | true =>
      simp only [activationInitMakespan, ht, Bool.not_true, Bool.false_eq_true, if_false,
        Option.map_eq_some', Prod.mk.injEq] at h
      obtain ⟨hd1, h1, h2, h3⟩ := h
      subst h3
      refine ⟨h2.symm, ?_⟩
      simp only [activationInitMakespan, ht, Bool.not_true, Bool.false_eq_true, if_false]
      rw [rebindPayloads_idem _ ?_ schedules hd1 h1]
      · rfl
      · intro p
        simp [transformMatrix_idem scip htrans]
  · intro hlive
    cases ht : scip.transformed with
    | false => exact ⟨graphs, by simp [activationInitColorComp, ht]⟩
    | true =>
      obtain ⟨hd1, h1⟩ := rebindPayloads_isSome
        (fun graphdata : GRAPHDATA => { graphdata with
          matrix := transformMatrix scip graphdata.matrix graphdata.nvertices
            graphdata.ncolors }) graphs hlive
      exact ⟨hd1, by simp [activationInitColorComp, ht, h1]⟩
  · intro hlive
    cases ht : scip.transformed with
    | false => exact ⟨schedules, by simp [activationInitMakespan, ht]⟩
    | true =>
      obtain ⟨hd1, h1⟩ := rebindPayloads_isSome
        (fun activationdata : ACTIVATIONDATA => { activationdata with
          matrix := transformMatrix scip activationdata.matrix activationdata.njobs
            activationdata.nmachines }) schedules hlive
      exact ⟨hd1, by simp [activationInitMakespan, ht, h1]⟩

/-- Witness of `C17_rebinding_idempotent`: the color component handler with the
cycle example registered, in the transformed problem. -/
theorem C17_rebinding_idempotent_witness :
    ∃ graphs1, activationInitColorComp transformedScip cycleRegistered =
      some (SCIP_RETCODE.SCIP_OKAY, graphs1) :=
  (C17_rebinding_idempotent transformedScip
    (by intro v; by_cases h : v < 100 <;> simp [transformedScip, h])
    cycleRegistered (noPayloads ACTIVATIONDATA)).2.2.1 (by decide)

/-- C21: when the map of a handler holds no payload for the original
constraint, each of the three find-data callbacks returns `SCIP_OKAY` and leaves
`*activationdata` as the caller has set it, for every solver state and every
content of the payload memory, no detector being run; with `*activationdata`
set to `NULL`, "leave result NULL" in the words of the code, the result is the
empty list. -/
theorem C21_no_payload (scip : SCIP) (patterns : SCIP_ACTIVATIONHDLRDATA PATTERNS)
    (graphs : SCIP_ACTIVATIONHDLRDATA GRAPHDATA)
    (schedules : SCIP_ACTIVATIONHDLRDATA ACTIVATIONDATA) (cons : SCIP_CONS)
    (forparentnode : Bool) (activationdata : List SCIP_ACTIVATIONSUBMATRIX) :
    (SCIPhashmapGetImage patterns.consmap (origCons cons) = none →
      activationFindActivationDataSuborbitope scip patterns cons forparentnode activationdata =
        some (SCIP_RETCODE.SCIP_OKAY, activationdata) ∧
      activationFindActivationDataSuborbitope scip patterns cons forparentnode [] =
        some (SCIP_RETCODE.SCIP_OKAY, [])) ∧
    (SCIPhashmapGetImage graphs.consmap (origCons cons) = none →
      activationFindActivationDataColorComp scip graphs cons forparentnode activationdata =
        some (SCIP_RETCODE.SCIP_OKAY, activationdata) ∧
      activationFindActivationDataColorComp scip graphs cons forparentnode [] =
        some (SCIP_RETCODE.SCIP_OKAY, [])) ∧
    (SCIPhashmapGetImage schedules.consmap (origCons cons) = none →
      activationFindActivationDataMakespan scip schedules cons forparentnode activationdata =
        some (SCIP_RETCODE.SCIP_OKAY, activationdata) ∧
      activationFindActivationDataMakespan scip schedules cons forparentnode [] =
        some (SCIP_RETCODE.SCIP_OKAY, [])) := by
  refine ⟨fun h => ?_, fun h => ?_, fun h => ?_⟩
  · simp [activationFindActivationDataSuborbitope, findActivationData, h]
  · simp [activationFindActivationDataColorComp, findActivationData, h]
  · simp [activationFindActivationDataMakespan, findActivationData, h]

/-- Witness of `C21_no_payload`: the color component handler with the cycle
example registered for the constraint at address 7 is asked for the constraint
at address 8. -/
theorem C21_no_payload_witness :
    activationFindActivationDataColorComp cycleExampleScip cycleRegistered
        { addr := 8, original := true, transorigcons := 0 } false [] =
      some (SCIP_RETCODE.SCIP_OKAY, []) :=
  ((C21_no_payload cycleExampleScip (noPayloads PATTERNS) cycleRegistered
    (noPayloads ACTIVATIONDATA) { addr := 8, original := true, transorigcons := 0 } false
    []).2.1 (by decide)).2

/-- C22, as stated, fails: `storeConsGraphData` called with `nvertices = 0`
returns no code, its assertion `nvertices > 0` failing; and `storeConsPatterns`
called with `m = 0` and `n = 0` returns `SCIP_OKAY` and puts a payload into the
map. -/
theorem C22_counterexample :
    (storeConsGraphData (noPayloads GRAPHDATA) cons7 (fun v c => 2 * v + c) 0 2 (fun _ => [])
      false 0 10).isNone = true ∧
    (storeConsPatterns (noPayloads PATTERNS) cons7 (fun i j => 2 * i + j) 0 0 1 1 10).map
      (fun r => (r.1, r.2.consmap)) = some (SCIP_RETCODE.SCIP_OKAY, [(7, 10)]) := by
  decide

/-- C22, amended: a store function called with a number of vertices, colors,
machines or jobs that is not positive, or with a height threshold of the pattern
strategy that is not positive, fails its assertion on that argument, which is
tested before anything is allocated or looked up in the map: no code is
returned and no new data. -/
theorem C22_invalid_dimensions (patterns : SCIP_ACTIVATIONHDLRDATA PATTERNS)
    (graphs : SCIP_ACTIVATIONHDLRDATA GRAPHDATA)
    (schedules : SCIP_ACTIVATIONHDLRDATA ACTIVATIONDATA) (cons : SCIP_CONS)
    (matrix : Nat → Nat → SCIP_VAR) (addr : Nat) :
    (∀ m n zeroheight oneheight, zeroheight ≤ 0 ∨ oneheight ≤ 0 →
      storeConsPatterns patterns cons matrix m n zeroheight oneheight addr = none) ∧
    (∀ nvertices ncolors adjacencies allcolorpairs strategy, nvertices ≤ 0 ∨ ncolors ≤ 0 →
      storeConsGraphData graphs cons matrix nvertices ncolors adjacencies allcolorpairs
        strategy addr = none) ∧
    (∀ jobtimes nmachines njobs, nmachines ≤ 0 ∨ njobs ≤ 0 →
      storeConsActivationData schedules cons matrix jobtimes nmachines njobs addr = none) := by
  refine ⟨?_, ?_, ?_⟩
  · intro m n zeroheight oneheight h
    have : ¬ (0 < zeroheight ∧ 0 < oneheight) := by omega
    simp [storeConsPatterns, this]
  · intro nvertices ncolors adjacencies allcolorpairs strategy h
    have : ¬ (0 < nvertices ∧ 0 < ncolors) := by omega
    simp [storeConsGraphData, this]
  · intro jobtimes nmachines njobs h
    have : ¬ (0 < nmachines ∧ 0 < njobs) := by omega
    simp [storeConsActivationData, this]

/-- Witness of `C22_invalid_dimensions`: the makespan handler is given no
machine. -/
theorem C22_invalid_dimensions_witness :
    storeConsActivationData (noPayloads ACTIVATIONDATA) cons7 (fun j m => 2 * j + m)
      (fun _ => 1) 0 2 10 = none :=
  (C22_invalid_dimensions (noPayloads PATTERNS) (noPayloads GRAPHDATA)
    (noPayloads ACTIVATIONDATA) cons7 (fun j m => 2 * j + m) 10).2.2 (fun _ => 1) 0 2
    (Or.inl (le_refl 0))

/-- C23: registering a second payload for a constraint fails in the code. After
a 2 x 2 pattern payload has been stored for the constraint at address 7, at the
address 10, storing a 3 x 3 payload for it, allocated at the address 20, returns
`SCIP_INVALIDDATA`; the map still leads to the address 10, where no payload is
left, and the new payload at the address 20 is not in the map; a query for the
constraint then reads memory that has been given back. The same holds for the
two other handlers, which share the text. -/
theorem C23_second_registration_fails :
    ((storeConsPatterns (noPayloads PATTERNS) cons7 (fun i j => 2 * i + j) 2 2 1 1 10).bind
      (fun r => storeConsPatterns r.2 cons7 (fun i j => 3 * i + j) 3 3 1 1 20)).map
      (fun r => (r.1, r.2.consmap, (r.2.blkmem 10).isSome, (r.2.blkmem 20).map (fun p => p.m)))
      = some (SCIP_RETCODE.SCIP_INVALIDDATA, [(7, 10)], false, some 3) ∧
    ((storeConsPatterns (noPayloads PATTERNS) cons7 (fun i j => 2 * i + j) 2 2 1 1 10).bind
      (fun r => storeConsPatterns r.2 cons7 (fun i j => 3 * i + j) 3 3 1 1 20)).bind
      (fun r => activationFindActivationDataSuborbitope freeScip r.2 cons7 false [])
      = none ∧
    ((storeConsGraphData (noPayloads GRAPHDATA) cons7 (fun v c => 2 * v + c) 2 2 (fun _ => [])
        false 0 10).bind
      (fun r => storeConsGraphData r.2 cons7 (fun v c => 2 * v + c) 3 2 (fun _ => []) false 0
        20)).map
      (fun r => (r.1, r.2.consmap, (r.2.blkmem 10).isSome,
        (r.2.blkmem 20).map (fun p => p.nvertices)))
      = some (SCIP_RETCODE.SCIP_INVALIDDATA, [(7, 10)], false, some 3) ∧
    ((storeConsActivationData (noPayloads ACTIVATIONDATA) cons7 (fun j m => 2 * j + m)
        (fun _ => 1) 2 2 10).bind
      (fun r => storeConsActivationData r.2 cons7 (fun j m => 2 * j + m) (fun _ => 1) 2 3
        20)).map
      (fun r => (r.1, r.2.consmap, (r.2.blkmem 10).isSome,
        (r.2.blkmem 20).map (fun p => p.njobs)))
      = some (SCIP_RETCODE.SCIP_INVALIDDATA, [(7, 10)], false, some 3) := by
  refine ⟨by decide, by decide, by decide, by decide⟩

/-- C26: for a column `c` and a row `i` of the matrix, after the scan has made
the update for the rows `0 .. i` the zero tower height of `c` is the length of
the maximal run of consecutive entries of the column that are fixed to zero and
end at row `i`, and the one tower height is the length of the maximal run of
entries that count as fixed to one; when no entry of the column has both its
upper bound below and its lower bound above one half, these are the entries
whose lower bound is above one half. -/
theorem C26_tower_heights (scip : SCIP) (patterns : PATTERNS) (i c : Nat)
    (_hi : i < patterns.m) (hc : c < patterns.n) :
    MaxRun (fun row => ubBelowHalf scip (patternVar scip patterns row c)) i
      ((patternScan scip patterns (i + 1)).zerotowerheight c) ∧
    MaxRun (oneEntry scip patterns c) i
      ((patternScan scip patterns (i + 1)).onetowerheight c) ∧
    ((∀ row ≤ i, ¬ (ubBelowHalf scip (patternVar scip patterns row c) = true ∧
        lbAboveHalf scip (patternVar scip patterns row c) = true)) →
      MaxRun (fun row => lbAboveHalf scip (patternVar scip patterns row c)) i
        ((patternScan scip patterns (i + 1)).onetowerheight c)) := by
  obtain ⟨hz, ho⟩ := patternScan_maxRun scip patterns c hc i
  refine ⟨hz, ho, ?_⟩
  intro hcons
  obtain ⟨h0, h1, h2, h3⟩ := ho
  have heq : ∀ row ≤ i, oneEntry scip patterns c row =
      lbAboveHalf scip (patternVar scip patterns row c) := by
    intro row hr
    have := hcons row hr
    cases hub : ubBelowHalf scip (patternVar scip patterns row c) <;>
      cases hlb : lbAboveHalf scip (patternVar scip patterns row c) <;>
      simp [oneEntry, hub, hlb] at this ⊢
  refine ⟨h0, h1, ?_, ?_⟩
  · intro row hr1 hr2
    show lbAboveHalf scip (patternVar scip patterns row c) = true
    rw [← heq row hr2]
    exact h2 row hr1 hr2
  · intro row hr
    show lbAboveHalf scip (patternVar scip patterns row c) = false
    rw [← heq row (by omega)]
    exact h3 row hr

/-- Witness of `C26_tower_heights`: column 0 of the pattern example after the
rows 0 and 1, both fixed to zero. -/
theorem C26_tower_heights_witness :
    MaxRun (fun row => ubBelowHalf patternExampleScip
        (patternVar patternExampleScip (patternExample 2) row 0)) 1
      ((patternScan patternExampleScip (patternExample 2) (1 + 1)).zerotowerheight 0) ∧
    MaxRun (oneEntry patternExampleScip (patternExample 2) 0) 1
      ((patternScan patternExampleScip (patternExample 2) (1 + 1)).onetowerheight 0) ∧
    ((∀ row ≤ 1, ¬ (ubBelowHalf patternExampleScip
          (patternVar patternExampleScip (patternExample 2) row 0) = true ∧
        lbAboveHalf patternExampleScip
          (patternVar patternExampleScip (patternExample 2) row 0) = true)) →
      MaxRun (fun row => lbAboveHalf patternExampleScip
          (patternVar patternExampleScip (patternExample 2) row 0)) 1
        ((patternScan patternExampleScip (patternExample 2) (1 + 1)).onetowerheight 0)) :=
  C26_tower_heights patternExampleScip (patternExample 2) 1 0 (by decide) (by decide)

/-- C27: for positive thresholds, the columns that the column loop of row `i`
collects in `oneusedcols` are the columns of the matrix whose one tower height
is at least `oneheight`, in ascending order, whatever their zero tower height:
at no point of the scan has a column both tower heights positive, so the
`else` before the test on the one tower keeps no column out. -/
theorem C27_one_check_independent (scip : SCIP) (patterns : PATTERNS) (i : Nat)
    (hz : 0 < patterns.zeroheight) (ho : 0 < patterns.oneheight) :
    (patternColumns scip patterns i (patternScan scip patterns i).zerotowerheight
      (patternScan scip patterns i).onetowerheight).oneusedcols =
      (List.range patterns.n).filter
        (fun j => decide (patterns.oneheight ≤ (patternScan scip patterns i).onetowerheight j)) ∧
    (∀ j, j ∈ (patternColumns scip patterns i (patternScan scip patterns i).zerotowerheight
        (patternScan scip patterns i).onetowerheight).oneusedcols ↔
      j < patterns.n ∧ patterns.oneheight ≤ (patternScan scip patterns i).onetowerheight j) ∧
    (∀ k c, ¬ (0 < (patternScan scip patterns k).zerotowerheight c ∧
      0 < (patternScan scip patterns k).onetowerheight c)) := by
  have hcols : (patternColumns scip patterns i (patternScan scip patterns i).zerotowerheight
      (patternScan scip patterns i).onetowerheight).oneusedcols =
      (List.range patterns.n).filter
        (fun j => decide (patterns.oneheight ≤
          (patternScan scip patterns i).onetowerheight j)) := by
    have h := (patternColumnsUpTo_spec scip patterns i
      (patternScan scip patterns i).zerotowerheight
      (patternScan scip patterns i).onetowerheight patterns.n).2.2.2
    have h1 : (patternColumns scip patterns i (patternScan scip patterns i).zerotowerheight
      (patternScan scip patterns i).onetowerheight).oneusedcols = _ := h
    rw [h1]
    apply List.filter_congr
    intro j _
    obtain ⟨_, _, hex⟩ := patternScan_exclusive scip patterns i j
    by_cases hone : patterns.oneheight ≤ (patternScan scip patterns i).onetowerheight j
    · have hzero : ¬ patterns.zeroheight ≤ (patternScan scip patterns i).zerotowerheight j := by
        omega
      simp [hone, hzero]
    · simp [hone]
  refine ⟨hcols, ?_, ?_⟩
  · intro j
    rw [hcols]
    simp [List.mem_filter]
  · intro k c h
    obtain ⟨_, _, hex⟩ := patternScan_exclusive scip patterns k c
    omega

/-- Witness of `C27_one_check_independent`: row 2 of the pattern example. -/
theorem C27_one_check_independent_witness :
    (patternColumns patternExampleScip (patternExample 2) 2
      (patternScan patternExampleScip (patternExample 2) 2).zerotowerheight
      (patternScan patternExampleScip (patternExample 2) 2).onetowerheight).oneusedcols =
      (List.range (patternExample 2).n).filter
        (fun j => decide ((patternExample 2).oneheight ≤
          (patternScan patternExampleScip (patternExample 2) 2).onetowerheight j)) :=
  (C27_one_check_independent patternExampleScip (patternExample 2) 2 (by decide)
    (by decide)).1

/-- C28: for positive thresholds, `findPatternMatches` emits a record from its
block on the zero towers exactly for the rows `i ≤ m - 1` for which at least two
columns have their entries fixed to zero in the `zeroheight` rows
`i - zeroheight, ..., i - 1` right above row `i`, which needs `zeroheight ≤ i`;
the record has these columns in ascending order and the rows `i, ..., m - 1`.
The condition does not mention the entries of row `i`, and a row of towers in
the last row `m - 1` gives no record, there being no row `m`. -/
theorem C28_zero_emission_condition (scip : SCIP) (patterns : PATTERNS)
    (hz : 0 < patterns.zeroheight) (r : SCIP_ACTIVATIONSUBMATRIX) :
    (Trigger.zero, r) ∈ findPatternMatchesTagged scip patterns ↔
      ∃ i, i ≤ patterns.m - 1 ∧ i < patterns.m ∧ patterns.zeroheight ≤ (i : Int) ∧
        2 ≤ ((List.range patterns.n).filter (zeroTowerAbove scip patterns i)).length ∧
        r = { rows := List.range' i (patterns.m - i),
              cols := (List.range patterns.n).filter (zeroTowerAbove scip patterns i),
              orbitopetype := SCIP_ORBITOPETYPE.FULL } := by
  have hcols : ∀ k, zeroCols patterns (patternScan scip patterns k) =
      (List.range patterns.n).filter (zeroTowerAbove scip patterns k) := by
    intro k
    rw [zeroCols]
    apply List.filter_congr
    intro c hc
    simp only [List.mem_range] at hc
    by_cases h : patterns.zeroheight ≤ (patternScan scip patterns k).zerotowerheight c
    · simp [h, (zeroTowerAbove_iff scip patterns hz k c hc).mp h]
    · have : ¬ zeroTowerAbove scip patterns k c = true :=
        fun e => h ((zeroTowerAbove_iff scip patterns hz k c hc).mpr e)
      simp [h, this]
  have key : ∀ k, (Trigger.zero, r) ∈ (patternScan scip patterns k).submatrix ↔
      ∃ i, i < k ∧
        2 ≤ ((List.range patterns.n).filter (zeroTowerAbove scip patterns i)).length ∧
        r = { rows := List.range' i (patterns.m - i),
              cols := (List.range patterns.n).filter (zeroTowerAbove scip patterns i),
              orbitopetype := SCIP_ORBITOPETYPE.FULL } := by
    intro k
    induction k with
    | zero => simp [patternScan]
    | succ k ih =>
      rw [patternScan_succ, patternRowStep_submatrix]
      simp only [List.mem_append]
      constructor
      · rintro (h | h | h)
        · split_ifs at h <;> simp at h
        · split_ifs at h with h2
          · simp only [List.mem_singleton, Prod.mk.injEq, true_and] at h
            rw [hcols] at h2 h
            refine ⟨k, by omega, h2, ?_⟩
            rw [h, patternRecord, rowsFrom_eq_range']
          · simp at h
        · obtain ⟨i, hi, h2, h3⟩ := ih.mp h
          exact ⟨i, by omega, h2, h3⟩
      · rintro ⟨i, hi, h2, h3⟩
        by_cases hik : i = k
        · subst hik
          right; left
          rw [hcols, if_pos h2]
          simp only [List.mem_singleton, Prod.mk.injEq, true_and]
          rw [h3, patternRecord, rowsFrom_eq_range']
        · right; right
          exact ih.mpr ⟨i, by omega, h2, h3⟩
  rw [findPatternMatchesTagged, key]
  constructor
  · rintro ⟨i, hi, h2, h3⟩
    refine ⟨i, by omega, hi, ?_, h2, h3⟩
    have hne : ∃ c, c ∈ (List.range patterns.n).filter (zeroTowerAbove scip patterns i) := by
      cases hl : (List.range patterns.n).filter (zeroTowerAbove scip patterns i) with
      | nil => simp [hl] at h2
      | cons c l => exact ⟨c, by simp⟩
    obtain ⟨c, hc⟩ := hne
    simp only [List.mem_filter, zeroTowerAbove, Bool.and_eq_true, decide_eq_true_eq] at hc
    exact hc.2.1
  · rintro ⟨i, _, hi, _, h2, h3⟩
    exact ⟨i, hi, h2, h3⟩

/-- Witness of `C28_zero_emission_condition`: the record of the pattern
example, which starts in row 2 below the two towers of height 2. -/
theorem C28_zero_emission_condition_witness :
    (Trigger.zero, ({ rows := [2, 3], cols := [0, 1], orbitopetype := SCIP_ORBITOPETYPE.FULL } :
        SCIP_ACTIVATIONSUBMATRIX)) ∈
      findPatternMatchesTagged patternExampleScip (patternExample 2) :=
  (C28_zero_emission_condition patternExampleScip (patternExample 2) (by decide) _).mpr
    ⟨2, by decide, by decide, by decide, by decide, by decide⟩

/-- C25: with in-range adjacency lists, the list that each of the three
component detectors returns does not depend on what the scratch arrays
`removedvertices`, `dfsstack` and `component` hold when the detector is called:
run on the arrays with any two contents, a detector returns the same list, the
one of the detector stated without the arrays, and it does return a list. -/
theorem C25_scratch_independent (scip : SCIP) (graphdata : GRAPHDATA)
    (hadj : ∀ i < graphdata.nvertices, ∀ v ∈ graphdata.adjacencies i,
      v < graphdata.nvertices)
    (scratch1 scratch2 : GraphScratch) :
    ((findColorPairsComponentsArrays scip graphdata scratch1).map Prod.fst =
        (findColorPairsComponentsArrays scip graphdata scratch2).map Prod.fst ∧
      (findColorPairsComponentsArrays scip graphdata scratch1).map Prod.fst =
        findColorPairsComponents scip graphdata ∧
      ∃ res, (findColorPairsComponentsArrays scip graphdata scratch1).map Prod.fst =
        some res) ∧
    ((findInvertedSingleColorComponentsArrays scip graphdata scratch1).map Prod.fst =
        (findInvertedSingleColorComponentsArrays scip graphdata scratch2).map Prod.fst ∧
      (findInvertedSingleColorComponentsArrays scip graphdata scratch1).map Prod.fst =
        findInvertedSingleColorComponents scip graphdata ∧
      ∃ res, (findInvertedSingleColorComponentsArrays scip graphdata scratch1).map Prod.fst =
        some res) ∧
    ((findInvertedColorPairsComponentsArrays scip graphdata scratch1).map Prod.fst =
        (findInvertedColorPairsComponentsArrays scip graphdata scratch2).map Prod.fst ∧
      (findInvertedColorPairsComponentsArrays scip graphdata scratch1).map Prod.fst =
        findInvertedColorPairsComponents scip graphdata ∧
      ∃ res, (findInvertedColorPairsComponentsArrays scip graphdata scratch1).map Prod.fst =
        some res) := by
  have h1 : ∀ scratch, (findColorPairsComponentsArrays scip graphdata scratch).map Prod.fst =
      findColorPairsComponents scip graphdata := fun scratch =>
    foldSteps_sim _ _ (fun acc c => componentsOfArrays_sim graphdata hadj _ _ _ acc) _ _
  have h2 : ∀ scratch,
      (findInvertedSingleColorComponentsArrays scip graphdata scratch).map Prod.fst =
      findInvertedSingleColorComponents scip graphdata := fun scratch =>
    foldSteps_sim _ _ (fun acc c => componentsOfArrays_sim graphdata hadj _ _ _ acc) _ _
  have h3 : ∀ scratch,
      (findInvertedColorPairsComponentsArrays scip graphdata scratch).map Prod.fst =
      findInvertedColorPairsComponents scip graphdata := fun scratch =>
    foldSteps_sim _ _ (fun acc c => componentsOfArrays_sim graphdata hadj _ _ _ acc) _ _
  obtain ⟨n1, hn1, _⟩ := findColorPairsComponents_trace scip graphdata hadj
  obtain ⟨n2, hn2, _⟩ := findInvertedSingleColorComponents_trace scip graphdata hadj
  obtain ⟨n3, hn3, _⟩ := findInvertedColorPairsComponents_trace scip graphdata hadj
  exact ⟨⟨by rw [h1, h1], h1 _, _, by rw [h1, hn1]⟩, ⟨by rw [h2, h2], h2 _, _, by rw [h2, hn2]⟩,
    ⟨by rw [h3, h3], h3 _, _, by rw [h3, hn3]⟩⟩

/-- Witness of `C25_scratch_independent`: the cycle example with vertex 2 fixed
to one on color 0, run on two contents of the scratch arrays. -/
theorem C25_scratch_independent_witness :
    (findInvertedSingleColorComponentsArrays invertedExampleScip (cycleExample true)
        scratchZeros).map Prod.fst =
      (findInvertedSingleColorComponentsArrays invertedExampleScip (cycleExample true)
        scratchSevens).map Prod.fst :=
  (C25_scratch_independent invertedExampleScip (cycleExample true) (by decide) scratchZeros
    scratchSevens).2.1.1

/-- C32: when `findSubSymmetries`, entered with any content of its two maps,
returns, it leaves both maps empty, whether the row loop ran over all rows or
was left early; the next call on the payload, under any solver state, then
starts from empty maps and returns the list of `findSubSymmetries` stated on
empty maps, which is a function of the matrix, the durations and the solver
state alone. -/
theorem C32_scratch_maps_clean (scip scip2 : SCIP) (activationdata : ACTIVATIONDATA)
    (makespans : SCIP_HASHMAP) (newsymmakespans : List Int)
    (res : List SCIP_ACTIVATIONSUBMATRIX × SCIP_HASHMAP × List Int)
    (h : findSubSymmetriesFrom scip activationdata makespans newsymmakespans = some res) :
    (∀ v, res.2.1 v = none) ∧ res.2.2 = [] ∧
    findSubSymmetriesFrom scip2 activationdata res.2.1 res.2.2 =
      findSubSymmetriesFrom scip2 activationdata (fun _ => none) [] ∧
    (findSubSymmetriesFrom scip2 activationdata res.2.1 res.2.2).map (fun r => r.1) =
      findSubSymmetries scip2 activationdata := by
  simp only [findSubSymmetriesFrom, Option.map_eq_some'] at h
  obtain ⟨st, _, hres⟩ := h
  subst hres
  refine ⟨fun _ => rfl, rfl, rfl, ?_⟩
  simp only [findSubSymmetriesFrom, findSubSymmetries, Option.map_map]
  rfl

/-- Witness of `C32_scratch_maps_clean`: the early exit example, in which the
row loop is left in row 2, entered with empty maps. -/
theorem C32_scratch_maps_clean_witness :
    ∃ res, findSubSymmetriesFrom makespanExampleScip earlyExitExample (fun _ => none) [] =
        some res ∧ res.2.2 = [] := by
  obtain ⟨res, h⟩ := Option.isSome_iff_exists.mp
    (by decide : (findSubSymmetriesFrom makespanExampleScip earlyExitExample
      (fun _ => none) []).isSome = true)
  exact ⟨res, h, (C32_scratch_maps_clean makespanExampleScip makespanExampleScip
    earlyExitExample (fun _ => none) [] res h).2.1⟩

/-- C33, the code at a failing input: with three machines and four jobs of
duration 1 (durations and bounds well-formed), the set `newsymmakespans` holds
the two values 1 and 2 at the start of row 3, more than `nmachines / 2 = 1`:
value 1 was marked when machine 0 joined machine 1 at it and stayed marked when
machine 1 moved on to value 2 in the same row. -/
theorem C33_candidate_set_exceeds_half :
    (∀ j < chain3.njobs, 0 ≤ chain3.jobtimes j) ∧
    (∀ v, chain3Scip.lbLocal v ≤ chain3Scip.ubLocal v) ∧
    (scanState chain3Scip chain3 3).map (fun st => st.newsymmakespans) = some [1, 2] ∧
    (scanState chain3Scip chain3 3).map
      (fun st => (List.range chain3.nmachines).map st.fixedmakespan) = some [1, 2, -1] ∧
    chain3.nmachines / 2 = 1 := by
  refine ⟨by decide, ?_, by decide, by decide, by decide⟩
  intro v
  show (if v = 2 ∨ v = 4 ∨ v = 5 ∨ v = 6 ∨ v = 7 then (1 : Int) else 0) ≤
    (if v = 0 ∨ v = 1 ∨ v = 3 then (0 : Int) else 1)
  split_ifs with h1 h2
  · exfalso
    rcases h1 with rfl | rfl | rfl | rfl | rfl <;> simp at h2
  · decide
  · decide
  · decide

/-- C36: with in-range adjacency lists the branch of `findColorPairsComponents`
on the test `componenthead >= nvertices - 1` is never taken. A search of the
loop over the start vertices runs with a removed vertex, which is in no
component, so the component it finds has fewer than `nvertices` vertices and the
test fails; the loop for one pair gives the same list with the test as without
it. Consequently, for every pair with a removed vertex, every vertex that is not
removed is a row of a record of that pair. -/
theorem C36_whole_graph_branch_dead (scip : SCIP) (graphdata : GRAPHDATA)
    (hadj : ∀ i < graphdata.nvertices, ∀ v ∈ graphdata.adjacencies i,
      v < graphdata.nvertices) :
    (∀ (removedvertices : Nat → Bool) (startvertex : Nat) (st : DfsState),
      (∃ u < graphdata.nvertices, removedvertices u = true) →
      startvertex < graphdata.nvertices → removedvertices startvertex = false →
      dfsFrom graphdata removedvertices startvertex = some st →
      st.component.length ≤ graphdata.nvertices - 1 ∧
        ¬ ((graphdata.nvertices : Int) - 1 ≤ (st.component.length : Int) - 1)) ∧
    (∀ (cols : List Nat) (remove : Nat → Bool) (submatrix : List SCIP_ACTIVATIONSUBMATRIX),
      componentsOf graphdata true cols remove submatrix =
        componentsOf graphdata false cols remove submatrix) ∧
    ∃ news, findColorPairsComponents scip graphdata = some news.reverse.flatten ∧
      List.Forall₂ (fun (c : Nat × Nat) new =>
        (∀ r ∈ new, r.cols = [c.1, c.2] ∧ ∀ v ∈ r.rows, v < graphdata.nvertices ∧
          removedColorPair scip graphdata c.1 c.2 v = false) ∧
        ((∃ u < graphdata.nvertices, removedColorPair scip graphdata c.1 c.2 u = true) →
          ∀ v < graphdata.nvertices, removedColorPair scip graphdata c.1 c.2 v = false →
            ∃ r ∈ new, v ∈ r.rows))
        (colorPairs graphdata) news := by
  refine ⟨?_, fun cols remove submatrix => componentsOf_wholegraph graphdata hadj cols remove
    submatrix, ?_⟩
  · intro removedvertices startvertex st hrem hlt hfalse hst
    have h := (dfsFrom_length_lt graphdata hadj removedvertices startvertex st hrem hlt hfalse
      hst).1
    constructor
    · omega
    · omega
  · obtain ⟨news, h1, h2⟩ := findColorPairsComponents_trace_full scip graphdata hadj
    refine ⟨news, h1, forall₂_imp _ _ _ _ h2 ?_⟩
    intro c _ new hP
    refine ⟨fun r hr => ?_, fun hrem v hv hvr => hP.2.covered rfl hrem v hv hvr⟩
    obtain ⟨hc, _, _, hsurv, _⟩ := hP.2.records r hr
    exact ⟨hc, hsurv⟩

/-- Witness of `C36_whole_graph_branch_dead`: in the triangle example the loop
for the pair `(0, 1)` gives the same list with and without the test. -/
theorem C36_whole_graph_branch_dead_witness :
    componentsOf triangleExample true [0, 1]
        (removedColorPair triangleExampleScip triangleExample 0 1) [] =
      componentsOf triangleExample false [0, 1]
        (removedColorPair triangleExampleScip triangleExample 0 1) [] :=
  (C36_whole_graph_branch_dead triangleExampleScip triangleExample (by decide)).2.1 _ _ _

/-- C37: with in-range adjacency lists, symmetric or not, each of the three
component detectors returns the records of its colors (pairs) one block after
the other, and for every color (pair) with a removed vertex the records of its
block partition the vertices that are not removed: the row sets of two records
are disjoint, the rows of a record are pairwise distinct vertices that are not
removed, and every vertex that is not removed is a row of exactly one record. -/
theorem C37_records_partition_survivors (scip : SCIP) (graphdata : GRAPHDATA)
    (hadj : ∀ i < graphdata.nvertices, ∀ v ∈ graphdata.adjacencies i,
      v < graphdata.nvertices) :
    (∃ news, findColorPairsComponents scip graphdata = some news.reverse.flatten ∧
      List.Forall₂ (fun (c : Nat × Nat) new =>
        (∃ u < graphdata.nvertices, removedColorPair scip graphdata c.1 c.2 u = true) →
          PartitionsSurvivors graphdata (removedColorPair scip graphdata c.1 c.2) new)
        (colorPairs graphdata) news) ∧
    (∃ news, findInvertedColorPairsComponents scip graphdata = some news.reverse.flatten ∧
      List.Forall₂ (fun (c : Nat × Nat) new =>
        (∃ u < graphdata.nvertices, removedInvertedPair scip graphdata c.1 c.2 u = true) →
          PartitionsSurvivors graphdata (removedInvertedPair scip graphdata c.1 c.2) new)
        (colorPairs graphdata) news) ∧
    (∃ news, findInvertedSingleColorComponents scip graphdata = some news.reverse.flatten ∧
      List.Forall₂ (fun (c1 : Nat) new =>
        (∃ u < graphdata.nvertices, removedInvertedSingle scip graphdata c1 u = true) →
          PartitionsSurvivors graphdata (removedInvertedSingle scip graphdata c1) new)
        (List.range graphdata.ncolors) news) := by
  refine ⟨?_, ?_, ?_⟩
  · obtain ⟨news, h1, h2⟩ := findColorPairsComponents_trace_full scip graphdata hadj
    exact ⟨news, h1, forall₂_imp _ _ _ _ h2
      (fun c _ new hP hrem => pairRecords_partition graphdata _ _ new hP.2 hrem)⟩
  · obtain ⟨news, h1, h2⟩ := findInvertedColorPairsComponents_trace scip graphdata hadj
    exact ⟨news, h1, forall₂_imp _ _ _ _ h2
      (fun c _ new hP hrem => pairRecords_partition graphdata _ _ new hP.2 hrem)⟩
  · obtain ⟨news, h1, h2⟩ := findInvertedSingleColorComponents_trace scip graphdata hadj
    exact ⟨news, h1, forall₂_imp _ _ _ _ h2
      (fun c _ new hP hrem => pairRecords_partition graphdata _ _ new hP.2 hrem)⟩

/-- Witness of `C37_records_partition_survivors`: the cycle example with vertex 2
fixed to one on color 0 under the inverted single color strategy. -/
theorem C37_records_partition_survivors_witness :
    ∃ news, findInvertedSingleColorComponents invertedExampleScip (cycleExample true) =
        some news.reverse.flatten ∧
      List.Forall₂ (fun (c1 : Nat) new =>
        (∃ u < (cycleExample true).nvertices,
          removedInvertedSingle invertedExampleScip (cycleExample true) c1 u = true) →
          PartitionsSurvivors (cycleExample true)
            (removedInvertedSingle invertedExampleScip (cycleExample true) c1) new)
        (List.range (cycleExample true).ncolors) news :=
  (C37_records_partition_survivors invertedExampleScip (cycleExample true) (by decide)).2.2

/-- C38: with in-range adjacency lists, in every state of the while loop of the
search from a start vertex of the graph, whatever the scratch arrays held
before, the filled part of `dfsstack` holds pairwise distinct marked vertices,
each adjacent to the entry below it (the current search path), and both
`dfsstackhead` and `componenthead` are at least -1 and at most `nvertices - 1`;
an iteration that finds an adjacent vertex `v` not yet marked reads and writes
`dfsstack`, `component` and `removedvertices` only at indices below
`nvertices`. The states of the loop are the iterates of its body on the state
in which `dfsFromArrays` enters it. -/
theorem C38_dfs_buffers_in_bounds (graphdata : GRAPHDATA)
    (hadj : ∀ i < graphdata.nvertices, ∀ v ∈ graphdata.adjacencies i,
      v < graphdata.nvertices)
    (scratch : GraphScratch) (startvertex : Nat) (hlt : startvertex < graphdata.nvertices)
    (k : Nat) :
    dfsFromArrays graphdata scratch startvertex =
      dfsWhileArrays graphdata (2 * graphdata.nvertices)
        (dfsStartArrays scratch startvertex) ∧
    -1 ≤ ((dfsStepArrays graphdata)^[k] (dfsStartArrays scratch startvertex)).dfsstackhead ∧
    ((dfsStepArrays graphdata)^[k] (dfsStartArrays scratch startvertex)).dfsstackhead ≤
      (graphdata.nvertices : Int) - 1 ∧
    -1 ≤ ((dfsStepArrays graphdata)^[k] (dfsStartArrays scratch startvertex)).componenthead ∧
    ((dfsStepArrays graphdata)^[k] (dfsStartArrays scratch startvertex)).componenthead ≤
      (graphdata.nvertices : Int) - 1 ∧
    (stackList ((dfsStepArrays graphdata)^[k] (dfsStartArrays scratch startvertex))).Nodup ∧
    (∀ i ∈ stackList ((dfsStepArrays graphdata)^[k] (dfsStartArrays scratch startvertex)),
      i < graphdata.nvertices ∧
      ((dfsStepArrays graphdata)^[k]
        (dfsStartArrays scratch startvertex)).removedvertices i = true) ∧
    (stackList ((dfsStepArrays graphdata)^[k] (dfsStartArrays scratch startvertex))).Chain'
      (fun top below => top ∈ graphdata.adjacencies below) ∧
    (componentList ((dfsStepArrays graphdata)^[k] (dfsStartArrays scratch startvertex))).Nodup ∧
    ∀ (a : DfsArrays) (v : Nat),
      a = (dfsStepArrays graphdata)^[k] (dfsStartArrays scratch startvertex) →
      0 ≤ a.dfsstackhead →
      (graphdata.adjacencies (a.dfsstack a.dfsstackhead.toNat)).find?
        (fun v => a.removedvertices v == false) = some v →
      a.dfsstackhead.toNat < graphdata.nvertices ∧
      (a.dfsstackhead - 1 + 1).toNat < graphdata.nvertices ∧
      (a.dfsstackhead - 1 + 2).toNat < graphdata.nvertices ∧
      (a.componenthead + 1).toNat < graphdata.nvertices ∧
      v < graphdata.nvertices := by
  obtain ⟨st, hsim, hinv, hstack⟩ := dfsIterate_inv graphdata hadj scratch startvertex hlt k
  obtain ⟨b1, b2, b3, b4⟩ := simDfs_bounds graphdata _ st hsim hinv hstack
  have hmem : ∀ i ∈ stackList
      ((dfsStepArrays graphdata)^[k] (dfsStartArrays scratch startvertex)),
      i < graphdata.nvertices ∧
      ((dfsStepArrays graphdata)^[k]
        (dfsStartArrays scratch startvertex)).removedvertices i = true := by
    intro i hi
    rw [← hsim.stack] at hi
    have hilt := hinv.stack_lt i hi
    refine ⟨hilt, ?_⟩
    rw [hsim.marks i hilt]
    exact hinv.component_removed i (hstack.stack_sub i hi)
  refine ⟨rfl, b1, b2, b3, b4, ?_, hmem, ?_, ?_, ?_⟩
  · rw [← hsim.stack]; exact hstack.stack_nodup
  · rw [← hsim.stack]; exact hstack.stack_path
  · rw [← hsim.comp]; exact hinv.component_nodup
  · intro a v ha hhead hfind
    obtain ⟨st1, hsim1, hinv1, hstack1⟩ :=
      dfsIterate_inv graphdata hadj scratch startvertex hlt (k + 1)
    obtain ⟨c1, c2, c3, c4⟩ := simDfs_bounds graphdata _ st1 hsim1 hinv1 hstack1
    rw [Function.iterate_succ_apply', ← ha] at c1 c2 c3 c4
    have hneg : ¬ a.dfsstackhead < 0 := by omega
    simp only [dfsStepArrays, if_neg hneg, hfind] at c2 c4
    have htop := (hmem _ (ha ▸ stackList_top_mem a hhead)).1
    rw [← ha] at htop
    have hv := hadj _ htop v (List.mem_of_find?_eq_some hfind)
    refine ⟨?_, ?_, ?_, ?_, hv⟩ <;> omega

/-- Witness of `C38_dfs_buffers_in_bounds`: the cycle example, searched from
vertex 0 on arrays filled with sevens, after three iterations. -/
theorem C38_dfs_buffers_in_bounds_witness :
    ((dfsStepArrays (cycleExample true))^[3] (dfsStartArrays scratchSevens 0)).dfsstackhead ≤
      ((cycleExample true).nvertices : Int) - 1 :=
  (C38_dfs_buffers_in_bounds (cycleExample true) (by decide) scratchSevens 0 (by decide)
    3).2.2.1

/-- C39: with in-range adjacency lists, which may hold self-loops, duplicates
and entries without their reverse, the while loop of the search ends. Its
invariant holds when it is entered and is kept by its body; an iteration
either marks a vertex of the graph that was not marked and pushes it, or leaves
the marks and pops one entry, so that twice the number of unmarked vertices
plus the height of the stack decreases; the `2 * nvertices` iterations granted
are enough for the search from every unmarked start vertex, which ends with an
empty stack. Each of the three detectors returns a list, on the arrays with
every content as well. -/
theorem C39_component_search_terminates (scip : SCIP) (graphdata : GRAPHDATA)
    (hadj : ∀ i < graphdata.nvertices, ∀ v ∈ graphdata.adjacencies i,
      v < graphdata.nvertices) :
    (∀ (removedvertices : Nat → Bool) (startvertex : Nat),
      startvertex < graphdata.nvertices →
      DfsInv graphdata (dfsStartState removedvertices startvertex) ∧
      dfsFrom graphdata removedvertices startvertex =
        dfsWhile graphdata (2 * graphdata.nvertices)
          (dfsStartState removedvertices startvertex)) ∧
    (∀ st, DfsInv graphdata st → st.dfsstack ≠ [] →
      DfsInv graphdata (dfsStep graphdata st) ∧
      ((∃ v < graphdata.nvertices, st.removedvertices v = false ∧
          (dfsStep graphdata st).removedvertices = setAt st.removedvertices v true ∧
          unvisited graphdata (dfsStep graphdata st).removedvertices + 1 =
            unvisited graphdata st.removedvertices ∧
          (dfsStep graphdata st).dfsstack.length = st.dfsstack.length + 1) ∨
        ((dfsStep graphdata st).removedvertices = st.removedvertices ∧
          (dfsStep graphdata st).dfsstack.length + 1 = st.dfsstack.length)) ∧
      2 * unvisited graphdata (dfsStep graphdata st).removedvertices +
          (dfsStep graphdata st).dfsstack.length <
        2 * unvisited graphdata st.removedvertices + st.dfsstack.length) ∧
    (∀ (removedvertices : Nat → Bool) (startvertex : Nat),
      startvertex < graphdata.nvertices → removedvertices startvertex = false →
      ∃ st, dfsFrom graphdata removedvertices startvertex = some st ∧ st.dfsstack = []) ∧
    (∃ res, findColorPairsComponents scip graphdata = some res) ∧
    (∃ res, findInvertedColorPairsComponents scip graphdata = some res) ∧
    (∃ res, findInvertedSingleColorComponents scip graphdata = some res) ∧
    ∀ scratch : GraphScratch,
      (findColorPairsComponentsArrays scip graphdata scratch).isSome = true ∧
      (findInvertedColorPairsComponentsArrays scip graphdata scratch).isSome = true ∧
      (findInvertedSingleColorComponentsArrays scip graphdata scratch).isSome = true := by
  obtain ⟨n1, hn1, _⟩ := findColorPairsComponents_trace scip graphdata hadj
  obtain ⟨n2, hn2, _⟩ := findInvertedColorPairsComponents_trace scip graphdata hadj
  obtain ⟨n3, hn3, _⟩ := findInvertedSingleColorComponents_trace scip graphdata hadj
  refine ⟨?_, ?_, ?_, ⟨_, hn1⟩, ⟨_, hn2⟩, ⟨_, hn3⟩, ?_⟩
  · intro removedvertices startvertex hlt
    exact ⟨(dfsStart_inv graphdata
      { removedvertices := removedvertices, dfsstack := fun _ => 0, component := fun _ => 0 }
      startvertex hlt).2.1, rfl⟩
  · intro st hinv hne
    obtain ⟨h1, h2⟩ := dfsStep_inv graphdata hadj st hinv hne
    exact ⟨h1, dfsStep_progress graphdata hadj st hinv hne, by omega⟩
  · intro removedvertices startvertex hlt hfalse
    obtain ⟨st, hst, _⟩ := dfsFrom_isSome graphdata hadj removedvertices startvertex hlt hfalse
    exact ⟨st, hst, (dfsWhile_some graphdata (fun _ => True) (fun _ _ _ => trivial) _ _ st
      trivial hst).2⟩
  · intro scratch
    exact ⟨isSome_of_map_fst _ _
        ((findColorPairsComponentsArrays_fst scip graphdata hadj scratch).trans hn1),
      isSome_of_map_fst _ _
        ((findInvertedColorPairsComponentsArrays_fst scip graphdata hadj scratch).trans hn2),
      isSome_of_map_fst _ _
        ((findInvertedSingleColorComponentsArrays_fst scip graphdata hadj scratch).trans hn3)⟩

/-- Witness of `C39_component_search_terminates`: the cycle example under the
default strategy. -/
theorem C39_component_search_terminates_witness :
    ∃ res, findColorPairsComponents cycleExampleScip (cycleExample true) = some res :=
  (C39_component_search_terminates cycleExampleScip (cycleExample true)
    (by decide)).2.2.2.1

/-- C3: for two machines and two jobs with the durations `[3, 3]`, both
variables of row 0 fixed to one and both variables of row 1 not fixed,
`findSubSymmetries` returns exactly one record,
`{rows: [1], cols: [0, 1], kind: Partitioning}`. -/
theorem C3_makespan_example (scip : SCIP) (matrix : Nat → Nat → SCIP_VAR)
    (jobtimes : Nat → Int) (hd0 : jobtimes 0 = 3) (_hd1 : jobtimes 1 = 3)
    (h00 : lbAboveHalf scip (matrix 0 0) = true) (h01 : lbAboveHalf scip (matrix 0 1) = true)
    (h10 : lbAboveHalf scip (matrix 1 0) = false ∧ ubBelowHalf scip (matrix 1 0) = false)
    (h11 : lbAboveHalf scip (matrix 1 1) = false ∧ ubBelowHalf scip (matrix 1 1) = false) :
    findSubSymmetries scip
        { matrix := matrix, jobtimes := jobtimes, nmachines := 2, njobs := 2 } =
      some [{ rows := [1], cols := [0, 1], orbitopetype := SCIP_ORBITOPETYPE.PARTITIONING }] := by
  have u10 := ubAboveHalf_of_not_below scip _ h10.2
  have u11 := ubAboveHalf_of_not_below scip _ h11.2
  have hw : wrapInt 3 = 3 := by decide
  simp [findSubSymmetries, scanRows, processCandidates, updateMachines, machineStep,
    candidateStep, candidateCols, foldSteps, makespanInit, decreaseCount,
    SCIPhashmapGetImageInt, SCIPhashmapInsertInt, SCIPhashmapSetImageInt, SCIPhashmapRemove,
    INT_MAX, setAt, rowsFrom, List.range_succ, hd0, h00, h01, h10, h11, u10, u11, hw]

/-- Witness of `C3_makespan_example`: the example with variable `2 * j + m` at
entry `(j, m)`. -/
theorem C3_makespan_example_witness :
    findSubSymmetries makespanExampleScip
        { matrix := fun j m => 2 * j + m, jobtimes := fun _ => 3, nmachines := 2, njobs := 2 } =
      some [{ rows := [1], cols := [0, 1], orbitopetype := SCIP_ORBITOPETYPE.PARTITIONING }] :=
  C3_makespan_example makespanExampleScip (fun j m => 2 * j + m) (fun _ => 3) rfl rfl
    (by decide) (by decide) (by decide) (by decide)

/-- C4: when no variable of the matrix is fixed, neither to zero nor to one,
each of the five detectors returns the empty list; the pattern detector needs
its two thresholds to be positive for this. -/
theorem C4_nothing_fixed_empty (scip : SCIP) (graphdata : GRAPHDATA)
    (activationdata : ACTIVATIONDATA) (patterns : PATTERNS)
    (hgraph : ∀ i < graphdata.nvertices, ∀ c < graphdata.ncolors,
      ubBelowHalf scip (graphdata.matrix i c) = false ∧
      lbAboveHalf scip (graphdata.matrix i c) = false)
    (hmakespan : ∀ j < activationdata.njobs, ∀ m < activationdata.nmachines,
      ubBelowHalf scip (activationdata.matrix j m) = false ∧
      lbAboveHalf scip (activationdata.matrix j m) = false)
    (hpattern : ∀ i < patterns.m, ∀ j < patterns.n,
      ubBelowHalf scip (patternVar scip patterns i j) = false ∧
      lbAboveHalf scip (patternVar scip patterns i j) = false)
    (hzero : 0 < patterns.zeroheight) (hone : 0 < patterns.oneheight) :
    findColorPairsComponents scip graphdata = some [] ∧
    findInvertedSingleColorComponents scip graphdata = some [] ∧
    findInvertedColorPairsComponents scip graphdata = some [] ∧
    findSubSymmetries scip activationdata = some [] ∧
    findPatternMatches scip patterns = [] := by
  obtain ⟨h1, h2, h3⟩ := components_free scip graphdata hgraph
  refine ⟨h1, h2, h3, findSubSymmetries_free scip activationdata hmakespan, ?_⟩
  have := (patternScan_free scip patterns hpattern hzero hone patterns.m (le_refl _)).2.2
  simp [findPatternMatches, findPatternMatchesTagged, this]

/-- Witness of `C4_nothing_fixed_empty`: the three example payloads under the
solver state in which every variable has the bounds 0 and 1. -/
theorem C4_nothing_fixed_empty_witness :
    findColorPairsComponents freeScip (cycleExample true) = some [] ∧
    findInvertedSingleColorComponents freeScip (cycleExample true) = some [] ∧
    findInvertedColorPairsComponents freeScip (cycleExample true) = some [] ∧
    findSubSymmetries freeScip makespanExample = some [] ∧
    findPatternMatches freeScip (patternExample 1) = [] :=
  C4_nothing_fixed_empty freeScip (cycleExample true) makespanExample (patternExample 1)
    (by decide) (by decide) (by decide) (by decide) (by decide)

/-- C8: every record that `findSubSymmetries` returns has, in its first row, an
entry in one of its columns whose upper bound is above one half, which is
therefore not fixed to zero; so no record starts in a row in which all its
columns are fixed to zero. The function does return a list when the durations
are not negative and sum up to at most `INT_MAX`, the number of machines is an
`int`, every lower bound is at most the upper bound and no row has more than
`nmachines / 2 + 1` entries with an upper bound that is not above one half, so
that no sum leaves the range of an `int` and the deferred values of a row fit
into `reinsertmakespans`. -/
theorem C8_first_row_not_all_zero (scip : SCIP) (activationdata : ACTIVATIONDATA) :
    (∀ res, findSubSymmetries scip activationdata = some res →
      ∀ r ∈ res, ∃ row, r.rows.head? = some row ∧
        (∃ c ∈ r.cols, ubAboveHalf scip (activationdata.matrix row c) = true ∧
          ubBelowHalf scip (activationdata.matrix row c) = false) ∧
        ¬ ∀ c ∈ r.cols, ubBelowHalf scip (activationdata.matrix row c) = true) ∧
    ((∀ j < activationdata.njobs, 0 ≤ activationdata.jobtimes j) →
      totalTime activationdata ≤ INT_MAX →
      (activationdata.nmachines : Int) ≤ INT_MAX →
      (∀ j < activationdata.njobs, ∀ m < activationdata.nmachines,
        scip.lbLocal (activationdata.matrix j m) ≤ scip.ubLocal (activationdata.matrix j m)) →
      (∀ j < activationdata.njobs,
        (zeroMachines scip activationdata j).length ≤ activationdata.nmachines / 2 + 1) →
      ∃ res, findSubSymmetries scip activationdata = some res) := by
  refine ⟨?_, fun hdur hsum hmax hcons hfits =>
    findSubSymmetries_isSome scip activationdata ⟨hdur, hsum, hmax, hcons, hfits⟩⟩
  intro res hres r hr
  obtain ⟨row, hrow, _, c, hc, hub⟩ :=
    findSubSymmetries_firstRowOpen scip activationdata res hres r hr
  have hnot : ubBelowHalf scip (activationdata.matrix row c) = false := by
    simp only [ubAboveHalf, decide_eq_true_eq] at hub
    simp only [ubBelowHalf, decide_eq_false_iff_not]
    omega
  refine ⟨row, hrow, ⟨c, hc, hub, hnot⟩, ?_⟩
  intro hall
  rw [hall c hc] at hnot
  exact Bool.noConfusion hnot

/-- Witness of `C8_first_row_not_all_zero`: the makespan example returns one
record, and the property holds for it. -/
theorem C8_first_row_not_all_zero_witness :
    ∃ row, [1].head? = some row ∧
      (∃ c ∈ [0, 1], ubAboveHalf makespanExampleScip (makespanExample.matrix row c) = true ∧
        ubBelowHalf makespanExampleScip (makespanExample.matrix row c) = false) ∧
      ¬ ∀ c ∈ [0, 1], ubBelowHalf makespanExampleScip (makespanExample.matrix row c) = true :=
  (C8_first_row_not_all_zero makespanExampleScip makespanExample).1
    [{ rows := [1], cols := [0, 1], orbitopetype := SCIP_ORBITOPETYPE.PARTITIONING }]
    (by decide) _ (List.mem_singleton.mpr rfl)

/-- C21, as stated, fails: asked for a constraint without payload, the
find-data callback of each of the three handlers returns `SCIP_OKAY` and does
not write `*activationdata`, so that a caller that has left a list there gets
that list as the result, not the empty list. -/
theorem C21_counterexample :
    activationFindActivationDataColorComp cycleExampleScip cycleRegistered
        { addr := 8, original := true, transorigcons := 0 } false [staleRecord] =
      some (SCIP_RETCODE.SCIP_OKAY, [staleRecord]) ∧
    activationFindActivationDataSuborbitope cycleExampleScip (noPayloads PATTERNS)
        { addr := 8, original := true, transorigcons := 0 } false [staleRecord] =
      some (SCIP_RETCODE.SCIP_OKAY, [staleRecord]) ∧
    activationFindActivationDataMakespan cycleExampleScip (noPayloads ACTIVATIONDATA)
        { addr := 8, original := true, transorigcons := 0 } false [staleRecord] =
      some (SCIP_RETCODE.SCIP_OKAY, [staleRecord]) ∧
    [staleRecord] ≠ [] := by
  decide

/-- C29, as stated, fails when a sum of durations leaves the range of an `int`:
in the sentinel collision example with two machines, whose durations are not
negative, both makespans wrap to -1 in row 2, where -1 is put into
`newsymmakespans`; in row 3 this candidate is deferred and the loop over the
machines finds every machine at -1, so the row loop is left with a candidate
pending, and `findSubSymmetries` returns two records where the scan without
the exit returns a third one, with the first row 4. -/
theorem C29_counterexample :
    (∀ j < wrapBreak.njobs, 0 ≤ wrapBreak.jobtimes j) ∧
    (∀ j < wrapBreak.njobs, ∀ m < wrapBreak.nmachines,
      wrapBreakScip.lbLocal (wrapBreak.matrix j m) ≤
        wrapBreakScip.ubLocal (wrapBreak.matrix j m)) ∧
    findSubSymmetries wrapBreakScip wrapBreak =
      some [{ rows := [2, 3, 4], cols := [0, 1],
              orbitopetype := SCIP_ORBITOPETYPE.PARTITIONING },
            { rows := [1, 2, 3, 4], cols := [0, 1],
              orbitopetype := SCIP_ORBITOPETYPE.PARTITIONING }] ∧
    findSubSymmetriesWithoutBreak wrapBreakScip wrapBreak =
      some [{ rows := [4], cols := [0, 1], orbitopetype := SCIP_ORBITOPETYPE.PARTITIONING },
            { rows := [2, 3, 4], cols := [0, 1],
              orbitopetype := SCIP_ORBITOPETYPE.PARTITIONING },
            { rows := [1, 2, 3, 4], cols := [0, 1],
              orbitopetype := SCIP_ORBITOPETYPE.PARTITIONING }] ∧
    (scanState wrapBreakScip wrapBreak 3).bind (fun st =>
      (processCandidates wrapBreakScip wrapBreak 3 st).map (fun st1 =>
        ((updateMachines wrapBreakScip wrapBreak 3 st1).2,
          (updateMachines wrapBreakScip wrapBreak 3 st1).1.newsymmakespans))) =
      some (true, [-1]) := by
  decide

/-- C29: for durations that are not negative and sum up to at most `INT_MAX`,
`findSubSymmetries`, which leaves its row loop after the first row in which it
finds every machine undetermined, has the same result as the same scan without
that exit; and when the exit is taken in a row, no value is in
`newsymmakespans`, neither at the start of the row nor at the exit. The function
does return a list when every lower bound is at most the upper bound and no row
has more than `nmachines / 2 + 1` entries with an upper bound that is not above
one half. -/
theorem C29_early_exit_sound (scip : SCIP) (activationdata : ACTIVATIONDATA)
    (hdur : ∀ j < activationdata.njobs, 0 ≤ activationdata.jobtimes j)
    (hsum : totalTime activationdata ≤ INT_MAX)
    (hmax : (activationdata.nmachines : Int) ≤ INT_MAX) :
    findSubSymmetries scip activationdata = findSubSymmetriesWithoutBreak scip activationdata ∧
    (∀ j st st1, j < activationdata.njobs → scanState scip activationdata j = some st →
      processCandidates scip activationdata j st = some st1 →
      (updateMachines scip activationdata j st1).2 = true →
      st.newsymmakespans = [] ∧
        (updateMachines scip activationdata j st1).1.newsymmakespans = []) ∧
    ((∀ j < activationdata.njobs, ∀ m < activationdata.nmachines,
        scip.lbLocal (activationdata.matrix j m) ≤ scip.ubLocal (activationdata.matrix j m)) →
      (∀ j < activationdata.njobs,
        (zeroMachines scip activationdata j).length ≤ activationdata.nmachines / 2 + 1) →
      ∃ res, findSubSymmetries scip activationdata = some res) := by
  refine ⟨findSubSymmetries_eq_withoutBreak scip activationdata hdur hsum hmax, ?_,
    fun hcons hfits =>
      findSubSymmetries_isSome scip activationdata ⟨hdur, hsum, hmax, hcons, hfits⟩⟩
  intro j st st1 hj hst hpc hflag
  have hsti := scanState_sound scip activationdata hdur hsum j st (by omega) hst
  have hpci := processCandidates_sound scip activationdata j st st1 hpc
  have hkeep := processCandidatesIdeal_keeps scip activationdata j st st1 hpci
  have hfix : ∀ m < activationdata.nmachines, st1.fixedmakespan m = -1 ∨
      st1.fixedmakespan m = fixedSum scip activationdata j m := by
    rw [hkeep.1]
    exact makespanInv_fix scip activationdata j st
      (scanStateIdeal_inv scip activationdata hdur j st (by omega) hsti)
  have hup := updateMachines_eq_ideal scip activationdata j st1
    (sum_in_range scip activationdata hdur hsum j hj st1 hfix)
  rw [hup] at hflag ⊢
  have hall1 : ∀ m < activationdata.nmachines, st1.fixedmakespan m = -1 := by
    rw [updateMachinesIdeal_eq] at hflag
    exact (machinesUpToIdeal_flag scip activationdata j st1 _).mp hflag
  have hall : ∀ m < activationdata.nmachines, st.fixedmakespan m = -1 := by
    intro m hm
    rw [← hkeep.1]
    exact hall1 m hm
  have hempty : st.newsymmakespans = [] ∧ st1 = st := by
    by_cases hpos : 0 < activationdata.nmachines
    · have hinv := scanStateIdeal_exactInv scip activationdata hdur hmax hpos j st (by omega)
        hsti
      exact processCandidatesIdeal_undetermined scip activationdata j st st1 hinv.counts
        (fun v hv => (hinv.candidates v hv).1) hall hpci
    · obtain ⟨_, hinit⟩ := scanStateIdeal_noMachines scip activationdata (by omega) j st hsti
      have hns : st.newsymmakespans = [] := by rw [hinit]; rfl
      refine ⟨hns, ?_⟩
      simp only [processCandidatesIdeal, hns, Option.some.injEq] at hpci
      exact hpci.symm
  refine ⟨hempty.1, ?_⟩
  rw [updateMachinesIdeal_eq, machinesUpToIdeal_undetermined scip activationdata j st1 _ hall1,
    hempty.2]
  exact hempty.1

/-- Witness of `C29_early_exit_sound`: the example in which the scan is left
before its last row. -/
theorem C29_early_exit_sound_witness :
    findSubSymmetries makespanExampleScip earlyExitExample =
      findSubSymmetriesWithoutBreak makespanExampleScip earlyExitExample :=
  (C29_early_exit_sound makespanExampleScip earlyExitExample (by decide) (by decide)
    (by decide)).1

/-- C34, the code at a failing input: with five machines and six jobs
(durations and bounds well-formed), the four values 1, 2, 3 and 4 are pending
at the start of row 4, each held by a single machine that is fixed to zero in
row 4, so all four are deferred in that row: the first three fill
`reinsertmakespans[0 .. 2]`, the buffer having the length
`nmachines / 2 + 1 = 3`, and the write for the fourth, at index 3, is past its
end, so that the row has no defined result. -/
theorem C34_deferral_buffer_overrun :
    (∀ j < chain5.njobs, 0 ≤ chain5.jobtimes j) ∧
    (∀ v, chain5Scip.lbLocal v ≤ chain5Scip.ubLocal v) ∧
    (scanState chain5Scip chain5 4).map (fun st => st.newsymmakespans) = some [1, 2, 3, 4] ∧
    (scanState chain5Scip chain5 4).map (fun st =>
      st.newsymmakespans.map (fun value =>
        (candidateRecord chain5 4 st.fixedmakespan st.makespans value).cols.all
          (fun c => !(ubAboveHalf chain5Scip (chain5.matrix 4 c))))) =
      some [true, true, true, true] ∧
    ((scanState chain5Scip chain5 4).bind (fun st =>
      (foldSteps (candidateStep chain5Scip chain5 4 st.fixedmakespan st.makespans)
        [1, 2, 3] ([], st.submatrix)).map (fun acc => acc.1))) = some [1, 2, 3] ∧
    ((scanState chain5Scip chain5 4).bind (fun st =>
      (candidateStep chain5Scip chain5 4 st.fixedmakespan st.makespans
        ([1, 2, 3], st.submatrix) 4).map (fun acc => acc.1))) = none ∧
    ((scanState chain5Scip chain5 4).bind (fun st =>
      (processCandidates chain5Scip chain5 4 st).map
        (fun st1 => st1.newsymmakespans))) = none ∧
    findSubSymmetries chain5Scip chain5 = none ∧
    chain5.nmachines / 2 + 1 = 3 := by
  refine ⟨by decide, ?_, by decide, by decide, by decide, by decide, by decide, by decide,
    by decide⟩
  intro v
  show (if _ then (1 : Int) else 0) ≤ (if _ then (1 : Int) else if v < 25 then 0 else 1)
  split_ifs <;> decide

/-- C31: every detector puts a new record in front of the result list, so the
list is in reverse order of emission. The list of `findPatternMatches` is, row
after row from the last row to the first, what the row emits: the record of the
block on the one towers, if the row has one, in front of the record of the
block on the zero towers, if it has one; the first rows of its records do not
increase from the head to the tail, and a row that emits both records has the
one-triggered record right in front of its zero-triggered record. A component
detector, for in-range adjacency lists, puts the records of a color (pair) in
front of the list it has so far, so that its result is the blocks of the colors
(pairs) from the last one visited to the first, each block holding the records
of its own color (pair): the columns of that color (pair) and rows not removed
for it; within a block a record starts at a larger vertex than the records
behind it, the start vertices being visited in ascending order. A candidate
of a row of `findSubSymmetries` that is not deferred puts its record in front
of the list as well, and in the result the first rows do not increase from head
to tail. -/
theorem C31_result_list_order (scip : SCIP) (patterns : PATTERNS) (graphdata : GRAPHDATA)
    (activationdata : ACTIVATIONDATA) :
    (∀ (st : PatternState) (i : Nat),
      ∃ new, (patternRowStep scip patterns st i).submatrix = new ++ st.submatrix) ∧
    findPatternMatchesTagged scip patterns =
      (List.range patterns.m).reverse.flatMap (rowEmission scip patterns) ∧
    (∀ i, rowEmission scip patterns i =
      (if 2 ≤ (oneCols patterns (patternScan scip patterns i)).length then
        [(Trigger.one, patternRecord patterns i
          (oneCols patterns (patternScan scip patterns i)))] else []) ++
      (if 2 ≤ (zeroCols patterns (patternScan scip patterns i)).length then
        [(Trigger.zero, patternRecord patterns i
          (zeroCols patterns (patternScan scip patterns i)))] else [])) ∧
    (findPatternMatches scip patterns).Pairwise (fun a b => StartsNotAfter b a) ∧
    (∀ r ∈ findPatternMatches scip patterns, ∃ i < patterns.m, r.rows.head? = some i) ∧
    (∀ i < patterns.m, 2 ≤ (oneCols patterns (patternScan scip patterns i)).length →
      2 ≤ (zeroCols patterns (patternScan scip patterns i)).length →
      [(Trigger.one, patternRecord patterns i
          (oneCols patterns (patternScan scip patterns i))),
        (Trigger.zero, patternRecord patterns i
          (zeroCols patterns (patternScan scip patterns i)))] <:+:
        findPatternMatchesTagged scip patterns) ∧
    ((∀ i < graphdata.nvertices, ∀ v ∈ graphdata.adjacencies i, v < graphdata.nvertices) →
      (∀ (wholegraphtest : Bool) (cols : List Nat) (startvertex : Nat) (later : List Nat)
          (removedvertices : Nat → Bool) (submatrix : List SCIP_ACTIVATIONSUBMATRIX)
          (st : DfsState),
        removedvertices startvertex = false →
        dfsFrom graphdata removedvertices startvertex = some st →
        ¬ (wholegraphtest = true ∧
          (graphdata.nvertices : Int) - 1 ≤ (st.component.length : Int) - 1) →
        componentsLoop graphdata wholegraphtest cols (startvertex :: later) removedvertices
            submatrix =
          componentsLoop graphdata wholegraphtest cols later st.removedvertices
            ({ rows := SCIPsortInt st.component, cols := cols,
               orbitopetype := SCIP_ORBITOPETYPE.PACKING } :: submatrix)) ∧
      (∀ (wholegraphtest : Bool) (cols : List Nat) (remove : Nat → Bool)
          (submatrix : List SCIP_ACTIVATIONSUBMATRIX),
        ∃ new, componentsOf graphdata wholegraphtest cols remove submatrix =
          some (new ++ submatrix)) ∧
      (∃ news : List (List SCIP_ACTIVATIONSUBMATRIX),
        findColorPairsComponents scip graphdata = some news.reverse.flatten ∧
        List.Forall₂ (fun (c : Nat × Nat) new =>
          (∀ r ∈ new, ComponentRecord graphdata (removedColorPair scip graphdata c.1 c.2)
            [c.1, c.2] r) ∧
          new.Pairwise (fun a b => StartsBefore b a))
          (colorPairs graphdata) news) ∧
      (∃ news : List (List SCIP_ACTIVATIONSUBMATRIX),
        findInvertedColorPairsComponents scip graphdata = some news.reverse.flatten ∧
        List.Forall₂ (fun (c : Nat × Nat) new =>
          (∀ r ∈ new, ComponentRecord graphdata (removedInvertedPair scip graphdata c.1 c.2)
            ((List.range graphdata.ncolors).filter (fun c3 => c3 ≠ c.1 ∧ c3 ≠ c.2)) r) ∧
          new.Pairwise (fun a b => StartsBefore b a))
          (colorPairs graphdata) news) ∧
      (∃ news : List (List SCIP_ACTIVATIONSUBMATRIX),
        findInvertedSingleColorComponents scip graphdata = some news.reverse.flatten ∧
        List.Forall₂ (fun (c1 : Nat) new =>
          (∀ r ∈ new, ComponentRecord graphdata (removedInvertedSingle scip graphdata c1)
            ((List.range graphdata.ncolors).filter (fun c2 => c2 ≠ c1)) r) ∧
          new.Pairwise (fun a b => StartsBefore b a))
          (List.range graphdata.ncolors) news)) ∧
    (∀ (j : Nat) (fixedmakespan : Nat → Int) (makespans : SCIP_HASHMAP)
        (acc acc1 : List Int × List SCIP_ACTIVATIONSUBMATRIX) (value : Int),
      candidateStep scip activationdata j fixedmakespan makespans acc value = some acc1 →
      acc1.2 = acc.2 ∨
        acc1.2 = candidateRecord activationdata j fixedmakespan makespans value :: acc.2) ∧
    (∀ (j : Nat) (st st1 : MakespanState),
      processCandidates scip activationdata j st = some st1 →
      ∃ new, st1.submatrix = new ++ st.submatrix) ∧
    (∀ res, findSubSymmetries scip activationdata = some res →
      res.Pairwise (fun a b => StartsNotAfter b a)) := by
  have horder := patternScan_order scip patterns patterns.m
  refine ⟨?_, patternScan_emissions scip patterns patterns.m,
    rowEmission_eq scip patterns, ?_, ?_, ?_, ?_, ?_, ?_,
    findSubSymmetries_order scip activationdata⟩
  · intro st i
    rw [patternRowStep_submatrix, ← List.append_assoc]
    exact ⟨_, rfl⟩
  · rw [findPatternMatches, List.pairwise_map]
    exact horder.2
  · intro r hr
    rw [findPatternMatches, List.mem_map] at hr
    obtain ⟨x, hx, hxr⟩ := hr
    obtain ⟨i, hi, hrows⟩ := horder.1 x hx
    refine ⟨i, hi, ?_⟩
    rw [← hxr, hrows]
    exact rowsFrom_head i _ (by omega)
  · intro i hi h1 h0
    have hmem : i ∈ (List.range patterns.m).reverse :=
      List.mem_reverse.mpr (List.mem_range.mpr hi)
    obtain ⟨s, t, hst⟩ := List.append_of_mem hmem
    have hrow := rowEmission_eq scip patterns i
    rw [if_pos h1, if_pos h0] at hrow
    refine ⟨s.flatMap (rowEmission scip patterns), t.flatMap (rowEmission scip patterns), ?_⟩
    rw [findPatternMatchesTagged, patternScan_emissions, hst, List.flatMap_append,
      List.flatMap_cons, hrow]
    simp
  · intro hadj
    obtain ⟨n1, hn1, hf1⟩ := findColorPairsComponents_trace scip graphdata hadj
    obtain ⟨n2, hn2, hf2⟩ := findInvertedColorPairsComponents_trace scip graphdata hadj
    obtain ⟨n3, hn3, hf3⟩ := findInvertedSingleColorComponents_trace scip graphdata hadj
    refine ⟨?_, ?_, ⟨n1, hn1, ?_⟩, ⟨n2, hn2, ?_⟩, ⟨n3, hn3, ?_⟩⟩
    · intro wholegraphtest cols startvertex later removedvertices submatrix st hrem hst htest
      rw [componentsLoop_search _ _ _ _ _ _ _ st hrem hst, if_neg htest]
    · intro wholegraphtest cols remove submatrix
      obtain ⟨new, hnew, _⟩ := componentsOf_records graphdata hadj wholegraphtest cols remove
        submatrix
      exact ⟨new, hnew⟩
    · exact forall₂_imp _ _ _ _ hf1 (fun c _ new hP =>
        ⟨hP.2.records, pairRecords_startsBefore graphdata _ _ _ new hP.2⟩)
    · exact forall₂_imp _ _ _ _ hf2 (fun c _ new hP =>
        ⟨hP.2.records, pairRecords_startsBefore graphdata _ _ _ new hP.2⟩)
    · exact forall₂_imp _ _ _ _ hf3 (fun c _ new hP =>
        ⟨hP.2.records, pairRecords_startsBefore graphdata _ _ _ new hP.2⟩)
  · intro j fixedmakespan makespans acc acc1 value h
    rw [candidateStep_eq] at h
    split_ifs at h
    · simp only [Option.some.injEq] at h
      subst h
      exact Or.inl rfl
    · simp only [Option.some.injEq] at h
      subst h
      exact Or.inr rfl
  · intro j st st1 h
    obtain ⟨new, hnew, _⟩ := processCandidatesIdeal_prepends scip activationdata j st st1
      (processCandidates_sound scip activationdata j st st1 h)
    exact ⟨new, hnew⟩

/-- Witness of `C31_result_list_order`: the cycle example, whose adjacency
lists are in range, under the default strategy. -/
theorem C31_result_list_order_witness :
    ∃ news : List (List SCIP_ACTIVATIONSUBMATRIX),
      findColorPairsComponents cycleExampleScip (cycleExample true) =
        some news.reverse.flatten ∧
      List.Forall₂ (fun (c : Nat × Nat) new =>
        (∀ r ∈ new, ComponentRecord (cycleExample true)
          (removedColorPair cycleExampleScip (cycleExample true) c.1 c.2) [c.1, c.2] r) ∧
        new.Pairwise (fun a b => StartsBefore b a))
        (colorPairs (cycleExample true)) news :=
  ((C31_result_list_order cycleExampleScip shortTower (cycleExample true)
    makespanExample).2.2.2.2.2.2.1 (by decide)).2.2.1

/-- C35, as stated, fails when a sum of durations leaves the range of an `int`:
in the sentinel collision example with three machines, whose durations are not
negative, the makespans of the machines 1 and 2 wrap to -1, the value of the
undetermined machine 0; at the start of row 3 the value -1 is a candidate with
the count 2, and the `cols` array of its record is filled with the machines 0
and 1, while the machines with `fixedmakespan[m] = -1` are 0, 1 and 2. -/
theorem C35_counterexample :
    (∀ j < sentinelExample.njobs, 0 ≤ sentinelExample.jobtimes j) ∧
    (∀ j < sentinelExample.njobs, ∀ m < sentinelExample.nmachines,
      sentinelScip.lbLocal (sentinelExample.matrix j m) ≤
        sentinelScip.ubLocal (sentinelExample.matrix j m)) ∧
    (scanState sentinelScip sentinelExample 3).map (fun st =>
      (st.newsymmakespans, SCIPhashmapGetImageInt st.makespans (-1),
        candidateCols sentinelExample st.fixedmakespan (-1)
          (SCIPhashmapGetImageInt st.makespans (-1)),
        (List.range sentinelExample.nmachines).filter
          (fun i => st.fixedmakespan i = -1))) =
      some ([-1], 2, [0, 1], [0, 1, 2]) := by
  decide

/-- C35: at the start of every row that the row loop of `findSubSymmetries`
reaches, and after the body of the machine loop for each single machine of that
row, so also after the whole update of the row, the count stored in `makespans`
for a value `v ≥ 0` (0 if there is no entry) is the number of machines `m` with
`fixedmakespan[m] = v`; this holds for all durations, the sums being those of
C `int`s. When the durations are not negative and sum up to at most `INT_MAX`
and the bounds are consistent, for each candidate of the row the `cols` array is
hence completely written, with exactly the machines at that value, of which
there is at least one; and the candidates of the row are processed with a
result when the row has at most `nmachines / 2 + 1` entries with an upper bound
that is not above one half. -/
theorem C35_count_invariant (scip : SCIP) (activationdata : ACTIVATIONDATA)
    (hmax : (activationdata.nmachines : Int) ≤ INT_MAX)
    (j : Nat) (st : MakespanState)
    (hst : scanState scip activationdata j = some st) :
    (∀ v : Int, 0 ≤ v →
      storedCount st.makespans v = (machineCount activationdata st.fixedmakespan v : Int)) ∧
    (∀ st1, processCandidates scip activationdata j st = some st1 →
      ∀ k ≤ activationdata.nmachines, ∀ v : Int, 0 ≤ v →
        storedCount (machinesUpTo scip activationdata j st1 k).1.makespans v =
          (machineCount activationdata
            (machinesUpTo scip activationdata j st1 k).1.fixedmakespan v : Int)) ∧
    ((∀ row < activationdata.njobs, 0 ≤ activationdata.jobtimes row) →
      totalTime activationdata ≤ INT_MAX →
      j < activationdata.njobs →
      (∀ row < activationdata.njobs, ∀ m < activationdata.nmachines,
        scip.lbLocal (activationdata.matrix row m) ≤
          scip.ubLocal (activationdata.matrix row m)) →
      (∀ value ∈ st.newsymmakespans,
        candidateCols activationdata st.fixedmakespan value
            (SCIPhashmapGetImageInt st.makespans value) =
          (List.range activationdata.nmachines).filter
            (fun i => st.fixedmakespan i = value) ∧
        ((candidateCols activationdata st.fixedmakespan value
            (SCIPhashmapGetImageInt st.makespans value)).length : Int) =
          SCIPhashmapGetImageInt st.makespans value ∧
        1 ≤ (candidateCols activationdata st.fixedmakespan value
            (SCIPhashmapGetImageInt st.makespans value)).length) ∧
      ((zeroMachines scip activationdata j).length ≤ activationdata.nmachines / 2 + 1 →
        ∃ st1, processCandidates scip activationdata j st = some st1)) := by
  by_cases hpos : 0 < activationdata.nmachines
  · have hcounts := scanState_counts scip activationdata hmax hpos j st hst
    refine ⟨fun v hv => countsOk_stored activationdata _ _ hcounts v hv, ?_, ?_⟩
    · intro st1 hst1 k hk v hv
      obtain ⟨hf, hm⟩ := processCandidates_keeps scip activationdata j st st1 hst1
      exact countsOk_stored activationdata _ _
        (machinesUpTo_counts scip activationdata j st1 hmax
          (by rw [hf, hm]; exact hcounts) k hk) v hv
    · intro hdur hsum hj hcons
      have hsti := scanState_sound scip activationdata hdur hsum j st (by omega) hst
      obtain ⟨i, hci⟩ := scanStateIdeal_countInv scip activationdata hdur hcons hmax hpos j st
        (by omega) hsti
      refine ⟨?_, ?_⟩
      · intro value hvalue
        obtain ⟨hv0, w, hw, hwv, _⟩ := hci.holder value hvalue
        obtain ⟨h1, h2, h3⟩ := candidateCols_full activationdata st.fixedmakespan st.makespans
          value hv0 hci.counts ⟨w, hw, hwv⟩
        refine ⟨h2, by rw [h3, h1], ?_⟩
        rw [h3, ← hwv]
        exact machineCount_pos activationdata st.fixedmakespan w hw
      · intro hfits
        obtain ⟨st1, hst1, _⟩ := processCandidatesIdeal_countInv scip activationdata j i st
          (hcons j hj) hci
        refine ⟨st1, ?_⟩
        rw [processCandidates_eq_ideal scip activationdata j i st hfits hci
          (scanStateIdeal_nodup scip activationdata j st hsti)]
        exact hst1
  · have hzero : activationdata.nmachines = 0 := by omega
    obtain ⟨_, hinit⟩ := scanState_noMachines scip activationdata hzero j st hst
    subst hinit
    refine ⟨fun v _ => storedCount_noMachines activationdata hzero _ v, ?_, ?_⟩
    · intro st1 hst1 k hk v _
      have hk0 : k = 0 := by omega
      subst hk0
      obtain ⟨_, hm⟩ := processCandidates_keeps scip activationdata j _ st1 hst1
      show storedCount st1.makespans v = _
      rw [hm]
      exact storedCount_noMachines activationdata hzero _ v
    · intro _ _ _ _
      exact ⟨fun value hvalue => by simp [makespanInit] at hvalue, fun _ => ⟨_, rfl⟩⟩

/-- Witness of `C35_count_invariant`: the chain example with three machines at
the start of row 2, where the value 1 has one machine. -/
theorem C35_count_invariant_witness :
    ∃ st, scanState chain3Scip chain3 2 = some st ∧
      storedCount st.makespans 1 = (machineCount chain3 st.fixedmakespan 1 : Int) := by
  obtain ⟨st, hst⟩ := Option.isSome_iff_exists.mp
    (by decide : (scanState chain3Scip chain3 2).isSome = true)
  exact ⟨st, hst, (C35_count_invariant chain3Scip chain3 (by decide) 2 st hst).1 1 (by decide)⟩

/-- C7, as stated, fails when a sum of durations leaves the range of an `int`.
In the overflow example, whose durations are not negative, machine 0 is fixed
to one in the rows 0 to 2 and its makespan `INT_MAX + INT_MAX + 2` wraps to 0,
the fixed makespan of machine 1, which is fixed to zero in these rows; the code
returns the record with the first row 3 and the columns 0 and 1, whose sums of
durations fixed to one above row 3 are `2^32` and 0. In the sentinel collision
example with three machines the makespans of the machines 1 and 2 wrap to -1;
the first record of the list that the code returns has the first row 3 and the
columns 0 and 1, and the entry of machine 0 in row 0 is not fixed. -/
theorem C7_counterexample :
    (∀ j < overflowExample.njobs, 0 ≤ overflowExample.jobtimes j) ∧
    (∀ j < overflowExample.njobs, ∀ m < overflowExample.nmachines,
      overflowScip.lbLocal (overflowExample.matrix j m) ≤
        overflowScip.ubLocal (overflowExample.matrix j m)) ∧
    findSubSymmetries overflowScip overflowExample =
      some [{ rows := [3], cols := [0, 1], orbitopetype := SCIP_ORBITOPETYPE.PARTITIONING }] ∧
    fixedSum overflowScip overflowExample 3 0 = 4294967296 ∧
    fixedSum overflowScip overflowExample 3 1 = 0 ∧
    (∀ j < sentinelExample.njobs, 0 ≤ sentinelExample.jobtimes j) ∧
    (∀ j < sentinelExample.njobs, ∀ m < sentinelExample.nmachines,
      sentinelScip.lbLocal (sentinelExample.matrix j m) ≤
        sentinelScip.ubLocal (sentinelExample.matrix j m)) ∧
    findSubSymmetries sentinelScip sentinelExample =
      some [{ rows := [3], cols := [0, 1], orbitopetype := SCIP_ORBITOPETYPE.PACKING },
        { rows := [2, 3], cols := [1, 2], orbitopetype := SCIP_ORBITOPETYPE.PACKING },
        { rows := [1, 2, 3], cols := [1, 2], orbitopetype := SCIP_ORBITOPETYPE.PACKING }] ∧
    lbAboveHalf sentinelScip (sentinelExample.matrix 0 0) = false ∧
    ubBelowHalf sentinelScip (sentinelExample.matrix 0 0) = false := by
  decide

/-- C7: with job durations that are not negative and sum up to at most
`INT_MAX`, every record that `findSubSymmetries` returns has a first row `row`
such that every machine in its columns has all its entries in the rows above
`row` fixed, to one or to zero, and the durations of the jobs above `row` fixed
to one on the machine add up to one value `v` for all these machines. The
function does return a list when, moreover, the number of machines is an `int`,
every lower bound is at most the upper bound and no row has more than
`nmachines / 2 + 1` entries with an upper bound that is not above one half. -/
theorem C7_equal_fixed_makespan (scip : SCIP) (activationdata : ACTIVATIONDATA)
    (hdur : ∀ j < activationdata.njobs, 0 ≤ activationdata.jobtimes j)
    (hsum : totalTime activationdata ≤ INT_MAX) :
    (∀ res, findSubSymmetries scip activationdata = some res →
      ∀ r ∈ res, ∃ (row : Nat) (v : Int), r.rows.head? = some row ∧
        ∀ c ∈ r.cols,
          (∀ i < row, lbAboveHalf scip (activationdata.matrix i c) = true ∨
            ubBelowHalf scip (activationdata.matrix i c) = true) ∧
          fixedSum scip activationdata row c = v) ∧
    ((activationdata.nmachines : Int) ≤ INT_MAX →
      (∀ j < activationdata.njobs, ∀ m < activationdata.nmachines,
        scip.lbLocal (activationdata.matrix j m) ≤ scip.ubLocal (activationdata.matrix j m)) →
      (∀ j < activationdata.njobs,
        (zeroMachines scip activationdata j).length ≤ activationdata.nmachines / 2 + 1) →
      ∃ res, findSubSymmetries scip activationdata = some res) := by
  refine ⟨?_, fun hmax hcons hfits =>
    findSubSymmetries_isSome scip activationdata ⟨hdur, hsum, hmax, hcons, hfits⟩⟩
  intro res hres r hr
  obtain ⟨row, v, hrow, _, hrows, hcols, _⟩ :=
    findSubSymmetriesIdeal_emitted scip activationdata hdur res
      (findSubSymmetries_sound scip activationdata hdur hsum res hres) r hr
  refine ⟨row, v, ?_, fun c hc => ⟨(hcols c hc).2.1, (hcols c hc).2.2⟩⟩
  rw [hrows]
  exact rowsFrom_head row _ (by omega)

/-- Witness of `C7_equal_fixed_makespan`: the makespan example, whose one record
starts in row 1 below two machines of fixed makespan 3. -/
theorem C7_equal_fixed_makespan_witness :
    ∃ (row : Nat) (v : Int), [1].head? = some row ∧
      ∀ c ∈ [0, 1],
        (∀ i < row, lbAboveHalf makespanExampleScip (makespanExample.matrix i c) = true ∨
          ubBelowHalf makespanExampleScip (makespanExample.matrix i c) = true) ∧
        fixedSum makespanExampleScip makespanExample row c = v :=
  (C7_equal_fixed_makespan makespanExampleScip makespanExample (by decide) (by decide)).1
    [{ rows := [1], cols := [0, 1], orbitopetype := SCIP_ORBITOPETYPE.PARTITIONING }]
    (by decide) _ (List.mem_singleton.mpr rfl)

/-- C13, as stated, fails when the sum of the durations leaves the range of an
`int`: in the overflow example the code returns a record with the first row 3
and the columns 0 and 1, while above row 3 the durations fixed to one sum up to
`2^32` on machine 0 and to 0 on machine 1, so that for no value `v` the columns
are the machines whose fixed makespan over the rows 0 to 2 is `v`. -/
theorem C13_counterexample :
    (∀ j < overflowExample.njobs, 0 ≤ overflowExample.jobtimes j) ∧
    findSubSymmetries overflowScip overflowExample =
      some [{ rows := [3], cols := [0, 1], orbitopetype := SCIP_ORBITOPETYPE.PARTITIONING }] ∧
    ¬ ∃ v : Int, [0, 1] = (List.range overflowExample.nmachines).filter
      (fun m => allFixed overflowScip overflowExample 3 m &&
        decide (fixedSum overflowScip overflowExample 3 m = v)) := by
  refine ⟨by decide, by decide, ?_⟩
  rintro ⟨v, hv⟩
  have h0 : (0 : Nat) ∈ (List.range overflowExample.nmachines).filter
      (fun m => allFixed overflowScip overflowExample 3 m &&
        decide (fixedSum overflowScip overflowExample 3 m = v)) := by
    rw [← hv]; simp
  have h1 : (1 : Nat) ∈ (List.range overflowExample.nmachines).filter
      (fun m => allFixed overflowScip overflowExample 3 m &&
        decide (fixedSum overflowScip overflowExample 3 m = v)) := by
    rw [← hv]; simp
  simp only [List.mem_filter, Bool.and_eq_true, decide_eq_true_eq] at h0 h1
  have e0 : fixedSum overflowScip overflowExample 3 0 = 4294967296 := by decide
  have e1 : fixedSum overflowScip overflowExample 3 1 = 0 := by decide
  have := h0.2.2
  have := h1.2.2
  omega

/-- C13: every record that `findSubSymmetries` returns has, for a row `row`
with `1 ≤ row ≤ njobs - 1`, the rows `row, ..., njobs - 1`, which are not empty,
and the kind partitioning if the number of its columns is the number of
machines and packing otherwise; and, when the durations are not negative and
sum up to at most `INT_MAX`, its columns are, for a value `v`, the ascending
list of all machines whose entries in the rows `0 .. row - 1` are all fixed with
the durations of the jobs fixed to one summing up to `v`. The function does
return a list when, moreover, every lower bound is at most the upper bound and
no row has more than `nmachines / 2 + 1` entries with an upper bound that is not
above one half. -/
theorem C13_record_shape (scip : SCIP) (activationdata : ACTIVATIONDATA) :
    (∀ res, findSubSymmetries scip activationdata = some res →
      ∀ r ∈ res, ∃ row : Nat, 1 ≤ row ∧ row ≤ activationdata.njobs - 1 ∧
        r.rows = List.range' row (activationdata.njobs - row) ∧ r.rows ≠ [] ∧
        r.orbitopetype = (if r.cols.length = activationdata.nmachines then
          SCIP_ORBITOPETYPE.PARTITIONING else SCIP_ORBITOPETYPE.PACKING) ∧
        ((∀ j < activationdata.njobs, 0 ≤ activationdata.jobtimes j) →
          totalTime activationdata ≤ INT_MAX →
          (activationdata.nmachines : Int) ≤ INT_MAX →
          ∃ v : Int, r.cols = (List.range activationdata.nmachines).filter
            (fun m => allFixed scip activationdata row m &&
              decide (fixedSum scip activationdata row m = v)))) ∧
    ((∀ j < activationdata.njobs, 0 ≤ activationdata.jobtimes j) →
      totalTime activationdata ≤ INT_MAX →
      (activationdata.nmachines : Int) ≤ INT_MAX →
      (∀ j < activationdata.njobs, ∀ m < activationdata.nmachines,
        scip.lbLocal (activationdata.matrix j m) ≤ scip.ubLocal (activationdata.matrix j m)) →
      (∀ j < activationdata.njobs,
        (zeroMachines scip activationdata j).length ≤ activationdata.nmachines / 2 + 1) →
      ∃ res, findSubSymmetries scip activationdata = some res) := by
  refine ⟨?_, fun hdur hsum hmax hcons hfits =>
    findSubSymmetries_isSome scip activationdata ⟨hdur, hsum, hmax, hcons, hfits⟩⟩
  intro res hres r hr
  obtain ⟨row, h1, h2, hrows, hne, hkind⟩ :=
    findSubSymmetries_shape scip activationdata res hres r hr
  refine ⟨row, h1, h2, hrows, hne, hkind, ?_⟩
  intro hdur hsum hmax
  obtain ⟨row1, v, h3, h4, _, hrows1, hcols, _⟩ :=
    findSubSymmetriesIdeal_exact scip activationdata hdur hmax res
      (findSubSymmetries_sound scip activationdata hdur hsum res hres) r hr
  have e : row1 = row := by
    have ha : r.rows.head? = some row1 := by
      rw [hrows1, ← rowsFrom_eq_range']
      exact rowsFrom_head row1 _ (by omega)
    have hb : r.rows.head? = some row := by
      rw [hrows, ← rowsFrom_eq_range']
      exact rowsFrom_head row _ (by omega)
    rw [ha] at hb
    exact Option.some.inj hb
  subst e
  exact ⟨v, hcols⟩

/-- Witness of `C13_record_shape`: the makespan example, whose one record starts
in row 1 with the two machines of fixed makespan 3. -/
theorem C13_record_shape_witness :
    ∃ row : Nat, 1 ≤ row ∧ row ≤ makespanExample.njobs - 1 ∧
      [1] = List.range' row (makespanExample.njobs - row) ∧
      SCIP_ORBITOPETYPE.PARTITIONING =
        (if [0, 1].length = makespanExample.nmachines then
          SCIP_ORBITOPETYPE.PARTITIONING else SCIP_ORBITOPETYPE.PACKING) ∧
      ∃ v : Int, [0, 1] = (List.range makespanExample.nmachines).filter
        (fun m => allFixed makespanExampleScip makespanExample row m &&
          decide (fixedSum makespanExampleScip makespanExample row m = v)) := by
  obtain ⟨row, h1, h2, h3, _, h5, h6⟩ :=
    (C13_record_shape makespanExampleScip makespanExample).1
      [{ rows := [1], cols := [0, 1], orbitopetype := SCIP_ORBITOPETYPE.PARTITIONING }]
      (by decide) _ (List.mem_singleton.mpr rfl)
  exact ⟨row, h1, h2, h3, h5, h6 (by decide) (by decide) (by decide)⟩

end Activation
